import Mathlib

/-!
# 2D_Editor: the editing state machine of `src/RasterViewer.cpp`

A shallow embedding of the event handlers of the triangle editor
(`mouse_move`, `mouse_pressed`, `key_pressed`, `redraw`) and of the helper
functions they call, followed by theorems about them.

Modelling conventions.

* `float`/`double` values are rationals (`ℚ`). The program is embedded twice.
  The definitions that carry the plain names of the source (`mouse_pressed`,
  `getSelectedTriangleIndex`, ...) compute in exact arithmetic, with one
  exception: the counter `float t` of the two animation loops is rounded as
  IEEE 754 rounds it (`tNext`), because the number of iterations of
  `for (float t = 0.0; t <= 1.0; t += 0.1)` depends on it. The definitions with
  the prefix `F32.` (`F32.mouse_pressed`, `F32.getSelectedTriangleIndex`, ...) are
  the same functions with every arithmetic operation rounded as the compiled
  code rounds it (section "Single precision"). The two agree on the control
  flow, on the indices and flags, and wherever no operation rounds. The theorems
  of the sections C2, C9, C10, C18 and C19, on comparisons of computed numbers
  (hit test, nearest vertex) and on the entries of the matrices after several
  operations (drag, pan, zoom), are stated on the `F32.` definitions; the other
  theorems are stated on the exact ones.
* `Vector4f` is `Vec4`, `Matrix4f` is `Mat4` (entries in the row-major order of
  Eigen's comma initialiser), `Vector3d` is `Vec3`.
* `std::vector` is `List`; `v[i]` on an index that is out of range is undefined
  behaviour in the source and is `none` here, so every handler returns `Option`.
* `int` indices are `Int`, the `unsigned` loop index and click counter are `Nat`
  without wrap-around: they count elements of vectors that fit in memory, and the
  click counter is at most the number of events of a run (`run_clicks`).
* `cos`/`sin` (libm) and the defaults of `VertexAttributes`/`UniformAttributes`
  (declared in `raster.h`) are not part of the source file; they are the fields
  of `Env`.
-/

namespace RasterViewer

/-! ## Vectors and matrices -/

/-- Eigen `Vector4f`. -/
@[ext] structure Vec4 where
  x : ℚ
  y : ℚ
  z : ℚ
  w : ℚ
  deriving DecidableEq

/-- Eigen `Vector3d`. -/
@[ext] structure Vec3 where
  x : ℚ
  y : ℚ
  z : ℚ
  deriving DecidableEq

/-- Eigen `Matrix4f`; `mIJ` is the entry in row `I`, column `J`. -/
@[ext] structure Mat4 where
  m00 : ℚ
  m01 : ℚ
  m02 : ℚ
  m03 : ℚ
  m10 : ℚ
  m11 : ℚ
  m12 : ℚ
  m13 : ℚ
  m20 : ℚ
  m21 : ℚ
  m22 : ℚ
  m23 : ℚ
  m30 : ℚ
  m31 : ℚ
  m32 : ℚ
  m33 : ℚ
  deriving DecidableEq

namespace Vec4

/-- Componentwise sum. -/
def add (a b : Vec4) : Vec4 := ⟨a.x + b.x, a.y + b.y, a.z + b.z, a.w + b.w⟩

/-- Componentwise difference. -/
def sub (a b : Vec4) : Vec4 := ⟨a.x - b.x, a.y - b.y, a.z - b.z, a.w - b.w⟩

/-- Scalar multiple `t * v`. -/
def smul (t : ℚ) (a : Vec4) : Vec4 := ⟨t * a.x, t * a.y, t * a.z, t * a.w⟩

/-- Division by a scalar, `v / t`. -/
def sdiv (a : Vec4) (t : ℚ) : Vec4 := ⟨a.x / t, a.y / t, a.z / t, a.w / t⟩

/-- Eigen `squaredNorm()`; `norm()` is its square root. -/
def squaredNorm (a : Vec4) : ℚ := a.x * a.x + a.y * a.y + a.z * a.z + a.w * a.w

instance : Add Vec4 := ⟨add⟩
instance : Sub Vec4 := ⟨sub⟩
instance : HMul ℚ Vec4 Vec4 := ⟨smul⟩
instance : HDiv Vec4 ℚ Vec4 := ⟨sdiv⟩

end Vec4

namespace Mat4

/-- Matrix product. -/
def mul (a b : Mat4) : Mat4 :=
  ⟨a.m00 * b.m00 + a.m01 * b.m10 + a.m02 * b.m20 + a.m03 * b.m30,
   a.m00 * b.m01 + a.m01 * b.m11 + a.m02 * b.m21 + a.m03 * b.m31,
   a.m00 * b.m02 + a.m01 * b.m12 + a.m02 * b.m22 + a.m03 * b.m32,
   a.m00 * b.m03 + a.m01 * b.m13 + a.m02 * b.m23 + a.m03 * b.m33,
   a.m10 * b.m00 + a.m11 * b.m10 + a.m12 * b.m20 + a.m13 * b.m30,
   a.m10 * b.m01 + a.m11 * b.m11 + a.m12 * b.m21 + a.m13 * b.m31,
   a.m10 * b.m02 + a.m11 * b.m12 + a.m12 * b.m22 + a.m13 * b.m32,
   a.m10 * b.m03 + a.m11 * b.m13 + a.m12 * b.m23 + a.m13 * b.m33,
   a.m20 * b.m00 + a.m21 * b.m10 + a.m22 * b.m20 + a.m23 * b.m30,
   a.m20 * b.m01 + a.m21 * b.m11 + a.m22 * b.m21 + a.m23 * b.m31,
   a.m20 * b.m02 + a.m21 * b.m12 + a.m22 * b.m22 + a.m23 * b.m32,
   a.m20 * b.m03 + a.m21 * b.m13 + a.m22 * b.m23 + a.m23 * b.m33,
   a.m30 * b.m00 + a.m31 * b.m10 + a.m32 * b.m20 + a.m33 * b.m30,
   a.m30 * b.m01 + a.m31 * b.m11 + a.m32 * b.m21 + a.m33 * b.m31,
   a.m30 * b.m02 + a.m31 * b.m12 + a.m32 * b.m22 + a.m33 * b.m32,
   a.m30 * b.m03 + a.m31 * b.m13 + a.m32 * b.m23 + a.m33 * b.m33⟩

/-- Matrix times column vector. -/
def mulVec (a : Mat4) (v : Vec4) : Vec4 :=
  ⟨a.m00 * v.x + a.m01 * v.y + a.m02 * v.z + a.m03 * v.w,
   a.m10 * v.x + a.m11 * v.y + a.m12 * v.z + a.m13 * v.w,
   a.m20 * v.x + a.m21 * v.y + a.m22 * v.z + a.m23 * v.w,
   a.m30 * v.x + a.m31 * v.y + a.m32 * v.z + a.m33 * v.w⟩

instance : Mul Mat4 := ⟨mul⟩
instance : HMul Mat4 Vec4 Vec4 := ⟨mulVec⟩

end Mat4

/-- The constant `identity = Matrix4f::Identity()`. -/
def identity : Mat4 :=
  ⟨1, 0, 0, 0,
   0, 1, 0, 0,
   0, 0, 1, 0,
   0, 0, 0, 1⟩

/-! ## Constants of the source -/

/-- Colour constant `RED`. -/
def RED : Vec4 := ⟨1, 0, 0, 1⟩
/-- Colour constant `GREEN`. -/
def GREEN : Vec4 := ⟨0, 1, 0, 1⟩
/-- Colour constant `BLUE`. -/
def BLUE : Vec4 := ⟨0, 0, 1, 1⟩
/-- Colour constant `HIGHLIGHT` = (0.5, 0.8, 0, 1). -/
def HIGHLIGHT : Vec4 := ⟨1 / 2, 4 / 5, 0, 1⟩

/-- The `enum Mode`. -/
inductive Mode where
  | INSERTION_MODE
  | TRANSLATION_MODE
  | DELETION_MODE
  | COLOR_MODE
  deriving DecidableEq

/-! ## Types declared in `raster.h` -/

/-- The fields of `VertexAttributes` that the editor uses. -/
structure VertexAttributes where
  position : Vec4
  color : Vec4
  selected : Bool
  bary_center : Vec4
  deriving DecidableEq

/-- The fields of `UniformAttributes` that the editor uses. -/
structure UniformAttributes where
  view : Mat4
  translate : Mat4
  rotate : Mat4
  scale : Mat4
  scale_factor : ℚ
  rotate_radians : ℚ
  translate_delta : Vec4
  mode : Char
  deriving DecidableEq

/-- What the source file takes from outside: libm `cos` and `sin`, and the values
that the constructors of `raster.h` give to the fields the editor does not set
(`vertex0` is a default-constructed vertex, `mode0` the initial `uniform.mode`). -/
structure Env where
  cos : ℚ → ℚ
  sin : ℚ → ℚ
  vertex0 : VertexAttributes
  mode0 : Char

/-- The constructor call `VertexAttributes(x, y, z, w)`: it sets the position. -/
def Env.vertex (E : Env) (x y z w : ℚ) : VertexAttributes :=
  { E.vertex0 with position := ⟨x, y, z, w⟩ }

/-! ## Hit testing -/

/-- Function `get3DPositionVector`. -/
def get3DPositionVector (temp : Vec4) : Vec3 := ⟨temp.x, temp.y, temp.z⟩

/-- Eigen `AlignedBox3d`: `none` is the empty box a default-constructed box is,
`some (lo, hi)` the box with corners `lo` and `hi`. -/
abbrev AlignedBox3d := Option (Vec3 × Vec3)

/-- Eigen `AlignedBox::extend(p)`: componentwise minimum and maximum. -/
def AlignedBox3d.extend (box : AlignedBox3d) (p : Vec3) : AlignedBox3d :=
  match box with
  | none => some (p, p)
  | some (lo, hi) =>
    some (⟨min lo.x p.x, min lo.y p.y, min lo.z p.z⟩, ⟨max hi.x p.x, max hi.y p.y, max hi.z p.z⟩)

/-- Eigen `AlignedBox::contains(p)`: `lo <= p <= hi` in every coordinate. -/
def AlignedBox3d.contains (box : AlignedBox3d) (p : Vec3) : Bool :=
  match box with
  | none => false
  | some (lo, hi) =>
    decide (lo.x ≤ p.x) && decide (lo.y ≤ p.y) && decide (lo.z ≤ p.z) &&
    decide (p.x ≤ hi.x) && decide (p.y ≤ hi.y) && decide (p.z ≤ hi.z)

/-- The composed matrix `view * translate * rotate * scale`. -/
def UniformAttributes.composed (uniform : UniformAttributes) : Mat4 :=
  uniform.view * uniform.translate * uniform.rotate * uniform.scale

/-- The body of the loop of `getSelectedTriangleIndex` for the triangle
`a, b, c`: is the click inside the box of the three transformed vertices? -/
def boxHit (uniform : UniformAttributes) (x_pos y_pos : ℚ) (a b c : VertexAttributes) : Bool :=
  let v1_pos := uniform.composed * a.position
  let v2_pos := uniform.composed * b.position
  let v3_pos := uniform.composed * c.position
  let v1 := get3DPositionVector v1_pos
  let v2 := get3DPositionVector v2_pos
  let v3 := get3DPositionVector v3_pos
  let box : AlignedBox3d := none
  let box := box.extend v1
  let box := box.extend v2
  let box := box.extend v3
  box.contains ⟨x_pos, y_pos, 0⟩

/-- The loop of `getSelectedTriangleIndex`, started at index `i` with the
vertices from `i` on: `i + 2 < triangles.size()` holds exactly when three
vertices are left. -/
def getSelectedTriangleIndexFrom (uniform : UniformAttributes) (x_pos y_pos : ℚ) :
    Nat → List VertexAttributes → Int
  | i, a :: b :: c :: rest =>
    if boxHit uniform x_pos y_pos a b c then (i : Int)
    else getSelectedTriangleIndexFrom uniform x_pos y_pos (i + 3) rest
  | _, _ => -1

/-- Function `getSelectedTriangleIndex`. -/
def getSelectedTriangleIndex (triangles : List VertexAttributes) (uniform : UniformAttributes)
    (x_pos y_pos : ℚ) : Int :=
  getSelectedTriangleIndexFrom uniform x_pos y_pos 0 triangles

/-! ## Key constants (`class EditorMode`) and messages -/

/-- Key constant `EditorMode::INSERTION_MODE_KEY`. -/
def INSERTION_MODE_KEY : Char := 'i'
/-- Key constant `EditorMode::TRANSLATION_MODE_KEY`. -/
def TRANSLATION_MODE_KEY : Char := 'o'
/-- Key constant `EditorMode::DELETE_MODE_KEY`. -/
def DELETE_MODE_KEY : Char := 'p'
/-- Key constant `EditorMode::COLOR_MODE_KEY`. -/
def COLOR_MODE_KEY : Char := 'c'
/-- Key constant `EditorMode::ANIMATION_MODE_KEY`. -/
def ANIMATION_MODE_KEY : Char := 'm'
/-- Key constant `EditorMode::SCALE_UP`. -/
def SCALE_UP : Char := 'k'
/-- Key constant `EditorMode::SCALE_DOWN`. -/
def SCALE_DOWN : Char := 'l'
/-- Key constant `EditorMode::ROTATE_CLOCKWISE`. -/
def ROTATE_CLOCKWISE : Char := 'h'
/-- Key constant `EditorMode::ROTATE_COUNTERCLOCKWISE`. -/
def ROTATE_COUNTERCLOCKWISE : Char := 'j'
/-- Key constant `EditorMode::PAN_DOWN_KEY`. -/
def PAN_DOWN_KEY : Char := 'w'
/-- Key constant `EditorMode::PAN_UP_KEY`. -/
def PAN_UP_KEY : Char := 's'
/-- Key constant `EditorMode::PAN_LEFT_KEY`. -/
def PAN_LEFT_KEY : Char := 'd'
/-- Key constant `EditorMode::PAN_RIGHT_KEY`. -/
def PAN_RIGHT_KEY : Char := 'a'
/-- Key constant `EditorMode::ZOOM_IN_KEY`. -/
def ZOOM_IN_KEY : Char := 'W'
/-- Key constant `EditorMode::ZOOM_OUT_KEY`. -/
def ZOOM_OUT_KEY : Char := 'V'

/-- Message constant `INSERTION_MODE_MSG`. -/
def INSERTION_MODE_MSG : String := "You are in Insertion Mode.\n"
/-- Message constant `TRANSLATION_MODE_MSG`. -/
def TRANSLATION_MODE_MSG : String :=
  "\nYou are in Translation Mode.\n You can: \n 1. Use cursor to move triangles\n 2. Scale up = k\n 3. Scale down = l\n 4. Rotate clockwise = h\n 5. Rotate anti-clockwise\n"
/-- Message constant `DELETION_MODE_MSG`. -/
def DELETION_MODE_MSG : String := "\nYou are in Deletion Mode. Click on a triangle to delete. \n"
/-- Message constant `COLOR_MODE_MSG`. -/
def COLOR_MODE_MSG : String :=
  "\nYou are in Color Mode. Click inside a triangle to color the closest vertex. \n"
/-- Message constant `ANIMATION_MODE_MSG`. -/
def ANIMATION_MODE_MSG : String :=
  "\nYou are in Animation Mode.\n Now, you should move the triangle to whichever position you like. \n Use key 'n' for linear interpolation animation\n Use key 'b' for Beizer Curve Interpolation animation\n"
/-- Message constant `ZOOM_OUT_MSG`. -/
def ZOOM_OUT_MSG : String := "\nZooming Out"
/-- Message constant `ZOOM_IN_MSG`. -/
def ZOOM_IN_MSG : String := "\nZooming In"
/-- Message constant `PAN_DOWN_MSG`. -/
def PAN_DOWN_MSG : String := "\nPanning down"
/-- Message constant `PAN_UP_MSG`. -/
def PAN_UP_MSG : String := "\nPanning up"
/-- Message constant `PAN_RIGHT_MSG`. -/
def PAN_RIGHT_MSG : String := "\nPanning right"
/-- Message constant `PAN_LEFT_MSG`. -/
def PAN_LEFT_MSG : String := "\nPanning left"

/-! ## Access to `std::vector` elements -/

/-- The read `v[i]` with an `int` index: `none` when `i` is out of range. -/
def at? (v : List VertexAttributes) (i : Int) : Option VertexAttributes :=
  if 0 ≤ i then v[i.toNat]? else none

/-- The three reads `v[i], v[i + 1], v[i + 2]`. -/
def get3 (v : List VertexAttributes) (i : Int) :
    Option (VertexAttributes × VertexAttributes × VertexAttributes) :=
  match at? v i, at? v (i + 1), at? v (i + 2) with
  | some a, some b, some c => some (a, b, c)
  | _, _, _ => none

/-- Writing back the three elements that were passed by reference. -/
def set3 (v : List VertexAttributes) (i : Int)
    (t : VertexAttributes × VertexAttributes × VertexAttributes) : List VertexAttributes :=
  ((v.set i.toNat t.1).set (i + 1).toNat t.2.1).set (i + 2).toNat t.2.2

/-! ## Helper functions of the source -/

/-- Function `setColor`. -/
def setColor (v1 v2 v3 : VertexAttributes) (color : Vec4) :
    VertexAttributes × VertexAttributes × VertexAttributes :=
  ({ v1 with color := color }, { v2 with color := color }, { v3 with color := color })

/-- The reset of the uniform state in `deleteTriangle`. -/
def resetUniform (uniform : UniformAttributes) : UniformAttributes :=
  { uniform with
    view := identity
    translate := identity
    rotate := identity
    scale := identity
    scale_factor := 1
    rotate_radians := 0
    translate_delta := ⟨0, 0, 0, 0⟩ }

/-- Call `triangles.erase(triangles.begin() + index, triangles.begin() + index + 3)`. -/
def erase3 (triangles : List VertexAttributes) (index : Nat) : List VertexAttributes :=
  triangles.take index ++ triangles.drop (index + 3)

/-- Function `deleteTriangle`; the last component is `viewer.redraw_next`. -/
def deleteTriangle (triangles : List VertexAttributes) (uniform : UniformAttributes)
    (x_pos y_pos : ℚ) (redraw_next : Bool) :
    List VertexAttributes × UniformAttributes × Bool :=
  let index := getSelectedTriangleIndex triangles uniform x_pos y_pos
  if index ≥ 0 then (erase3 triangles index.toNat, resetUniform uniform, true)
  else (triangles, uniform, redraw_next)

/-- Function `setCurrentMode`: the messages printed and the new mode. -/
def setCurrentMode (key : Char) (currentMode : Mode) : List String × Mode :=
  if key = INSERTION_MODE_KEY then ([INSERTION_MODE_MSG], Mode.INSERTION_MODE)
  else if key = TRANSLATION_MODE_KEY then ([TRANSLATION_MODE_MSG], Mode.TRANSLATION_MODE)
  else if key = DELETE_MODE_KEY then ([DELETION_MODE_MSG], Mode.DELETION_MODE)
  else if key = COLOR_MODE_KEY then ([COLOR_MODE_MSG], Mode.COLOR_MODE)
  else if key = ANIMATION_MODE_KEY then ([ANIMATION_MODE_MSG], Mode.TRANSLATION_MODE)
  else ([], currentMode)

/-- The matrix `currentTransform` of `translateTriangle`. -/
def translation (dx dy : ℚ) : Mat4 :=
  ⟨1, 0, 0, dx,
   0, 1, 0, dy,
   0, 0, 1, 0,
   0, 0, 0, 1⟩

/-- The matrix `currentTransform` of `scaleTriangle` (and of the zoom keys). -/
def scaling (f : ℚ) : Mat4 :=
  ⟨f, 0, 0, 0,
   0, f, 0, 0,
   0, 0, 1, 0,
   0, 0, 0, 1⟩

/-- The matrix `currentTransform` of `rotateTriangle`. -/
def rotation (c s : ℚ) : Mat4 :=
  ⟨c, -s, 0, 0,
   s, c, 0, 0,
   0, 0, 1, 0,
   0, 0, 0, 1⟩

/-- Function `translateTriangle`. -/
def translateTriangle (v1 v2 v3 : VertexAttributes) (uniform : UniformAttributes) :
    (VertexAttributes × VertexAttributes × VertexAttributes) × UniformAttributes :=
  (({ v1 with selected := true }, { v2 with selected := true }, { v3 with selected := true }),
   { uniform with
     translate := translation uniform.translate_delta.x uniform.translate_delta.y * uniform.translate })

/-- Function `scaleTriangle`. -/
def scaleTriangle (v1 v2 v3 : VertexAttributes) (uniform : UniformAttributes) :
    (VertexAttributes × VertexAttributes × VertexAttributes) × UniformAttributes :=
  (({ v1 with selected := true }, { v2 with selected := true }, { v3 with selected := true }),
   { uniform with scale := scaling uniform.scale_factor * uniform.scale })

/-- Function `rotateTriangle`. -/
def rotateTriangle (E : Env) (v1 v2 v3 : VertexAttributes) (uniform : UniformAttributes) :
    (VertexAttributes × VertexAttributes × VertexAttributes) × UniformAttributes :=
  let cos_rotate_degree := E.cos uniform.rotate_radians
  let sin_rotate_degree := E.sin uniform.rotate_radians
  (({ v1 with selected := true }, { v2 with selected := true }, { v3 with selected := true }),
   { uniform with rotate := rotation cos_rotate_degree sin_rotate_degree * uniform.rotate })

/-- The call `f(triangles[i], triangles[i + 1], triangles[i + 2], uniform)` of one of
the three functions above, the vertices being passed by reference. -/
def onTriangle
    (f : VertexAttributes → VertexAttributes → VertexAttributes → UniformAttributes →
      (VertexAttributes × VertexAttributes × VertexAttributes) × UniformAttributes)
    (triangles : List VertexAttributes) (uniform : UniformAttributes) (i : Int) :
    Option (List VertexAttributes × UniformAttributes) :=
  match get3 triangles i with
  | some (v1, v2, v3) => some (set3 triangles i (f v1 v2 v3 uniform).1, (f v1 v2 v3 uniform).2)
  | none => none

/-- Function `performTranslationAction`. -/
def performTranslationAction (E : Env) (key : Char) (triangles : List VertexAttributes)
    (uniform : UniformAttributes) (triangleToTranslate : Int) :
    Option (List VertexAttributes × UniformAttributes) :=
  if key = SCALE_UP then
    let uniform :=
      if uniform.scale_factor < 1 then { uniform with scale_factor := 1 } else uniform
    let uniform := { uniform with scale_factor := uniform.scale_factor + 1 / 4 }
    let uniform := { uniform with mode := SCALE_UP }
    onTriangle scaleTriangle triangles uniform triangleToTranslate
  else if key = SCALE_DOWN then
    let uniform :=
      if uniform.scale_factor > 1 then { uniform with scale_factor := 1 } else uniform
    let uniform := { uniform with scale_factor := uniform.scale_factor - 1 / 4 }
    let uniform := { uniform with mode := SCALE_DOWN }
    onTriangle scaleTriangle triangles uniform triangleToTranslate
  else if key = ROTATE_CLOCKWISE then
    let uniform :=
      if uniform.rotate_radians < 0 then { uniform with rotate_radians := 0 } else uniform
    let uniform :=
      { uniform with rotate_radians := uniform.rotate_radians + 17453292519 / 100000000000 }
    let uniform := { uniform with mode := ROTATE_CLOCKWISE }
    onTriangle (rotateTriangle E) triangles uniform triangleToTranslate
  else if key = ROTATE_COUNTERCLOCKWISE then
    let uniform :=
      if uniform.rotate_radians > 0 then { uniform with rotate_radians := 0 } else uniform
    let uniform :=
      { uniform with rotate_radians := uniform.rotate_radians - 17453292519 / 100000000000 }
    let uniform := { uniform with mode := ROTATE_COUNTERCLOCKWISE }
    onTriangle (rotateTriangle E) triangles uniform triangleToTranslate
  else some (triangles, uniform)

/-- The loop of `std::min_element`: `bv` is the value at the best position `bi`
so far, `i` the position of the head of the remaining range. -/
def minElementFrom (bv : ℚ) (bi : Nat) : Nat → List ℚ → Nat
  | _, [] => bi
  | i, d :: ds => if d < bv then minElementFrom d i (i + 1) ds else minElementFrom bv bi (i + 1) ds

/-- Expression `std::min_element(dist.begin(), dist.end()) - dist.begin()`. -/
def min_element : List ℚ → Nat
  | [] => 0
  | d :: ds => minElementFrom d 0 1 ds

/-- The distances compared by `getNearestVertex`, squared: `norm()` is the square
root of `squaredNorm()`, and `a < b` holds for two square roots exactly when it
holds for the squares. -/
def nearestDist2 (uniform : UniformAttributes) (currPosition : Vec4)
    (a b c : VertexAttributes) : List ℚ :=
  let v1 := uniform.composed * a.position
  let v2 := uniform.composed * b.position
  let v3 := uniform.composed * c.position
  [(v1 - currPosition).squaredNorm, (v2 - currPosition).squaredNorm,
   (v3 - currPosition).squaredNorm]

/-- Function `getNearestVertex`. -/
def getNearestVertex (triangles : List VertexAttributes) (uniform : UniformAttributes)
    (selectedTriangle : Int) (currPosition : Vec4) : Option Int :=
  match get3 triangles selectedTriangle with
  | some (a, b, c) =>
    some ((min_element (nearestDist2 uniform currPosition a b c) : Int) + selectedTriangle)
  | none => none

/-- The vertex shader `program.VertexShader`. -/
def VertexShader (va : VertexAttributes) (uniform : UniformAttributes) : VertexAttributes :=
  let v_new := va
  if va.selected then
    if uniform.mode = ROTATE_CLOCKWISE ∨ uniform.mode = ROTATE_COUNTERCLOCKWISE
        ∨ uniform.mode = SCALE_DOWN ∨ uniform.mode = SCALE_UP then
      let currentTransform := translation (-v_new.bary_center.x) (-v_new.bary_center.y)
      let v_new := { v_new with position := currentTransform * v_new.position }
      let v_new := { v_new with position := uniform.composed * v_new.position }
      let currentTransform2 := translation v_new.bary_center.x v_new.bary_center.y
      { v_new with position := currentTransform2 * v_new.position }
    else
      { v_new with position := uniform.composed * v_new.position }
  else
    { v_new with position := uniform.composed * v_new.position }

/-! ## The state of `main` and the viewer callbacks -/

/-- The local variables of `main` that the callbacks capture by reference,
`viewer.redraw_next`, the text written to `std::cout` (`console`) and the scene
of every frame handed to `viewer.draw_image` (`frames`). -/
structure State where
  currentMode : Mode
  numOfClicks : Nat
  selectedTriangle : Int
  prevClickedTriangle : Int
  oldPosition : Vec4
  newPosition : Vec4
  isClicked : Bool
  isCursorMoving : Bool
  firstTime : Bool
  uniform : UniformAttributes
  vertex_index : Int
  zoom : ℚ
  delta : ℚ
  animationMode : Bool
  isPositionSet : Bool
  oldAnimePosition1 : Vec4
  oldAnimePosition2 : Vec4
  oldAnimePosition3 : Vec4
  triangles : List VertexAttributes
  lines : List VertexAttributes
  triangleVertices : List VertexAttributes
  redraw_next : Bool
  console : List String
  frames : List (List VertexAttributes)
  deriving DecidableEq

/-- Local `int width = 500`. -/
def width : Int := 500
/-- Local `int height = 500`. -/
def height : Int := 500

/-- Formula `x_pos = (float(x) / float(width) * 2) - 1`. -/
def xPos (x : Int) : ℚ := ((x : ℚ) / (width : ℚ) * 2) - 1
/-- Formula `y_pos = (float(height - 1 - y) / float(height) * 2) - 1`. -/
def yPos (y : Int) : ℚ := (((height - 1 - y : Int) : ℚ) / (height : ℚ) * 2) - 1

/-- The state `main` builds before `viewer.launch()`. The six `Vector4f` locals
are not initialised in the source and are written before they are first read. -/
def initial (E : Env) : State where
  currentMode := Mode.INSERTION_MODE
  numOfClicks := 0
  selectedTriangle := -1
  prevClickedTriangle := -1
  oldPosition := ⟨0, 0, 0, 0⟩
  newPosition := ⟨0, 0, 0, 0⟩
  isClicked := false
  isCursorMoving := false
  firstTime := true
  uniform :=
    { view := identity
      translate := identity
      rotate := identity
      scale := identity
      scale_factor := 1
      rotate_radians := 0
      translate_delta := ⟨0, 0, 0, 0⟩
      mode := E.mode0 }
  vertex_index := -1
  zoom := 1
  delta := 0
  animationMode := false
  isPositionSet := false
  oldAnimePosition1 := ⟨0, 0, 0, 0⟩
  oldAnimePosition2 := ⟨0, 0, 0, 0⟩
  oldAnimePosition3 := ⟨0, 0, 0, 0⟩
  triangles := []
  lines := []
  triangleVertices := []
  redraw_next := false
  console := []
  frames := []

/-- The commit branch of `viewer.redraw` (`numOfClicks == 3`). -/
def commit (s : State) : Option State :=
  match s.triangleVertices[0]?, s.triangleVertices[1]?, s.triangleVertices[2]? with
  | some t0, some t1, some t2 =>
    let (c0, c1, c2) := setColor t0 t1 t2 BLUE
    let bary_center := (c0.position + c1.position + c2.position) / (3 : ℚ)
    let triangleVertices :=
      ((s.triangleVertices.set 0 { c0 with bary_center := bary_center }).set 1
        { c1 with bary_center := bary_center }).set 2 { c2 with bary_center := bary_center }
    some { s with
      numOfClicks := 0
      triangles := s.triangles ++ triangleVertices
      triangleVertices := []
      lines := [] }
  | _, _, _ => none

/-- Callback `viewer.redraw`. The rasteriser and the frame buffer are outside the editor;
what is kept of a frame is the scene it draws. -/
def redraw (s : State) : Option State :=
  let drawn : Option State :=
    if s.currentMode = Mode.INSERTION_MODE then
      if s.numOfClicks = 1 then some s
      else if s.numOfClicks = 2 then
        match s.triangleVertices[0]?, s.triangleVertices[1]?, s.lines[s.lines.length - 1]? with
        | some _, some _, some _ => some s
        | _, _, _ => none
      else if s.numOfClicks = 3 then commit s
      else some s
    else some s
  match drawn with
  | some s => some { s with frames := s.frames ++ [s.triangles] }
  | none => none

/-- Function `changeViewport(key, zoom, delta, uniform, viewer)`: `zoom` and `delta` are
passed by value, `uniform` and `viewer` are those of the state. -/
def changeViewport (key : Char) (zoom delta : ℚ) (s : State) : Option State :=
  let temp_key := s.uniform.mode
  let s : State := { s with uniform := { s.uniform with mode := key } }
  if key = ZOOM_IN_KEY then
    let s : State := { s with console := s.console ++ [ZOOM_OUT_MSG] }
    let zoom := if zoom < 1 then 1 else zoom
    let zoom := zoom + 1 / 5
    redraw { s with uniform := { s.uniform with view := scaling zoom * s.uniform.view } }
  else if key = ZOOM_OUT_KEY then
    let s : State := { s with console := s.console ++ [ZOOM_IN_MSG] }
    let zoom := if zoom > 1 then 1 else zoom
    let zoom := zoom - 1 / 5
    redraw { s with uniform := { s.uniform with view := scaling zoom * s.uniform.view } }
  else if key = PAN_DOWN_KEY then
    let s : State := { s with uniform := { s.uniform with mode := 'w' } }
    let s : State := { s with console := s.console ++ [PAN_DOWN_MSG] }
    let delta := if delta > 0 then 0 else delta
    let delta := delta - 1 / 5
    redraw { s with uniform := { s.uniform with view := translation 0 delta * s.uniform.view } }
  else if key = PAN_UP_KEY then
    let s : State := { s with console := s.console ++ [PAN_UP_MSG] }
    let delta := if delta < 0 then 0 else delta
    let delta := delta + 1 / 5
    redraw { s with uniform := { s.uniform with view := translation 0 delta * s.uniform.view } }
  else if key = PAN_RIGHT_KEY then
    let s : State := { s with console := s.console ++ [PAN_RIGHT_MSG] }
    let delta := if delta < 0 then 0 else delta
    let delta := delta + 1 / 5
    redraw { s with uniform := { s.uniform with view := translation delta 0 * s.uniform.view } }
  else if key = PAN_LEFT_KEY then
    let s : State := { s with console := s.console ++ [PAN_LEFT_MSG] }
    let delta := if delta > 0 then 0 else delta
    let delta := delta - 1 / 5
    redraw { s with uniform := { s.uniform with view := translation delta 0 * s.uniform.view } }
  else
    some { s with uniform := { s.uniform with mode := temp_key } }

/-- Callback `viewer.mouse_move` (`xrel`, `yrel` are not used by the callback). -/
def mouse_move (E : Env) (x y : Int) (s : State) : Option State :=
  let x_pos := xPos x
  let y_pos := yPos y
  if s.currentMode = Mode.INSERTION_MODE then
    if s.numOfClicks % 3 ≠ 0 then
      let lines := if s.lines.length > 1 then s.lines.dropLast else s.lines
      some { s with lines := lines ++ [E.vertex x_pos y_pos 0 1], redraw_next := true }
    else some s
  else if s.currentMode = Mode.TRANSLATION_MODE then
    if s.isClicked ∧ s.selectedTriangle ≥ 0 then
      let s : State := { s with isCursorMoving := true, newPosition := ⟨x_pos, y_pos, 0, 1⟩ }
      let captured : Option State :=
        if s.animationMode ∧ ¬ s.isPositionSet then
          match get3 s.triangles s.selectedTriangle with
          | some (a, b, c) =>
            some { s with
              oldAnimePosition1 := s.uniform.view * s.uniform.rotate * s.uniform.scale * a.position
              oldAnimePosition2 := s.uniform.view * s.uniform.rotate * s.uniform.scale * b.position
              oldAnimePosition3 := s.uniform.view * s.uniform.rotate * s.uniform.scale * c.position
              isPositionSet := true }
          | none => none
        else some s
      match captured with
      | some s =>
        let s : State :=
          { s with uniform := { s.uniform with translate_delta := s.newPosition - s.oldPosition } }
        let s : State := { s with oldPosition := s.newPosition, firstTime := false }
        let s : State := { s with uniform := { s.uniform with mode := TRANSLATION_MODE_KEY } }
        match onTriangle translateTriangle s.triangles s.uniform s.selectedTriangle with
        | some (triangles, uniform) =>
          some { s with triangles := triangles, uniform := uniform, redraw_next := true }
        | none => none
      | none => none
    else some s
  else some s

/-- The call `setColor(triangles[i], triangles[i + 1], triangles[i + 2], color)`. -/
def setColorAt (triangles : List VertexAttributes) (i : Int) (color : Vec4) :
    Option (List VertexAttributes) :=
  match get3 triangles i with
  | some (v1, v2, v3) => some (set3 triangles i (setColor v1 v2 v3 color))
  | none => none

/-- Callback `viewer.mouse_pressed` (`is_pressed`, `button` and `clicks` are not used by
the callback). -/
def mouse_pressed (E : Env) (x y : Int) (mouseButtonUp : Bool) (s : State) : Option State :=
  let x_pos := xPos x
  let y_pos := yPos y
  if s.currentMode = Mode.INSERTION_MODE then
    if mouseButtonUp then
      some { s with
        lines := s.lines ++ [E.vertex x_pos y_pos 0 1]
        triangleVertices := s.triangleVertices ++ [E.vertex x_pos y_pos 0 1]
        numOfClicks := s.numOfClicks + 1
        redraw_next := true }
    else some s
  else if s.currentMode = Mode.DELETION_MODE then
    let r := deleteTriangle s.triangles s.uniform x_pos y_pos s.redraw_next
    some { s with triangles := r.1, uniform := r.2.1, redraw_next := r.2.2 }
  else if s.currentMode = Mode.TRANSLATION_MODE then
    let s : State :=
      { s with selectedTriangle := getSelectedTriangleIndex s.triangles s.uniform x_pos y_pos }
    if s.selectedTriangle < 0 then
      if s.prevClickedTriangle ≥ 0 then
        match setColorAt s.triangles s.prevClickedTriangle BLUE with
        | some triangles =>
          some { s with
            triangles := triangles
            isClicked := false
            isCursorMoving := false
            prevClickedTriangle := -1
            redraw_next := true }
        | none => none
      else some s
    else
      if mouseButtonUp then
        if s.isClicked then
          if s.isCursorMoving then
            some { s with
              isClicked := false
              isCursorMoving := false
              oldPosition := s.newPosition
              firstTime := true
              redraw_next := true }
          else some { s with isClicked := false, redraw_next := true }
        else some s
      else
        if s.selectedTriangle ≥ 0 then
          match setColorAt s.triangles s.selectedTriangle HIGHLIGHT with
          | some triangles =>
            some { s with
              oldPosition := ⟨x_pos, y_pos, 0, 1⟩
              prevClickedTriangle := s.selectedTriangle
              triangles := triangles
              isClicked := true
              redraw_next := true }
          | none => none
        else some s
  else
    let s : State :=
      { s with selectedTriangle := getSelectedTriangleIndex s.triangles s.uniform x_pos y_pos }
    if s.selectedTriangle ≥ 0 then
      match getNearestVertex s.triangles s.uniform s.selectedTriangle ⟨x_pos, y_pos, 0, 1⟩ with
      | some v => some { s with vertex_index := v }
      | none => none
    else some s

/-- Nearest integer to `m`, a tie going to the even neighbour. -/
def roundHalfEven (m : ℚ) : Int :=
  if m - (⌊m⌋ : ℚ) < 1 / 2 then ⌊m⌋
  else if 1 / 2 < m - (⌊m⌋ : ℚ) then ⌊m⌋ + 1
  else if ⌊m⌋ % 2 = 0 then ⌊m⌋ else ⌊m⌋ + 1

/-- The search of the binary exponent of `m > 0`: `m` is doubled or halved, at
most `fuel` times, until it lies in `[2^(p-1), 2^p)`; `ulp` follows, so that
`m * ulp` stays the same. -/
def scaleToBits (p : Nat) : Nat → ℚ → ℚ → ℚ × ℚ
  | 0, m, ulp => (m, ulp)
  | fuel + 1, m, ulp =>
    if m < 2 ^ (p - 1) then scaleToBits p fuel (2 * m) (ulp / 2)
    else if 2 ^ p ≤ m then scaleToBits p fuel (m / 2) (2 * ulp)
    else (m, ulp)

/-- IEEE 754 rounding of `q` to `p` significant bits, to nearest, ties to even
(no overflow, no subnormal numbers: the exponent is found within 2200 steps for
every value of the range of `double`). -/
def roundToBits (p : Nat) (q : ℚ) : ℚ :=
  if q = 0 then 0
  else
    let r := scaleToBits p 2200 |q| 1
    let v := (roundHalfEven r.1 : ℚ) * r.2
    if q < 0 then -v else v

/-- The conversion to `float` (24 significant bits). -/
def toFloat (q : ℚ) : ℚ := roundToBits 24 q

/-- The conversion to `double` (53 significant bits). -/
def toDouble (q : ℚ) : ℚ := roundToBits 53 q

/-- The statement `t += 0.1` on `float t`: the sum of `(double)t` and the
`double` constant `0.1` is a `double`, and is converted to `float`. -/
def tNext (t : ℚ) : ℚ := toFloat (toDouble (t + toDouble (1 / 10)))

/-- The values of `t` at which the body of `for (float t = 0.0; t <= 1.0; t += 0.1)`
runs, for a loop entered with the value `t` and cut after `fuel` iterations. -/
def tValues : Nat → ℚ → List ℚ
  | 0, _ => []
  | fuel + 1, t => if t ≤ 1 then t :: tValues fuel (tNext t) else []

/-- The values of `t` in the two animation loops. The loop stops by itself after
ten iterations (`tValues_fuel`), so the cut at sixteen is never reached. -/
def animationSteps : List ℚ := tValues 16 0

/-- One iteration of an animation loop: the three positions are written to the
selected triangle and the frame is drawn (`Sleep(250)` has no effect on the state). -/
def animationFrame (now_pos : Vec4 × Vec4 × Vec4) (s : State) : Option State :=
  match get3 s.triangles s.selectedTriangle with
  | some (a, b, c) =>
    redraw { s with
      triangles := set3 s.triangles s.selectedTriangle
        ({ a with position := now_pos.1 }, { b with position := now_pos.2.1 },
         { c with position := now_pos.2.2 }) }
  | none => none

/-- An animation loop over the given values of `t`. -/
def animate (now_pos : ℚ → Vec4 × Vec4 × Vec4) : List ℚ → State → Option State
  | [], s => some s
  | t :: ts, s =>
    match animationFrame (now_pos t) s with
    | some s => animate now_pos ts s
    | none => none

/-- The positions of the linear animation at `t`. -/
def linearPos (old1 old2 old3 temp1 temp2 temp3 : Vec4) (t : ℚ) : Vec4 × Vec4 × Vec4 :=
  (old1 + t * temp1, old2 + t * temp2, old3 + t * temp3)

/-- One coordinate triple of the Bezier animation at `t`:
`pow(t_one, 2.0) * P0 + 2 * t * t_one * P1 + pow(t, 2.0) * P2`. -/
def bezierPoint (P0 P1 P2 : Vec4) (t : ℚ) : Vec4 :=
  let t_one := 1 - t
  t_one ^ 2 * P0 + (2 * t * t_one) * P1 + t ^ 2 * P2

/-- The control point `P1 = Vector4f(temp.y(), -temp.x(), temp.z(), temp.w())`. -/
def controlPoint (temp : Vec4) : Vec4 := ⟨temp.y, -temp.x, temp.z, temp.w⟩

/-- The `if (animationMode)` block of `viewer.key_pressed`: the key after the
block (`'q'` after an animation) and the state. -/
def animationBlock (key : Char) (s : State) : Option (Char × State) :=
  if s.animationMode then
    match get3 s.triangles s.selectedTriangle with
    | some (a, b, c) =>
      let s : State :=
        { s with
          oldAnimePosition1 := a.position
          oldAnimePosition2 := b.position
          oldAnimePosition3 := c.position }
      let temp1 := s.uniform.composed * a.position - s.oldAnimePosition1
      let temp2 := s.uniform.composed * b.position - s.oldAnimePosition2
      let temp3 := s.uniform.composed * c.position - s.oldAnimePosition3
      if key = 'n' then
        let s : State := { s with console := s.console ++ ["Animating......"] }
        let old1 := s.oldAnimePosition1
        let old2 := s.oldAnimePosition2
        let old3 := s.oldAnimePosition3
        let s : State := { s with uniform := { s.uniform with translate := identity } }
        match animate (linearPos old1 old2 old3 temp1 temp2 temp3) animationSteps s with
        | some s => some ('q', { s with animationMode := false, isPositionSet := false })
        | none => none
      else if key = 'b' then
        let s : State := { s with console := s.console ++ ["Animating......"] }
        let P0_1 := s.oldAnimePosition1
        let P0_2 := s.oldAnimePosition2
        let P0_3 := s.oldAnimePosition3
        let P2_1 := s.uniform.composed * a.position
        let P2_2 := s.uniform.composed * b.position
        let P2_3 := s.uniform.composed * c.position
        let P1_1 := controlPoint temp1
        let P1_2 := controlPoint temp2
        let P1_3 := controlPoint temp3
        let s : State := { s with uniform := { s.uniform with translate := identity } }
        match animate
            (fun t => (bezierPoint P0_1 P1_1 P2_1 t, bezierPoint P0_2 P1_2 P2_2 t,
              bezierPoint P0_3 P1_3 P2_3 t))
            animationSteps s with
        | some s => some ('q', { s with animationMode := false, isPositionSet := false })
        | none => none
      else some (key, s)
    | none => none
  else some (key, s)

/-- The colour `Vector4f(val, val + 0.1, val + 0.2, 1)` with
`val = (key - '1') * 0.1` of the colour keys. -/
def rampColor (key : Char) : Vec4 :=
  let val : ℚ := ((key.toNat : ℚ) - (('1').toNat : ℚ)) * (1 / 10)
  ⟨val, val + 1 / 10, val + 1 / 5, 1⟩

/-- The mode-dependent part of `viewer.key_pressed` (after the animation block). -/
def keyAction (E : Env) (key : Char) (s : State) : Option State :=
  if s.currentMode = Mode.TRANSLATION_MODE then
    if s.selectedTriangle ≥ 0 then
      match performTranslationAction E key s.triangles s.uniform s.selectedTriangle with
      | some (triangles, uniform) =>
        some { s with triangles := triangles, uniform := uniform, redraw_next := true }
      | none => none
    else some s
  else if s.currentMode = Mode.COLOR_MODE then
    if key ≥ '1' ∧ key ≤ '9' then
      if s.vertex_index ≥ 0 then
        match at? s.triangles s.vertex_index with
        | some v =>
          some { s with
            triangles := s.triangles.set s.vertex_index.toNat { v with color := rampColor key }
            redraw_next := true }
        | none => none
      else some s
    else some s
  else some s

/-- Callback `viewer.key_pressed` (`is_pressed`, `modifier` and `repeat` are not used by
the callback). -/
def key_pressed (E : Env) (key : Char) (s : State) : Option State :=
  let m := setCurrentMode key s.currentMode
  let s : State := { s with console := s.console ++ m.1, currentMode := m.2 }
  let s : State := if key = ANIMATION_MODE_KEY then { s with animationMode := true } else s
  match animationBlock key s with
  | some (key, s) =>
    match keyAction E key s with
    | some s => changeViewport key s.zoom s.delta s
    | none => none
  | none => none

/-! ## Events and runs -/

/-- The events the viewer delivers to the editor: the three callbacks with the
arguments they use, and a call of `viewer.redraw`. -/
inductive Event where
  | mouse_move (x y : Int)
  | mouse_pressed (x y : Int) (mouseButtonUp : Bool)
  | key_pressed (key : Char)
  | redraw
  deriving DecidableEq

/-- One event; `none` when a handler reads or writes a vector out of range. -/
def step (E : Env) (s : State) : Event → Option State
  | Event.mouse_move x y => mouse_move E x y s
  | Event.mouse_pressed x y up => mouse_pressed E x y up s
  | Event.key_pressed key => key_pressed E key s
  | Event.redraw => redraw s

/-- A sequence of events, from state `s`. -/
def run (E : Env) : State → List Event → Option State
  | s, [] => some s
  | s, e :: es =>
    match step E s e with
    | some s => run E s es
    | none => none

/-- A state is reachable when a run from the initial state ends in it. -/
def Reachable (E : Env) (s : State) : Prop := ∃ es, run E (initial E) es = some s

/-! ## Invariants and sample data -/

/-- The invariant of the runs: the scene holds whole triangles, and the click
counter is the number of pending vertices. -/
def Inv (s : State) : Prop :=
  s.triangles.length % 3 = 0 ∧ s.numOfClicks = s.triangleVertices.length

/-- An environment for the worked examples: polynomial stand-ins for `cos` and
`sin`, a white default vertex, and `' '` as the first `uniform.mode`. -/
def sampleEnv : Env where
  cos := fun t => 1 - t ^ 2 / 2 + t ^ 4 / 24
  sin := fun t => t - t ^ 3 / 6
  vertex0 := ⟨⟨0, 0, 0, 1⟩, ⟨1, 1, 1, 1⟩, false, ⟨0, 0, 0, 0⟩⟩
  mode0 := ' '

/-- Three clicks in Insertion mode, each followed by the redraw it requests:
the triangle with corners at the pixels (200, 300), (300, 300), (250, 200). -/
def insertEvents : List Event :=
  [Event.mouse_pressed 200 300 true, Event.redraw, Event.mouse_pressed 300 300 true,
   Event.redraw, Event.mouse_pressed 250 200 true, Event.redraw]

/-- The state after `insertEvents` (the initial state if the run were to fail). -/
def insertedState : State := (run sampleEnv (initial sampleEnv) insertEvents).getD (initial sampleEnv)

/-! ## The hit test as the specification words it -/

/-- The specification's hit condition: the click `(x, y, 0)` lies, bounds
included, in the axis-aligned bounding box of the three points `p`, `q`, `r`
(their first three coordinates). -/
def InBoundingBox (p q r : Vec4) (x y : ℚ) : Prop :=
  (min (min p.x q.x) r.x ≤ x ∧ x ≤ max (max p.x q.x) r.x) ∧
  (min (min p.y q.y) r.y ≤ y ∧ y ≤ max (max p.y q.y) r.y) ∧
  (min (min p.z q.z) r.z ≤ 0 ∧ 0 ≤ max (max p.z q.z) r.z)

/-- The events of `insertEvents`, then a pan to the right (`'a'`) and the switch
to Deletion mode (`'p'`). -/
def panDeleteEvents : List Event :=
  insertEvents ++ [Event.key_pressed 'a', Event.key_pressed 'p']

/-- The state after `panDeleteEvents`. -/
def pannedState : State :=
  (run sampleEnv (initial sampleEnv) panDeleteEvents).getD (initial sampleEnv)

/-- The state after a click at the pixel (300, 250) in `pannedState`. -/
def deletedState : State := (mouse_pressed sampleEnv 300 250 false pannedState).getD pannedState

/-- The events of `insertEvents`, then Translation mode (`'o'`), a press and a
release on the triangle, and one scale-up key (`'k'`). -/
def deselectEvents : List Event :=
  insertEvents ++ [Event.key_pressed 'o', Event.mouse_pressed 250 250 false,
    Event.mouse_pressed 250 250 true, Event.key_pressed 'k']

/-- The state after `deselectEvents`: the triangle is selected and scaled. -/
def scaledState : State :=
  (run sampleEnv (initial sampleEnv) deselectEvents).getD (initial sampleEnv)

/-- The state after a press on empty space (pixel (0, 0)) in `scaledState`. -/
def deselectedState : State := (mouse_pressed sampleEnv 0 0 false scaledState).getD scaledState

/-- The events of `insertEvents`, three more clicks for a second triangle with
corners at the pixels (400, 100), (450, 100), (425, 50), then Translation mode
(`'o'`), a press on the first triangle and a drag by ten pixels. -/
def dragEvents : List Event :=
  insertEvents ++ [Event.mouse_pressed 400 100 true, Event.redraw,
    Event.mouse_pressed 450 100 true, Event.redraw, Event.mouse_pressed 425 50 true,
    Event.redraw, Event.key_pressed 'o', Event.mouse_pressed 250 250 false,
    Event.mouse_move 260 250]

/-- The state after `dragEvents`: the first triangle is selected and dragged. -/
def draggedState : State :=
  (run sampleEnv (initial sampleEnv) dragEvents).getD (initial sampleEnv)

/-- The first vertex of the second triangle of `draggedState`. -/
def farVertex : VertexAttributes := draggedState.triangles.getD 3 sampleEnv.vertex0

/-! ## Matrices made by the rotate and scale actions -/

/-- The values `uniform.rotate` takes: the identity it starts from (and is reset
to), and what `rotateTriangle` makes of such a value. -/
inductive RotateMatrix (E : Env) : Mat4 → Prop where
  | start : RotateMatrix E identity
  | rotated (v1 v2 v3 : VertexAttributes) (uniform : UniformAttributes) :
      RotateMatrix E uniform.rotate → RotateMatrix E (rotateTriangle E v1 v2 v3 uniform).2.rotate

/-- The values `uniform.scale` takes: the identity it starts from (and is reset
to), and what `scaleTriangle` makes of such a value. -/
inductive ScaleMatrix : Mat4 → Prop where
  | start : ScaleMatrix identity
  | scaled (v1 v2 v3 : VertexAttributes) (uniform : UniformAttributes) :
      ScaleMatrix uniform.scale → ScaleMatrix (scaleTriangle v1 v2 v3 uniform).2.scale

/-- A matrix that acts on `x` and `y` only: its last two rows and columns are
those of the identity. -/
def Planar (m : Mat4) : Prop :=
  m.m02 = 0 ∧ m.m03 = 0 ∧ m.m12 = 0 ∧ m.m13 = 0 ∧
  m.m20 = 0 ∧ m.m21 = 0 ∧ m.m22 = 1 ∧ m.m23 = 0 ∧
  m.m30 = 0 ∧ m.m31 = 0 ∧ m.m32 = 0 ∧ m.m33 = 1

/-- The rotation by 180 degrees about the z axis, `diag(-1, -1, 1, 1)`. -/
def halfTurn : Mat4 :=
  ⟨-1, 0, 0, 0,
   0, -1, 0, 0,
   0, 0, 1, 0,
   0, 0, 0, 1⟩

/-- A uniform state for the pivot law: identity `view`, `translate` and `scale`,
a half turn in `rotate`, and `'h'` as the last transform key. -/
def halfTurnUniform : UniformAttributes :=
  ⟨identity, identity, halfTurn, identity, 1, 0, ⟨0, 0, 0, 0⟩, 'h'⟩

/-- An environment whose `cos` is -1 and whose `sin` is 0 everywhere, as for the
angle of a half turn: in it one rotate action makes `halfTurn`. -/
def halfTurnEnv : Env where
  cos := fun _ => -1
  sin := fun _ => 0
  vertex0 := ⟨⟨0, 0, 0, 1⟩, ⟨1, 1, 1, 1⟩, false, ⟨0, 0, 0, 0⟩⟩
  mode0 := ' '

/-- A selected vertex at `(x, y)` of a triangle with barycentre (1/4, 1/4). -/
def pivotVertex (x y : ℚ) : VertexAttributes :=
  ⟨⟨x, y, 0, 1⟩, BLUE, true, ⟨1 / 4, 1 / 4, 0, 1⟩⟩

/-! ## Repeated key presses on the selected triangle -/

/-- The call `performTranslationAction(key, triangles, uniform, i)` made `n`
times in a row, as `n` presses of `key` on the selected triangle `i` make it. -/
def pressTimes (E : Env) (key : Char) (i : Int) :
    Nat → List VertexAttributes × UniformAttributes →
      Option (List VertexAttributes × UniformAttributes)
  | 0, r => some r
  | n + 1, r =>
    match performTranslationAction E key r.1 r.2 i with
    | some r' => pressTimes E key i n r'
    | none => none

/-! ## Drags -/

/-- The mouse-move events of a drag through the pixels `pts`. -/
def moveEvents (pts : List (Int × Int)) : List Event :=
  pts.map (fun p => Event.mouse_move p.1 p.2)

/-- A state in the middle of a drag: Translation mode, the button is held on a
triangle (`isClicked`), and `selectedTriangle` is that triangle. -/
def Dragging (t : State) : Prop :=
  t.currentMode = Mode.TRANSLATION_MODE ∧ t.isClicked = true ∧
  0 ≤ t.selectedTriangle ∧ t.selectedTriangle + 2 < t.triangles.length

/-- The pixel the cursor is at after a drag from the pixel `p0` through `pts`. -/
def lastPixel (p0 : Int × Int) : List (Int × Int) → Int × Int
  | [] => p0
  | p :: ps => lastPixel p ps

/-- A drag of the triangle of `insertedState`, entered in Translation mode:
a press at the pixel (250, 250) and moves through three pixels. -/
def translationState : State :=
  (run sampleEnv insertedState [Event.key_pressed 'o']).getD insertedState

/-! ## Euclidean distance -/

/-- The Euclidean distance of `v` to `p` is less than that of `v'` to `p`. -/
def DistLT (v v' p : Vec4) : Prop :=
  Real.sqrt (((v - p).squaredNorm : ℚ) : ℝ) < Real.sqrt (((v' - p).squaredNorm : ℚ) : ℝ)

/-! ## Scenes in the plane -/

/-- The third row of the matrix is `0 0 1 0`: the matrix leaves `z` alone. -/
def RowZ (m : Mat4) : Prop := m.m20 = 0 ∧ m.m21 = 0 ∧ m.m22 = 1 ∧ m.m23 = 0

/-- The hit condition read in the plane: `(x, y)` lies, bounds included, in the
bounding box of the `x` and `y` coordinates of `p`, `q`, `r`. -/
def InBoundingBox2 (p q r : Vec4) (x y : ℚ) : Prop :=
  (min (min p.x q.x) r.x ≤ x ∧ x ≤ max (max p.x q.x) r.x) ∧
  (min (min p.y q.y) r.y ≤ y ∧ y ≤ max (max p.y q.y) r.y)

/-- The four matrices of the uniform state leave `z` alone. -/
def FlatU (u : UniformAttributes) : Prop :=
  RowZ u.view ∧ RowZ u.translate ∧ RowZ u.rotate ∧ RowZ u.scale

/-! ## Keys without an action -/

/-- A key bound to no action: no mode key, no transform key, no animation key,
no digit from 1 to 9 and no view key. -/
def Unbound (key : Char) : Prop :=
  key ∉ [INSERTION_MODE_KEY, TRANSLATION_MODE_KEY, DELETE_MODE_KEY, COLOR_MODE_KEY,
    ANIMATION_MODE_KEY, SCALE_UP, SCALE_DOWN, ROTATE_CLOCKWISE, ROTATE_COUNTERCLOCKWISE,
    'n', 'b', ZOOM_IN_KEY, ZOOM_OUT_KEY, PAN_DOWN_KEY, PAN_UP_KEY, PAN_RIGHT_KEY, PAN_LEFT_KEY]
  ∧ ¬ (key ≥ '1' ∧ key ≤ '9')

/-! ## The second invariant, and sample data of the key handler -/

/-- The second invariant of the runs: a pending vertex comes with a preview line,
and the variables `zoom` and `delta` of `main` keep the values they start with. -/
def Steady (s : State) : Prop :=
  (s.triangleVertices ≠ [] → s.lines ≠ []) ∧ s.zoom = 1 ∧ s.delta = 0

/-- The state of the example of the commit: three clicks in Insertion mode, the
redraw of the third not yet run. -/
def pendingState : State :=
  (run sampleEnv (initial sampleEnv) (insertEvents.take 5)).getD (initial sampleEnv)

/-- A triangle is inserted and selected in Translation mode, the key `'m'` sets
the animation flag, and a click on the empty canvas drops the selection. -/
def staleFlagEvents : List Event :=
  insertEvents ++ [Event.key_pressed 'o', Event.mouse_pressed 250 250 false,
    Event.mouse_pressed 250 250 true, Event.key_pressed 'm', Event.mouse_pressed 0 0 false]

/-- The state after `staleFlagEvents` (the initial state if the run were to fail). -/
def staleFlagState : State :=
  (run sampleEnv (initial sampleEnv) staleFlagEvents).getD (initial sampleEnv)

/-- A triangle is inserted, and a click at the pixel (250, 250) in Color mode
targets its third vertex. -/
def colorTargetEvents : List Event :=
  insertEvents ++ [Event.key_pressed 'c', Event.mouse_pressed 250 250 false]

/-- The state after `colorTargetEvents` (the initial state if the run were to fail). -/
def colorTargetState : State :=
  (run sampleEnv (initial sampleEnv) colorTargetEvents).getD (initial sampleEnv)

/-! ## The view keys -/

/-- The animation block of the key handler reads the triangle list in range:
the animation flag is clear, or the three reads at the selection are in range. -/
def BlockReads (s : State) : Prop :=
  s.animationMode = false ∨ ∃ t, get3 s.triangles s.selectedTriangle = some t

/-! ## Frames of the animations -/

/-- A matrix with the last row (0, 0, 0, 1). -/
def Affine (m : Mat4) : Prop := m.m30 = 0 ∧ m.m31 = 0 ∧ m.m32 = 0 ∧ m.m33 = 1

/-- The three vertices of the selected triangle with the three positions of a
frame written to them. -/
def place (a b c : VertexAttributes) (p : Vec4 × Vec4 × Vec4) :
    VertexAttributes × VertexAttributes × VertexAttributes :=
  ({ a with position := p.1 }, { b with position := p.2.1 }, { c with position := p.2.2 })

/-- The positions `now_pos1`, `now_pos2`, `now_pos3` of the linear animation at
`t`, for the selected triangle `a`, `b`, `c` and the uniform state at the key
press: `old + t * temp` with `temp = view * translate * rotate * scale * old - old`. -/
def linearFrame (u : UniformAttributes) (a b c : VertexAttributes) (t : ℚ) :
    Vec4 × Vec4 × Vec4 :=
  linearPos a.position b.position c.position
    (u.composed * a.position - a.position) (u.composed * b.position - b.position)
    (u.composed * c.position - c.position) t

/-- The positions `now_pos1`, `now_pos2`, `now_pos3` of the Bezier animation at
`t`, for the selected triangle `a`, `b`, `c` and the uniform state at the key
press: `P0` is the stored position, `P2 = view * translate * rotate * scale * P0`
and `P1` is made of the components of `P2 - P0`. -/
def bezierFrame (u : UniformAttributes) (a b c : VertexAttributes) (t : ℚ) :
    Vec4 × Vec4 × Vec4 :=
  (bezierPoint a.position (controlPoint (u.composed * a.position - a.position))
      (u.composed * a.position) t,
    bezierPoint b.position (controlPoint (u.composed * b.position - b.position))
      (u.composed * b.position) t,
    bezierPoint c.position (controlPoint (u.composed * c.position - c.position))
      (u.composed * c.position) t)

/-- The state after `deselectEvents` and the key `'m'`: the triangle is selected
and scaled by 1.25, and the animation flag is set. -/
def animationReadyState : State := (key_pressed sampleEnv 'm' scaledState).getD scaledState

/-- The three vertices of the selected triangle of `animationReadyState`. -/
def animatedVertices : VertexAttributes × VertexAttributes × VertexAttributes :=
  (get3 animationReadyState.triangles animationReadyState.selectedTriangle).getD
    (sampleEnv.vertex0, sampleEnv.vertex0, sampleEnv.vertex0)

/-! ## Sample data of the scale keys -/

/-- The inserted triangle, selected in Translation mode by a press and a release
at the pixel (250, 250); the uniform state is still the initial one. -/
def selectedState : State :=
  (run sampleEnv translationState
    [Event.mouse_pressed 250 250 false, Event.mouse_pressed 250 250 true]).getD translationState

/-! ## Sample data of the stale flag and the stale indices -/

/-- The three vertices of the triangle of `scaledState`. -/
def scaledVertices : VertexAttributes × VertexAttributes × VertexAttributes :=
  (get3 scaledState.triangles 0).getD (sampleEnv.vertex0, sampleEnv.vertex0, sampleEnv.vertex0)

/-- A triangle is inserted, selected in Translation mode and targeted in Color
mode, and then deleted by a click in Deletion mode. -/
def staleIndexEvents : List Event :=
  insertEvents ++ [Event.key_pressed 'o', Event.mouse_pressed 250 250 false,
    Event.mouse_pressed 250 250 true, Event.key_pressed 'c', Event.mouse_pressed 250 250 false,
    Event.key_pressed 'p', Event.mouse_pressed 250 250 false]

/-- The state after `staleIndexEvents` (the initial state if the run were to fail). -/
def staleIndexState : State :=
  (run sampleEnv (initial sampleEnv) staleIndexEvents).getD (initial sampleEnv)

/-- A triangle is inserted, selected and scaled by 1.25 in Translation mode, the
key `'m'` sets the animation flag, and the key `'c'` switches to Color mode. -/
def colorAnimationEvents : List Event :=
  deselectEvents ++ [Event.key_pressed 'm', Event.key_pressed 'c']

/-- The state after `colorAnimationEvents` (the initial state if the run were to fail). -/
def colorAnimationState : State :=
  (run sampleEnv (initial sampleEnv) colorAnimationEvents).getD (initial sampleEnv)

/-- The three vertices of the selected triangle of `colorAnimationState`. -/
def colorAnimationVertices : VertexAttributes × VertexAttributes × VertexAttributes :=
  (get3 colorAnimationState.triangles colorAnimationState.selectedTriangle).getD
    (sampleEnv.vertex0, sampleEnv.vertex0, sampleEnv.vertex0)

/-! ## Single precision

The functions of the source once more, with the arithmetic of the compiled
program. A `float` is a rational with 24 significant bits, a `double` one with 53;
overflow, subnormal numbers, infinities and NaN do not occur for the coordinates
of a 500 x 500 canvas and are not modelled.

* Every operation on `float` values is the exact operation followed by rounding
  to nearest, ties to even (`F32.fadd`, `F32.fsub`, `F32.fmul`, `F32.fdiv`); no
  fused multiply-add.
* Eigen's product of `Matrix4f` with `Matrix4f` or `Vector4f` accumulates the four
  products of an entry from left to right (`F32.dot4`); `norm()` adds the four
  squares as `(x² + z²) + (y² + w²)` and takes `sqrtf` (`F32.norm`).
* The product `view * translate * rotate * scale * position` is evaluated from the
  left, as C++ parses it: three matrix products, then the product with the
  vector (`F32.transform`).
* A `double` constant in a `float` statement (`zoom += 0.2`) makes the operation a
  `double` operation whose result is converted to `float` (`F32.plusStep`).
* The types of `scale_factor` and `rotate_radians` are declared in `raster.h`,
  outside the source file: `F32.Env.scalar` is the conversion to that type.
-/

/-- The power `2^e` of two with an integer exponent. -/
def F32.pow2 (e : Int) : ℚ :=
  if 0 ≤ e then ((2 ^ e.toNat : Nat) : ℚ) else 1 / ((2 ^ (-e).toNat : Nat) : ℚ)

/-- The number of binary digits of `n`, counted in at most `fuel` halvings. -/
def F32.bitsFrom : Nat → Nat → Nat
  | 0, _ => 0
  | fuel + 1, n => if n = 0 then 0 else F32.bitsFrom fuel (n / 2) + 1

/-- The number of binary digits of `n`; `n` halvings are enough to count them. -/
def F32.bits (n : Nat) : Nat := F32.bitsFrom n n

/-- The binary exponent of `q ≠ 0`, the integer `e` with `2^e ≤ |q| < 2^(e+1)`: the
difference of the numbers of binary digits of numerator and denominator, or one
less. -/
def F32.exponent (q : ℚ) : Int :=
  let e : Int := (F32.bits q.num.natAbs : Int) - (F32.bits q.den : Int)
  if |q| < F32.pow2 e then e - 1 else e

/-- IEEE 754 rounding of `q` to `p` significant bits, to nearest, ties to even (no
overflow, no subnormal numbers): `|q|` is written `m * ulp` with `ulp` a power of
two and `m` in `[2^(p-1), 2^p)`, and `m` is rounded to an integer
(`f32_round_spec`). It is the rounding of `roundToBits`, with the exponent
computed from the numbers of digits and not searched. -/
def F32.round (p : Nat) (q : ℚ) : ℚ :=
  if q = 0 then 0
  else
    let ulp := F32.pow2 (F32.exponent q - ((p : Int) - 1))
    let v := (roundHalfEven (|q| / ulp) : ℚ) * ulp
    if q < 0 then -v else v

/-- The conversion to `float` (24 significant bits). -/
def F32.fl (q : ℚ) : ℚ := F32.round 24 q

/-- The conversion to `double` (53 significant bits). -/
def F32.dbl (q : ℚ) : ℚ := F32.round 53 q

/-- Float sum: the exact sum, rounded to `float`. -/
def F32.fadd (a b : ℚ) : ℚ := F32.fl (a + b)

/-- Float difference. -/
def F32.fsub (a b : ℚ) : ℚ := F32.fl (a - b)

/-- Float product. -/
def F32.fmul (a b : ℚ) : ℚ := F32.fl (a * b)

/-- Float quotient. -/
def F32.fdiv (a b : ℚ) : ℚ := F32.fl (a / b)

/-- The sum of four products as Eigen's product of fixed-size `float` matrices
accumulates it: every product is rounded and added to the sum so far. -/
def F32.dot4 (a0 b0 a1 b1 a2 b2 a3 b3 : ℚ) : ℚ :=
  F32.fadd (F32.fadd (F32.fadd (F32.fmul a0 b0) (F32.fmul a1 b1)) (F32.fmul a2 b2))
    (F32.fmul a3 b3)

/-- Product of two `Matrix4f`. -/
def F32.mul (a b : Mat4) : Mat4 :=
  ⟨F32.dot4 a.m00 b.m00 a.m01 b.m10 a.m02 b.m20 a.m03 b.m30,
   F32.dot4 a.m00 b.m01 a.m01 b.m11 a.m02 b.m21 a.m03 b.m31,
   F32.dot4 a.m00 b.m02 a.m01 b.m12 a.m02 b.m22 a.m03 b.m32,
   F32.dot4 a.m00 b.m03 a.m01 b.m13 a.m02 b.m23 a.m03 b.m33,
   F32.dot4 a.m10 b.m00 a.m11 b.m10 a.m12 b.m20 a.m13 b.m30,
   F32.dot4 a.m10 b.m01 a.m11 b.m11 a.m12 b.m21 a.m13 b.m31,
   F32.dot4 a.m10 b.m02 a.m11 b.m12 a.m12 b.m22 a.m13 b.m32,
   F32.dot4 a.m10 b.m03 a.m11 b.m13 a.m12 b.m23 a.m13 b.m33,
   F32.dot4 a.m20 b.m00 a.m21 b.m10 a.m22 b.m20 a.m23 b.m30,
   F32.dot4 a.m20 b.m01 a.m21 b.m11 a.m22 b.m21 a.m23 b.m31,
   F32.dot4 a.m20 b.m02 a.m21 b.m12 a.m22 b.m22 a.m23 b.m32,
   F32.dot4 a.m20 b.m03 a.m21 b.m13 a.m22 b.m23 a.m23 b.m33,
   F32.dot4 a.m30 b.m00 a.m31 b.m10 a.m32 b.m20 a.m33 b.m30,
   F32.dot4 a.m30 b.m01 a.m31 b.m11 a.m32 b.m21 a.m33 b.m31,
   F32.dot4 a.m30 b.m02 a.m31 b.m12 a.m32 b.m22 a.m33 b.m32,
   F32.dot4 a.m30 b.m03 a.m31 b.m13 a.m32 b.m23 a.m33 b.m33⟩

/-- Product of a `Matrix4f` and a `Vector4f`. -/
def F32.mulVec (a : Mat4) (v : Vec4) : Vec4 :=
  ⟨F32.dot4 a.m00 v.x a.m01 v.y a.m02 v.z a.m03 v.w,
   F32.dot4 a.m10 v.x a.m11 v.y a.m12 v.z a.m13 v.w,
   F32.dot4 a.m20 v.x a.m21 v.y a.m22 v.z a.m23 v.w,
   F32.dot4 a.m30 v.x a.m31 v.y a.m32 v.z a.m33 v.w⟩

/-- Sum of two `Vector4f`. -/
def F32.vadd (a b : Vec4) : Vec4 :=
  ⟨F32.fadd a.x b.x, F32.fadd a.y b.y, F32.fadd a.z b.z, F32.fadd a.w b.w⟩

/-- Difference of two `Vector4f`. -/
def F32.vsub (a b : Vec4) : Vec4 :=
  ⟨F32.fsub a.x b.x, F32.fsub a.y b.y, F32.fsub a.z b.z, F32.fsub a.w b.w⟩

/-- Scalar multiple `t * v` of a `Vector4f`, `t` a `float`. -/
def F32.smul (t : ℚ) (a : Vec4) : Vec4 :=
  ⟨F32.fmul t a.x, F32.fmul t a.y, F32.fmul t a.z, F32.fmul t a.w⟩

/-- Quotient `v / t` of a `Vector4f` by a scalar. -/
def F32.sdiv (a : Vec4) (t : ℚ) : Vec4 :=
  ⟨F32.fdiv a.x t, F32.fdiv a.y t, F32.fdiv a.z t, F32.fdiv a.w t⟩

/-- The greatest `r' >= r` with `r' - r < 2^k` and `r' * r' <= n`, found bit by
bit: with `r = 0` and `n < 4^k` it is the integer square root of `n`. -/
def F32.sqrtBits (n : Nat) : Nat → Nat → Nat
  | 0, r => r
  | k + 1, r =>
    if (r + 2 ^ k) * (r + 2 ^ k) ≤ n then F32.sqrtBits n k (r + 2 ^ k)
    else F32.sqrtBits n k r

/-- Function `sqrtf`: the square root rounded to `float`. The argument is scaled
by a power of 4 to `m` in `[2^52, 2^54)`; the root of `m` lies in `[r, r + 1)` for
the integer square root `r` of the integer part of `m`, an integer of 27 bits; no
`float` and no midpoint of two `float`s lies strictly between `r` and `r + 1`, so a
root that is not `r` rounds as `r + 1/2` does. -/
def F32.sqrt (q : ℚ) : ℚ :=
  if q ≤ 0 then 0
  else
    let j : Int := (53 - F32.exponent q) / 2
    let m := q * F32.pow2 (2 * j)
    let r := F32.sqrtBits ⌊m⌋.toNat 27 0
    if (r : ℚ) * (r : ℚ) = m then F32.fl ((r : ℚ) * F32.pow2 (-j))
    else F32.fl (((r : ℚ) + 1 / 2) * F32.pow2 (-j))

/-- Eigen `norm()` of a `Vector4f`: the square root of the sum of the four squares,
the sum taken as the SSE2 reduction takes it, `(x² + z²) + (y² + w²)`. -/
def F32.norm (a : Vec4) : ℚ :=
  F32.sqrt (F32.fadd (F32.fadd (F32.fmul a.x a.x) (F32.fmul a.z a.z))
    (F32.fadd (F32.fmul a.y a.y) (F32.fmul a.w a.w)))

/-- The matrix `view * translate * rotate * scale`, multiplied from the left as
the expression is parsed. -/
def F32.composed (uniform : UniformAttributes) : Mat4 :=
  F32.mul (F32.mul (F32.mul uniform.view uniform.translate) uniform.rotate) uniform.scale

/-- The vector `view * translate * rotate * scale * position`. -/
def F32.transform (uniform : UniformAttributes) (position : Vec4) : Vec4 :=
  F32.mulVec (F32.composed uniform) position

/-- The body of the loop of `getSelectedTriangleIndex` for the triangle
`a, b, c`. The three transformed positions are `float` vectors; their conversion
to `Vector3d` and the comparisons of `AlignedBox3d` are exact. -/
def F32.boxHit (uniform : UniformAttributes) (x_pos y_pos : ℚ) (a b c : VertexAttributes) :
    Bool :=
  let v1_pos := F32.transform uniform a.position
  let v2_pos := F32.transform uniform b.position
  let v3_pos := F32.transform uniform c.position
  let v1 := get3DPositionVector v1_pos
  let v2 := get3DPositionVector v2_pos
  let v3 := get3DPositionVector v3_pos
  let box : AlignedBox3d := none
  let box := box.extend v1
  let box := box.extend v2
  let box := box.extend v3
  box.contains ⟨x_pos, y_pos, 0⟩

/-- The loop of `getSelectedTriangleIndex`, started at index `i` with the
vertices from `i` on. -/
def F32.getSelectedTriangleIndexFrom (uniform : UniformAttributes) (x_pos y_pos : ℚ) :
    Nat → List VertexAttributes → Int
  | i, a :: b :: c :: rest =>
    if F32.boxHit uniform x_pos y_pos a b c then (i : Int)
    else F32.getSelectedTriangleIndexFrom uniform x_pos y_pos (i + 3) rest
  | _, _ => -1

/-- Function `getSelectedTriangleIndex`. -/
def F32.getSelectedTriangleIndex (triangles : List VertexAttributes)
    (uniform : UniformAttributes) (x_pos y_pos : ℚ) : Int :=
  F32.getSelectedTriangleIndexFrom uniform x_pos y_pos 0 triangles

/-- Function `deleteTriangle`; the last component is `viewer.redraw_next`. -/
def F32.deleteTriangle (triangles : List VertexAttributes) (uniform : UniformAttributes)
    (x_pos y_pos : ℚ) (redraw_next : Bool) :
    List VertexAttributes × UniformAttributes × Bool :=
  let index := F32.getSelectedTriangleIndex triangles uniform x_pos y_pos
  if index ≥ 0 then (erase3 triangles index.toNat, resetUniform uniform, true)
  else (triangles, uniform, redraw_next)

/-- Function `translateTriangle`. -/
def F32.translateTriangle (v1 v2 v3 : VertexAttributes) (uniform : UniformAttributes) :
    (VertexAttributes × VertexAttributes × VertexAttributes) × UniformAttributes :=
  (({ v1 with selected := true }, { v2 with selected := true }, { v3 with selected := true }),
   { uniform with
     translate :=
       F32.mul (translation uniform.translate_delta.x uniform.translate_delta.y)
         uniform.translate })

/-- Function `scaleTriangle`; the entries of a `Matrix4f` are `float` values. -/
def F32.scaleTriangle (v1 v2 v3 : VertexAttributes) (uniform : UniformAttributes) :
    (VertexAttributes × VertexAttributes × VertexAttributes) × UniformAttributes :=
  (({ v1 with selected := true }, { v2 with selected := true }, { v3 with selected := true }),
   { uniform with scale := F32.mul (scaling (F32.fl uniform.scale_factor)) uniform.scale })

/-- What the single-precision reading takes from outside the source file: the
environment `Env`, and the conversion `scalar` to the type that `raster.h` gives to
the fields `scale_factor` and `rotate_radians` (`F32.fl` if they are `float`,
`F32.dbl` if they are `double`). -/
structure F32.Env extends Env where
  scalar : ℚ → ℚ

/-- Function `rotateTriangle`. -/
def F32.rotateTriangle (E : F32.Env) (v1 v2 v3 : VertexAttributes)
    (uniform : UniformAttributes) :
    (VertexAttributes × VertexAttributes × VertexAttributes) × UniformAttributes :=
  let cos_rotate_degree := E.cos uniform.rotate_radians
  let sin_rotate_degree := E.sin uniform.rotate_radians
  (({ v1 with selected := true }, { v2 with selected := true }, { v3 with selected := true }),
   { uniform with
     rotate :=
       F32.mul (rotation (F32.fl cos_rotate_degree) (F32.fl sin_rotate_degree))
         uniform.rotate })

/-- Function `performTranslationAction`; the constants are `double` values, and
so are the sums before they are stored. -/
def F32.performTranslationAction (E : F32.Env) (key : Char) (triangles : List VertexAttributes)
    (uniform : UniformAttributes) (triangleToTranslate : Int) :
    Option (List VertexAttributes × UniformAttributes) :=
  if key = SCALE_UP then
    let uniform :=
      if uniform.scale_factor < 1 then { uniform with scale_factor := 1 } else uniform
    let uniform :=
      { uniform with scale_factor := E.scalar (F32.dbl (uniform.scale_factor + 1 / 4)) }
    let uniform := { uniform with mode := SCALE_UP }
    onTriangle F32.scaleTriangle triangles uniform triangleToTranslate
  else if key = SCALE_DOWN then
    let uniform :=
      if uniform.scale_factor > 1 then { uniform with scale_factor := 1 } else uniform
    let uniform :=
      { uniform with scale_factor := E.scalar (F32.dbl (uniform.scale_factor - 1 / 4)) }
    let uniform := { uniform with mode := SCALE_DOWN }
    onTriangle F32.scaleTriangle triangles uniform triangleToTranslate
  else if key = ROTATE_CLOCKWISE then
    let uniform :=
      if uniform.rotate_radians < 0 then { uniform with rotate_radians := 0 } else uniform
    let uniform :=
      { uniform with
        rotate_radians :=
          E.scalar (F32.dbl (uniform.rotate_radians
            + F32.dbl (17453292519 / 100000000000))) }
    let uniform := { uniform with mode := ROTATE_CLOCKWISE }
    onTriangle (F32.rotateTriangle E) triangles uniform triangleToTranslate
  else if key = ROTATE_COUNTERCLOCKWISE then
    let uniform :=
      if uniform.rotate_radians > 0 then { uniform with rotate_radians := 0 } else uniform
    let uniform :=
      { uniform with
        rotate_radians :=
          E.scalar (F32.dbl (uniform.rotate_radians
            - F32.dbl (17453292519 / 100000000000))) }
    let uniform := { uniform with mode := ROTATE_COUNTERCLOCKWISE }
    onTriangle (F32.rotateTriangle E) triangles uniform triangleToTranslate
  else some (triangles, uniform)

/-- The three values `(v - currPosition).norm()` of `getNearestVertex`, in the
order of the vector `dist`; a `float` is converted to `double` without rounding. -/
def F32.nearestDist (uniform : UniformAttributes) (currPosition : Vec4)
    (a b c : VertexAttributes) : List ℚ :=
  let v1 := F32.transform uniform a.position
  let v2 := F32.transform uniform b.position
  let v3 := F32.transform uniform c.position
  [F32.norm (F32.vsub v1 currPosition), F32.norm (F32.vsub v2 currPosition),
   F32.norm (F32.vsub v3 currPosition)]

/-- Function `getNearestVertex`. -/
def F32.getNearestVertex (triangles : List VertexAttributes) (uniform : UniformAttributes)
    (selectedTriangle : Int) (currPosition : Vec4) : Option Int :=
  match get3 triangles selectedTriangle with
  | some (a, b, c) =>
    some ((min_element (F32.nearestDist uniform currPosition a b c) : Int) + selectedTriangle)
  | none => none

/-- Formula `x_pos = (float(x) / float(width) * 2) - 1`, every operation on
`float`. -/
def F32.xPos (x : Int) : ℚ :=
  F32.fsub (F32.fmul (F32.fdiv (F32.fl (x : ℚ)) (F32.fl (width : ℚ))) 2) 1

/-- Formula `y_pos = (float(height - 1 - y) / float(height) * 2) - 1`. -/
def F32.yPos (y : Int) : ℚ :=
  F32.fsub (F32.fmul (F32.fdiv (F32.fl ((height - 1 - y : Int) : ℚ)) (F32.fl (height : ℚ))) 2) 1

/-- The commit branch of `viewer.redraw` (`numOfClicks == 3`); the barycentre is
`(p0 + p1 + p2) / 3` on `float` vectors. -/
def F32.commit (s : State) : Option State :=
  match s.triangleVertices[0]?, s.triangleVertices[1]?, s.triangleVertices[2]? with
  | some t0, some t1, some t2 =>
    let (c0, c1, c2) := setColor t0 t1 t2 BLUE
    let bary_center := F32.sdiv (F32.vadd (F32.vadd c0.position c1.position) c2.position) 3
    let triangleVertices :=
      ((s.triangleVertices.set 0 { c0 with bary_center := bary_center }).set 1
        { c1 with bary_center := bary_center }).set 2 { c2 with bary_center := bary_center }
    some { s with
      numOfClicks := 0
      triangles := s.triangles ++ triangleVertices
      triangleVertices := []
      lines := [] }
  | _, _, _ => none

/-- Callback `viewer.redraw`. -/
def F32.redraw (s : State) : Option State :=
  let drawn : Option State :=
    if s.currentMode = Mode.INSERTION_MODE then
      if s.numOfClicks = 1 then some s
      else if s.numOfClicks = 2 then
        match s.triangleVertices[0]?, s.triangleVertices[1]?, s.lines[s.lines.length - 1]? with
        | some _, some _, some _ => some s
        | _, _, _ => none
      else if s.numOfClicks = 3 then F32.commit s
      else some s
    else some s
  match drawn with
  | some s => some { s with frames := s.frames ++ [s.triangles] }
  | none => none

/-- The statement `zoom += 0.2` (and `delta += 0.2`) on a `float`: the sum with the
`double` constant is a `double`, and is converted to `float`. -/
def F32.plusStep (z : ℚ) : ℚ := F32.fl (F32.dbl (z + F32.dbl (1 / 5)))

/-- The statement `zoom -= 0.2` (and `delta -= 0.2`) on a `float`. -/
def F32.minusStep (z : ℚ) : ℚ := F32.fl (F32.dbl (z - F32.dbl (1 / 5)))

/-- Function `changeViewport(key, zoom, delta, uniform, viewer)`: `zoom` and `delta` are
passed by value, `uniform` and `viewer` are those of the state. -/
def F32.changeViewport (key : Char) (zoom delta : ℚ) (s : State) : Option State :=
  let temp_key := s.uniform.mode
  let s : State := { s with uniform := { s.uniform with mode := key } }
  if key = ZOOM_IN_KEY then
    let s : State := { s with console := s.console ++ [ZOOM_OUT_MSG] }
    let zoom := if zoom < 1 then 1 else zoom
    let zoom := F32.plusStep zoom
    F32.redraw { s with uniform := { s.uniform with view := F32.mul (scaling zoom) s.uniform.view } }
  else if key = ZOOM_OUT_KEY then
    let s : State := { s with console := s.console ++ [ZOOM_IN_MSG] }
    let zoom := if zoom > 1 then 1 else zoom
    let zoom := F32.minusStep zoom
    F32.redraw { s with uniform := { s.uniform with view := F32.mul (scaling zoom) s.uniform.view } }
  else if key = PAN_DOWN_KEY then
    let s : State := { s with uniform := { s.uniform with mode := 'w' } }
    let s : State := { s with console := s.console ++ [PAN_DOWN_MSG] }
    let delta := if delta > 0 then 0 else delta
    let delta := F32.minusStep delta
    F32.redraw
      { s with uniform := { s.uniform with view := F32.mul (translation 0 delta) s.uniform.view } }
  else if key = PAN_UP_KEY then
    let s : State := { s with console := s.console ++ [PAN_UP_MSG] }
    let delta := if delta < 0 then 0 else delta
    let delta := F32.plusStep delta
    F32.redraw
      { s with uniform := { s.uniform with view := F32.mul (translation 0 delta) s.uniform.view } }
  else if key = PAN_RIGHT_KEY then
    let s : State := { s with console := s.console ++ [PAN_RIGHT_MSG] }
    let delta := if delta < 0 then 0 else delta
    let delta := F32.plusStep delta
    F32.redraw
      { s with uniform := { s.uniform with view := F32.mul (translation delta 0) s.uniform.view } }
  else if key = PAN_LEFT_KEY then
    let s : State := { s with console := s.console ++ [PAN_LEFT_MSG] }
    let delta := if delta > 0 then 0 else delta
    let delta := F32.minusStep delta
    F32.redraw
      { s with uniform := { s.uniform with view := F32.mul (translation delta 0) s.uniform.view } }
  else
    some { s with uniform := { s.uniform with mode := temp_key } }

/-- Callback `viewer.mouse_move` (`xrel`, `yrel` are not used by the callback). -/
def F32.mouse_move (E : F32.Env) (x y : Int) (s : State) : Option State :=
  let x_pos := F32.xPos x
  let y_pos := F32.yPos y
  if s.currentMode = Mode.INSERTION_MODE then
    if s.numOfClicks % 3 ≠ 0 then
      let lines := if s.lines.length > 1 then s.lines.dropLast else s.lines
      some { s with lines := lines ++ [E.vertex x_pos y_pos 0 1], redraw_next := true }
    else some s
  else if s.currentMode = Mode.TRANSLATION_MODE then
    if s.isClicked ∧ s.selectedTriangle ≥ 0 then
      let s : State := { s with isCursorMoving := true, newPosition := ⟨x_pos, y_pos, 0, 1⟩ }
      let captured : Option State :=
        if s.animationMode ∧ ¬ s.isPositionSet then
          match get3 s.triangles s.selectedTriangle with
          | some (a, b, c) =>
            some { s with
              oldAnimePosition1 :=
                F32.mulVec (F32.mul (F32.mul s.uniform.view s.uniform.rotate) s.uniform.scale)
                  a.position
              oldAnimePosition2 :=
                F32.mulVec (F32.mul (F32.mul s.uniform.view s.uniform.rotate) s.uniform.scale)
                  b.position
              oldAnimePosition3 :=
                F32.mulVec (F32.mul (F32.mul s.uniform.view s.uniform.rotate) s.uniform.scale)
                  c.position
              isPositionSet := true }
          | none => none
        else some s
      match captured with
      | some s =>
        let s : State :=
          { s with
            uniform := { s.uniform with translate_delta := F32.vsub s.newPosition s.oldPosition } }
        let s : State := { s with oldPosition := s.newPosition, firstTime := false }
        let s : State := { s with uniform := { s.uniform with mode := TRANSLATION_MODE_KEY } }
        match onTriangle F32.translateTriangle s.triangles s.uniform s.selectedTriangle with
        | some (triangles, uniform) =>
          some { s with triangles := triangles, uniform := uniform, redraw_next := true }
        | none => none
      | none => none
    else some s
  else some s

/-- Colour constant `HIGHLIGHT = Vector4f(0.5, 0.8, 0, 1)`: the `double` constants
are converted to `float`. -/
def F32.HIGHLIGHT : Vec4 := ⟨1 / 2, F32.fl (F32.dbl (4 / 5)), 0, 1⟩

/-- Callback `viewer.mouse_pressed` (`is_pressed`, `button` and `clicks` are not used by
the callback). -/
def F32.mouse_pressed (E : F32.Env) (x y : Int) (mouseButtonUp : Bool) (s : State) :
    Option State :=
  let x_pos := F32.xPos x
  let y_pos := F32.yPos y
  if s.currentMode = Mode.INSERTION_MODE then
    if mouseButtonUp then
      some { s with
        lines := s.lines ++ [E.vertex x_pos y_pos 0 1]
        triangleVertices := s.triangleVertices ++ [E.vertex x_pos y_pos 0 1]
        numOfClicks := s.numOfClicks + 1
        redraw_next := true }
    else some s
  else if s.currentMode = Mode.DELETION_MODE then
    let r := F32.deleteTriangle s.triangles s.uniform x_pos y_pos s.redraw_next
    some { s with triangles := r.1, uniform := r.2.1, redraw_next := r.2.2 }
  else if s.currentMode = Mode.TRANSLATION_MODE then
    let s : State :=
      { s with selectedTriangle := F32.getSelectedTriangleIndex s.triangles s.uniform x_pos y_pos }
    if s.selectedTriangle < 0 then
      if s.prevClickedTriangle ≥ 0 then
        match setColorAt s.triangles s.prevClickedTriangle BLUE with
        | some triangles =>
          some { s with
            triangles := triangles
            isClicked := false
            isCursorMoving := false
            prevClickedTriangle := -1
            redraw_next := true }
        | none => none
      else some s
    else
      if mouseButtonUp then
        if s.isClicked then
          if s.isCursorMoving then
            some { s with
              isClicked := false
              isCursorMoving := false
              oldPosition := s.newPosition
              firstTime := true
              redraw_next := true }
          else some { s with isClicked := false, redraw_next := true }
        else some s
      else
        if s.selectedTriangle ≥ 0 then
          match setColorAt s.triangles s.selectedTriangle F32.HIGHLIGHT with
          | some triangles =>
            some { s with
              oldPosition := ⟨x_pos, y_pos, 0, 1⟩
              prevClickedTriangle := s.selectedTriangle
              triangles := triangles
              isClicked := true
              redraw_next := true }
          | none => none
        else some s
  else
    let s : State :=
      { s with selectedTriangle := F32.getSelectedTriangleIndex s.triangles s.uniform x_pos y_pos }
    if s.selectedTriangle ≥ 0 then
      match F32.getNearestVertex s.triangles s.uniform s.selectedTriangle ⟨x_pos, y_pos, 0, 1⟩ with
      | some v => some { s with vertex_index := v }
      | none => none
    else some s

/-- One iteration of an animation loop. -/
def F32.animationFrame (now_pos : Vec4 × Vec4 × Vec4) (s : State) : Option State :=
  match get3 s.triangles s.selectedTriangle with
  | some (a, b, c) =>
    F32.redraw { s with
      triangles := set3 s.triangles s.selectedTriangle
        ({ a with position := now_pos.1 }, { b with position := now_pos.2.1 },
         { c with position := now_pos.2.2 }) }
  | none => none

/-- An animation loop over the given values of `t`. -/
def F32.animate (now_pos : ℚ → Vec4 × Vec4 × Vec4) : List ℚ → State → Option State
  | [], s => some s
  | t :: ts, s =>
    match F32.animationFrame (now_pos t) s with
    | some s => F32.animate now_pos ts s
    | none => none

/-- The positions `old + t * temp` of the linear animation at `t`. -/
def F32.linearPos (old1 old2 old3 temp1 temp2 temp3 : Vec4) (t : ℚ) : Vec4 × Vec4 × Vec4 :=
  (F32.vadd old1 (F32.smul t temp1), F32.vadd old2 (F32.smul t temp2),
   F32.vadd old3 (F32.smul t temp3))

/-- One position of the Bezier animation at `t`:
`pow(t_one, 2.0) * P0 + 2 * t * t_one * P1 + pow(t, 2.0) * P2`. The square of a
`float` is a `double` without rounding; a `double` factor of a `Vector4f` is
converted to `float`. -/
def F32.bezierPoint (P0 P1 P2 : Vec4) (t : ℚ) : Vec4 :=
  let t_one := F32.fsub 1 t
  F32.vadd
    (F32.vadd (F32.smul (F32.fl (F32.dbl (t_one ^ 2))) P0)
      (F32.smul (F32.fmul (F32.fmul 2 t) t_one) P1))
    (F32.smul (F32.fl (F32.dbl (t ^ 2))) P2)

/-- The `if (animationMode)` block of `viewer.key_pressed`. -/
def F32.animationBlock (key : Char) (s : State) : Option (Char × State) :=
  if s.animationMode then
    match get3 s.triangles s.selectedTriangle with
    | some (a, b, c) =>
      let s : State :=
        { s with
          oldAnimePosition1 := a.position
          oldAnimePosition2 := b.position
          oldAnimePosition3 := c.position }
      let temp1 := F32.vsub (F32.transform s.uniform a.position) s.oldAnimePosition1
      let temp2 := F32.vsub (F32.transform s.uniform b.position) s.oldAnimePosition2
      let temp3 := F32.vsub (F32.transform s.uniform c.position) s.oldAnimePosition3
      if key = 'n' then
        let s : State := { s with console := s.console ++ ["Animating......"] }
        let old1 := s.oldAnimePosition1
        let old2 := s.oldAnimePosition2
        let old3 := s.oldAnimePosition3
        let s : State := { s with uniform := { s.uniform with translate := identity } }
        match F32.animate (F32.linearPos old1 old2 old3 temp1 temp2 temp3) animationSteps s with
        | some s => some ('q', { s with animationMode := false, isPositionSet := false })
        | none => none
      else if key = 'b' then
        let s : State := { s with console := s.console ++ ["Animating......"] }
        let P0_1 := s.oldAnimePosition1
        let P0_2 := s.oldAnimePosition2
        let P0_3 := s.oldAnimePosition3
        let P2_1 := F32.transform s.uniform a.position
        let P2_2 := F32.transform s.uniform b.position
        let P2_3 := F32.transform s.uniform c.position
        let P1_1 := controlPoint temp1
        let P1_2 := controlPoint temp2
        let P1_3 := controlPoint temp3
        let s : State := { s with uniform := { s.uniform with translate := identity } }
        match F32.animate
            (fun t => (F32.bezierPoint P0_1 P1_1 P2_1 t, F32.bezierPoint P0_2 P1_2 P2_2 t,
              F32.bezierPoint P0_3 P1_3 P2_3 t))
            animationSteps s with
        | some s => some ('q', { s with animationMode := false, isPositionSet := false })
        | none => none
      else some (key, s)
    | none => none
  else some (key, s)

/-- The colour `Vector4f(val, val + 0.1, val + 0.2, 1)` with the `double`
`val = (key - '1') * 0.1` of the colour keys. -/
def F32.rampColor (key : Char) : Vec4 :=
  let val : ℚ := F32.dbl (((key.toNat : ℚ) - (('1').toNat : ℚ)) * F32.dbl (1 / 10))
  ⟨F32.fl val, F32.fl (F32.dbl (val + F32.dbl (1 / 10))),
    F32.fl (F32.dbl (val + F32.dbl (1 / 5))), 1⟩

/-- The mode-dependent part of `viewer.key_pressed` (after the animation block). -/
def F32.keyAction (E : F32.Env) (key : Char) (s : State) : Option State :=
  if s.currentMode = Mode.TRANSLATION_MODE then
    if s.selectedTriangle ≥ 0 then
      match F32.performTranslationAction E key s.triangles s.uniform s.selectedTriangle with
      | some (triangles, uniform) =>
        some { s with triangles := triangles, uniform := uniform, redraw_next := true }
      | none => none
    else some s
  else if s.currentMode = Mode.COLOR_MODE then
    if key ≥ '1' ∧ key ≤ '9' then
      if s.vertex_index ≥ 0 then
        match at? s.triangles s.vertex_index with
        | some v =>
          some { s with
            triangles := s.triangles.set s.vertex_index.toNat { v with color := F32.rampColor key }
            redraw_next := true }
        | none => none
      else some s
    else some s
  else some s

/-- Callback `viewer.key_pressed` (`is_pressed`, `modifier` and `repeat` are not used by
the callback). -/
def F32.key_pressed (E : F32.Env) (key : Char) (s : State) : Option State :=
  let m := setCurrentMode key s.currentMode
  let s : State := { s with console := s.console ++ m.1, currentMode := m.2 }
  let s : State := if key = ANIMATION_MODE_KEY then { s with animationMode := true } else s
  match F32.animationBlock key s with
  | some (key, s) =>
    match F32.keyAction E key s with
    | some s => F32.changeViewport key s.zoom s.delta s
    | none => none
  | none => none

/-- One event; `none` when a handler reads or writes a vector out of range. -/
def F32.step (E : F32.Env) (s : State) : Event → Option State
  | Event.mouse_move x y => F32.mouse_move E x y s
  | Event.mouse_pressed x y up => F32.mouse_pressed E x y up s
  | Event.key_pressed key => F32.key_pressed E key s
  | Event.redraw => F32.redraw s

/-- A sequence of events, from state `s`. -/
def F32.run (E : F32.Env) : State → List Event → Option State
  | s, [] => some s
  | s, e :: es =>
    match F32.step E s e with
    | some s => F32.run E s es
    | none => none

/-- A state is reachable when a run from the initial state ends in it. -/
def F32.Reachable (E : F32.Env) (s : State) : Prop :=
  ∃ es, F32.run E (initial E.toEnv) es = some s

/-- The environment of the worked examples, with `float` fields. -/
def F32.sampleEnv : F32.Env where
  toEnv := RasterViewer.sampleEnv
  scalar := F32.fl

/-- The triangle stored at `i, i + 1, i + 2` is hit by the click `(x, y)`: the
three vertices exist and the click lies, bounds included, in the bounding box of
the three vectors `view * translate * rotate * scale * position` as the code
computes them, in single precision. -/
def F32.HitAt (triangles : List VertexAttributes) (uniform : UniformAttributes) (x y : ℚ)
    (i : Nat) : Prop :=
  ∃ a b c, triangles[i]? = some a ∧ triangles[i + 1]? = some b ∧ triangles[i + 2]? = some c ∧
    InBoundingBox (F32.transform uniform a.position) (F32.transform uniform b.position)
      (F32.transform uniform c.position) x y

/-- The distance of the vertex `v` to `p` as `getNearestVertex` computes it:
`(view * translate * rotate * scale * position - p).norm()` on `float` vectors. -/
def F32.dist (uniform : UniformAttributes) (p : Vec4) (v : VertexAttributes) : ℚ :=
  F32.norm (F32.vsub (F32.transform uniform v.position) p)

/-- The product `T(p_n - p_(n-1)) * (... * (T(p_1 - p_0) * m))` of the translations
by the frame deltas of a drag from the pixel `p0` through the pixels `pts`, every
difference and every matrix product in single precision. -/
def F32.dragTranslate : Int × Int → List (Int × Int) → Mat4 → Mat4
  | _, [], m => m
  | p0, p :: ps, m =>
    F32.dragTranslate p ps
      (F32.mul
        (translation (F32.fsub (F32.xPos p.1) (F32.xPos p0.1))
          (F32.fsub (F32.yPos p.2) (F32.yPos p0.2))) m)

/-- The matrix `currentView` that `changeViewport` builds for the key and for the
values of `zoom` and `delta` it is called with (the identity for a key that is no
view key, where the function builds no matrix). -/
def F32.currentView (key : Char) (zoom delta : ℚ) : Mat4 :=
  if key = ZOOM_IN_KEY then scaling (F32.plusStep (if zoom < 1 then 1 else zoom))
  else if key = ZOOM_OUT_KEY then scaling (F32.minusStep (if zoom > 1 then 1 else zoom))
  else if key = PAN_DOWN_KEY then translation 0 (F32.minusStep (if delta > 0 then 0 else delta))
  else if key = PAN_UP_KEY then translation 0 (F32.plusStep (if delta < 0 then 0 else delta))
  else if key = PAN_RIGHT_KEY then translation (F32.plusStep (if delta < 0 then 0 else delta)) 0
  else if key = PAN_LEFT_KEY then translation (F32.minusStep (if delta > 0 then 0 else delta)) 0
  else identity

/-- A triangle with corners at the pixels (75, 300), (300, 300), (250, 200) is
inserted and the view is zoomed in once (`'W'`). -/
def F32.zoomedEvents : List Event :=
  [Event.mouse_pressed 75 300 true, Event.redraw, Event.mouse_pressed 300 300 true,
   Event.redraw, Event.mouse_pressed 250 200 true, Event.redraw, Event.key_pressed 'W']

/-- The state after `F32.zoomedEvents` (the initial state if the run were to fail). -/
def F32.zoomedState : State :=
  (F32.run F32.sampleEnv (initial RasterViewer.sampleEnv) F32.zoomedEvents).getD
    (initial RasterViewer.sampleEnv)

/-- A triangle with corners at the pixels (300, 400), (200, 400), (250, 100) is
inserted, and the key `'c'` switches to Color mode. -/
def F32.colorEvents : List Event :=
  [Event.mouse_pressed 300 400 true, Event.redraw, Event.mouse_pressed 200 400 true,
   Event.redraw, Event.mouse_pressed 250 100 true, Event.redraw, Event.key_pressed 'c']

/-- The state after `F32.colorEvents` (the initial state if the run were to fail). -/
def F32.colorState : State :=
  (F32.run F32.sampleEnv (initial RasterViewer.sampleEnv) F32.colorEvents).getD
    (initial RasterViewer.sampleEnv)

/-- A triangle with corners at the pixels (0, 499), (499, 499), (250, 0) is inserted,
and the key `'o'` switches to Translation mode. -/
def F32.canvasEvents : List Event :=
  [Event.mouse_pressed 0 499 true, Event.redraw, Event.mouse_pressed 499 499 true,
   Event.redraw, Event.mouse_pressed 250 0 true, Event.redraw, Event.key_pressed 'o']

/-- The state after `F32.canvasEvents` (the initial state if the run were to fail). -/
def F32.canvasState : State :=
  (F32.run F32.sampleEnv (initial RasterViewer.sampleEnv) F32.canvasEvents).getD
    (initial RasterViewer.sampleEnv)

/-- Three clicks in Insertion mode, the redraw of the third not yet run. -/
def F32.pendingState : State :=
  (F32.run F32.sampleEnv (initial RasterViewer.sampleEnv) (insertEvents.take 5)).getD
    (initial RasterViewer.sampleEnv)

/-- The state after a pan to the right (`'a'`) and a zoom in (`'W'`). -/
def F32.pannedState : State :=
  (F32.run F32.sampleEnv (initial RasterViewer.sampleEnv)
    [Event.key_pressed 'a', Event.key_pressed 'W']).getD (initial RasterViewer.sampleEnv)

/-! ## Sample data of the stale barycentre and of the colour key -/

/-- A triangle is inserted, selected in Translation mode and scaled by 1.25
(`deselectEvents`); the key `'m'` sets the animation flag and the key `'n'` runs
the linear animation. -/
def staleCentroidEvents : List Event :=
  deselectEvents ++ [Event.key_pressed 'm', Event.key_pressed 'n']

/-- The state after `staleCentroidEvents`: the selected triangle, scaled by 1.25,
has been moved by the linear animation (the initial state if the run were to
fail). -/
def staleCentroidState : State :=
  (run sampleEnv (initial sampleEnv) staleCentroidEvents).getD (initial sampleEnv)

/-- The three vertices of the selected triangle of `staleCentroidState`. -/
def staleCentroidVertices : VertexAttributes × VertexAttributes × VertexAttributes :=
  (get3 staleCentroidState.triangles staleCentroidState.selectedTriangle).getD
    (sampleEnv.vertex0, sampleEnv.vertex0, sampleEnv.vertex0)

/-- A triangle is inserted and selected in Translation mode, the key `'m'` sets
the animation flag, the key `'c'` enters Color mode, a click at the pixel
(250, 250) targets the third vertex, and a click on the empty canvas at the
pixel (0, 0) drops the selection. -/
def colorFaultEvents : List Event :=
  insertEvents ++ [Event.key_pressed 'o', Event.mouse_pressed 250 250 false,
    Event.mouse_pressed 250 250 true, Event.key_pressed 'm', Event.key_pressed 'c',
    Event.mouse_pressed 250 250 false, Event.mouse_pressed 0 0 false]

/-- The state after `colorFaultEvents` (the initial state if the run were to fail). -/
def colorFaultState : State :=
  (run sampleEnv (initial sampleEnv) colorFaultEvents).getD (initial sampleEnv)

/-! # Lemmas and theorems -/

/-! ## Vectors, matrices: algebra -/

theorem Mat4.mul_def (a b : Mat4) : a * b = Mat4.mul a b := rfl

theorem Mat4.mulVec_def (a : Mat4) (v : Vec4) : a * v = Mat4.mulVec a v := rfl

theorem Vec4.add_def (a b : Vec4) : a + b = Vec4.add a b := rfl

theorem Vec4.sub_def (a b : Vec4) : a - b = Vec4.sub a b := rfl

theorem Vec4.smul_def (t : ℚ) (a : Vec4) : t * a = Vec4.smul t a := rfl

theorem Vec4.sdiv_def (a : Vec4) (t : ℚ) : a / t = Vec4.sdiv a t := rfl

theorem Mat4.mul_assoc (a b c : Mat4) : a * b * c = a * (b * c) := by
  simp only [Mat4.mul_def, Mat4.mul]
  ext <;> simp only <;> ring

theorem Mat4.identity_mul (a : Mat4) : identity * a = a := by
  simp only [Mat4.mul_def, Mat4.mul, identity]
  ext <;> simp

theorem Mat4.mul_identity (a : Mat4) : a * identity = a := by
  simp only [Mat4.mul_def, Mat4.mul, identity]
  ext <;> simp

/-! ## Vector accesses -/

theorem length_set3 (v : List VertexAttributes) (i : Int)
    (t : VertexAttributes × VertexAttributes × VertexAttributes) :
    (set3 v i t).length = v.length := by
  simp [set3]

theorem at?_eq_some {v : List VertexAttributes} {i : Int} {a : VertexAttributes}
    (h : at? v i = some a) : 0 ≤ i ∧ v[i.toNat]? = some a := by
  unfold at? at h
  split at h
  · exact ⟨by assumption, h⟩
  · cases h

theorem get3_eq_some {v : List VertexAttributes} {i : Int}
    {t : VertexAttributes × VertexAttributes × VertexAttributes} (h : get3 v i = some t) :
    at? v i = some t.1 ∧ at? v (i + 1) = some t.2.1 ∧ at? v (i + 2) = some t.2.2 := by
  unfold get3 at h
  split at h
  · rename_i a b c ha hb hc
    cases h
    exact ⟨ha, hb, hc⟩
  · cases h

theorem get3_bounds {v : List VertexAttributes} {i : Int}
    {t : VertexAttributes × VertexAttributes × VertexAttributes} (h : get3 v i = some t) :
    0 ≤ i ∧ i + 2 < v.length := by
  obtain ⟨h0, _, h2⟩ := get3_eq_some h
  have a0 := (at?_eq_some h0).1
  have a2 := (at?_eq_some h2).2
  have hlt : (i + 2).toNat < v.length := by
    by_contra hc
    rw [List.getElem?_eq_none (by omega)] at a2
    cases a2
  exact ⟨a0, by omega⟩

/-! ## The hit test: range of the result -/

theorem getSelectedTriangleIndexFrom_range (uniform : UniformAttributes) (x_pos y_pos : ℚ) :
    ∀ (n : Nat) (l : List VertexAttributes) (i : Nat), l.length ≤ n →
      getSelectedTriangleIndexFrom uniform x_pos y_pos i l = -1 ∨
      ∃ k : Nat, getSelectedTriangleIndexFrom uniform x_pos y_pos i l = ((i + 3 * k : Nat) : Int)
        ∧ 3 * k + 3 ≤ l.length := by
  intro n
  induction n with
  | zero =>
    intro l i hl
    have : l = [] := List.length_eq_zero.mp (by omega)
    subst this
    left
    rfl
  | succ n ih =>
    intro l i hl
    match l with
    | [] => left; rfl
    | [_] => left; rfl
    | [_, _] => left; rfl
    | a :: b :: c :: rest =>
      rw [getSelectedTriangleIndexFrom]
      split
      · right
        exact ⟨0, by simp, by simp⟩
      · rcases ih rest (i + 3) (by simp at hl; omega) with h | ⟨k, hk, hk2⟩
        · left; exact h
        · right
          refine ⟨k + 1, ?_, by simp; omega⟩
          rw [hk]
          congr 1
          omega

theorem getSelectedTriangleIndex_range (triangles : List VertexAttributes)
    (uniform : UniformAttributes) (x_pos y_pos : ℚ) :
    getSelectedTriangleIndex triangles uniform x_pos y_pos = -1 ∨
    ∃ k : Nat, getSelectedTriangleIndex triangles uniform x_pos y_pos = ((3 * k : Nat) : Int)
      ∧ 3 * k + 3 ≤ triangles.length := by
  rcases getSelectedTriangleIndexFrom_range uniform x_pos y_pos triangles.length triangles 0
    (le_refl _) with h | ⟨k, hk, hk2⟩
  · left; exact h
  · right
    refine ⟨k, ?_, hk2⟩
    rw [getSelectedTriangleIndex, hk]
    congr 1
    omega

theorem length_erase3 (triangles : List VertexAttributes) (index : Nat)
    (h : index + 3 ≤ triangles.length) :
    (erase3 triangles index).length + 3 = triangles.length := by
  simp [erase3]
  omega

theorem length_deleteTriangle (triangles : List VertexAttributes) (uniform : UniformAttributes)
    (x_pos y_pos : ℚ) (redraw_next : Bool) (h : triangles.length % 3 = 0) :
    (deleteTriangle triangles uniform x_pos y_pos redraw_next).1.length % 3 = 0 := by
  unfold deleteTriangle
  simp only
  split
  · rename_i hge
    rcases getSelectedTriangleIndex_range triangles uniform x_pos y_pos with h1 | ⟨k, hk, hk2⟩
    · rw [h1] at hge
      omega
    · have := length_erase3 triangles (3 * k) hk2
      rw [hk]
      simp only [Int.toNat_ofNat]
      omega
  · exact h

/-! ## The triangle list holds whole triangles -/

theorem commit_length {s s' : State} (h : commit s = some s') :
    s'.triangles.length = s.triangles.length + s.triangleVertices.length ∧
    s'.triangleVertices = [] ∧ s'.numOfClicks = 0 := by
  unfold commit at h
  split at h
  · cases h
    simp
  · cases h

theorem redraw_inv {s s' : State} (h : redraw s = some s') (hi : Inv s) : Inv s' := by
  unfold redraw at h
  simp only at h
  split at h
  · rename_i d hd
    cases h
    simp only [Inv]
    split at hd
    · split at hd
      · cases hd; exact hi
      · split at hd
        · split at hd
          · cases hd; exact hi
          · cases hd
        · split at hd
          · rename_i h3
            obtain ⟨h1, h2, h4⟩ := commit_length hd
            rw [h1, h2, h4]
            have := hi.2
            have := hi.1
            simp
            omega
          · cases hd; exact hi
    · cases hd; exact hi
  · cases h

theorem animationFrame_inv {p : Vec4 × Vec4 × Vec4} {s s' : State}
    (h : animationFrame p s = some s') (hi : Inv s) : Inv s' := by
  unfold animationFrame at h
  split at h
  · refine redraw_inv h ?_
    simp only [Inv, length_set3]
    exact hi
  · cases h

theorem animate_inv (f : ℚ → Vec4 × Vec4 × Vec4) :
    ∀ (ts : List ℚ) {s s' : State}, animate f ts s = some s' → Inv s → Inv s' := by
  intro ts
  induction ts with
  | nil =>
    intro s s' h hi
    simp only [animate] at h
    cases h
    exact hi
  | cons t ts ih =>
    intro s s' h hi
    simp only [animate] at h
    split at h
    · rename_i s1 h1
      exact ih h (animationFrame_inv h1 hi)
    · cases h

theorem animationBlock_inv {key key' : Char} {s s' : State}
    (h : animationBlock key s = some (key', s')) (hi : Inv s) : Inv s' := by
  unfold animationBlock at h
  split at h
  · split at h
    · simp only at h
      split at h
      · split at h
        · rename_i s1 h1
          cases h
          have h2 : Inv s1 := animate_inv _ _ h1 hi
          exact h2
        · cases h
      · split at h
        · split at h
          · rename_i s1 h1
            cases h
            have h2 : Inv s1 := animate_inv _ _ h1 hi
            exact h2
          · cases h
        · cases h
          exact hi
    · cases h
  · cases h
    exact hi

theorem length_onTriangle
    {f : VertexAttributes → VertexAttributes → VertexAttributes → UniformAttributes →
      (VertexAttributes × VertexAttributes × VertexAttributes) × UniformAttributes}
    {triangles : List VertexAttributes} {uniform : UniformAttributes} {i : Int}
    {r : List VertexAttributes × UniformAttributes}
    (h : onTriangle f triangles uniform i = some r) : r.1.length = triangles.length := by
  unfold onTriangle at h
  split at h
  · cases h
    simp [length_set3]
  · cases h

theorem length_performTranslationAction {E : Env} {key : Char}
    {triangles : List VertexAttributes} {uniform : UniformAttributes} {i : Int}
    {r : List VertexAttributes × UniformAttributes}
    (h : performTranslationAction E key triangles uniform i = some r) :
    r.1.length = triangles.length := by
  unfold performTranslationAction at h
  split at h
  · exact length_onTriangle h
  · split at h
    · exact length_onTriangle h
    · split at h
      · exact length_onTriangle h
      · split at h
        · exact length_onTriangle h
        · cases h
          rfl

theorem keyAction_inv {E : Env} {key : Char} {s s' : State}
    (h : keyAction E key s = some s') (hi : Inv s) : Inv s' := by
  unfold keyAction at h
  split at h
  · split at h
    · split at h
      · rename_i tr u hp
        cases h
        have := length_performTranslationAction hp
        simp only [Inv] at hi ⊢
        simp only at this
        rw [this]
        exact hi
      · cases h
    · cases h; exact hi
  · split at h
    · split at h
      · split at h
        · split at h
          · cases h
            simp only [Inv, List.length_set]
            exact hi
          · cases h
        · cases h; exact hi
      · cases h; exact hi
    · cases h; exact hi

theorem changeViewport_inv {key : Char} {zoom delta : ℚ} {s s' : State}
    (h : changeViewport key zoom delta s = some s') (hi : Inv s) : Inv s' := by
  unfold changeViewport at h
  simp only at h
  split at h
  · exact redraw_inv h hi
  · split at h
    · exact redraw_inv h hi
    · split at h
      · exact redraw_inv h hi
      · split at h
        · exact redraw_inv h hi
        · split at h
          · exact redraw_inv h hi
          · split at h
            · exact redraw_inv h hi
            · cases h; exact hi

theorem key_pressed_inv {E : Env} {key : Char} {s s' : State}
    (h : key_pressed E key s = some s') (hi : Inv s) : Inv s' := by
  unfold key_pressed at h
  simp only at h
  split at h
  · rename_i k1 s1 h1
    split at h
    · rename_i s2 h2
      refine changeViewport_inv h (keyAction_inv h2 (animationBlock_inv h1 ?_))
      split <;> exact hi
    · cases h
  · cases h

theorem mouse_move_inv {E : Env} {x y : Int} {s s' : State}
    (h : mouse_move E x y s = some s') (hi : Inv s) : Inv s' := by
  unfold mouse_move at h
  simp only at h
  split at h
  · split at h
    · cases h; exact hi
    · cases h; exact hi
  · split at h
    · split at h
      · split at h
        · rename_i s1 h1
          split at h
          · rename_i tr u ho
            cases h
            have hl := length_onTriangle ho
            simp only at hl
            have : s1.triangles = s.triangles ∧ s1.triangleVertices = s.triangleVertices ∧
                s1.numOfClicks = s.numOfClicks := by
              split at h1
              · split at h1
                · cases h1; simp
                · cases h1
              · cases h1; simp
            simp only [Inv] at hi ⊢
            rw [hl, this.1, this.2.1, this.2.2]
            exact hi
          · cases h
        · cases h
      · cases h; exact hi
    · cases h; exact hi

theorem length_setColorAt {triangles r : List VertexAttributes} {i : Int} {color : Vec4}
    (h : setColorAt triangles i color = some r) : r.length = triangles.length := by
  unfold setColorAt at h
  split at h
  · cases h
    simp [length_set3]
  · cases h

theorem mouse_pressed_inv {E : Env} {x y : Int} {up : Bool} {s s' : State}
    (h : mouse_pressed E x y up s = some s') (hi : Inv s) : Inv s' := by
  unfold mouse_pressed at h
  simp only at h
  split at h
  · split at h
    · cases h
      simp only [Inv, List.length_append, List.length_singleton]
      exact ⟨hi.1, by rw [hi.2]⟩
    · cases h; exact hi
  · split at h
    · cases h
      exact ⟨length_deleteTriangle _ _ _ _ _ hi.1, hi.2⟩
    · split at h
      · split at h
        · split at h
          · split at h
            · rename_i tr hc
              cases h
              have := length_setColorAt hc
              simp only [Inv] at hi ⊢
              simp only at this
              rw [this]
              exact hi
            · cases h
          · cases h; exact hi
        · split at h
          · split at h
            · split at h <;> (cases h; exact hi)
            · cases h; exact hi
          · split at h
            · split at h
              · rename_i tr hc
                cases h
                have := length_setColorAt hc
                simp only [Inv] at hi ⊢
                simp only at this
                rw [this]
                exact hi
              · cases h
            · cases h; exact hi
      · split at h
        · split at h
          · cases h; exact hi
          · cases h
        · cases h; exact hi

theorem step_inv {E : Env} {e : Event} {s s' : State}
    (h : step E s e = some s') (hi : Inv s) : Inv s' := by
  cases e with
  | mouse_move x y => exact mouse_move_inv h hi
  | mouse_pressed x y up => exact mouse_pressed_inv h hi
  | key_pressed key => exact key_pressed_inv h hi
  | redraw => exact redraw_inv h hi

theorem run_inv {E : Env} : ∀ (es : List Event) {s s' : State},
    run E s es = some s' → Inv s → Inv s' := by
  intro es
  induction es with
  | nil =>
    intro s s' h hi
    simp only [run] at h
    cases h
    exact hi
  | cons e es ih =>
    intro s s' h hi
    simp only [run] at h
    split at h
    · rename_i s1 h1
      exact ih h (step_inv h1 hi)
    · cases h

theorem initial_inv (E : Env) : Inv (initial E) := ⟨rfl, rfl⟩

/-! ## The click counter is bounded by the number of events -/

theorem redraw_clicks {s s' : State} (h : redraw s = some s') :
    s'.numOfClicks ≤ s.numOfClicks := by
  unfold redraw at h
  simp only at h
  split at h
  · rename_i d hd
    cases h
    simp only
    split at hd
    · split at hd
      · cases hd; exact le_refl _
      · split at hd
        · split at hd
          · cases hd; exact le_refl _
          · cases hd
        · split at hd
          · rw [(commit_length hd).2.2]
            exact Nat.zero_le _
          · cases hd; exact le_refl _
    · cases hd; exact le_refl _
  · cases h

theorem animationFrame_clicks {p : Vec4 × Vec4 × Vec4} {s s' : State}
    (h : animationFrame p s = some s') : s'.numOfClicks ≤ s.numOfClicks := by
  unfold animationFrame at h
  split at h
  · have := redraw_clicks h
    exact this
  · cases h

theorem animate_clicks (f : ℚ → Vec4 × Vec4 × Vec4) :
    ∀ (ts : List ℚ) {s s' : State}, animate f ts s = some s' →
      s'.numOfClicks ≤ s.numOfClicks := by
  intro ts
  induction ts with
  | nil =>
    intro s s' h
    simp only [animate] at h
    cases h
    exact le_refl _
  | cons t ts ih =>
    intro s s' h
    simp only [animate] at h
    split at h
    · rename_i s1 h1
      exact le_trans (ih h) (animationFrame_clicks h1)
    · cases h

theorem animationBlock_clicks {key key' : Char} {s s' : State}
    (h : animationBlock key s = some (key', s')) : s'.numOfClicks ≤ s.numOfClicks := by
  unfold animationBlock at h
  split at h
  · split at h
    · simp only at h
      split at h
      · split at h
        · rename_i s1 h1
          cases h
          have h2 := animate_clicks _ _ h1
          exact h2
        · cases h
      · split at h
        · split at h
          · rename_i s1 h1
            cases h
            have h2 := animate_clicks _ _ h1
            exact h2
          · cases h
        · cases h
          exact le_refl _
    · cases h
  · cases h
    exact le_refl _

theorem keyAction_clicks {E : Env} {key : Char} {s s' : State}
    (h : keyAction E key s = some s') : s'.numOfClicks = s.numOfClicks := by
  unfold keyAction at h
  split at h
  · split at h
    · split at h
      · cases h; rfl
      · cases h
    · cases h; rfl
  · split at h
    · split at h
      · split at h
        · split at h
          · cases h; rfl
          · cases h
        · cases h; rfl
      · cases h; rfl
    · cases h; rfl

theorem changeViewport_clicks {key : Char} {zoom delta : ℚ} {s s' : State}
    (h : changeViewport key zoom delta s = some s') : s'.numOfClicks ≤ s.numOfClicks := by
  unfold changeViewport at h
  simp only at h
  split at h
  · (have r := redraw_clicks h; exact r)
  · split at h
    · (have r := redraw_clicks h; exact r)
    · split at h
      · (have r := redraw_clicks h; exact r)
      · split at h
        · (have r := redraw_clicks h; exact r)
        · split at h
          · (have r := redraw_clicks h; exact r)
          · split at h
            · (have r := redraw_clicks h; exact r)
            · cases h; exact le_refl _

theorem key_pressed_clicks {E : Env} {key : Char} {s s' : State}
    (h : key_pressed E key s = some s') : s'.numOfClicks ≤ s.numOfClicks := by
  unfold key_pressed at h
  simp only at h
  split at h
  · rename_i k1 s1 h1
    split at h
    · rename_i s2 h2
      have a := animationBlock_clicks h1
      have b := keyAction_clicks h2
      have c := changeViewport_clicks h
      have d : (if key = ANIMATION_MODE_KEY then
          ({ s with console := s.console ++ (setCurrentMode key s.currentMode).1,
                    currentMode := (setCurrentMode key s.currentMode).2,
                    animationMode := true } : State)
        else { s with console := s.console ++ (setCurrentMode key s.currentMode).1,
                      currentMode := (setCurrentMode key s.currentMode).2 }).numOfClicks
          = s.numOfClicks := by
        split <;> rfl
      omega
    · cases h
  · cases h

theorem mouse_move_clicks {E : Env} {x y : Int} {s s' : State}
    (h : mouse_move E x y s = some s') : s'.numOfClicks = s.numOfClicks := by
  unfold mouse_move at h
  simp only at h
  split at h
  · split at h
    · cases h; rfl
    · cases h; rfl
  · split at h
    · split at h
      · split at h
        · rename_i s1 h1
          split at h
          · cases h
            have : s1.numOfClicks = s.numOfClicks := by
              split at h1
              · split at h1
                · cases h1; rfl
                · cases h1
              · cases h1; rfl
            exact this
          · cases h
        · cases h
      · cases h; rfl
    · cases h; rfl

theorem mouse_pressed_clicks {E : Env} {x y : Int} {up : Bool} {s s' : State}
    (h : mouse_pressed E x y up s = some s') : s'.numOfClicks ≤ s.numOfClicks + 1 := by
  unfold mouse_pressed at h
  simp only at h
  by_cases h1 : s.currentMode = Mode.INSERTION_MODE
  · rw [if_pos h1] at h
    split at h
    · cases h; exact le_refl _
    · cases h; exact Nat.le_succ _
  · rw [if_neg h1] at h
    by_cases h3 : s.currentMode = Mode.DELETION_MODE
    · rw [if_pos h3] at h
      cases h
      exact Nat.le_succ _
    · rw [if_neg h3] at h
      by_cases h2 : s.currentMode = Mode.TRANSLATION_MODE
      · rw [if_pos h2] at h
        split at h
        · split at h
          · split at h
            · cases h; exact Nat.le_succ _
            · cases h
          · cases h; exact Nat.le_succ _
        · split at h
          · split at h
            · split at h <;> (cases h; exact Nat.le_succ _)
            · cases h; exact Nat.le_succ _
          · split at h
            · split at h
              · cases h; exact Nat.le_succ _
              · cases h
            · cases h; exact Nat.le_succ _
      · rw [if_neg h2] at h
        split at h
        · split at h
          · cases h; exact Nat.le_succ _
          · cases h
        · cases h; exact Nat.le_succ _

theorem step_clicks {E : Env} {e : Event} {s s' : State}
    (h : step E s e = some s') : s'.numOfClicks ≤ s.numOfClicks + 1 := by
  cases e with
  | mouse_move x y => exact le_trans (le_of_eq (mouse_move_clicks h)) (Nat.le_succ _)
  | mouse_pressed x y up => exact mouse_pressed_clicks h
  | key_pressed key => exact le_trans (key_pressed_clicks h) (Nat.le_succ _)
  | redraw => exact le_trans (redraw_clicks h) (Nat.le_succ _)

/-- The click counter grows by at most one an event: in a run of fewer than 2^32
events it stays below 2^32, the range of the `unsigned` counter of the source. -/
theorem run_clicks {E : Env} : ∀ (es : List Event) {s s' : State},
    run E s es = some s' → s'.numOfClicks ≤ s.numOfClicks + es.length := by
  intro es
  induction es with
  | nil =>
    intro s s' h
    simp only [run] at h
    cases h
    exact le_refl _
  | cons e es ih =>
    intro s s' h
    simp only [run] at h
    split at h
    · rename_i s1 h1
      have a := ih h
      have b := step_clicks h1
      simp only [List.length_cons]
      omega
    · cases h

/-! ## C1 -/

/-- C1: in every state reachable from the initial state by mouse-press,
mouse-move, key and redraw events in which every vector access is in range, the
number of vertices of the triangle list is a multiple of 3; there, the commit of
`redraw` (click counter 3) adds exactly three vertices, and `deleteTriangle`
removes exactly three or none. The click counter is the number of pending
vertices and at most the number of events of the run. -/
theorem triangles_length_multiple_of_three (E : Env) (es : List Event) (s : State)
    (h : run E (initial E) es = some s) :
    s.triangles.length % 3 = 0 ∧
    s.numOfClicks = s.triangleVertices.length ∧ s.numOfClicks ≤ es.length ∧
    (∀ s', s.numOfClicks = 3 → commit s = some s' →
      s'.triangles.length = s.triangles.length + 3) ∧
    (∀ x_pos y_pos redraw_next,
      (deleteTriangle s.triangles s.uniform x_pos y_pos redraw_next).1.length + 3
          = s.triangles.length ∨
      (deleteTriangle s.triangles s.uniform x_pos y_pos redraw_next).1 = s.triangles) := by
  have hi : Inv s := run_inv es h (initial_inv E)
  have hc := run_clicks es h
  refine ⟨hi.1, hi.2, by simpa [initial] using hc, ?_, ?_⟩
  · intro s' h3 hc
    rw [(commit_length hc).1, ← hi.2, h3]
  · intro x_pos y_pos redraw_next
    unfold deleteTriangle
    simp only
    split
    · rename_i hge
      left
      rcases getSelectedTriangleIndex_range s.triangles s.uniform x_pos y_pos with
        h1 | ⟨k, hk, hk2⟩
      · rw [h1] at hge
        omega
      · rw [hk]
        exact length_erase3 _ _ hk2
    · right
      rfl

/-- C1, witness: the run `insertEvents` ends in a state with one triangle. -/
theorem triangles_length_multiple_of_three_witness :
    run sampleEnv (initial sampleEnv) insertEvents = some insertedState ∧
    insertedState.triangles.length = 3 ∧ insertedState.triangles.length % 3 = 0 :=
  have hc : run sampleEnv (initial sampleEnv) insertEvents = some insertedState ∧
      insertedState.triangles.length = 3 := by decide!
  ⟨hc.1, hc.2,
   (triangles_length_multiple_of_three sampleEnv insertEvents insertedState hc.1).1⟩

/-! ## The box of the hit test -/

theorem boxHit_iff (uniform : UniformAttributes) (x y : ℚ) (a b c : VertexAttributes) :
    boxHit uniform x y a b c = true ↔
      InBoundingBox (uniform.view * uniform.translate * uniform.rotate * uniform.scale * a.position)
        (uniform.view * uniform.translate * uniform.rotate * uniform.scale * b.position)
        (uniform.view * uniform.translate * uniform.rotate * uniform.scale * c.position) x y := by
  simp only [boxHit, AlignedBox3d.extend, AlignedBox3d.contains, get3DPositionVector,
    InBoundingBox, UniformAttributes.composed, Bool.and_eq_true, decide_eq_true_eq]
  tauto

theorem inBoundingBox_iff_plane {p q r : Vec4} (x y : ℚ) (hp : p.z = 0) (hq : q.z = 0)
    (hr : r.z = 0) : InBoundingBox p q r x y ↔ InBoundingBox2 p q r x y := by
  simp [InBoundingBox, InBoundingBox2, hp, hq, hr]

/-! ## C3 -/

/-- A mouse press in Deletion mode is a call of `deleteTriangle`. -/
theorem mouse_pressed_deletion (E : Env) (s : State) (x y : Int) (up : Bool)
    (hm : s.currentMode = Mode.DELETION_MODE) :
    mouse_pressed E x y up s = some
      { s with
        triangles := (deleteTriangle s.triangles s.uniform (xPos x) (yPos y) s.redraw_next).1
        uniform := (deleteTriangle s.triangles s.uniform (xPos x) (yPos y) s.redraw_next).2.1
        redraw_next :=
          (deleteTriangle s.triangles s.uniform (xPos x) (yPos y) s.redraw_next).2.2 } := by
  have hi : s.currentMode ≠ Mode.INSERTION_MODE := by rw [hm]; decide
  simp only [mouse_pressed, if_neg hi, if_pos hm]

/-- C3: when the click hits a triangle, `deleteTriangle` leaves `translate`,
`rotate` and `scale` equal to the identity, `scale_factor = 1`,
`rotate_radians = 0` and `translate_delta = 0`; so does a mouse press in Deletion
mode, which calls it. -/
theorem deleteTriangle_resets_object_transforms (triangles : List VertexAttributes)
    (uniform : UniformAttributes) (x_pos y_pos : ℚ) (redraw_next : Bool)
    (hit : 0 ≤ getSelectedTriangleIndex triangles uniform x_pos y_pos) :
    ((deleteTriangle triangles uniform x_pos y_pos redraw_next).2.1.translate = identity ∧
    (deleteTriangle triangles uniform x_pos y_pos redraw_next).2.1.rotate = identity ∧
    (deleteTriangle triangles uniform x_pos y_pos redraw_next).2.1.scale = identity ∧
    (deleteTriangle triangles uniform x_pos y_pos redraw_next).2.1.scale_factor = 1 ∧
    (deleteTriangle triangles uniform x_pos y_pos redraw_next).2.1.rotate_radians = 0 ∧
    (deleteTriangle triangles uniform x_pos y_pos redraw_next).2.1.translate_delta
      = ⟨0, 0, 0, 0⟩) ∧
    (∀ (E : Env) (s : State) (x y : Int) (up : Bool),
      s.currentMode = Mode.DELETION_MODE → s.triangles = triangles → s.uniform = uniform →
      xPos x = x_pos → yPos y = y_pos →
      ∃ s', mouse_pressed E x y up s = some s' ∧
        s'.uniform.translate = identity ∧ s'.uniform.rotate = identity ∧
        s'.uniform.scale = identity ∧ s'.uniform.scale_factor = 1 ∧
        s'.uniform.rotate_radians = 0 ∧ s'.uniform.translate_delta = ⟨0, 0, 0, 0⟩) := by
  have hfun : ∀ b : Bool,
      (deleteTriangle triangles uniform x_pos y_pos b).2.1 = resetUniform uniform := by
    intro b
    simp [deleteTriangle, hit]
  refine ⟨?_, ?_⟩
  · rw [hfun]
    exact ⟨rfl, rfl, rfl, rfl, rfl, rfl⟩
  · intro E s x y up hm ht hu hx hy
    subst ht hu hx hy
    refine ⟨_, mouse_pressed_deletion E s x y up hm, ?_⟩
    simp only [hfun]
    exact ⟨rfl, rfl, rfl, rfl, rfl, rfl⟩

/-- C3, witness: a click at the pixel (250, 250) hits the triangle of
`insertedState`. -/
theorem deleteTriangle_resets_object_transforms_witness :
    0 ≤ getSelectedTriangleIndex insertedState.triangles insertedState.uniform
      (xPos 250) (yPos 250) ∧
    (deleteTriangle insertedState.triangles insertedState.uniform (xPos 250) (yPos 250)
      false).2.1.scale = identity :=
  have hc : 0 ≤ getSelectedTriangleIndex insertedState.triangles insertedState.uniform
      (xPos 250) (yPos 250) := by decide!
  ⟨hc,
   (deleteTriangle_resets_object_transforms insertedState.triangles insertedState.uniform
     (xPos 250) (yPos 250) false hc).1.2.2.1⟩

/-! ## What the handlers leave unchanged -/

/-- Callback `redraw` changes nothing but the click counter, the three vertex lists and
the list of frames. -/
theorem redraw_frame {s s' : State} (h : redraw s = some s') :
    s' = { s with
      numOfClicks := s'.numOfClicks
      triangles := s'.triangles
      lines := s'.lines
      triangleVertices := s'.triangleVertices
      frames := s'.frames } := by
  unfold redraw at h
  simp only at h
  split at h
  · rename_i d hd
    cases h
    have : d = { s with
        numOfClicks := d.numOfClicks
        triangles := d.triangles
        lines := d.lines
        triangleVertices := d.triangleVertices } := by
      split at hd
      · split at hd
        · cases hd; rfl
        · split at hd
          · split at hd
            · cases hd; rfl
            · cases hd
          · split at hd
            · unfold commit at hd
              split at hd
              · cases hd; rfl
              · cases hd
            · cases hd; rfl
      · cases hd; rfl
    rw [this]
  · cases h

theorem redraw_uniform {s s' : State} (h : redraw s = some s') : s'.uniform = s.uniform := by
  rw [redraw_frame h]

theorem animationFrame_uniform {p : Vec4 × Vec4 × Vec4} {s s' : State}
    (h : animationFrame p s = some s') : s'.uniform = s.uniform := by
  unfold animationFrame at h
  split at h
  · have := redraw_uniform h
    exact this
  · cases h

theorem animate_uniform (f : ℚ → Vec4 × Vec4 × Vec4) :
    ∀ (ts : List ℚ) {s s' : State}, animate f ts s = some s' → s'.uniform = s.uniform := by
  intro ts
  induction ts with
  | nil =>
    intro s s' h
    simp only [animate] at h
    cases h
    rfl
  | cons t ts ih =>
    intro s s' h
    simp only [animate] at h
    split at h
    · rename_i s1 h1
      rw [ih h, animationFrame_uniform h1]
    · cases h

/-- The animation block leaves `view` alone, and hands on the key it was given
or the exit key `'q'`. -/
theorem animationBlock_view {key key' : Char} {s s' : State}
    (h : animationBlock key s = some (key', s')) :
    s'.uniform.view = s.uniform.view ∧ (key' = key ∨ key' = 'q') := by
  unfold animationBlock at h
  split at h
  · split at h
    · simp only at h
      split at h
      · split at h
        · rename_i s1 h1
          cases h
          have := animate_uniform _ _ h1
          simp only at this
          exact ⟨by rw [this], Or.inr rfl⟩
        · cases h
      · split at h
        · split at h
          · rename_i s1 h1
            cases h
            have := animate_uniform _ _ h1
            simp only at this
            exact ⟨by rw [this], Or.inr rfl⟩
          · cases h
        · cases h
          exact ⟨rfl, Or.inl rfl⟩
    · cases h
  · cases h
    exact ⟨rfl, Or.inl rfl⟩

theorem onTriangle_view
    {f : VertexAttributes → VertexAttributes → VertexAttributes → UniformAttributes →
      (VertexAttributes × VertexAttributes × VertexAttributes) × UniformAttributes}
    (hf : ∀ v1 v2 v3 u, (f v1 v2 v3 u).2.view = u.view)
    {triangles : List VertexAttributes} {uniform : UniformAttributes} {i : Int}
    {r : List VertexAttributes × UniformAttributes}
    (h : onTriangle f triangles uniform i = some r) : r.2.view = uniform.view := by
  unfold onTriangle at h
  split at h
  · cases h
    exact hf _ _ _ _
  · cases h

theorem performTranslationAction_view {E : Env} {key : Char}
    {triangles : List VertexAttributes} {uniform : UniformAttributes} {i : Int}
    {r : List VertexAttributes × UniformAttributes}
    (h : performTranslationAction E key triangles uniform i = some r) :
    r.2.view = uniform.view := by
  unfold performTranslationAction at h
  split at h
  · rw [onTriangle_view (fun _ _ _ _ => rfl) h]
    split <;> rfl
  · split at h
    · rw [onTriangle_view (fun _ _ _ _ => rfl) h]
      split <;> rfl
    · split at h
      · rw [onTriangle_view (fun _ _ _ _ => rfl) h]
        split <;> rfl
      · split at h
        · rw [onTriangle_view (fun _ _ _ _ => rfl) h]
          split <;> rfl
        · cases h
          rfl

theorem keyAction_view {E : Env} {key : Char} {s s' : State}
    (h : keyAction E key s = some s') : s'.uniform.view = s.uniform.view := by
  unfold keyAction at h
  split at h
  · split at h
    · split at h
      · rename_i tr u hp
        cases h
        exact performTranslationAction_view hp
      · cases h
    · cases h; rfl
  · split at h
    · split at h
      · split at h
        · split at h
          · cases h; rfl
          · cases h
        · cases h; rfl
      · cases h; rfl
    · cases h; rfl

/-- A key that is none of the six view keys leaves the state as it is. -/
theorem changeViewport_other {key : Char} {zoom delta : ℚ} {s : State}
    (h1 : key ≠ ZOOM_IN_KEY) (h2 : key ≠ ZOOM_OUT_KEY) (h3 : key ≠ PAN_DOWN_KEY)
    (h4 : key ≠ PAN_UP_KEY) (h5 : key ≠ PAN_RIGHT_KEY) (h6 : key ≠ PAN_LEFT_KEY) :
    changeViewport key zoom delta s = some s := by
  unfold changeViewport
  simp only [if_neg h1, if_neg h2, if_neg h3, if_neg h4, if_neg h5, if_neg h6]

theorem mouse_move_view {E : Env} {x y : Int} {s s' : State}
    (h : mouse_move E x y s = some s') : s'.uniform.view = s.uniform.view := by
  unfold mouse_move at h
  simp only at h
  split at h
  · split at h
    · cases h; rfl
    · cases h; rfl
  · split at h
    · split at h
      · split at h
        · rename_i s1 h1
          split at h
          · rename_i tr u ho
            cases h
            have hv := onTriangle_view (fun _ _ _ _ => rfl) ho
            simp only at hv
            have : s1.uniform = s.uniform := by
              split at h1
              · split at h1
                · cases h1; rfl
                · cases h1
              · cases h1; rfl
            simp only
            rw [hv, this]
          · cases h
        · cases h
      · cases h; rfl
    · cases h; rfl

/-- Outside Deletion mode a mouse press leaves the whole uniform state alone. -/
theorem mouse_pressed_uniform {E : Env} {x y : Int} {up : Bool} {s s' : State}
    (hm : s.currentMode ≠ Mode.DELETION_MODE)
    (h : mouse_pressed E x y up s = some s') : s'.uniform = s.uniform := by
  unfold mouse_pressed at h
  simp only at h
  by_cases h1 : s.currentMode = Mode.INSERTION_MODE
  · rw [if_pos h1] at h
    split at h <;> (cases h; rfl)
  · rw [if_neg h1, if_neg hm] at h
    by_cases h2 : s.currentMode = Mode.TRANSLATION_MODE
    · rw [if_pos h2] at h
      split at h
      · split at h
        · split at h
          · cases h; rfl
          · cases h
        · cases h; rfl
      · split at h
        · split at h
          · split at h <;> (cases h; rfl)
          · cases h; rfl
        · split at h
          · split at h
            · cases h; rfl
            · cases h
          · cases h; rfl
    · rw [if_neg h2] at h
      split at h
      · split at h
        · cases h; rfl
        · cases h
      · cases h; rfl

/-! ## C4 -/

/-- C4, counterexample: after a pan, a click in Deletion mode that hits the
triangle deletes it and puts `view` back to the identity: `view` is changed by an
object-level action. -/
theorem delete_resets_view_counterexample :
    run sampleEnv (initial sampleEnv) panDeleteEvents = some pannedState ∧
    pannedState.currentMode = Mode.DELETION_MODE ∧
    0 ≤ getSelectedTriangleIndex pannedState.triangles pannedState.uniform
      (xPos 300) (yPos 250) ∧
    mouse_pressed sampleEnv 300 250 false pannedState = some deletedState ∧
    pannedState.uniform.view = translation (1 / 5) 0 ∧
    deletedState.uniform.view = identity ∧
    deletedState.uniform.view ≠ pannedState.uniform.view := by
  refine ⟨?_, ?_, ?_, ?_, ?_, ?_, ?_⟩ <;> decide!

theorem key_pressed_view {E : Env} {key : Char} {s s' : State}
    (h : key_pressed E key s = some s')
    (h1 : key ≠ ZOOM_IN_KEY) (h2 : key ≠ ZOOM_OUT_KEY) (h3 : key ≠ PAN_DOWN_KEY)
    (h4 : key ≠ PAN_UP_KEY) (h5 : key ≠ PAN_RIGHT_KEY) (h6 : key ≠ PAN_LEFT_KEY) :
    s'.uniform.view = s.uniform.view := by
  unfold key_pressed at h
  simp only at h
  split at h
  · rename_i k1 s1 hb
    split at h
    · rename_i s2 ha
      obtain ⟨hv1, hk⟩ := animationBlock_view hb
      have hv2 := keyAction_view ha
      have hk1 : k1 ≠ ZOOM_IN_KEY ∧ k1 ≠ ZOOM_OUT_KEY ∧ k1 ≠ PAN_DOWN_KEY ∧ k1 ≠ PAN_UP_KEY ∧
          k1 ≠ PAN_RIGHT_KEY ∧ k1 ≠ PAN_LEFT_KEY := by
        rcases hk with hk | hk
        · rw [hk]
          exact ⟨h1, h2, h3, h4, h5, h6⟩
        · rw [hk]
          decide
      rw [changeViewport_other hk1.1 hk1.2.1 hk1.2.2.1 hk1.2.2.2.1 hk1.2.2.2.2.1
        hk1.2.2.2.2.2] at h
      cases h
      rw [hv2, hv1]
      split <;> rfl
    · cases h
  · cases h

/-- C4, amended: a click in Deletion mode that hits a triangle sets `view` to
the identity; every other event that changes `view` is one of the zoom and pan
keys `W V w s a d`. So selecting, deselecting, dragging, scaling and rotating a
triangle leave `view` unchanged, and deleting one does not. -/
theorem view_changes_only_by_view_keys_and_delete (E : Env) (s s' : State) (e : Event)
    (h : step E s e = some s') :
    (∀ x y up, e = Event.mouse_pressed x y up → s.currentMode = Mode.DELETION_MODE →
      0 ≤ getSelectedTriangleIndex s.triangles s.uniform (xPos x) (yPos y) →
      s'.uniform.view = identity) ∧
    (s'.uniform.view ≠ s.uniform.view →
      (∃ key, e = Event.key_pressed key ∧
        key ∈ [ZOOM_IN_KEY, ZOOM_OUT_KEY, PAN_DOWN_KEY, PAN_UP_KEY, PAN_RIGHT_KEY,
          PAN_LEFT_KEY]) ∨
      (∃ x y up, e = Event.mouse_pressed x y up ∧ s.currentMode = Mode.DELETION_MODE ∧
        0 ≤ getSelectedTriangleIndex s.triangles s.uniform (xPos x) (yPos y))) := by
  cases e with
  | mouse_move x y =>
    refine ⟨fun _ _ _ he => (by cases he), fun hne => absurd (mouse_move_view h) hne⟩
  | redraw =>
    refine ⟨fun _ _ _ he => (by cases he), fun hne => ?_⟩
    exact absurd (congrArg UniformAttributes.view (redraw_uniform h)) hne
  | key_pressed key =>
    refine ⟨fun _ _ _ he => (by cases he), fun hne => ?_⟩
    left
    refine ⟨key, rfl, ?_⟩
    by_contra hk
    simp only [List.mem_cons, List.mem_singleton, not_or, List.not_mem_nil, or_false] at hk
    exact hne (key_pressed_view h hk.1 hk.2.1 hk.2.2.1 hk.2.2.2.1 hk.2.2.2.2.1 hk.2.2.2.2.2)
  | mouse_pressed x y up =>
    by_cases hd : s.currentMode = Mode.DELETION_MODE
    · have hi : s.currentMode ≠ Mode.INSERTION_MODE := by rw [hd]; decide
      simp only [step, mouse_pressed, if_neg hi, if_pos hd] at h
      cases h
      by_cases hit : 0 ≤ getSelectedTriangleIndex s.triangles s.uniform (xPos x) (yPos y)
      · refine ⟨fun x' y' up' he _ _ => ?_, fun _ => Or.inr ⟨x, y, up, rfl, hd, hit⟩⟩
        simp [deleteTriangle, hit, resetUniform]
      · refine ⟨fun x' y' up' he _ hit' => ?_, fun hne => ?_⟩
        · cases he
          exact absurd hit' hit
        · exfalso
          apply hne
          simp [deleteTriangle, hit]
    · refine ⟨fun x' y' up' _ hd' _ => absurd hd' hd, fun hne => ?_⟩
      exact absurd (congrArg UniformAttributes.view (mouse_pressed_uniform hd h)) hne

/-- C4 amended, witness: the deleting click of the counterexample. -/
theorem view_changes_only_by_view_keys_and_delete_witness :
    step sampleEnv pannedState (Event.mouse_pressed 300 250 false) = some deletedState ∧
    deletedState.uniform.view = identity :=
  ⟨by decide!,
   (view_changes_only_by_view_keys_and_delete sampleEnv pannedState deletedState
     (Event.mouse_pressed 300 250 false) (by decide!)).1 300 250 false rfl (by decide!)
     (by decide!)⟩

/-! ## C5 -/

theorem at?_of_lt {v : List VertexAttributes} {i : Int} (h0 : 0 ≤ i) (h : i < v.length) :
    ∃ a, at? v i = some a := by
  have hlt : i.toNat < v.length := by omega
  exact ⟨v[i.toNat], by simp [at?, h0, List.getElem?_eq_getElem hlt]⟩

theorem get3_of_lt {v : List VertexAttributes} {i : Int} (h0 : 0 ≤ i) (h : i + 2 < v.length) :
    ∃ t, get3 v i = some t := by
  obtain ⟨a, ha⟩ := at?_of_lt (v := v) h0 (by omega)
  obtain ⟨b, hb⟩ := at?_of_lt (v := v) (i := i + 1) (by omega) (by omega)
  obtain ⟨c, hc⟩ := at?_of_lt (v := v) (i := i + 2) (by omega) h
  exact ⟨(a, b, c), by simp [get3, ha, hb, hc]⟩

theorem get3_set3 {v : List VertexAttributes} {i : Int}
    (t : VertexAttributes × VertexAttributes × VertexAttributes)
    (h0 : 0 ≤ i) (h : i + 2 < v.length) : get3 (set3 v i t) i = some t := by
  obtain ⟨n, rfl⟩ := Int.eq_ofNat_of_zero_le h0
  have e1 : ((n : Int) + 1).toNat = n + 1 := by omega
  have e2 : ((n : Int) + 2).toNat = n + 2 := by omega
  have hn : n + 2 < v.length := by omega
  have p0 : (0 : Int) ≤ n := by omega
  have p1 : (0 : Int) ≤ (n : Int) + 1 := by omega
  have p2 : (0 : Int) ≤ (n : Int) + 2 := by omega
  simp only [get3, at?, set3, e1, e2, Int.toNat_ofNat, if_pos p0, if_pos p1, if_pos p2]
  have g0 : (((v.set n t.1).set (n + 1) t.2.1).set (n + 2) t.2.2)[n]? = some t.1 := by
    rw [List.getElem?_set_ne (by omega), List.getElem?_set_ne (by omega),
      List.getElem?_set_self (by omega)]
  have g1 : (((v.set n t.1).set (n + 1) t.2.1).set (n + 2) t.2.2)[n + 1]? = some t.2.1 := by
    rw [List.getElem?_set_ne (by omega), List.getElem?_set_self (by simp; omega)]
  have g2 : (((v.set n t.1).set (n + 1) t.2.1).set (n + 2) t.2.2)[n + 2]? = some t.2.2 := by
    rw [List.getElem?_set_self (by simp; omega)]
  rw [g0, g1, g2]

/-- C5, counterexample: a triangle is selected and scaled up once; the press on
empty space that deselects it leaves `scale` and `scale_factor` as they were, so
in the reached state no triangle is selected and `scale` is not the identity. -/
theorem deselect_keeps_scale_counterexample :
    run sampleEnv (initial sampleEnv) deselectEvents = some scaledState ∧
    scaledState.currentMode = Mode.TRANSLATION_MODE ∧
    scaledState.prevClickedTriangle = 0 ∧
    getSelectedTriangleIndex scaledState.triangles scaledState.uniform (xPos 0) (yPos 0) = -1 ∧
    mouse_pressed sampleEnv 0 0 false scaledState = some deselectedState ∧
    deselectedState.selectedTriangle = -1 ∧
    deselectedState.prevClickedTriangle = -1 ∧
    deselectedState.uniform.scale = scaling (5 / 4) ∧
    deselectedState.uniform.scale ≠ identity ∧
    deselectedState.uniform.scale_factor = 5 / 4 := by
  decide!

/-- C5, amended: in Translation mode, a press on empty space (the hit test
returns `-1`) while a triangle was clicked before paints that triangle `BLUE`,
clears `isClicked` and `isCursorMoving`, sets `prevClickedTriangle` to `-1` and
asks for a redraw; the uniform state (`translate`, `rotate`, `scale`,
`scale_factor`, `rotate_radians`, `translate_delta`, and `view`) is unchanged. -/
theorem deselect_keeps_uniform (E : Env) (s : State) (x y : Int) (up : Bool)
    (hm : s.currentMode = Mode.TRANSLATION_MODE)
    (hmiss : getSelectedTriangleIndex s.triangles s.uniform (xPos x) (yPos y) = -1)
    (hprev : 0 ≤ s.prevClickedTriangle)
    (hin : s.prevClickedTriangle + 2 < s.triangles.length) :
    ∃ s' a b c, mouse_pressed E x y up s = some s' ∧
      get3 s.triangles s.prevClickedTriangle = some (a, b, c) ∧
      get3 s'.triangles s.prevClickedTriangle = some (setColor a b c BLUE) ∧
      s'.triangles.length = s.triangles.length ∧
      s'.uniform = s.uniform ∧
      s'.selectedTriangle = -1 ∧ s'.prevClickedTriangle = -1 ∧
      s'.isClicked = false ∧ s'.isCursorMoving = false ∧ s'.redraw_next = true := by
  obtain ⟨⟨a, b, c⟩, hg⟩ := get3_of_lt hprev hin
  have hi : s.currentMode ≠ Mode.INSERTION_MODE := by rw [hm]; decide
  have hd : s.currentMode ≠ Mode.DELETION_MODE := by rw [hm]; decide
  have hneg : (-1 : Int) < 0 := by omega
  have hge : s.prevClickedTriangle ≥ 0 := hprev
  have hmp : mouse_pressed E x y up s = some
      { s with
        selectedTriangle := -1
        triangles := set3 s.triangles s.prevClickedTriangle (setColor a b c BLUE)
        isClicked := false
        isCursorMoving := false
        prevClickedTriangle := -1
        redraw_next := true } := by
    simp only [mouse_pressed, if_neg hi, if_neg hd, if_pos hm, hmiss, if_pos hneg, if_pos hge,
      setColorAt, hg]
  refine ⟨_, a, b, c, hmp, hg, ?_, ?_, ?_, ?_, ?_, ?_, ?_, ?_⟩
  · exact get3_set3 _ hprev hin
  · simp [length_set3]
  all_goals rfl

/-- C5 amended, witness: the deselecting press of the counterexample. -/
theorem deselect_keeps_uniform_witness :
    scaledState.currentMode = Mode.TRANSLATION_MODE ∧
    mouse_pressed sampleEnv 0 0 false scaledState = some deselectedState ∧
    deselectedState.uniform = scaledState.uniform := by
  have hc : scaledState.currentMode = Mode.TRANSLATION_MODE ∧
      getSelectedTriangleIndex scaledState.triangles scaledState.uniform (xPos 0) (yPos 0)
        = -1 ∧
      0 ≤ scaledState.prevClickedTriangle ∧
      scaledState.prevClickedTriangle + 2 < scaledState.triangles.length ∧
      mouse_pressed sampleEnv 0 0 false scaledState = some deselectedState := by
    decide!
  obtain ⟨s', a, b, c, h1, _, _, _, h5, _⟩ :=
    deselect_keeps_uniform sampleEnv scaledState 0 0 false hc.1 hc.2.1 hc.2.2.1 hc.2.2.2.1
  have h2 := hc.2.2.2.2
  rw [h2] at h1
  cases h1
  exact ⟨hc.1, h2, h5⟩

/-! ## C6 -/

/-- C6, counterexample: the first of two triangles is selected and dragged; a
vertex of the other triangle, whose `selected` flag is not set, is drawn at
`view * translate * rotate * scale * position`, which is not `view * position`,
and a click next to the second triangle hits it only because of `translate`. -/
theorem unselected_vertex_is_transformed_counterexample :
    run sampleEnv (initial sampleEnv) dragEvents = some draggedState ∧
    draggedState.selectedTriangle = 0 ∧
    draggedState.triangles[3]? = some farVertex ∧
    farVertex.selected = false ∧
    (VertexShader farVertex draggedState.uniform).position
      ≠ draggedState.uniform.view * farVertex.position ∧
    getSelectedTriangleIndex draggedState.triangles draggedState.uniform (xPos 455) (yPos 75) = 3 ∧
    getSelectedTriangleIndex draggedState.triangles
      { draggedState.uniform with translate := identity } (xPos 455) (yPos 75) = -1 := by
  decide!

/-- C6, amended: `translate`, `rotate` and `scale` are applied to every vertex.
For a vertex whose `selected` flag is not set the vertex shader outputs
`view * translate * rotate * scale * position` (and changes nothing else), and
the hit tester tests every stored triangle, selected or not, with its vertices
at `view * translate * rotate * scale * position`. -/
theorem unselected_vertex_gets_composed_transform (va : VertexAttributes)
    (uniform : UniformAttributes) (h : va.selected = false) :
    VertexShader va uniform =
      { va with
        position := uniform.view * uniform.translate * uniform.rotate * uniform.scale
          * va.position } ∧
    (∀ (a b c : VertexAttributes) (x y : ℚ), boxHit uniform x y a b c = true ↔
      InBoundingBox (uniform.view * uniform.translate * uniform.rotate * uniform.scale * a.position)
        (uniform.view * uniform.translate * uniform.rotate * uniform.scale * b.position)
        (uniform.view * uniform.translate * uniform.rotate * uniform.scale * c.position) x y) := by
  refine ⟨?_, fun a b c x y => boxHit_iff uniform x y a b c⟩
  simp [VertexShader, h, UniformAttributes.composed]

/-- C6 amended, witness: the vertex of the counterexample. -/
theorem unselected_vertex_gets_composed_transform_witness :
    farVertex.selected = false ∧
    (VertexShader farVertex draggedState.uniform).position = ⟨16 / 25, 149 / 250, 0, 1⟩ := by
  have hc : farVertex.selected = false := by decide!
  have h := (unselected_vertex_gets_composed_transform farVertex draggedState.uniform hc).1
  refine ⟨hc, ?_⟩
  rw [h]
  decide!

/-! ## C7 -/

theorem planar_identity : Planar identity := by
  simp [Planar, identity]

theorem planar_mul {a b : Mat4} (ha : Planar a) (hb : Planar b) : Planar (a * b) := by
  obtain ⟨a1, a2, a3, a4, a5, a6, a7, a8, a9, a10, a11, a12⟩ := ha
  obtain ⟨b1, b2, b3, b4, b5, b6, b7, b8, b9, b10, b11, b12⟩ := hb
  simp [Planar, Mat4.mul_def, Mat4.mul, a1, a2, a3, a4, a5, a6, a7, a8, a9, a10, a11, a12,
    b1, b2, b3, b4, b5, b6, b7, b8, b9, b10, b11, b12]

theorem planar_rotation (c s : ℚ) : Planar (rotation c s) := by
  simp [Planar, rotation]

theorem planar_scaling (f : ℚ) : Planar (scaling f) := by
  simp [Planar, scaling]

theorem rotateMatrix_planar {E : Env} {m : Mat4} (h : RotateMatrix E m) : Planar m := by
  induction h with
  | start => exact planar_identity
  | rotated v1 v2 v3 uniform _ ih => exact planar_mul (planar_rotation _ _) ih

theorem scaleMatrix_planar {m : Mat4} (h : ScaleMatrix m) : Planar m := by
  induction h with
  | start => exact planar_identity
  | scaled v1 v2 v3 uniform _ ih => exact planar_mul (planar_scaling _) ih

/-- A planar matrix fixes the points of the z axis that have `w = 1`. -/
theorem planar_mulVec_axis {m : Mat4} (h : Planar m) (z : ℚ) :
    m * (⟨0, 0, z, 1⟩ : Vec4) = ⟨0, 0, z, 1⟩ := by
  obtain ⟨a1, a2, a3, a4, a5, a6, a7, a8, a9, a10, a11, a12⟩ := h
  simp [Mat4.mulVec_def, Mat4.mulVec, a1, a2, a3, a4, a5, a6, a7, a8, a9, a10, a11, a12]

/-- The vertex shader on a selected vertex, in the modes of the scale and
rotate keys. -/
theorem VertexShader_pivot (va : VertexAttributes) (uniform : UniformAttributes)
    (hsel : va.selected = true)
    (hmode : uniform.mode = ROTATE_CLOCKWISE ∨ uniform.mode = ROTATE_COUNTERCLOCKWISE
      ∨ uniform.mode = SCALE_DOWN ∨ uniform.mode = SCALE_UP) :
    (VertexShader va uniform).position =
      translation va.bary_center.x va.bary_center.y *
        (uniform.composed * (translation (-va.bary_center.x) (-va.bary_center.y) * va.position)) := by
  simp only [VertexShader, hsel, if_true, if_pos hmode]

/-- C7 (pivot law): let `uniform.mode` be a scale or rotate key and
`view = translate = identity`. For a selected vertex the vertex shader computes
`T(b) * rotate * scale * T(-b) * position`, `b` being the stored barycentre; if
`rotate` and `scale` were produced by rotate and scale actions, a vertex placed
at the barycentre (a point, `w = 1`) is mapped to itself; and for the half turn
`rotate = diag(-1, -1, 1, 1)` with `scale = identity`, each vertex `v` of a
triangle as the redraw commits it (`z = 0`, `w = 1`, barycentre
`b = (v0 + v1 + v2) / 3`) is mapped to `2 b - v`, and the centroid of the three
images is `b`. The stored barycentre is the centroid only until an animation
runs: the animation loops write the positions and never `bary_center`. After a
triangle was selected, scaled by 1.25 and animated by `'m'`, `'n'`, its vertices
are selected points with `z = 0`, the mode is `'k'`, `view` and `translate` are
the identity, the stored barycentre is still `(0, -53/750)`, the centroid of the
stored positions is not, and the centroid of the images under the half turn is
not the stored barycentre. -/
theorem pivot_law (E : Env) (uniform : UniformAttributes)
    (hmode : uniform.mode = ROTATE_CLOCKWISE ∨ uniform.mode = ROTATE_COUNTERCLOCKWISE
      ∨ uniform.mode = SCALE_DOWN ∨ uniform.mode = SCALE_UP)
    (hview : uniform.view = identity) (htranslate : uniform.translate = identity) :
    (∀ va : VertexAttributes, va.selected = true →
      (VertexShader va uniform).position =
        translation va.bary_center.x va.bary_center.y *
          (uniform.rotate * uniform.scale *
            (translation (-va.bary_center.x) (-va.bary_center.y) * va.position))) ∧
    (∀ va : VertexAttributes, va.selected = true →
      RotateMatrix E uniform.rotate → ScaleMatrix uniform.scale →
      va.bary_center.w = 1 → va.position = va.bary_center →
      (VertexShader va uniform).position = va.bary_center) ∧
    (uniform.rotate = halfTurn → uniform.scale = identity →
      ∀ v0 v1 v2 : VertexAttributes,
        v0.selected = true → v1.selected = true → v2.selected = true →
        v0.position.z = 0 → v1.position.z = 0 → v2.position.z = 0 →
        v0.position.w = 1 → v1.position.w = 1 → v2.position.w = 1 →
        v0.bary_center = (v0.position + v1.position + v2.position) / (3 : ℚ) →
        v1.bary_center = v0.bary_center → v2.bary_center = v0.bary_center →
        (VertexShader v0 uniform).position = (2 : ℚ) * v0.bary_center - v0.position ∧
        (VertexShader v1 uniform).position = (2 : ℚ) * v0.bary_center - v1.position ∧
        (VertexShader v2 uniform).position = (2 : ℚ) * v0.bary_center - v2.position ∧
        ((VertexShader v0 uniform).position + (VertexShader v1 uniform).position
          + (VertexShader v2 uniform).position) / (3 : ℚ) = v0.bary_center) ∧
    (Reachable sampleEnv staleCentroidState ∧
      get3 staleCentroidState.triangles staleCentroidState.selectedTriangle =
        some staleCentroidVertices ∧
      staleCentroidState.uniform.mode = SCALE_UP ∧
      staleCentroidState.uniform.view = identity ∧
      staleCentroidState.uniform.translate = identity ∧
      (staleCentroidVertices.1.selected = true ∧ staleCentroidVertices.2.1.selected = true ∧
        staleCentroidVertices.2.2.selected = true) ∧
      (staleCentroidVertices.1.position.z = 0 ∧ staleCentroidVertices.2.1.position.z = 0 ∧
        staleCentroidVertices.2.2.position.z = 0) ∧
      (staleCentroidVertices.1.position.w = 1 ∧ staleCentroidVertices.2.1.position.w = 1 ∧
        staleCentroidVertices.2.2.position.w = 1) ∧
      (staleCentroidVertices.1.bary_center = ⟨0, -53 / 750, 0, 1⟩ ∧
        staleCentroidVertices.2.1.bary_center = ⟨0, -53 / 750, 0, 1⟩ ∧
        staleCentroidVertices.2.2.bary_center = ⟨0, -53 / 750, 0, 1⟩) ∧
      (staleCentroidVertices.1.position + staleCentroidVertices.2.1.position
        + staleCentroidVertices.2.2.position) / (3 : ℚ)
        = ⟨0, -108926077 / 1258291200, 0, 1⟩ ∧
      ((VertexShader staleCentroidVertices.1 halfTurnUniform).position
        + (VertexShader staleCentroidVertices.2.1 halfTurnUniform).position
        + (VertexShader staleCentroidVertices.2.2 halfTurnUniform).position) / (3 : ℚ)
        = ⟨0, -114854021 / 2097152000, 0, 1⟩ ∧
      ((VertexShader staleCentroidVertices.1 halfTurnUniform).position
        + (VertexShader staleCentroidVertices.2.1 halfTurnUniform).position
        + (VertexShader staleCentroidVertices.2.2 halfTurnUniform).position) / (3 : ℚ)
        ≠ staleCentroidVertices.1.bary_center) := by
  have hcomp : uniform.composed = uniform.rotate * uniform.scale := by
    simp only [UniformAttributes.composed, hview, htranslate, Mat4.identity_mul]
  refine ⟨?_, ?_, ?_, ?_⟩
  · intro va hsel
    rw [VertexShader_pivot va uniform hsel hmode, hcomp]
  · intro va hsel hr hs hw hpos
    rw [VertexShader_pivot va uniform hsel hmode, hcomp, hpos]
    have hp : Planar (uniform.rotate * uniform.scale) :=
      planar_mul (rotateMatrix_planar hr) (scaleMatrix_planar hs)
    have h1 : translation (-va.bary_center.x) (-va.bary_center.y) * va.bary_center
        = ⟨0, 0, va.bary_center.z, 1⟩ := by
      simp only [Mat4.mulVec_def, Mat4.mulVec, translation, hw]
      ext <;> simp
    rw [h1, planar_mulVec_axis hp]
    simp only [Mat4.mulVec_def, Mat4.mulVec, translation]
    ext <;> simp [hw]
  · intro hrot hsc v0 v1 v2 s0 s1 s2 z0 z1 z2 w0 w1 w2 hb hb1 hb2
    have key : ∀ v : VertexAttributes, v.selected = true → v.position.z = 0 →
        v.position.w = 1 → v.bary_center = v0.bary_center →
        (VertexShader v uniform).position = (2 : ℚ) * v0.bary_center - v.position := by
      intro v sv zv wv hbv
      have bz : v0.bary_center.z = 0 := by
        rw [hb]
        simp [Vec4.sdiv_def, Vec4.sdiv, Vec4.add_def, Vec4.add, z0, z1, z2]
      have bw : v0.bary_center.w = 1 := by
        rw [hb]
        simp [Vec4.sdiv_def, Vec4.sdiv, Vec4.add_def, Vec4.add, w0, w1, w2]
        norm_num
      rw [VertexShader_pivot v uniform sv hmode, hcomp, hrot, hsc, hbv]
      simp only [Mat4.mul_def, Mat4.mul, Mat4.mulVec_def, Mat4.mulVec, translation, halfTurn,
        identity, Vec4.smul_def, Vec4.smul, Vec4.sub_def, Vec4.sub]
      ext <;> simp [zv, wv, bz, bw] <;> ring
    have k0 := key v0 s0 z0 w0 rfl
    have k1 := key v1 s1 z1 w1 hb1
    have k2 := key v2 s2 z2 w2 hb2
    refine ⟨k0, k1, k2, ?_⟩
    rw [k0, k1, k2]
    have hbx : v0.bary_center.x = (v0.position.x + v1.position.x + v2.position.x) / 3 := by
      rw [hb]; rfl
    have hby : v0.bary_center.y = (v0.position.y + v1.position.y + v2.position.y) / 3 := by
      rw [hb]; rfl
    have hbz : v0.bary_center.z = (v0.position.z + v1.position.z + v2.position.z) / 3 := by
      rw [hb]; rfl
    have hbw : v0.bary_center.w = (v0.position.w + v1.position.w + v2.position.w) / 3 := by
      rw [hb]; rfl
    simp only [Vec4.smul_def, Vec4.smul, Vec4.sub_def, Vec4.sub, Vec4.add_def, Vec4.add,
      Vec4.sdiv_def, Vec4.sdiv]
    ext
    · simp only; rw [hbx]; ring
    · simp only; rw [hby]; ring
    · simp only; rw [hbz]; ring
    · simp only; rw [hbw]; ring
  · have h : run sampleEnv (initial sampleEnv) staleCentroidEvents = some staleCentroidState ∧
        get3 staleCentroidState.triangles staleCentroidState.selectedTriangle =
          some staleCentroidVertices ∧
        staleCentroidState.uniform.mode = SCALE_UP ∧
        staleCentroidState.uniform.view = identity ∧
        staleCentroidState.uniform.translate = identity ∧
        (staleCentroidVertices.1.selected = true ∧ staleCentroidVertices.2.1.selected = true ∧
          staleCentroidVertices.2.2.selected = true) ∧
        (staleCentroidVertices.1.position.z = 0 ∧ staleCentroidVertices.2.1.position.z = 0 ∧
          staleCentroidVertices.2.2.position.z = 0) ∧
        (staleCentroidVertices.1.position.w = 1 ∧ staleCentroidVertices.2.1.position.w = 1 ∧
          staleCentroidVertices.2.2.position.w = 1) ∧
        (staleCentroidVertices.1.bary_center = ⟨0, -53 / 750, 0, 1⟩ ∧
          staleCentroidVertices.2.1.bary_center = ⟨0, -53 / 750, 0, 1⟩ ∧
          staleCentroidVertices.2.2.bary_center = ⟨0, -53 / 750, 0, 1⟩) ∧
        (staleCentroidVertices.1.position + staleCentroidVertices.2.1.position
          + staleCentroidVertices.2.2.position) / (3 : ℚ)
          = ⟨0, -108926077 / 1258291200, 0, 1⟩ ∧
        ((VertexShader staleCentroidVertices.1 halfTurnUniform).position
          + (VertexShader staleCentroidVertices.2.1 halfTurnUniform).position
          + (VertexShader staleCentroidVertices.2.2 halfTurnUniform).position) / (3 : ℚ)
          = ⟨0, -114854021 / 2097152000, 0, 1⟩ ∧
        ((VertexShader staleCentroidVertices.1 halfTurnUniform).position
          + (VertexShader staleCentroidVertices.2.1 halfTurnUniform).position
          + (VertexShader staleCentroidVertices.2.2 halfTurnUniform).position) / (3 : ℚ)
          ≠ staleCentroidVertices.1.bary_center := by
      decide!
    exact ⟨⟨staleCentroidEvents, h.1⟩, h.2⟩

/-- One rotate action in `halfTurnEnv` makes the half turn. -/
theorem rotateMatrix_halfTurn : RotateMatrix halfTurnEnv halfTurn := by
  have h := RotateMatrix.rotated (pivotVertex 0 0) (pivotVertex 0 0) (pivotVertex 0 0)
    (initial halfTurnEnv).uniform (RotateMatrix.start (E := halfTurnEnv))
  have e : (rotateTriangle halfTurnEnv (pivotVertex 0 0) (pivotVertex 0 0) (pivotVertex 0 0)
      (initial halfTurnEnv).uniform).2.rotate = halfTurn := by decide!
  rw [e] at h
  exact h

/-- C7, witness: the triangle (0, 0), (3/4, 0), (0, 3/4) with barycentre
(1/4, 1/4) under a half turn: the shader applies the pivoted product, a vertex
at the barycentre stays there, the three corners go to (1/2, 1/2), (-1/4, 1/2),
(1/2, -1/4), and the centroid of the images is the barycentre. -/
theorem pivot_law_witness :
    halfTurnUniform.mode = ROTATE_CLOCKWISE ∧
    (VertexShader (pivotVertex (3 / 4) 0) halfTurnUniform).position
      = translation (1 / 4) (1 / 4) * (halfTurn * identity *
          (translation (-(1 / 4)) (-(1 / 4)) * (pivotVertex (3 / 4) 0).position)) ∧
    (VertexShader (pivotVertex (1 / 4) (1 / 4)) halfTurnUniform).position = ⟨1 / 4, 1 / 4, 0, 1⟩ ∧
    (VertexShader (pivotVertex 0 0) halfTurnUniform).position = ⟨1 / 2, 1 / 2, 0, 1⟩ ∧
    (VertexShader (pivotVertex (3 / 4) 0) halfTurnUniform).position = ⟨-1 / 4, 1 / 2, 0, 1⟩ ∧
    (VertexShader (pivotVertex 0 (3 / 4)) halfTurnUniform).position = ⟨1 / 2, -1 / 4, 0, 1⟩ ∧
    ((VertexShader (pivotVertex 0 0) halfTurnUniform).position
      + (VertexShader (pivotVertex (3 / 4) 0) halfTurnUniform).position
      + (VertexShader (pivotVertex 0 (3 / 4)) halfTurnUniform).position) / (3 : ℚ)
      = ⟨1 / 4, 1 / 4, 0, 1⟩ := by
  have law := pivot_law halfTurnEnv halfTurnUniform (Or.inl (by decide)) rfl rfl
  have fixed := law.2.1 (pivotVertex (1 / 4) (1 / 4)) rfl rotateMatrix_halfTurn
    ScaleMatrix.start rfl rfl
  have turn := law.2.2.1 rfl rfl (pivotVertex 0 0) (pivotVertex (3 / 4) 0)
    (pivotVertex 0 (3 / 4)) rfl rfl rfl rfl rfl rfl rfl rfl rfl (by decide!) rfl rfl
  refine ⟨by decide, law.1 (pivotVertex (3 / 4) 0) rfl, fixed, ?_, ?_, ?_, turn.2.2.2⟩
  · rw [turn.1]; decide!
  · rw [turn.2.1]; decide!
  · rw [turn.2.2.1]; decide!

/-! ## C8 -/

theorem onTriangle_of_lt
    (f : VertexAttributes → VertexAttributes → VertexAttributes → UniformAttributes →
      (VertexAttributes × VertexAttributes × VertexAttributes) × UniformAttributes)
    {triangles : List VertexAttributes} (uniform : UniformAttributes) {i : Int}
    (h0 : 0 ≤ i) (h : i + 2 < triangles.length) :
    ∃ a b c, get3 triangles i = some (a, b, c) ∧
      onTriangle f triangles uniform i
        = some (set3 triangles i (f a b c uniform).1, (f a b c uniform).2) := by
  obtain ⟨⟨a, b, c⟩, hg⟩ := get3_of_lt h0 h
  exact ⟨a, b, c, hg, by simp only [onTriangle, hg]⟩

/-- One scale-up press. -/
theorem scale_up_press (E : Env) (triangles : List VertexAttributes)
    (uniform : UniformAttributes) (i : Int) (h0 : 0 ≤ i) (h : i + 2 < triangles.length) :
    ∃ r, performTranslationAction E SCALE_UP triangles uniform i = some r ∧
      r.1.length = triangles.length ∧
      r.2.scale_factor = max uniform.scale_factor 1 + 1 / 4 ∧
      r.2.scale = scaling (max uniform.scale_factor 1 + 1 / 4) * uniform.scale := by
  by_cases hlt : uniform.scale_factor < 1
  · obtain ⟨a, b, c, _, ho⟩ := onTriangle_of_lt scaleTriangle
      { uniform with scale_factor := 1 + 1 / 4, mode := SCALE_UP } h0 h
    have e : performTranslationAction E SCALE_UP triangles uniform i =
        onTriangle scaleTriangle triangles
          { uniform with scale_factor := 1 + 1 / 4, mode := SCALE_UP } i := by
      simp only [performTranslationAction, if_true, if_pos hlt]
    rw [e, ho]
    refine ⟨_, rfl, ?_, ?_, ?_⟩
    · simp [length_set3]
    · simp only [scaleTriangle, max_eq_right (le_of_lt hlt)]
    · simp only [scaleTriangle, max_eq_right (le_of_lt hlt)]
  · obtain ⟨a, b, c, _, ho⟩ := onTriangle_of_lt scaleTriangle
      { uniform with scale_factor := uniform.scale_factor + 1 / 4, mode := SCALE_UP } h0 h
    have e : performTranslationAction E SCALE_UP triangles uniform i =
        onTriangle scaleTriangle triangles
          { uniform with scale_factor := uniform.scale_factor + 1 / 4, mode := SCALE_UP } i := by
      simp only [performTranslationAction, if_true, if_neg hlt]
    rw [e, ho]
    refine ⟨_, rfl, ?_, ?_, ?_⟩
    · simp [length_set3]
    · simp only [scaleTriangle, max_eq_left (not_lt.mp hlt)]
    · simp only [scaleTriangle, max_eq_left (not_lt.mp hlt)]

/-- One scale-down press. -/
theorem scale_down_press (E : Env) (triangles : List VertexAttributes)
    (uniform : UniformAttributes) (i : Int) (h0 : 0 ≤ i) (h : i + 2 < triangles.length) :
    ∃ r, performTranslationAction E SCALE_DOWN triangles uniform i = some r ∧
      r.1.length = triangles.length ∧
      r.2.scale_factor = min uniform.scale_factor 1 - 1 / 4 ∧
      r.2.scale = scaling (min uniform.scale_factor 1 - 1 / 4) * uniform.scale := by
  have hk : SCALE_DOWN ≠ SCALE_UP := by decide
  by_cases hgt : uniform.scale_factor > 1
  · obtain ⟨a, b, c, _, ho⟩ := onTriangle_of_lt scaleTriangle
      { uniform with scale_factor := 1 - 1 / 4, mode := SCALE_DOWN } h0 h
    have e : performTranslationAction E SCALE_DOWN triangles uniform i =
        onTriangle scaleTriangle triangles
          { uniform with scale_factor := 1 - 1 / 4, mode := SCALE_DOWN } i := by
      simp only [performTranslationAction, if_neg hk, if_true, if_pos hgt]
    rw [e, ho]
    refine ⟨_, rfl, ?_, ?_, ?_⟩
    · simp [length_set3]
    · simp only [scaleTriangle, min_eq_right (le_of_lt hgt)]
    · simp only [scaleTriangle, min_eq_right (le_of_lt hgt)]
  · obtain ⟨a, b, c, _, ho⟩ := onTriangle_of_lt scaleTriangle
      { uniform with scale_factor := uniform.scale_factor - 1 / 4, mode := SCALE_DOWN } h0 h
    have e : performTranslationAction E SCALE_DOWN triangles uniform i =
        onTriangle scaleTriangle triangles
          { uniform with scale_factor := uniform.scale_factor - 1 / 4, mode := SCALE_DOWN } i := by
      simp only [performTranslationAction, if_neg hk, if_true, if_neg hgt]
    rw [e, ho]
    refine ⟨_, rfl, ?_, ?_, ?_⟩
    · simp [length_set3]
    · simp only [scaleTriangle, min_eq_left (not_lt.mp hgt)]
    · simp only [scaleTriangle, min_eq_left (not_lt.mp hgt)]

/-- After `n + 1` scale-down presses the factor is `min s 1 - (n + 1) / 4`. -/
theorem scale_down_presses (E : Env) (i : Int) (h0 : 0 ≤ i) :
    ∀ (n : Nat) (triangles : List VertexAttributes) (uniform : UniformAttributes),
      i + 2 < triangles.length →
      ∃ r, pressTimes E SCALE_DOWN i (n + 1) (triangles, uniform) = some r ∧
        r.1.length = triangles.length ∧
        r.2.scale_factor = min uniform.scale_factor 1 - ((n : ℚ) + 1) / 4 := by
  intro n
  induction n with
  | zero =>
    intro triangles uniform h
    obtain ⟨r, hr, hl, hf, _⟩ := scale_down_press E triangles uniform i h0 h
    refine ⟨r, ?_, hl, ?_⟩
    · simp only [pressTimes, hr]
    · rw [hf]
      norm_num
  | succ n ih =>
    intro triangles uniform h
    obtain ⟨r, hr, hl, hf, _⟩ := scale_down_press E triangles uniform i h0 h
    obtain ⟨r', hr', hl', hf'⟩ := ih r.1 r.2 (by rw [hl]; exact h)
    refine ⟨r', ?_, by rw [hl', hl], ?_⟩
    · rw [pressTimes]
      simp only [hr]
      exact hr'
    · rw [hf', hf]
      have : min uniform.scale_factor 1 - 1 / 4 ≤ 1 := by
        have := min_le_right uniform.scale_factor 1
        linarith
      rw [min_eq_left this]
      push_cast
      ring

/-- On a triangle that is in range `performTranslationAction` reads and writes
in range, whatever the key. -/
theorem performTranslationAction_of_lt (E : Env) (key : Char)
    {triangles : List VertexAttributes} (uniform : UniformAttributes) {i : Int}
    (h0 : 0 ≤ i) (h : i + 2 < triangles.length) :
    ∃ r, performTranslationAction E key triangles uniform i = some r := by
  unfold performTranslationAction
  split
  · obtain ⟨a, b, c, _, ho⟩ := @onTriangle_of_lt scaleTriangle triangles _ i h0 h
    exact ⟨_, ho⟩
  · split
    · obtain ⟨a, b, c, _, ho⟩ := @onTriangle_of_lt scaleTriangle triangles _ i h0 h
      exact ⟨_, ho⟩
    · split
      · obtain ⟨a, b, c, _, ho⟩ := @onTriangle_of_lt (rotateTriangle E) triangles _ i h0 h
        exact ⟨_, ho⟩
      · split
        · obtain ⟨a, b, c, _, ho⟩ := @onTriangle_of_lt (rotateTriangle E) triangles _ i h0 h
          exact ⟨_, ho⟩
        · exact ⟨_, rfl⟩

/-- In Translation mode with a selected triangle, the key handler passes a scale
or rotate key to `performTranslationAction`. -/
theorem key_pressed_transform_key (E : Env) (s : State) (key : Char)
    (hk : key = SCALE_UP ∨ key = SCALE_DOWN ∨ key = ROTATE_CLOCKWISE
      ∨ key = ROTATE_COUNTERCLOCKWISE)
    (hm : s.currentMode = Mode.TRANSLATION_MODE)
    (h0 : 0 ≤ s.selectedTriangle) (h : s.selectedTriangle + 2 < s.triangles.length) :
    ∃ s' r, key_pressed E key s = some s' ∧
      performTranslationAction E key s.triangles s.uniform s.selectedTriangle = some r ∧
      s'.triangles = r.1 ∧ s'.uniform = r.2 ∧
      s'.currentMode = Mode.TRANSLATION_MODE ∧ s'.selectedTriangle = s.selectedTriangle := by
  obtain ⟨r, hr⟩ := performTranslationAction_of_lt E key s.uniform h0 h
  obtain ⟨⟨a, b, c⟩, hg⟩ := get3_of_lt h0 h
  have hge : s.selectedTriangle ≥ 0 := h0
  have hmode : ∀ m, setCurrentMode key m = ([], m) := by
    intro m
    rcases hk with rfl | rfl | rfl | rfl <;> rfl
  have hna : key ≠ ANIMATION_MODE_KEY := by rcases hk with rfl | rfl | rfl | rfl <;> decide
  have hnn : key ≠ 'n' := by rcases hk with rfl | rfl | rfl | rfl <;> decide
  have hnb : key ≠ 'b' := by rcases hk with rfl | rfl | rfl | rfl <;> decide
  have v1 : key ≠ ZOOM_IN_KEY := by rcases hk with rfl | rfl | rfl | rfl <;> decide
  have v2 : key ≠ ZOOM_OUT_KEY := by rcases hk with rfl | rfl | rfl | rfl <;> decide
  have v3 : key ≠ PAN_DOWN_KEY := by rcases hk with rfl | rfl | rfl | rfl <;> decide
  have v4 : key ≠ PAN_UP_KEY := by rcases hk with rfl | rfl | rfl | rfl <;> decide
  have v5 : key ≠ PAN_RIGHT_KEY := by rcases hk with rfl | rfl | rfl | rfl <;> decide
  have v6 : key ≠ PAN_LEFT_KEY := by rcases hk with rfl | rfl | rfl | rfl <;> decide
  by_cases han : s.animationMode = true
  · simp only [key_pressed, hmode, if_neg hna, animationBlock, han, if_true, hg, if_neg hnn,
      if_neg hnb, keyAction, hm, if_pos hge, hr, changeViewport_other v1 v2 v3 v4 v5 v6]
    exact ⟨_, r, rfl, rfl, rfl, rfl, rfl, rfl⟩
  · have han' : s.animationMode = false := by simpa using han
    simp only [key_pressed, hmode, if_neg hna, animationBlock, han', Bool.false_eq_true, if_false,
      keyAction, hm, if_true, if_pos hge, hr, changeViewport_other v1 v2 v3 v4 v5 v6]
    exact ⟨_, r, rfl, rfl, rfl, rfl, rfl, rfl⟩

/-- C8 (scale saturation law): on a selected triangle, a scale-up press (`'k'`)
sets `scale_factor` to `max(s, 1) + 0.25` and a scale-down press (`'l'`) sets it
to `min(s, 1) - 0.25`; from `scale_factor = 1` three scale-down presses give
0.75, 0.5, 0.25; and after any number of scale-down presses (at least one, or
any number when `s <= 1` at the start) `scale_factor` does not exceed 1. The
first two facts are stated for `performTranslationAction` and, last, for the key
handler in Translation mode. -/
theorem scale_saturation_law (E : Env) (triangles : List VertexAttributes)
    (uniform : UniformAttributes) (i : Int) (h0 : 0 ≤ i) (h : i + 2 < triangles.length) :
    (∃ r, performTranslationAction E SCALE_UP triangles uniform i = some r ∧
      r.2.scale_factor = max uniform.scale_factor 1 + 1 / 4) ∧
    (∃ r, performTranslationAction E SCALE_DOWN triangles uniform i = some r ∧
      r.2.scale_factor = min uniform.scale_factor 1 - 1 / 4) ∧
    (uniform.scale_factor = 1 →
      ∃ r1 r2 r3, pressTimes E SCALE_DOWN i 1 (triangles, uniform) = some r1 ∧
        pressTimes E SCALE_DOWN i 2 (triangles, uniform) = some r2 ∧
        pressTimes E SCALE_DOWN i 3 (triangles, uniform) = some r3 ∧
        r1.2.scale_factor = 3 / 4 ∧ r2.2.scale_factor = 1 / 2 ∧ r3.2.scale_factor = 1 / 4) ∧
    (∀ n : Nat, ∃ r, pressTimes E SCALE_DOWN i n (triangles, uniform) = some r ∧
      (1 ≤ n → r.2.scale_factor ≤ 3 / 4) ∧
      (uniform.scale_factor ≤ 1 → r.2.scale_factor ≤ 1)) ∧
    (∀ s : State, s.currentMode = Mode.TRANSLATION_MODE → s.triangles = triangles →
      s.uniform = uniform → s.selectedTriangle = i →
      (∃ s', key_pressed E 'k' s = some s' ∧
        s'.uniform.scale_factor = max uniform.scale_factor 1 + 1 / 4) ∧
      (∃ s', key_pressed E 'l' s = some s' ∧
        s'.uniform.scale_factor = min uniform.scale_factor 1 - 1 / 4)) := by
  refine ⟨?_, ?_, ?_, ?_, ?_⟩
  · obtain ⟨r, hr, _, hf, _⟩ := scale_up_press E triangles uniform i h0 h
    exact ⟨r, hr, hf⟩
  · obtain ⟨r, hr, _, hf, _⟩ := scale_down_press E triangles uniform i h0 h
    exact ⟨r, hr, hf⟩
  · intro h1
    obtain ⟨r1, e1, _, f1⟩ := scale_down_presses E i h0 0 triangles uniform h
    obtain ⟨r2, e2, _, f2⟩ := scale_down_presses E i h0 1 triangles uniform h
    obtain ⟨r3, e3, _, f3⟩ := scale_down_presses E i h0 2 triangles uniform h
    refine ⟨r1, r2, r3, e1, e2, e3, ?_, ?_, ?_⟩
    · rw [f1, h1]; norm_num
    · rw [f2, h1]; norm_num
    · rw [f3, h1]; norm_num
  · intro n
    cases n with
    | zero =>
      exact ⟨(triangles, uniform), rfl, fun hn => absurd hn (by omega), fun hs => hs⟩
    | succ n =>
      obtain ⟨r, hr, _, hf⟩ := scale_down_presses E i h0 n triangles uniform h
      have hmin := min_le_right uniform.scale_factor 1
      have hn : (0 : ℚ) ≤ (n : ℚ) := Nat.cast_nonneg n
      have hle : r.2.scale_factor ≤ 3 / 4 := by
        rw [hf]
        linarith
      exact ⟨r, hr, fun _ => hle, fun _ => by linarith⟩
  · intro s hm ht hu hi
    subst ht hu hi
    constructor
    · obtain ⟨s', r, hs', hr, _, hu', _⟩ :=
        key_pressed_transform_key E s SCALE_UP (Or.inl rfl) hm h0 h
      obtain ⟨r', hr', _, hf, _⟩ := scale_up_press E s.triangles s.uniform s.selectedTriangle h0 h
      rw [hr] at hr'
      cases hr'
      exact ⟨s', hs', by rw [hu', hf]⟩
    · obtain ⟨s', r, hs', hr, _, hu', _⟩ :=
        key_pressed_transform_key E s SCALE_DOWN (Or.inr (Or.inl rfl)) hm h0 h
      obtain ⟨r', hr', _, hf, _⟩ :=
        scale_down_press E s.triangles s.uniform s.selectedTriangle h0 h
      rw [hr] at hr'
      cases hr'
      exact ⟨s', hs', by rw [hu', hf]⟩

/-- C8, witness: three scale-down presses on the triangle of `insertedState`. -/
theorem scale_saturation_law_witness :
    insertedState.uniform.scale_factor = 1 ∧
    (pressTimes sampleEnv SCALE_DOWN 0 3
      (insertedState.triangles, insertedState.uniform)).map (fun r => r.2.scale_factor)
      = some (1 / 4) ∧
    ∃ r, performTranslationAction sampleEnv SCALE_UP insertedState.triangles
        insertedState.uniform 0 = some r ∧
      r.2.scale_factor = max insertedState.uniform.scale_factor 1 + 1 / 4 :=
  ⟨by decide!, by decide!,
   (scale_saturation_law sampleEnv insertedState.triangles insertedState.uniform 0
     (by decide) (by decide!)).1⟩

/-! ## Distances and the first minimum -/

theorem squaredNorm_nonneg (v : Vec4) : 0 ≤ v.squaredNorm := by
  unfold Vec4.squaredNorm
  nlinarith [mul_self_nonneg v.x, mul_self_nonneg v.y, mul_self_nonneg v.z, mul_self_nonneg v.w]

theorem distLT_iff (v v' p : Vec4) :
    DistLT v v' p ↔ (v - p).squaredNorm < (v' - p).squaredNorm := by
  unfold DistLT
  rw [Real.sqrt_lt_sqrt_iff (by exact_mod_cast squaredNorm_nonneg _)]
  exact_mod_cast Iff.rfl

/-- Algorithm `std::min_element` on three values: the first position of a least value. -/
theorem min_element_three (d0 d1 d2 : ℚ) :
    (min_element [d0, d1, d2] = 0 ∧ d0 ≤ d1 ∧ d0 ≤ d2) ∨
    (min_element [d0, d1, d2] = 1 ∧ d1 < d0 ∧ d1 ≤ d2) ∨
    (min_element [d0, d1, d2] = 2 ∧ d2 < d0 ∧ d2 < d1) := by
  simp only [min_element, minElementFrom]
  by_cases h1 : d1 < d0
  · by_cases h2 : d2 < d1
    · right; right
      simp only [if_pos h1, if_pos h2]
      exact ⟨trivial, lt_trans h2 h1, h2⟩
    · right; left
      simp only [if_pos h1, if_neg h2]
      exact ⟨trivial, h1, not_lt.mp h2⟩
  · by_cases h2 : d2 < d0
    · right; right
      simp only [if_neg h1, if_pos h2]
      exact ⟨trivial, h2, lt_of_lt_of_le h2 (not_lt.mp h1)⟩
    · left
      simp only [if_neg h1, if_neg h2]
      exact ⟨trivial, not_lt.mp h1, not_lt.mp h2⟩

/-! ## The loop counter -/

/-- The ten values of `t` at which the body of an animation loop runs. -/
theorem animationSteps_eq :
    animationSteps = [0, 13421773 / 134217728, 13421773 / 67108864, 5033165 / 16777216,
      13421773 / 33554432, 1 / 2, 5033165 / 8388608, 2936013 / 4194304, 6710887 / 8388608,
      1887437 / 2097152] := by
  decide!

/-- After the tenth iteration the counter is above 1. -/
theorem tNext_last : tNext (1887437 / 2097152) = 8388609 / 8388608 := by decide!

theorem tValues_stop (fuel : Nat) (t : ℚ) (h : 1 < t) : tValues fuel t = [] := by
  cases fuel with
  | zero => rfl
  | succ n => simp only [tValues, if_neg (not_le.mpr h)]

theorem tValues_step (fuel : Nat) (t t' : ℚ) (h : t ≤ 1) (e : tNext t = t') :
    tValues (fuel + 1) t = t :: tValues fuel t' := by
  simp only [tValues, if_pos h, e]

/-- More fuel than ten iterations does not change the values of `t`: the loop
has ended by itself. -/
theorem tValues_fuel (k : Nat) : tValues (11 + k) 0 = animationSteps := by
  rw [animationSteps_eq]
  have e : 11 + k = k + 1 + 1 + 1 + 1 + 1 + 1 + 1 + 1 + 1 + 1 + 1 := by omega
  rw [e]
  rw [tValues_step _ 0 (13421773 / 134217728) (by norm_num) (by decide!)]
  rw [tValues_step _ _ (13421773 / 67108864) (by norm_num) (by decide!)]
  rw [tValues_step _ _ (5033165 / 16777216) (by norm_num) (by decide!)]
  rw [tValues_step _ _ (13421773 / 33554432) (by norm_num) (by decide!)]
  rw [tValues_step _ _ (1 / 2) (by norm_num) (by decide!)]
  rw [tValues_step _ _ (5033165 / 8388608) (by norm_num) (by decide!)]
  rw [tValues_step _ _ (2936013 / 4194304) (by norm_num) (by decide!)]
  rw [tValues_step _ _ (6710887 / 8388608) (by norm_num) (by decide!)]
  rw [tValues_step _ _ (1887437 / 2097152) (by norm_num) (by decide!)]
  rw [tValues_step _ _ (8388609 / 8388608) (by norm_num) tNext_last]
  rw [tValues_stop _ _ (by norm_num)]

/-! ## The key handler on keys that are no mode keys -/

theorem setCurrentMode_other (key : Char) (m : Mode)
    (h1 : key ≠ INSERTION_MODE_KEY) (h2 : key ≠ TRANSLATION_MODE_KEY)
    (h3 : key ≠ DELETE_MODE_KEY) (h4 : key ≠ COLOR_MODE_KEY) (h5 : key ≠ ANIMATION_MODE_KEY) :
    setCurrentMode key m = ([], m) := by
  simp only [setCurrentMode, if_neg h1, if_neg h2, if_neg h3, if_neg h4, if_neg h5]

theorem state_console_nil (s : State) :
    ({ s with console := s.console ++ [], currentMode := s.currentMode } : State) = s := by
  cases s
  simp

/-- On a key that is no mode key the handler is the animation block, then the
action of the mode, then `changeViewport`. -/
theorem key_pressed_non_mode (E : Env) (key : Char) (s : State)
    (h1 : key ≠ INSERTION_MODE_KEY) (h2 : key ≠ TRANSLATION_MODE_KEY)
    (h3 : key ≠ DELETE_MODE_KEY) (h4 : key ≠ COLOR_MODE_KEY) (h5 : key ≠ ANIMATION_MODE_KEY) :
    key_pressed E key s =
      (animationBlock key s).bind fun r =>
        (keyAction E r.1 r.2).bind fun s2 => changeViewport r.1 s2.zoom s2.delta s2 := by
  simp only [key_pressed, setCurrentMode_other key s.currentMode h1 h2 h3 h4 h5, if_neg h5,
    state_console_nil]
  cases animationBlock key s with
  | none => rfl
  | some r =>
    obtain ⟨k, s1⟩ := r
    simp only [Option.bind]
    cases keyAction E k s1 with
    | none => rfl
    | some s2 => rfl

theorem get3_neg (v : List VertexAttributes) {i : Int} (h : i < 0) : get3 v i = none := by
  have : ¬ (0 ≤ i) := by omega
  simp [get3, at?, this]

/-- The animation block with the flag clear. -/
theorem animationBlock_off (key : Char) (s : State) (h : s.animationMode = false) :
    animationBlock key s = some (key, s) := by
  simp [animationBlock, h]

/-- The state after the reads of the animation block. -/
theorem animationBlock_capture (key : Char) (s : State) (a b c : VertexAttributes)
    (h : s.animationMode = true) (hg : get3 s.triangles s.selectedTriangle = some (a, b, c))
    (hn : key ≠ 'n') (hb : key ≠ 'b') :
    animationBlock key s = some (key,
      { s with
        oldAnimePosition1 := a.position
        oldAnimePosition2 := b.position
        oldAnimePosition3 := c.position }) := by
  simp [animationBlock, h, hg, hn, hb]

/-- The key handler reads the selected triangle whenever the animation flag is
set, or is being set by the key `'m'`; an out-of-range selection is then read. -/
theorem key_pressed_fault (E : Env) (key : Char) (s : State)
    (h : key = ANIMATION_MODE_KEY ∨ s.animationMode = true)
    (hg : get3 s.triangles s.selectedTriangle = none) : key_pressed E key s = none := by
  unfold key_pressed
  simp only
  by_cases hk : key = ANIMATION_MODE_KEY
  · rw [if_pos hk]
    split
    · rename_i k s1 heq
      simp [animationBlock, hg] at heq
    · rfl
  · rw [if_neg hk]
    rcases h with h | h
    · exact absurd h hk
    · split
      · rename_i k s1 heq
        simp [animationBlock, h, hg] at heq
      · rfl

/-! ## The key handler on keys without an action -/

theorem performTranslationAction_other (E : Env) (key : Char)
    (triangles : List VertexAttributes) (uniform : UniformAttributes) (i : Int)
    (h1 : key ≠ SCALE_UP) (h2 : key ≠ SCALE_DOWN) (h3 : key ≠ ROTATE_CLOCKWISE)
    (h4 : key ≠ ROTATE_COUNTERCLOCKWISE) :
    performTranslationAction E key triangles uniform i = some (triangles, uniform) := by
  simp only [performTranslationAction, if_neg h1, if_neg h2, if_neg h3, if_neg h4]

/-- The action of the mode on a key that is neither a transform key nor a digit:
nothing but the request of a redraw in Translation mode with a selection. -/
theorem keyAction_passive (E : Env) (key : Char) (s : State)
    (h1 : key ≠ SCALE_UP) (h2 : key ≠ SCALE_DOWN) (h3 : key ≠ ROTATE_CLOCKWISE)
    (h4 : key ≠ ROTATE_COUNTERCLOCKWISE) (hd : ¬ (key ≥ '1' ∧ key ≤ '9')) :
    keyAction E key s = some
      (if s.currentMode = Mode.TRANSLATION_MODE ∧ s.selectedTriangle ≥ 0 then
        { s with redraw_next := true } else s) := by
  unfold keyAction
  by_cases hm : s.currentMode = Mode.TRANSLATION_MODE
  · by_cases hs : s.selectedTriangle ≥ 0
    · rw [if_pos hm, if_pos hs, performTranslationAction_other E key _ _ _ h1 h2 h3 h4,
        if_pos ⟨hm, hs⟩]
    · rw [if_pos hm, if_neg hs, if_neg (fun h => hs h.2)]
  · rw [if_neg hm, if_neg (show ¬ (s.currentMode = Mode.TRANSLATION_MODE ∧ s.selectedTriangle ≥ 0)
      from fun h => hm h.1)]
    by_cases hc : s.currentMode = Mode.COLOR_MODE
    · rw [if_pos hc, if_neg hd]
    · rw [if_neg hc]

/-- The key handler on a key that is no mode key, no transform key, no animation
key, no digit and no view key, when the animation block reads in range. -/
theorem key_pressed_passive (E : Env) (key : Char) (s : State) (hu : Unbound key)
    (ha : s.animationMode = false ∨ ∃ t, get3 s.triangles s.selectedTriangle = some t) :
    ∃ s', key_pressed E key s = some s' ∧ s'.currentMode = s.currentMode ∧
      s'.triangles = s.triangles ∧ s'.uniform = s.uniform ∧ s'.console = s.console ∧
      s'.selectedTriangle = s.selectedTriangle ∧ s'.vertex_index = s.vertex_index ∧
      s'.frames = s.frames := by
  obtain ⟨hl, hd⟩ := hu
  simp only [List.mem_cons, List.mem_singleton, List.not_mem_nil, or_false, not_or] at hl
  obtain ⟨k1, k2, k3, k4, k5, k6, k7, k8, k9, k10, k11, k12, k13, k14, k15, k16, k17⟩ := hl
  have hblock : ∃ s1, animationBlock key s = some (key, s1) ∧ s1.currentMode = s.currentMode ∧
      s1.triangles = s.triangles ∧ s1.uniform = s.uniform ∧ s1.console = s.console ∧
      s1.selectedTriangle = s.selectedTriangle ∧ s1.vertex_index = s.vertex_index ∧
      s1.frames = s.frames := by
    by_cases hf : s.animationMode = true
    · rcases ha with ha | ⟨⟨a, b, c⟩, hg⟩
      · rw [ha] at hf
        cases hf
      · exact ⟨_, animationBlock_capture key s a b c hf hg k10 k11, rfl, rfl, rfl, rfl, rfl,
          rfl, rfl⟩
    · have hf' : s.animationMode = false := by simpa using hf
      exact ⟨s, animationBlock_off key s hf', rfl, rfl, rfl, rfl, rfl, rfl, rfl⟩
  obtain ⟨s1, hb, e1, e2, e3, e4, e5, e6, e7⟩ := hblock
  rw [key_pressed_non_mode E key s k1 k2 k3 k4 k5, hb]
  simp only [Option.bind, keyAction_passive E key s1 k6 k7 k8 k9 hd,
    changeViewport_other k12 k13 k14 k15 k16 k17]
  refine ⟨_, rfl, ?_, ?_, ?_, ?_, ?_, ?_, ?_⟩
  · split <;> exact e1
  · split <;> exact e2
  · split <;> exact e3
  · split <;> exact e4
  · split <;> exact e5
  · split <;> exact e6
  · split <;> exact e7

/-! ## C14 -/

/-- C14: with no triangle selected (`selectedTriangle = -1`) the key `'m'` makes
the handler read the triangle list at the index `-1`, out of range; so do `'n'`
and `'b'` when the animation flag is set. Only with the flag clear are `'n'` and
`'b'` without any effect. -/
theorem animation_key_without_selection (E : Env) (s : State)
    (hsel : s.selectedTriangle = -1) :
    key_pressed E 'm' s = none ∧
    (s.animationMode = true → key_pressed E 'n' s = none ∧ key_pressed E 'b' s = none) ∧
    (s.animationMode = false → key_pressed E 'n' s = some s ∧ key_pressed E 'b' s = some s) := by
  have hg : get3 s.triangles s.selectedTriangle = none := get3_neg _ (by rw [hsel]; decide)
  have hns : ¬ (s.currentMode = Mode.TRANSLATION_MODE ∧ s.selectedTriangle ≥ 0) := by
    rw [hsel]
    intro h
    exact absurd h.2 (by decide)
  refine ⟨key_pressed_fault E 'm' s (Or.inl rfl) hg, fun h => ?_, fun h => ?_⟩
  · exact ⟨key_pressed_fault E 'n' s (Or.inr h) hg, key_pressed_fault E 'b' s (Or.inr h) hg⟩
  · constructor
    · rw [key_pressed_non_mode E 'n' s (by decide) (by decide) (by decide) (by decide)
        (by decide), animationBlock_off 'n' s h]
      simp only [Option.bind, keyAction_passive E 'n' s (by decide) (by decide) (by decide)
        (by decide) (by decide), if_neg hns]
      exact changeViewport_other (by decide) (by decide) (by decide) (by decide) (by decide)
        (by decide)
    · rw [key_pressed_non_mode E 'b' s (by decide) (by decide) (by decide) (by decide)
        (by decide), animationBlock_off 'b' s h]
      simp only [Option.bind, keyAction_passive E 'b' s (by decide) (by decide) (by decide)
        (by decide) (by decide), if_neg hns]
      exact changeViewport_other (by decide) (by decide) (by decide) (by decide) (by decide)
        (by decide)

/-- C14, witness: the key `'m'` in the initial state. -/
theorem animation_key_without_selection_witness :
    (initial sampleEnv).selectedTriangle = -1 ∧ key_pressed sampleEnv 'm' (initial sampleEnv) = none :=
  ⟨rfl, (animation_key_without_selection sampleEnv (initial sampleEnv) rfl).1⟩

/-! ## C15 -/

/-- C15 (mode table): whatever the current mode, `setCurrentMode` maps `'i'` to
Insertion, `'o'` to Translation, `'p'` to Deletion, `'c'` to Color and `'m'` to
Translation, printing exactly one message, that of the mode, in each of these
cases; on every other key it prints nothing and leaves the mode as it is. -/
theorem setCurrentMode_table (m : Mode) :
    setCurrentMode 'i' m = ([INSERTION_MODE_MSG], Mode.INSERTION_MODE) ∧
    setCurrentMode 'o' m = ([TRANSLATION_MODE_MSG], Mode.TRANSLATION_MODE) ∧
    setCurrentMode 'p' m = ([DELETION_MODE_MSG], Mode.DELETION_MODE) ∧
    setCurrentMode 'c' m = ([COLOR_MODE_MSG], Mode.COLOR_MODE) ∧
    setCurrentMode 'm' m = ([ANIMATION_MODE_MSG], Mode.TRANSLATION_MODE) ∧
    (∀ key ∈ ['i', 'o', 'p', 'c', 'm'], (setCurrentMode key m).1.length = 1) ∧
    (∀ key ∉ ['i', 'o', 'p', 'c', 'm'], setCurrentMode key m = ([], m)) := by
  refine ⟨rfl, rfl, rfl, rfl, rfl, ?_, ?_⟩
  · intro key hk
    simp only [List.mem_cons, List.mem_singleton, List.not_mem_nil, or_false] at hk
    rcases hk with rfl | rfl | rfl | rfl | rfl <;> rfl
  · intro key hk
    simp only [List.mem_cons, List.mem_singleton, List.not_mem_nil, or_false, not_or] at hk
    exact setCurrentMode_other key m hk.1 hk.2.1 hk.2.2.1 hk.2.2.2.1 hk.2.2.2.2

/-! ## Pending vertices come with a preview line; `zoom` and `delta` are constant -/

theorem commit_steady {s s' : State} (h : commit s = some s') (hi : Steady s) : Steady s' := by
  unfold commit at h
  split at h
  · cases h
    exact ⟨fun h => absurd rfl h, hi.2⟩
  · cases h

theorem redraw_steady {s s' : State} (h : redraw s = some s') (hi : Steady s) : Steady s' := by
  unfold redraw at h
  simp only at h
  split at h
  · rename_i d hd
    cases h
    have hd' : Steady d := by
      split at hd
      · split at hd
        · cases hd; exact hi
        · split at hd
          · split at hd
            · cases hd; exact hi
            · cases hd
          · split at hd
            · exact commit_steady hd hi
            · cases hd; exact hi
      · cases hd; exact hi
    exact hd'
  · cases h

theorem animationFrame_steady {p : Vec4 × Vec4 × Vec4} {s s' : State}
    (h : animationFrame p s = some s') (hi : Steady s) : Steady s' := by
  unfold animationFrame at h
  split at h
  · exact redraw_steady h hi
  · cases h

theorem animate_steady (f : ℚ → Vec4 × Vec4 × Vec4) :
    ∀ (ts : List ℚ) {s s' : State}, animate f ts s = some s' → Steady s → Steady s' := by
  intro ts
  induction ts with
  | nil =>
    intro s s' h hi
    simp only [animate] at h
    cases h
    exact hi
  | cons t ts ih =>
    intro s s' h hi
    simp only [animate] at h
    split at h
    · rename_i s1 h1
      exact ih h (animationFrame_steady h1 hi)
    · cases h

theorem animationBlock_steady {key key' : Char} {s s' : State}
    (h : animationBlock key s = some (key', s')) (hi : Steady s) : Steady s' := by
  unfold animationBlock at h
  split at h
  · split at h
    · simp only at h
      split at h
      · split at h
        · rename_i s1 h1
          cases h
          have h2 : Steady s1 := animate_steady _ _ h1 hi
          exact h2
        · cases h
      · split at h
        · split at h
          · rename_i s1 h1
            cases h
            have h2 : Steady s1 := animate_steady _ _ h1 hi
            exact h2
          · cases h
        · cases h
          exact hi
    · cases h
  · cases h
    exact hi

theorem keyAction_steady {E : Env} {key : Char} {s s' : State}
    (h : keyAction E key s = some s') (hi : Steady s) : Steady s' := by
  unfold keyAction at h
  split at h
  · split at h
    · split at h
      · cases h; exact hi
      · cases h
    · cases h; exact hi
  · split at h
    · split at h
      · split at h
        · split at h
          · cases h; exact hi
          · cases h
        · cases h; exact hi
      · cases h; exact hi
    · cases h; exact hi

theorem changeViewport_steady {key : Char} {zoom delta : ℚ} {s s' : State}
    (h : changeViewport key zoom delta s = some s') (hi : Steady s) : Steady s' := by
  unfold changeViewport at h
  simp only at h
  split at h
  · exact redraw_steady h hi
  · split at h
    · exact redraw_steady h hi
    · split at h
      · exact redraw_steady h hi
      · split at h
        · exact redraw_steady h hi
        · split at h
          · exact redraw_steady h hi
          · split at h
            · exact redraw_steady h hi
            · cases h; exact hi

theorem key_pressed_steady {E : Env} {key : Char} {s s' : State}
    (h : key_pressed E key s = some s') (hi : Steady s) : Steady s' := by
  unfold key_pressed at h
  simp only at h
  split at h
  · rename_i k1 s1 h1
    split at h
    · rename_i s2 h2
      refine changeViewport_steady h (keyAction_steady h2 (animationBlock_steady h1 ?_))
      split <;> exact hi
    · cases h
  · cases h

theorem mouse_move_steady {E : Env} {x y : Int} {s s' : State}
    (h : mouse_move E x y s = some s') (hi : Steady s) : Steady s' := by
  unfold mouse_move at h
  simp only at h
  split at h
  · split at h
    · cases h
      exact ⟨fun _ => by simp, hi.2⟩
    · cases h; exact hi
  · split at h
    · split at h
      · split at h
        · rename_i s1 h1
          split at h
          · rename_i tr u ho
            cases h
            have : s1.triangleVertices = s.triangleVertices ∧ s1.lines = s.lines ∧
                s1.zoom = s.zoom ∧ s1.delta = s.delta := by
              split at h1
              · split at h1
                · cases h1; simp
                · cases h1
              · cases h1; simp
            simp only [Steady] at hi ⊢
            rw [this.1, this.2.1, this.2.2.1, this.2.2.2]
            exact hi
          · cases h
        · cases h
      · cases h; exact hi
    · cases h; exact hi

theorem mouse_pressed_steady {E : Env} {x y : Int} {up : Bool} {s s' : State}
    (h : mouse_pressed E x y up s = some s') (hi : Steady s) : Steady s' := by
  unfold mouse_pressed at h
  simp only at h
  split at h
  · split at h
    · cases h
      exact ⟨fun _ => by simp, hi.2⟩
    · cases h; exact hi
  · split at h
    · cases h
      exact hi
    · split at h
      · split at h
        · split at h
          · split at h
            · cases h; exact hi
            · cases h
          · cases h; exact hi
        · split at h
          · split at h
            · split at h <;> (cases h; exact hi)
            · cases h; exact hi
          · split at h
            · split at h
              · cases h; exact hi
              · cases h
            · cases h; exact hi
      · split at h
        · split at h
          · cases h; exact hi
          · cases h
        · cases h; exact hi

theorem step_steady {E : Env} {e : Event} {s s' : State}
    (h : step E s e = some s') (hi : Steady s) : Steady s' := by
  cases e with
  | mouse_move x y => exact mouse_move_steady h hi
  | mouse_pressed x y up => exact mouse_pressed_steady h hi
  | key_pressed key => exact key_pressed_steady h hi
  | redraw => exact redraw_steady h hi

theorem run_steady {E : Env} : ∀ (es : List Event) {s s' : State},
    run E s es = some s' → Steady s → Steady s' := by
  intro es
  induction es with
  | nil =>
    intro s s' h hi
    simp only [run] at h
    cases h
    exact hi
  | cons e es ih =>
    intro s s' h hi
    simp only [run] at h
    split at h
    · rename_i s1 h1
      exact ih h (step_steady h1 hi)
    · cases h

theorem initial_steady (E : Env) : Steady (initial E) := ⟨fun h => absurd rfl h, rfl, rfl⟩

theorem reachable_inv {E : Env} {s : State} (h : Reachable E s) : Inv s := by
  obtain ⟨es, h⟩ := h
  exact run_inv es h (initial_inv E)

theorem reachable_steady {E : Env} {s : State} (h : Reachable E s) : Steady s := by
  obtain ⟨es, h⟩ := h
  exact run_steady es h (initial_steady E)

/-! ## The redraw callback returns -/

/-- The commit of three pending vertices. -/
theorem commit_three (s : State) (v0 v1 v2 : VertexAttributes)
    (hv : s.triangleVertices = [v0, v1, v2]) :
    commit s = some { s with
      numOfClicks := 0
      triangles := s.triangles ++
        [{ v0 with color := BLUE,
                   bary_center := (v0.position + v1.position + v2.position) / (3 : ℚ) },
         { v1 with color := BLUE,
                   bary_center := (v0.position + v1.position + v2.position) / (3 : ℚ) },
         { v2 with color := BLUE,
                   bary_center := (v0.position + v1.position + v2.position) / (3 : ℚ) }]
      triangleVertices := []
      lines := [] } := by
  unfold commit
  rw [hv]
  rfl

/-- Callback `viewer.redraw` when no commit is due: the scene is drawn as it is. -/
theorem redraw_plain (s : State) (hi : Inv s) (hs : Steady s)
    (hc : ¬ (s.currentMode = Mode.INSERTION_MODE ∧ s.numOfClicks = 3)) :
    redraw s = some { s with frames := s.frames ++ [s.triangles] } := by
  unfold redraw
  simp only
  by_cases hm : s.currentMode = Mode.INSERTION_MODE
  · rw [if_pos hm]
    by_cases h1 : s.numOfClicks = 1
    · rw [if_pos h1]
    · rw [if_neg h1]
      by_cases h2 : s.numOfClicks = 2
      · rw [if_pos h2]
        have hl : s.triangleVertices.length = 2 := by rw [← hi.2, h2]
        have hne : s.lines ≠ [] := hs.1 (by
          intro h
          rw [h] at hl
          cases hl)
        obtain ⟨a, ha⟩ : ∃ a, s.triangleVertices[0]? = some a :=
          ⟨_, List.getElem?_eq_getElem (by omega)⟩
        obtain ⟨b, hb⟩ : ∃ b, s.triangleVertices[1]? = some b :=
          ⟨_, List.getElem?_eq_getElem (by omega)⟩
        have hpos : 0 < s.lines.length := List.length_pos.mpr hne
        obtain ⟨c, hc'⟩ : ∃ c, s.lines[s.lines.length - 1]? = some c :=
          ⟨_, List.getElem?_eq_getElem (by omega)⟩
        rw [ha, hb, hc']
      · rw [if_neg h2, if_neg (fun h3 => hc ⟨hm, h3⟩)]
  · rw [if_neg hm]

/-- Callback `viewer.redraw` when a commit is due. -/
theorem redraw_commit (s : State) (v0 v1 v2 : VertexAttributes)
    (hm : s.currentMode = Mode.INSERTION_MODE) (hc : s.numOfClicks = 3)
    (hv : s.triangleVertices = [v0, v1, v2]) :
    redraw s = some { s with
      numOfClicks := 0
      triangles := s.triangles ++
        [{ v0 with color := BLUE,
                   bary_center := (v0.position + v1.position + v2.position) / (3 : ℚ) },
         { v1 with color := BLUE,
                   bary_center := (v0.position + v1.position + v2.position) / (3 : ℚ) },
         { v2 with color := BLUE,
                   bary_center := (v0.position + v1.position + v2.position) / (3 : ℚ) }]
      triangleVertices := []
      lines := []
      frames := s.frames ++ [s.triangles ++
        [{ v0 with color := BLUE,
                   bary_center := (v0.position + v1.position + v2.position) / (3 : ℚ) },
         { v1 with color := BLUE,
                   bary_center := (v0.position + v1.position + v2.position) / (3 : ℚ) },
         { v2 with color := BLUE,
                   bary_center := (v0.position + v1.position + v2.position) / (3 : ℚ) }]] } := by
  have h1 : ¬ s.numOfClicks = 1 := by rw [hc]; decide
  have h2 : ¬ s.numOfClicks = 2 := by rw [hc]; decide
  unfold redraw
  simp only
  rw [if_pos hm, if_neg h1, if_neg h2, if_pos hc, commit_three s v0 v1 v2 hv]

theorem length_three {α : Type} (l : List α) (h : l.length = 3) :
    ∃ a b c, l = [a, b, c] := by
  match l, h with
  | [a, b, c], _ => exact ⟨a, b, c, rfl⟩

/-! ## C17 -/

/-- C16: a key bound to no action leaves the mode, the triangle list, the
uniform state (matrices and scalars), the selection and the console as they are
when the animation flag is clear or the selection is in range. With the flag set
and the selection out of range the handler reads the triangle list out of range,
and such a state is reached: select a triangle, press `'m'`, click on the empty
canvas. -/
theorem unbound_key_effect (E : Env) (s : State) (key : Char) (hu : Unbound key) :
    ((s.animationMode = false ∨ ∃ t, get3 s.triangles s.selectedTriangle = some t) →
      ∃ s', key_pressed E key s = some s' ∧ s'.currentMode = s.currentMode ∧
        s'.triangles = s.triangles ∧ s'.uniform = s.uniform ∧ s'.console = s.console ∧
        s'.selectedTriangle = s.selectedTriangle) ∧
    (s.animationMode = true → get3 s.triangles s.selectedTriangle = none →
      key_pressed E key s = none) ∧
    (Reachable sampleEnv staleFlagState ∧ staleFlagState.animationMode = true ∧
      staleFlagState.selectedTriangle = -1 ∧
      get3 staleFlagState.triangles staleFlagState.selectedTriangle = none) := by
  refine ⟨fun ha => ?_, fun hf hg => key_pressed_fault E key s (Or.inr hf) hg, ?_⟩
  · obtain ⟨s', h, h1, h2, h3, h4, h5, _⟩ := key_pressed_passive E key s hu ha
    exact ⟨s', h, h1, h2, h3, h4, h5⟩
  · have hc : run sampleEnv (initial sampleEnv) staleFlagEvents = some staleFlagState ∧
        staleFlagState.animationMode = true ∧ staleFlagState.selectedTriangle = -1 ∧
        get3 staleFlagState.triangles staleFlagState.selectedTriangle = none := by
      decide!
    exact ⟨⟨staleFlagEvents, hc.1⟩, hc.2⟩

/-- C16, witness: the key `'x'` after the selection was dropped with the
animation flag set. -/
theorem unbound_key_effect_witness :
    Unbound 'x' ∧ Reachable sampleEnv staleFlagState ∧
      key_pressed sampleEnv 'x' staleFlagState = none :=
  have h := unbound_key_effect sampleEnv staleFlagState 'x' (by unfold Unbound; decide)
  ⟨by unfold Unbound; decide, h.2.2.1, h.2.1 h.2.2.2.1 h.2.2.2.2.2⟩

/-! ## C11 -/

theorem rampColor_eq (key : Char) :
    rampColor key = ⟨((key.toNat : ℚ) - 48 - 1) / 10, ((key.toNat : ℚ) - 48) / 10,
      ((key.toNat : ℚ) - 48 + 1) / 10, 1⟩ := by
  have e : ((('1').toNat : Nat) : ℚ) = 49 := by
    have : ('1').toNat = 49 := rfl
    rw [this]
    norm_num
  simp only [rampColor, e, Vec4.mk.injEq]
  refine ⟨by ring, by ring, by ring, trivial⟩

/-- A digit key is none of the keys the other branches of the handler test. -/
theorem digit_key_unlike (key : Char) (hk : key ≥ '1' ∧ key ≤ '9') :
    key ≠ INSERTION_MODE_KEY ∧ key ≠ TRANSLATION_MODE_KEY ∧ key ≠ DELETE_MODE_KEY ∧
    key ≠ COLOR_MODE_KEY ∧ key ≠ ANIMATION_MODE_KEY ∧ key ≠ 'n' ∧ key ≠ 'b' ∧
    key ≠ ZOOM_IN_KEY ∧ key ≠ ZOOM_OUT_KEY ∧ key ≠ PAN_DOWN_KEY ∧ key ≠ PAN_UP_KEY ∧
    key ≠ PAN_RIGHT_KEY ∧ key ≠ PAN_LEFT_KEY := by
  refine ⟨?_, ?_, ?_, ?_, ?_, ?_, ?_, ?_, ?_, ?_, ?_, ?_, ?_⟩ <;>
    (rintro rfl; exact absurd hk (by decide))

/-- The Color branch of the key handler on a digit key. -/
theorem keyAction_color (E : Env) (key : Char) (s : State)
    (hm : s.currentMode = Mode.COLOR_MODE) (hk : key ≥ '1' ∧ key ≤ '9') :
    keyAction E key s =
      if s.vertex_index ≥ 0 then
        match at? s.triangles s.vertex_index with
        | some v =>
          some { s with
            triangles := s.triangles.set s.vertex_index.toNat { v with color := rampColor key }
            redraw_next := true }
        | none => none
      else some s := by
  have h1 : ¬ s.currentMode = Mode.TRANSLATION_MODE := by rw [hm]; decide
  unfold keyAction
  rw [if_neg h1, if_pos hm, if_pos hk]

/-- The key handler on a digit key: the animation block, the action of the
mode, and nothing else. -/
theorem key_pressed_digit (E : Env) (key : Char) (s : State) (hk : key ≥ '1' ∧ key ≤ '9')
    (ha : s.animationMode = false ∨ ∃ t, get3 s.triangles s.selectedTriangle = some t) :
    ∃ s1, key_pressed E key s = keyAction E key s1 ∧ s1.currentMode = s.currentMode ∧
      s1.triangles = s.triangles ∧ s1.uniform = s.uniform ∧ s1.vertex_index = s.vertex_index := by
  obtain ⟨k1, k2, k3, k4, k5, k10, k11, k12, k13, k14, k15, k16, k17⟩ := digit_key_unlike key hk
  have hblock : ∃ s1, animationBlock key s = some (key, s1) ∧ s1.currentMode = s.currentMode ∧
      s1.triangles = s.triangles ∧ s1.uniform = s.uniform ∧
      s1.vertex_index = s.vertex_index := by
    by_cases hf : s.animationMode = true
    · rcases ha with ha | ⟨⟨a, b, c⟩, hg⟩
      · rw [ha] at hf
        cases hf
      · exact ⟨_, animationBlock_capture key s a b c hf hg k10 k11, rfl, rfl, rfl, rfl⟩
    · have hf' : s.animationMode = false := by simpa using hf
      exact ⟨s, animationBlock_off key s hf', rfl, rfl, rfl, rfl⟩
  obtain ⟨s1, hb, e1, e2, e3, e4⟩ := hblock
  refine ⟨s1, ?_, e1, e2, e3, e4⟩
  rw [key_pressed_non_mode E key s k1 k2 k3 k4 k5, hb]
  simp only [Option.bind]
  cases keyAction E key s1 with
  | none => rfl
  | some s2 => exact changeViewport_other k12 k13 k14 k15 k16 k17

/-- C11 (colour ramp): in Color mode a digit key `d` from `'1'` to `'9'` has the
colour `((d-1)/10, d/10, (d+1)/10, 1)`, for `'3'` the colour `(0.2, 0.3, 0.4, 1)`;
the code stores the `float` nearest to each component. With a targeted vertex
(`vertex_index` in the bounds of the triangle list) the Color branch of the
handler gives that vertex this colour, keeps its other fields and keeps every
other entry of the triangle list; with no targeted vertex (`vertex_index = -1`)
it changes nothing. The handler as a whole returns with this triangle list when
the animation block, which it runs first, reads in range (animation flag clear,
or selection in range). With the flag set and the selection out of range the
handler reads the triangle list out of range before it reaches the Color
branch, and such a state is reached in Color mode with a targeted vertex:
select a triangle, press `'m'`, press `'c'`, click on the triangle, click on the
empty canvas. -/
theorem color_key_ramp (E : Env) (s : State) (key : Char)
    (hm : s.currentMode = Mode.COLOR_MODE) (hk : key ≥ '1' ∧ key ≤ '9') :
    rampColor key = ⟨((key.toNat : ℚ) - 48 - 1) / 10, ((key.toNat : ℚ) - 48) / 10,
      ((key.toNat : ℚ) - 48 + 1) / 10, 1⟩ ∧
    rampColor '3' = ⟨1 / 5, 3 / 10, 2 / 5, 1⟩ ∧
    (∀ v, at? s.triangles s.vertex_index = some v →
      keyAction E key s = some { s with
        triangles := s.triangles.set s.vertex_index.toNat { v with color := rampColor key }
        redraw_next := true } ∧
      (s.triangles.set s.vertex_index.toNat { v with color := rampColor key })[
          s.vertex_index.toNat]? =
        some ⟨v.position, rampColor key, v.selected, v.bary_center⟩ ∧
      (∀ j, j ≠ s.vertex_index.toNat →
        (s.triangles.set s.vertex_index.toNat { v with color := rampColor key })[j]? =
          s.triangles[j]?) ∧
      ((s.animationMode = false ∨ ∃ t, get3 s.triangles s.selectedTriangle = some t) →
        ∃ s', key_pressed E key s = some s' ∧
          s'.triangles =
            s.triangles.set s.vertex_index.toNat { v with color := rampColor key } ∧
          s'.uniform = s.uniform)) ∧
    (s.vertex_index = -1 →
      keyAction E key s = some s ∧
      ((s.animationMode = false ∨ ∃ t, get3 s.triangles s.selectedTriangle = some t) →
        ∃ s', key_pressed E key s = some s' ∧ s'.triangles = s.triangles ∧
          s'.uniform = s.uniform)) ∧
    (s.animationMode = true → get3 s.triangles s.selectedTriangle = none →
      key_pressed E key s = none) ∧
    (Reachable sampleEnv colorFaultState ∧
      colorFaultState.currentMode = Mode.COLOR_MODE ∧ colorFaultState.vertex_index = 2 ∧
      colorFaultState.triangles.length = 3 ∧ colorFaultState.animationMode = true ∧
      colorFaultState.selectedTriangle = -1 ∧
      get3 colorFaultState.triangles colorFaultState.selectedTriangle = none) ∧
    (∀ d ∈ ['1', '2', '3', '4', '5', '6', '7', '8', '9'],
      F32.rampColor d =
        ⟨F32.fl (rampColor d).x, F32.fl (rampColor d).y, F32.fl (rampColor d).z, 1⟩) := by
  refine ⟨rampColor_eq key, by decide!, fun v hv => ?_, fun hn => ?_,
    fun hf hg => key_pressed_fault E key s (Or.inr hf) hg,
    ?_, by decide!⟩
  · obtain ⟨h0, hget⟩ := at?_eq_some hv
    have hlt : s.vertex_index.toNat < s.triangles.length := by
      by_contra hc
      rw [List.getElem?_eq_none (by omega)] at hget
      cases hget
    refine ⟨?_, ?_, fun j hj => ?_, fun ha => ?_⟩
    · rw [keyAction_color E key s hm hk, if_pos h0, hv]
    · simp only [List.getElem?_set_self hlt]
    · simp only [List.getElem?_set_ne (Ne.symm hj)]
    · obtain ⟨s1, h, e1, e2, e3, e4⟩ := key_pressed_digit E key s hk ha
      rw [keyAction_color E key s1 (e1.trans hm) hk, e4, e2, if_pos h0, hv] at h
      exact ⟨_, h, rfl, e3⟩
  · have hneg : ¬ (s.vertex_index ≥ 0) := by rw [hn]; decide
    refine ⟨?_, fun ha => ?_⟩
    · rw [keyAction_color E key s hm hk, if_neg hneg]
    · obtain ⟨s1, h, e1, e2, e3, e4⟩ := key_pressed_digit E key s hk ha
      rw [keyAction_color E key s1 (e1.trans hm) hk, e4, if_neg hneg] at h
      exact ⟨s1, h, e2, e3⟩
  · have h : run sampleEnv (initial sampleEnv) colorFaultEvents = some colorFaultState ∧
        colorFaultState.currentMode = Mode.COLOR_MODE ∧ colorFaultState.vertex_index = 2 ∧
        colorFaultState.triangles.length = 3 ∧ colorFaultState.animationMode = true ∧
        colorFaultState.selectedTriangle = -1 ∧
        get3 colorFaultState.triangles colorFaultState.selectedTriangle = none := by
      decide!
    exact ⟨⟨colorFaultEvents, h.1⟩, h.2⟩

/-- C11, witness: the key `'3'` on the third vertex of the inserted triangle. -/
theorem color_key_ramp_witness :
    colorTargetState.currentMode = Mode.COLOR_MODE ∧ colorTargetState.vertex_index = 2 ∧
    rampColor '3' = ⟨1 / 5, 3 / 10, 2 / 5, 1⟩ ∧
    ∃ s', key_pressed sampleEnv '3' colorTargetState = some s' ∧
      s'.triangles = colorTargetState.triangles.set colorTargetState.vertex_index.toNat
        ⟨⟨xPos 250, yPos 200, 0, 1⟩, rampColor '3', false,
          (⟨xPos 200, yPos 300, 0, 1⟩ + ⟨xPos 300, yPos 300, 0, 1⟩ + ⟨xPos 250, yPos 200, 0, 1⟩ : Vec4)
            / (3 : ℚ)⟩ :=
  have hc : colorTargetState.currentMode = Mode.COLOR_MODE ∧
      colorTargetState.vertex_index = 2 ∧
      at? colorTargetState.triangles colorTargetState.vertex_index =
        some ⟨⟨xPos 250, yPos 200, 0, 1⟩, BLUE, false,
          (⟨xPos 200, yPos 300, 0, 1⟩ + ⟨xPos 300, yPos 300, 0, 1⟩
            + ⟨xPos 250, yPos 200, 0, 1⟩ : Vec4) / (3 : ℚ)⟩ ∧
      colorTargetState.animationMode = false := by
    decide!
  have h := color_key_ramp sampleEnv colorTargetState '3' hc.1 (by decide)
  ⟨hc.1, hc.2.1, h.2.1,
    ((h.2.2.1 _ hc.2.2.1).2.2.2 (Or.inl hc.2.2.2)).elim fun s' hs => ⟨s', hs.1, hs.2.1⟩⟩

/-! ## The redraw callback in the states of a run -/

/-- What `viewer.redraw` does in a state of a run: it returns, and it leaves the
state as it is but for the commit of a pending triangle, which extends the
triangle list, and for the frame it draws. -/
theorem redraw_result (s : State) (hi : Inv s) (hs : Steady s) :
    ∃ s' ext, redraw s = some s' ∧ s'.triangles = s.triangles ++ ext ∧
      (¬ (s.currentMode = Mode.INSERTION_MODE ∧ s.numOfClicks = 3) → ext = []) ∧
      s'.frames = s.frames ++ [s'.triangles] ∧ s'.uniform = s.uniform ∧
      s'.selectedTriangle = s.selectedTriangle ∧ s'.animationMode = s.animationMode ∧
      s'.currentMode = s.currentMode ∧ s'.console = s.console ∧
      s'.vertex_index = s.vertex_index ∧ Inv s' ∧ Steady s' := by
  by_cases hc : s.currentMode = Mode.INSERTION_MODE ∧ s.numOfClicks = 3
  · have hl : s.triangleVertices.length = 3 := by rw [← hi.2, hc.2]
    obtain ⟨v0, v1, v2, hv⟩ := length_three _ hl
    have e := redraw_commit s v0 v1 v2 hc.1 hc.2 hv
    exact ⟨_, _, e, rfl, fun h => absurd hc h, rfl, rfl, rfl, rfl, rfl, rfl, rfl,
      redraw_inv e hi, redraw_steady e hs⟩
  · have e := redraw_plain s hi hs hc
    exact ⟨_, [], e, (List.append_nil _).symm, fun _ => rfl, rfl, rfl, rfl, rfl, rfl, rfl, rfl,
      redraw_inv e hi, redraw_steady e hs⟩

theorem at?_append {v : List VertexAttributes} {i : Int} {a : VertexAttributes}
    (ext : List VertexAttributes) (h : at? v i = some a) : at? (v ++ ext) i = some a := by
  obtain ⟨h0, hg⟩ := at?_eq_some h
  have hlt : i.toNat < v.length := by
    by_contra hc
    rw [List.getElem?_eq_none (by omega)] at hg
    cases hg
  unfold at?
  rw [if_pos h0, List.getElem?_append_left hlt, hg]

theorem get3_append {v : List VertexAttributes} {i : Int}
    {t : VertexAttributes × VertexAttributes × VertexAttributes}
    (ext : List VertexAttributes) (h : get3 v i = some t) : get3 (v ++ ext) i = some t := by
  obtain ⟨h0, h1, h2⟩ := get3_eq_some h
  unfold get3
  rw [at?_append ext h0, at?_append ext h1, at?_append ext h2]

/-! ## The view keys -/

/-- A view key is none of the keys the other branches of the handler test. -/
theorem view_key_unlike (key : Char)
    (hk : key ∈ [ZOOM_IN_KEY, ZOOM_OUT_KEY, PAN_DOWN_KEY, PAN_UP_KEY, PAN_RIGHT_KEY,
      PAN_LEFT_KEY]) :
    key ≠ INSERTION_MODE_KEY ∧ key ≠ TRANSLATION_MODE_KEY ∧ key ≠ DELETE_MODE_KEY ∧
    key ≠ COLOR_MODE_KEY ∧ key ≠ ANIMATION_MODE_KEY ∧ key ≠ 'n' ∧ key ≠ 'b' ∧
    key ≠ SCALE_UP ∧ key ≠ SCALE_DOWN ∧ key ≠ ROTATE_CLOCKWISE ∧
    key ≠ ROTATE_COUNTERCLOCKWISE ∧ ¬ (key ≥ '1' ∧ key ≤ '9') := by
  simp only [List.mem_cons, List.mem_singleton, List.not_mem_nil, or_false] at hk
  rcases hk with rfl | rfl | rfl | rfl | rfl | rfl <;> decide

theorem scaling_mul (a b : ℚ) : scaling a * scaling b = scaling (a * b) := by
  simp [Mat4.mul_def, Mat4.mul, scaling]

theorem scaling_one : scaling 1 = identity := rfl

/-! ## The animation loops, frame by frame -/

/-- One iteration of an animation loop in a state of a run: the three positions
are written to the selected triangle, and the scene is drawn. -/
theorem animationFrame_result (s : State) (a b c : VertexAttributes) (p : Vec4 × Vec4 × Vec4)
    (hi : Inv s) (hs : Steady s) (hg : get3 s.triangles s.selectedTriangle = some (a, b, c)) :
    ∃ s', animationFrame p s = some s' ∧
      get3 s'.triangles s.selectedTriangle = some (place a b c p) ∧
      s'.frames = s.frames ++ [s'.triangles] ∧ s'.uniform = s.uniform ∧
      s'.selectedTriangle = s.selectedTriangle ∧ s'.currentMode = s.currentMode ∧
      s'.animationMode = s.animationMode ∧ Inv s' ∧ Steady s' := by
  obtain ⟨h0, hlt⟩ := get3_bounds hg
  have hi0 : Inv { s with triangles := set3 s.triangles s.selectedTriangle (place a b c p) } := by
    simp only [Inv, length_set3]
    exact hi
  obtain ⟨s', ext, h, ht, _, hfr, hu, hsel, han, hmode, _, _, hi', hs'⟩ :=
    redraw_result _ hi0 hs
  refine ⟨s', ?_, ?_, hfr, hu, hsel, hmode, han, hi', hs'⟩
  · unfold animationFrame
    rw [hg]
    exact h
  · rw [ht]
    exact get3_append ext (get3_set3 _ h0 hlt)

/-- An animation loop in a state of a run: it returns, it draws one frame for
each value of `t`, with the positions of that `t` at the selected triangle, and
it leaves the positions of the last value in the scene. -/
theorem animate_trace (f : ℚ → Vec4 × Vec4 × Vec4) :
    ∀ (ts : List ℚ) (s : State) (a b c : VertexAttributes), Inv s → Steady s →
      get3 s.triangles s.selectedTriangle = some (a, b, c) →
      ∃ s' more, animate f ts s = some s' ∧ s'.frames = s.frames ++ more ∧
        List.Forall₂ (fun t fr => get3 fr s.selectedTriangle = some (place a b c (f t)))
          ts more ∧
        get3 s'.triangles s.selectedTriangle =
          some (ts.foldl (fun _ t => place a b c (f t)) (a, b, c)) ∧
        s'.selectedTriangle = s.selectedTriangle ∧ s'.currentMode = s.currentMode ∧
        s'.uniform = s.uniform ∧ s'.animationMode = s.animationMode ∧ Inv s' ∧ Steady s' := by
  intro ts
  induction ts with
  | nil =>
    intro s a b c hi hs hg
    exact ⟨s, [], rfl, (List.append_nil _).symm, List.Forall₂.nil, hg, rfl, rfl, rfl, rfl,
      hi, hs⟩
  | cons t ts ih =>
    intro s a b c hi hs hg
    obtain ⟨s1, hfr, hget, hframes, hu, hsel, hmode, han, hi1, hs1⟩ :=
      animationFrame_result s a b c (f t) hi hs hg
    obtain ⟨s', more, h, h1, h2, h3, h4, h5, h6, h7, h8, h9⟩ :=
      ih s1 (place a b c (f t)).1 (place a b c (f t)).2.1 (place a b c (f t)).2.2 hi1 hs1
        (by rw [hsel]; exact hget)
    rw [hsel] at h2 h3
    refine ⟨s', s1.triangles :: more, ?_, ?_, List.Forall₂.cons hget h2, h3, ?_, ?_, ?_, ?_,
      h8, h9⟩
    · simp only [animate, hfr]
      exact h
    · rw [h1, hframes, List.append_assoc]
      rfl
    · rw [h4, hsel]
    · rw [h5, hmode]
    · rw [h6, hu]
    · rw [h7, han]

/-- The animation block on the key `'n'`, in a state of a run with the flag set
and the selection in range. -/
theorem animationBlock_linear (s : State) (a b c : VertexAttributes) (hi : Inv s)
    (hs : Steady s) (hf : s.animationMode = true)
    (hg : get3 s.triangles s.selectedTriangle = some (a, b, c)) :
    ∃ s1 more, animationBlock 'n' s = some ('q', s1) ∧ s1.frames = s.frames ++ more ∧
      List.Forall₂
        (fun t fr => get3 fr s.selectedTriangle =
          some (place a b c (linearFrame s.uniform a b c t))) animationSteps more ∧
      get3 s1.triangles s.selectedTriangle =
        some (animationSteps.foldl (fun _ t => place a b c (linearFrame s.uniform a b c t))
          (a, b, c)) ∧
      s1.selectedTriangle = s.selectedTriangle ∧ s1.currentMode = s.currentMode ∧
      s1.animationMode = false ∧ Inv s1 ∧ Steady s1 := by
  obtain ⟨s1, more, h, h1, h2, h3, h4, h5, _, _, h8, h9⟩ :=
    animate_trace (linearFrame s.uniform a b c) animationSteps
      { s with
        oldAnimePosition1 := a.position
        oldAnimePosition2 := b.position
        oldAnimePosition3 := c.position
        console := s.console ++ ["Animating......"]
        uniform := { s.uniform with translate := identity } } a b c hi hs hg
  refine ⟨{ s1 with animationMode := false, isPositionSet := false }, more, ?_, h1, h2, h3, h4,
    h5, rfl, h8, h9⟩
  unfold animationBlock
  rw [if_pos hf, hg]
  simp only [if_true]
  split
  · rename_i s2 heq
    have e : s2 = s1 := Option.some.inj (heq.symm.trans h)
    rw [e]
  · rename_i heq
    cases heq.symm.trans h

/-- The animation block on the key `'b'`, in a state of a run with the flag set
and the selection in range. -/
theorem animationBlock_bezier (s : State) (a b c : VertexAttributes) (hi : Inv s)
    (hs : Steady s) (hf : s.animationMode = true)
    (hg : get3 s.triangles s.selectedTriangle = some (a, b, c)) :
    ∃ s1 more, animationBlock 'b' s = some ('q', s1) ∧ s1.frames = s.frames ++ more ∧
      List.Forall₂
        (fun t fr => get3 fr s.selectedTriangle =
          some (place a b c (bezierFrame s.uniform a b c t))) animationSteps more ∧
      get3 s1.triangles s.selectedTriangle =
        some (animationSteps.foldl (fun _ t => place a b c (bezierFrame s.uniform a b c t))
          (a, b, c)) ∧
      s1.selectedTriangle = s.selectedTriangle ∧ s1.currentMode = s.currentMode ∧
      s1.animationMode = false ∧ Inv s1 ∧ Steady s1 := by
  obtain ⟨s1, more, h, h1, h2, h3, h4, h5, _, _, h8, h9⟩ :=
    animate_trace (bezierFrame s.uniform a b c) animationSteps
      { s with
        oldAnimePosition1 := a.position
        oldAnimePosition2 := b.position
        oldAnimePosition3 := c.position
        console := s.console ++ ["Animating......"]
        uniform := { s.uniform with translate := identity } } a b c hi hs hg
  refine ⟨{ s1 with animationMode := false, isPositionSet := false }, more, ?_, h1, h2, h3, h4,
    h5, rfl, h8, h9⟩
  have hnb : ¬ ('b' = 'n') := by decide
  unfold animationBlock
  rw [if_pos hf, hg]
  simp only [if_true, if_neg hnb]
  split
  · rename_i s2 heq
    have e : s2 = s1 := Option.some.inj (heq.symm.trans h)
    rw [e]
  · rename_i heq
    cases heq.symm.trans h

/-- The key handler on `'n'` or `'b'` after the animation block has run a loop:
the key is `'q'` by then, and nothing else happens to the scene. -/
theorem key_pressed_after_loop (E : Env) (key : Char) (s s1 : State)
    (hk : key = 'n' ∨ key = 'b') (hb : animationBlock key s = some ('q', s1)) :
    ∃ s', key_pressed E key s = some s' ∧ s'.frames = s1.frames ∧
      s'.triangles = s1.triangles ∧ s'.selectedTriangle = s1.selectedTriangle ∧
      s'.animationMode = s1.animationMode ∧ s'.uniform = s1.uniform := by
  have k : key ≠ INSERTION_MODE_KEY ∧ key ≠ TRANSLATION_MODE_KEY ∧ key ≠ DELETE_MODE_KEY ∧
      key ≠ COLOR_MODE_KEY ∧ key ≠ ANIMATION_MODE_KEY := by
    rcases hk with rfl | rfl <;> decide
  rw [key_pressed_non_mode E key s k.1 k.2.1 k.2.2.1 k.2.2.2.1 k.2.2.2.2, hb]
  simp only [Option.bind, keyAction_passive E 'q' s1 (by decide) (by decide) (by decide)
    (by decide) (by decide)]
  rw [@changeViewport_other 'q' _ _ _ (by decide) (by decide) (by decide) (by decide)
    (by decide) (by decide)]
  refine ⟨_, rfl, ?_, ?_, ?_, ?_, ?_⟩ <;> split <;> rfl

/-! ## Algebra of the two interpolations -/

theorem lerp_zero (p q : Vec4) : p + (0 : ℚ) * (q - p) = p := by
  ext <;> simp [Vec4.add_def, Vec4.add, Vec4.smul_def, Vec4.smul, Vec4.sub_def, Vec4.sub]

theorem lerp_one (p q : Vec4) : p + (1 : ℚ) * (q - p) = q := by
  ext <;> simp [Vec4.add_def, Vec4.add, Vec4.smul_def, Vec4.smul, Vec4.sub_def, Vec4.sub]

theorem lerp_eq_end (p q : Vec4) (t : ℚ) (ht : t ≠ 1) : p + t * (q - p) = q ↔ q = p := by
  have key : ∀ x y : ℚ, x + t * (y - x) = y ↔ y = x := by
    intro x y
    constructor
    · intro h
      have h1 : (1 - t) * (y - x) = 0 := by linarith
      rcases mul_eq_zero.mp h1 with h2 | h2
      · exact absurd (by linarith) ht
      · linarith
    · intro h
      rw [h]
      ring
  simp only [Vec4.ext_iff, Vec4.add_def, Vec4.add, Vec4.smul_def, Vec4.smul, Vec4.sub_def,
    Vec4.sub, key]

theorem lerp_w (p q : Vec4) (t : ℚ) (hp : p.w = 1) (hq : q.w = 1) :
    (p + t * (q - p)).w = 1 := by
  simp [Vec4.add_def, Vec4.add, Vec4.smul_def, Vec4.smul, Vec4.sub_def, Vec4.sub, hp, hq]

theorem bezierPoint_zero (P0 P1 P2 : Vec4) : bezierPoint P0 P1 P2 0 = P0 := by
  ext <;> simp [bezierPoint, Vec4.add_def, Vec4.add, Vec4.smul_def, Vec4.smul]

theorem bezierPoint_one (P0 P1 P2 : Vec4) : bezierPoint P0 P1 P2 1 = P2 := by
  ext <;> simp [bezierPoint, Vec4.add_def, Vec4.add, Vec4.smul_def, Vec4.smul]

theorem bezierPoint_w (P0 P2 : Vec4) (t : ℚ) (h0 : P0.w = 1) (h2 : P2.w = 1) :
    (bezierPoint P0 (controlPoint (P2 - P0)) P2 t).w = (1 - t) ^ 2 + t ^ 2 := by
  simp [bezierPoint, controlPoint, Vec4.add_def, Vec4.add, Vec4.smul_def, Vec4.smul,
    Vec4.sub_def, Vec4.sub, h0, h2]

theorem bezier_weight_eq_one (t : ℚ) : (1 - t) ^ 2 + t ^ 2 = 1 ↔ t = 0 ∨ t = 1 := by
  constructor
  · intro h
    have h1 : t * (t - 1) = 0 := by nlinarith
    rcases mul_eq_zero.mp h1 with h2 | h2
    · exact Or.inl h2
    · exact Or.inr (by linarith)
  · rintro (rfl | rfl) <;> norm_num

theorem affine_mul {a b : Mat4} (ha : Affine a) (hb : Affine b) : Affine (a * b) := by
  obtain ⟨a0, a1, a2, a3⟩ := ha
  obtain ⟨b0, b1, b2, b3⟩ := hb
  simp [Affine, Mat4.mul_def, Mat4.mul, a0, a1, a2, a3, b0, b1, b2, b3]

theorem affine_mulVec {m : Mat4} (h : Affine m) (v : Vec4) : (m * v).w = v.w := by
  obtain ⟨a0, a1, a2, a3⟩ := h
  simp [Mat4.mulVec_def, Mat4.mulVec, a0, a1, a2, a3]

theorem affine_composed {u : UniformAttributes} (hv : Affine u.view) (ht : Affine u.translate)
    (hr : Affine u.rotate) (hs : Affine u.scale) : Affine u.composed :=
  affine_mul (affine_mul (affine_mul hv ht) hr) hs

/-- The loop counter: ten values, the first 0, the last 1887437/2097152 (the
`float` next to 0.9), none of them 1, and 0 the only one of 0 and 1 among them. -/
theorem animationSteps_facts :
    animationSteps.length = 10 ∧ animationSteps.head? = some 0 ∧
    animationSteps.getLast? = some (1887437 / 2097152) ∧
    (∀ t ∈ animationSteps, t < 1) ∧ (∀ t ∈ animationSteps, t ≠ 0 → 0 < t) := by
  rw [animationSteps_eq]
  refine ⟨rfl, rfl, rfl, ?_, ?_⟩
  · intro t ht
    simp only [List.mem_cons, List.mem_singleton, List.not_mem_nil, or_false] at ht
    rcases ht with rfl | rfl | rfl | rfl | rfl | rfl | rfl | rfl | rfl | rfl <;> norm_num
  · intro t ht
    simp only [List.mem_cons, List.mem_singleton, List.not_mem_nil, or_false] at ht
    rcases ht with rfl | rfl | rfl | rfl | rfl | rfl | rfl | rfl | rfl | rfl <;> norm_num

/-- The positions left by a loop over the ten values are those of the last. -/
theorem animationSteps_foldl {α : Type} (g : ℚ → α) (x : α) :
    animationSteps.foldl (fun _ t => g t) x = g (1887437 / 2097152) := by
  rw [animationSteps_eq]
  rfl

theorem forall₂_length_ten {α : Type} {R : ℚ → α → Prop} {l : List α}
    (h : List.Forall₂ R animationSteps l) : l.length = 10 := by
  rw [← h.length_eq]
  exact animationSteps_facts.1

/-- The key handler on `'n'`, in a state of a run with the animation flag set
and the selection in range: it returns, it draws ten frames, one for each value
of the loop counter, and it leaves the positions of the tenth in the scene. -/
theorem key_pressed_linear (E : Env) (s : State) (a b c : VertexAttributes) (hi : Inv s)
    (hs : Steady s) (hf : s.animationMode = true)
    (hg : get3 s.triangles s.selectedTriangle = some (a, b, c)) :
    ∃ s' more, key_pressed E 'n' s = some s' ∧ s'.frames = s.frames ++ more ∧
      more.length = 10 ∧
      List.Forall₂
        (fun t fr => get3 fr s.selectedTriangle =
          some (place a b c (linearFrame s.uniform a b c t))) animationSteps more ∧
      get3 s'.triangles s.selectedTriangle =
        some (place a b c (linearFrame s.uniform a b c (1887437 / 2097152))) ∧
      s'.animationMode = false := by
  obtain ⟨s1, more, hb, h1, h2, h3, h4, _, h6, _, _⟩ := animationBlock_linear s a b c hi hs hf hg
  obtain ⟨s', h, g1, g2, g3, g4, _⟩ := key_pressed_after_loop E 'n' s s1 (Or.inl rfl) hb
  refine ⟨s', more, h, by rw [g1, h1], forall₂_length_ten h2, h2, ?_, by rw [g4, h6]⟩
  rw [g2, h3, animationSteps_foldl (fun t => place a b c (linearFrame s.uniform a b c t))]

/-- The key handler on `'b'`, in a state of a run with the animation flag set
and the selection in range: it returns, it draws ten frames, one for each value
of the loop counter, and it leaves the positions of the tenth in the scene. -/
theorem key_pressed_bezier (E : Env) (s : State) (a b c : VertexAttributes) (hi : Inv s)
    (hs : Steady s) (hf : s.animationMode = true)
    (hg : get3 s.triangles s.selectedTriangle = some (a, b, c)) :
    ∃ s' more, key_pressed E 'b' s = some s' ∧ s'.frames = s.frames ++ more ∧
      more.length = 10 ∧
      List.Forall₂
        (fun t fr => get3 fr s.selectedTriangle =
          some (place a b c (bezierFrame s.uniform a b c t))) animationSteps more ∧
      get3 s'.triangles s.selectedTriangle =
        some (place a b c (bezierFrame s.uniform a b c (1887437 / 2097152))) ∧
      s'.animationMode = false := by
  obtain ⟨s1, more, hb, h1, h2, h3, h4, _, h6, _, _⟩ := animationBlock_bezier s a b c hi hs hf hg
  obtain ⟨s', h, g1, g2, g3, g4, _⟩ := key_pressed_after_loop E 'b' s s1 (Or.inr rfl) hb
  refine ⟨s', more, h, by rw [g1, h1], forall₂_length_ten h2, h2, ?_, by rw [g4, h6]⟩
  rw [g2, h3, animationSteps_foldl (fun t => place a b c (bezierFrame s.uniform a b c t))]

/-- The fourth coordinate of the positions of the Bezier animation, for a
triangle of points and affine uniform matrices. -/
theorem bezierFrame_w (u : UniformAttributes) (a b c : VertexAttributes) (t : ℚ)
    (hw : a.position.w = 1 ∧ b.position.w = 1 ∧ c.position.w = 1)
    (haff : Affine u.view ∧ Affine u.translate ∧ Affine u.rotate ∧ Affine u.scale) :
    (bezierFrame u a b c t).1.w = (1 - t) ^ 2 + t ^ 2 ∧
    (bezierFrame u a b c t).2.1.w = (1 - t) ^ 2 + t ^ 2 ∧
    (bezierFrame u a b c t).2.2.w = (1 - t) ^ 2 + t ^ 2 := by
  have hc := affine_composed haff.1 haff.2.1 haff.2.2.1 haff.2.2.2
  have wa : (u.composed * a.position).w = 1 := by rw [affine_mulVec hc, hw.1]
  have wb : (u.composed * b.position).w = 1 := by rw [affine_mulVec hc, hw.2.1]
  have wc : (u.composed * c.position).w = 1 := by rw [affine_mulVec hc, hw.2.2]
  exact ⟨bezierPoint_w _ _ t hw.1 wa, bezierPoint_w _ _ t hw.2.1 wb,
    bezierPoint_w _ _ t hw.2.2 wc⟩

/-- The fourth coordinate of the positions of the linear animation, for a
triangle of points and affine uniform matrices. -/
theorem linearFrame_w (u : UniformAttributes) (a b c : VertexAttributes) (t : ℚ)
    (hw : a.position.w = 1 ∧ b.position.w = 1 ∧ c.position.w = 1)
    (haff : Affine u.view ∧ Affine u.translate ∧ Affine u.rotate ∧ Affine u.scale) :
    (linearFrame u a b c t).1.w = 1 ∧ (linearFrame u a b c t).2.1.w = 1 ∧
    (linearFrame u a b c t).2.2.w = 1 := by
  have hc := affine_composed haff.1 haff.2.1 haff.2.2.1 haff.2.2.2
  have wa : (u.composed * a.position).w = 1 := by rw [affine_mulVec hc, hw.1]
  have wb : (u.composed * b.position).w = 1 := by rw [affine_mulVec hc, hw.2.1]
  have wc : (u.composed * c.position).w = 1 := by rw [affine_mulVec hc, hw.2.2]
  exact ⟨lerp_w _ _ t hw.1 wa, lerp_w _ _ t hw.2.1 wb, lerp_w _ _ t hw.2.2 wc⟩

/-! ## C12 -/

/-- C12: the linear animation (`'n'` with the animation flag set and the
selection in range, in a state of a run) returns and draws one frame for each
value of the loop counter; the positions written at the value `t` are
`P0 + t * (P2 - P0)`, with `P0` the stored position and
`P2 = view * translate * rotate * scale * P0` at the key press, and those of the
first frame are `P0`. The counter is a `float`: the loop runs ten times, for
`t = 0`, about 0.1, ..., about 0.9, and not for `t = 1`; the positions left in
the scene are those of the tenth frame, `P0 + t * (P2 - P0)` for
`t = 1887437/2097152`, which are `P2` only when `P2 = P0`. -/
theorem linear_animation_frames (E : Env) (s : State) (a b c : VertexAttributes)
    (hr : Reachable E s) (hf : s.animationMode = true)
    (hg : get3 s.triangles s.selectedTriangle = some (a, b, c)) :
    (animationSteps.length = 10 ∧ animationSteps.head? = some 0 ∧
      animationSteps.getLast? = some (1887437 / 2097152) ∧ ∀ t ∈ animationSteps, t < 1) ∧
    (∀ t, linearFrame s.uniform a b c t =
      (a.position + t * (s.uniform.composed * a.position - a.position),
       b.position + t * (s.uniform.composed * b.position - b.position),
       c.position + t * (s.uniform.composed * c.position - c.position))) ∧
    linearFrame s.uniform a b c 0 = (a.position, b.position, c.position) ∧
    linearFrame s.uniform a b c 1 =
      (s.uniform.composed * a.position, s.uniform.composed * b.position,
       s.uniform.composed * c.position) ∧
    (∃ s' more, key_pressed E 'n' s = some s' ∧ s'.frames = s.frames ++ more ∧
      more.length = 10 ∧
      List.Forall₂
        (fun t fr => get3 fr s.selectedTriangle =
          some (place a b c (linearFrame s.uniform a b c t))) animationSteps more ∧
      get3 s'.triangles s.selectedTriangle =
        some (place a b c (linearFrame s.uniform a b c (1887437 / 2097152))) ∧
      s'.animationMode = false) ∧
    ((linearFrame s.uniform a b c (1887437 / 2097152)).1 = s.uniform.composed * a.position ↔
      s.uniform.composed * a.position = a.position) := by
  have hi := reachable_inv hr
  have hs := reachable_steady hr
  refine ⟨⟨animationSteps_facts.1, animationSteps_facts.2.1, animationSteps_facts.2.2.1,
    animationSteps_facts.2.2.2.1⟩, fun t => rfl, ?_, ?_, ?_, ?_⟩
  · simp only [linearFrame, linearPos, lerp_zero]
  · simp only [linearFrame, linearPos, lerp_one]
  · exact key_pressed_linear E s a b c hi hs hf hg
  · exact lerp_eq_end _ _ _ (by norm_num)

/-- C12, witness: the key `'n'` after a triangle was selected and scaled by 1.25
and the key `'m'` was pressed; the first vertex is not left at `P2`. -/
theorem linear_animation_frames_witness :
    Reachable sampleEnv animationReadyState ∧ animationReadyState.animationMode = true ∧
    (∃ s' more, key_pressed sampleEnv 'n' animationReadyState = some s' ∧
      s'.frames = animationReadyState.frames ++ more ∧ more.length = 10 ∧
      List.Forall₂
        (fun t fr => get3 fr animationReadyState.selectedTriangle =
          some (place animatedVertices.1 animatedVertices.2.1 animatedVertices.2.2
            (linearFrame animationReadyState.uniform animatedVertices.1 animatedVertices.2.1
              animatedVertices.2.2 t))) animationSteps more ∧
      get3 s'.triangles animationReadyState.selectedTriangle =
        some (place animatedVertices.1 animatedVertices.2.1 animatedVertices.2.2
          (linearFrame animationReadyState.uniform animatedVertices.1 animatedVertices.2.1
            animatedVertices.2.2 (1887437 / 2097152))) ∧
      s'.animationMode = false) ∧
    (linearFrame animationReadyState.uniform animatedVertices.1 animatedVertices.2.1
        animatedVertices.2.2 (1887437 / 2097152)).1 ≠
      animationReadyState.uniform.composed * animatedVertices.1.position :=
  have hc : run sampleEnv (initial sampleEnv) (deselectEvents ++ [Event.key_pressed 'm']) =
        some animationReadyState ∧
      animationReadyState.animationMode = true ∧
      get3 animationReadyState.triangles animationReadyState.selectedTriangle =
        some (animatedVertices.1, animatedVertices.2.1, animatedVertices.2.2) := by
    decide!
  have h := linear_animation_frames sampleEnv animationReadyState animatedVertices.1
    animatedVertices.2.1 animatedVertices.2.2
    ⟨deselectEvents ++ [Event.key_pressed 'm'], hc.1⟩ hc.2.1 hc.2.2
  ⟨⟨deselectEvents ++ [Event.key_pressed 'm'], hc.1⟩, hc.2.1, h.2.2.2.2.1,
    fun e => absurd (h.2.2.2.2.2.mp e) (by decide!)⟩

/-! ## C13 -/

/-- C13: the Bezier animation (`'b'` with the animation flag set and the
selection in range, in a state of a run) returns and draws one frame for each
value of the loop counter; the positions written at the value `t` are
`(1-t)^2 * P0 + 2t(1-t) * P1 + t^2 * P2` with `P0` the stored position,
`P2 = view * translate * rotate * scale * P0`, `d = P2 - P0` and
`P1 = (d.y, -d.x, d.z, d.w)`; the formula gives `P0` at `t = 0`, the first frame,
and `P2` at `t = 1`. The loop runs for the ten values of the `float` counter,
none of which is 1: no frame is drawn at `t = 1`, and the positions left in the
scene are those of `t = 1887437/2097152`. -/
theorem bezier_animation_frames (E : Env) (s : State) (a b c : VertexAttributes)
    (hr : Reachable E s) (hf : s.animationMode = true)
    (hg : get3 s.triangles s.selectedTriangle = some (a, b, c)) :
    (animationSteps.length = 10 ∧ animationSteps.head? = some 0 ∧
      animationSteps.getLast? = some (1887437 / 2097152) ∧ ∀ t ∈ animationSteps, t < 1) ∧
    (∀ t, (bezierFrame s.uniform a b c t).1 =
      (1 - t) ^ 2 * a.position +
        (2 * t * (1 - t)) *
          (⟨(s.uniform.composed * a.position - a.position).y,
            -(s.uniform.composed * a.position - a.position).x,
            (s.uniform.composed * a.position - a.position).z,
            (s.uniform.composed * a.position - a.position).w⟩ : Vec4) +
        t ^ 2 * (s.uniform.composed * a.position)) ∧
    bezierFrame s.uniform a b c 0 = (a.position, b.position, c.position) ∧
    bezierFrame s.uniform a b c 1 =
      (s.uniform.composed * a.position, s.uniform.composed * b.position,
       s.uniform.composed * c.position) ∧
    (∃ s' more, key_pressed E 'b' s = some s' ∧ s'.frames = s.frames ++ more ∧
      more.length = 10 ∧
      List.Forall₂
        (fun t fr => get3 fr s.selectedTriangle =
          some (place a b c (bezierFrame s.uniform a b c t))) animationSteps more ∧
      get3 s'.triangles s.selectedTriangle =
        some (place a b c (bezierFrame s.uniform a b c (1887437 / 2097152))) ∧
      s'.animationMode = false) := by
  have hi := reachable_inv hr
  have hs := reachable_steady hr
  refine ⟨⟨animationSteps_facts.1, animationSteps_facts.2.1, animationSteps_facts.2.2.1,
    animationSteps_facts.2.2.2.1⟩, fun t => rfl, ?_, ?_, ?_⟩
  · simp only [bezierFrame, bezierPoint_zero]
  · simp only [bezierFrame, bezierPoint_one]
  · exact key_pressed_bezier E s a b c hi hs hf hg

/-- C13, witness: the key `'b'` after a triangle was selected and scaled by 1.25
and the key `'m'` was pressed; the first vertex is not left at `P2`. -/
theorem bezier_animation_frames_witness :
    Reachable sampleEnv animationReadyState ∧ animationReadyState.animationMode = true ∧
    (∃ s' more, key_pressed sampleEnv 'b' animationReadyState = some s' ∧
      s'.frames = animationReadyState.frames ++ more ∧ more.length = 10 ∧
      List.Forall₂
        (fun t fr => get3 fr animationReadyState.selectedTriangle =
          some (place animatedVertices.1 animatedVertices.2.1 animatedVertices.2.2
            (bezierFrame animationReadyState.uniform animatedVertices.1 animatedVertices.2.1
              animatedVertices.2.2 t))) animationSteps more ∧
      get3 s'.triangles animationReadyState.selectedTriangle =
        some (place animatedVertices.1 animatedVertices.2.1 animatedVertices.2.2
          (bezierFrame animationReadyState.uniform animatedVertices.1 animatedVertices.2.1
            animatedVertices.2.2 (1887437 / 2097152))) ∧
      s'.animationMode = false) ∧
    (bezierFrame animationReadyState.uniform animatedVertices.1 animatedVertices.2.1
        animatedVertices.2.2 (1887437 / 2097152)).1 ≠
      animationReadyState.uniform.composed * animatedVertices.1.position :=
  have hc : run sampleEnv (initial sampleEnv) (deselectEvents ++ [Event.key_pressed 'm']) =
        some animationReadyState ∧
      animationReadyState.animationMode = true ∧
      get3 animationReadyState.triangles animationReadyState.selectedTriangle =
        some (animatedVertices.1, animatedVertices.2.1, animatedVertices.2.2) ∧
      (bezierFrame animationReadyState.uniform animatedVertices.1 animatedVertices.2.1
          animatedVertices.2.2 (1887437 / 2097152)).1 ≠
        animationReadyState.uniform.composed * animatedVertices.1.position := by
    decide!
  have h := bezier_animation_frames sampleEnv animationReadyState animatedVertices.1
    animatedVertices.2.1 animatedVertices.2.2
    ⟨deselectEvents ++ [Event.key_pressed 'm'], hc.1⟩ hc.2.1 hc.2.2.1
  ⟨⟨deselectEvents ++ [Event.key_pressed 'm'], hc.1⟩, hc.2.1, h.2.2.2.2, hc.2.2.2⟩

/-! ## C20 -/

/-- C20, counterexample: a triangle of points with `w = 1` is selected and scaled
by 1.25, all uniform matrices are affine, and the Bezier animation (`'m'`, then
`'b'`) leaves its three vertices in the triangle list with
`w = (1-t)^2 + t^2 ≠ 1` for `t = 1887437/2097152`. -/
theorem bezier_frame_w_counterexample :
    Reachable sampleEnv animationReadyState ∧
    (Affine animationReadyState.uniform.view ∧ Affine animationReadyState.uniform.translate ∧
      Affine animationReadyState.uniform.rotate ∧ Affine animationReadyState.uniform.scale) ∧
    get3 animationReadyState.triangles animationReadyState.selectedTriangle =
      some animatedVertices ∧
    (animatedVertices.1.position.w = 1 ∧ animatedVertices.2.1.position.w = 1 ∧
      animatedVertices.2.2.position.w = 1) ∧
    ∃ s' a' b' c', key_pressed sampleEnv 'b' animationReadyState = some s' ∧
      get3 s'.triangles animationReadyState.selectedTriangle = some (a', b', c') ∧
      a'.position.w = (1 - 1887437 / 2097152) ^ 2 + (1887437 / 2097152) ^ 2 ∧
      a'.position.w ≠ 1 ∧ b'.position.w ≠ 1 ∧ c'.position.w ≠ 1 := by
  have hr : Reachable sampleEnv animationReadyState :=
    ⟨deselectEvents ++ [Event.key_pressed 'm'], by decide!⟩
  have haff : Affine animationReadyState.uniform.view ∧
      Affine animationReadyState.uniform.translate ∧
      Affine animationReadyState.uniform.rotate ∧ Affine animationReadyState.uniform.scale := by
    unfold Affine
    decide!
  have hw : animatedVertices.1.position.w = 1 ∧ animatedVertices.2.1.position.w = 1 ∧
      animatedVertices.2.2.position.w = 1 := by decide!
  have hg : get3 animationReadyState.triangles animationReadyState.selectedTriangle =
      some (animatedVertices.1, animatedVertices.2.1, animatedVertices.2.2) := by decide!
  have hne : (1 - 1887437 / 2097152 : ℚ) ^ 2 + (1887437 / 2097152) ^ 2 ≠ 1 := by norm_num
  obtain ⟨s', more, h, _, _, _, hfin, _⟩ :=
    key_pressed_bezier sampleEnv animationReadyState animatedVertices.1 animatedVertices.2.1
      animatedVertices.2.2 (reachable_inv hr) (reachable_steady hr) (by decide!) hg
  have hbz := bezierFrame_w animationReadyState.uniform animatedVertices.1 animatedVertices.2.1
    animatedVertices.2.2 (1887437 / 2097152) hw haff
  refine ⟨hr, haff, hg, hw, s', _, _, _, h, hfin, hbz.1, ?_, ?_, ?_⟩
  · show (bezierFrame animationReadyState.uniform animatedVertices.1 animatedVertices.2.1
      animatedVertices.2.2 (1887437 / 2097152)).1.w ≠ 1
    rw [hbz.1]
    exact hne
  · show (bezierFrame animationReadyState.uniform animatedVertices.1 animatedVertices.2.1
      animatedVertices.2.2 (1887437 / 2097152)).2.1.w ≠ 1
    rw [hbz.2.1]
    exact hne
  · show (bezierFrame animationReadyState.uniform animatedVertices.1 animatedVertices.2.1
      animatedVertices.2.2 (1887437 / 2097152)).2.2.w ≠ 1
    rw [hbz.2.2]
    exact hne

/-- C20 (amended): a vertex made by a click in Insertion mode has `w = 1`. For a
selected triangle of points with `w = 1` and affine uniform matrices (last row
(0, 0, 0, 1)) every position of the linear animation has `w = 1`, and so have
the positions the key `'n'` leaves in the triangle list. The control point `P1`
of the Bezier animation is made of the difference of two points and has
`w = 0`, so the position of the Bezier animation at the parameter `t` has
`w = (1-t)^2 + t^2`, which is 1 exactly for `t = 0` and `t = 1`: the key `'b'`
returns, each frame it draws at a value `t` of the loop counter holds positions
with `w = (1-t)^2 + t^2`, and so do the positions it leaves in the triangle
list. -/
theorem stored_position_w (E : Env) (s : State) (a b c : VertexAttributes)
    (hr : Reachable E s) (hf : s.animationMode = true)
    (hg : get3 s.triangles s.selectedTriangle = some (a, b, c))
    (hw : a.position.w = 1 ∧ b.position.w = 1 ∧ c.position.w = 1)
    (haff : Affine s.uniform.view ∧ Affine s.uniform.translate ∧ Affine s.uniform.rotate ∧
      Affine s.uniform.scale) :
    (∀ (x y : Int) (s0 : State), s0.currentMode = Mode.INSERTION_MODE →
      ∃ s1, mouse_pressed E x y true s0 = some s1 ∧
        s1.triangleVertices = s0.triangleVertices ++ [E.vertex (xPos x) (yPos y) 0 1] ∧
        (E.vertex (xPos x) (yPos y) 0 1).position.w = 1) ∧
    (∀ t, (linearFrame s.uniform a b c t).1.w = 1 ∧ (linearFrame s.uniform a b c t).2.1.w = 1 ∧
      (linearFrame s.uniform a b c t).2.2.w = 1) ∧
    (∃ s' a' b' c', key_pressed E 'n' s = some s' ∧
      get3 s'.triangles s.selectedTriangle = some (a', b', c') ∧
      a'.position.w = 1 ∧ b'.position.w = 1 ∧ c'.position.w = 1) ∧
    ((controlPoint (s.uniform.composed * a.position - a.position)).w = 0 ∧
      (controlPoint (s.uniform.composed * b.position - b.position)).w = 0 ∧
      (controlPoint (s.uniform.composed * c.position - c.position)).w = 0) ∧
    (∀ t, (bezierFrame s.uniform a b c t).1.w = (1 - t) ^ 2 + t ^ 2 ∧
      (bezierFrame s.uniform a b c t).2.1.w = (1 - t) ^ 2 + t ^ 2 ∧
      (bezierFrame s.uniform a b c t).2.2.w = (1 - t) ^ 2 + t ^ 2) ∧
    (∀ t, (bezierFrame s.uniform a b c t).1.w = 1 ↔ t = 0 ∨ t = 1) ∧
    (∃ s' more, key_pressed E 'b' s = some s' ∧ s'.frames = s.frames ++ more ∧
      List.Forall₂
        (fun t fr => ∃ a' b' c', get3 fr s.selectedTriangle = some (a', b', c') ∧
          a'.position.w = (1 - t) ^ 2 + t ^ 2 ∧ b'.position.w = (1 - t) ^ 2 + t ^ 2 ∧
          c'.position.w = (1 - t) ^ 2 + t ^ 2) animationSteps more ∧
      ∃ t ∈ animationSteps, ∃ a' b' c',
        get3 s'.triangles s.selectedTriangle = some (a', b', c') ∧
        a'.position.w = (1 - t) ^ 2 + t ^ 2 ∧ b'.position.w = (1 - t) ^ 2 + t ^ 2 ∧
        c'.position.w = (1 - t) ^ 2 + t ^ 2) := by
  have hi := reachable_inv hr
  have hs := reachable_steady hr
  have hbz := fun t => bezierFrame_w s.uniform a b c t hw haff
  have hln := fun t => linearFrame_w s.uniform a b c t hw haff
  have hc := affine_composed haff.1 haff.2.1 haff.2.2.1 haff.2.2.2
  have wa : (s.uniform.composed * a.position).w = 1 := by rw [affine_mulVec hc, hw.1]
  have wb : (s.uniform.composed * b.position).w = 1 := by rw [affine_mulVec hc, hw.2.1]
  have wc : (s.uniform.composed * c.position).w = 1 := by rw [affine_mulVec hc, hw.2.2]
  refine ⟨fun x y s0 hm => ?_, hln, ?_, ⟨?_, ?_, ?_⟩, hbz, fun t => ?_, ?_⟩
  · have e : mouse_pressed E x y true s0 = some { s0 with
        lines := s0.lines ++ [E.vertex (xPos x) (yPos y) 0 1]
        triangleVertices := s0.triangleVertices ++ [E.vertex (xPos x) (yPos y) 0 1]
        numOfClicks := s0.numOfClicks + 1
        redraw_next := true } := by
      unfold mouse_pressed
      simp only [if_pos hm, if_true]
    exact ⟨_, e, rfl, rfl⟩
  · obtain ⟨s', more, h, _, _, _, hfin, _⟩ := key_pressed_linear E s a b c hi hs hf hg
    exact ⟨s', _, _, _, h, hfin, (hln _).1, (hln _).2.1, (hln _).2.2⟩
  · simp [controlPoint, Vec4.sub_def, Vec4.sub, wa, hw.1]
  · simp [controlPoint, Vec4.sub_def, Vec4.sub, wb, hw.2.1]
  · simp [controlPoint, Vec4.sub_def, Vec4.sub, wc, hw.2.2]
  · rw [(hbz t).1]
    exact bezier_weight_eq_one t
  · obtain ⟨s', more, h, hfr, _, hall, hfin, _⟩ := key_pressed_bezier E s a b c hi hs hf hg
    refine ⟨s', more, h, hfr, ?_, 1887437 / 2097152, ?_, _, _, _, hfin, (hbz _).1, (hbz _).2.1,
      (hbz _).2.2⟩
    · exact hall.imp fun {t fr} hfr => ⟨_, _, _, hfr, (hbz t).1, (hbz t).2.1, (hbz t).2.2⟩
    · rw [animationSteps_eq]
      simp

/-- C20 (amended), witness: the keys `'n'` and `'b'` after a triangle was selected
and scaled by 1.25 and the key `'m'` was pressed. -/
theorem stored_position_w_witness :
    Reachable sampleEnv animationReadyState ∧
    (∃ s' a' b' c', key_pressed sampleEnv 'n' animationReadyState = some s' ∧
      get3 s'.triangles animationReadyState.selectedTriangle = some (a', b', c') ∧
      a'.position.w = 1 ∧ b'.position.w = 1 ∧ c'.position.w = 1) ∧
    ((bezierFrame animationReadyState.uniform animatedVertices.1 animatedVertices.2.1
      animatedVertices.2.2 (1 / 2)).1.w = 1 ↔ (1 / 2 : ℚ) = 0 ∨ (1 / 2 : ℚ) = 1) :=
  have hc : run sampleEnv (initial sampleEnv) (deselectEvents ++ [Event.key_pressed 'm']) =
        some animationReadyState ∧
      animationReadyState.animationMode = true ∧
      get3 animationReadyState.triangles animationReadyState.selectedTriangle =
        some (animatedVertices.1, animatedVertices.2.1, animatedVertices.2.2) ∧
      (animatedVertices.1.position.w = 1 ∧ animatedVertices.2.1.position.w = 1 ∧
        animatedVertices.2.2.position.w = 1) := by
    decide!
  have h := stored_position_w sampleEnv animationReadyState animatedVertices.1
    animatedVertices.2.1 animatedVertices.2.2
    ⟨deselectEvents ++ [Event.key_pressed 'm'], hc.1⟩ hc.2.1 hc.2.2.1 hc.2.2.2
    (by unfold Affine; decide!)
  ⟨⟨deselectEvents ++ [Event.key_pressed 'm'], hc.1⟩, h.2.2.1, h.2.2.2.2.2.1 (1 / 2)⟩

/-! ## C25 -/

theorem getElem?_erase3_lt (triangles : List VertexAttributes) (i j : Nat) (hj : j < i) :
    (erase3 triangles i)[j]? = triangles[j]? := by
  unfold erase3
  by_cases hl : j < triangles.length
  · rw [List.getElem?_append_left (by rw [List.length_take]; omega), List.getElem?_take_of_lt hj]
  · have h1 : (triangles.take i ++ triangles.drop (i + 3)).length ≤ j := by
      rw [List.length_append, List.length_take, List.length_drop]
      omega
    rw [List.getElem?_eq_none h1, List.getElem?_eq_none (by omega)]

theorem getElem?_erase3_ge (triangles : List VertexAttributes) (i j : Nat) (hj : i ≤ j)
    (hi : i + 3 ≤ triangles.length) : (erase3 triangles i)[j]? = triangles[j + 3]? := by
  unfold erase3
  have hlen : (triangles.take i).length = i := by
    rw [List.length_take]
    omega
  rw [List.getElem?_append_right (by rw [hlen]; exact hj), hlen, List.getElem?_drop]
  congr 1
  omega

/-- C25 (deletion removes exactly the hit triangle): if the hit test returns
`i ≥ 0`, `deleteTriangle` yields the list without the vertices `i`, `i + 1`,
`i + 2`: the vertices before `i` stay where they are, the vertex at `j + 3`
moves to `j` for every `j ≥ i`, the size decreases by 3, and a redraw is
requested. If the hit test returns `-1`, the triangle list, the whole uniform
state and the redraw request are as they were. The mouse press in Deletion mode
does exactly this to the state. -/
theorem deleteTriangle_removes_hit_triangle (triangles : List VertexAttributes)
    (uniform : UniformAttributes) (x_pos y_pos : ℚ) (redraw_next : Bool) :
    (∀ i : Int, 0 ≤ i → getSelectedTriangleIndex triangles uniform x_pos y_pos = i →
      (deleteTriangle triangles uniform x_pos y_pos redraw_next).1 =
        triangles.take i.toNat ++ triangles.drop (i.toNat + 3) ∧
      i.toNat + 3 ≤ triangles.length ∧
      (deleteTriangle triangles uniform x_pos y_pos redraw_next).1.length + 3 =
        triangles.length ∧
      (∀ j, j < i.toNat →
        (deleteTriangle triangles uniform x_pos y_pos redraw_next).1[j]? = triangles[j]?) ∧
      (∀ j, i.toNat ≤ j →
        (deleteTriangle triangles uniform x_pos y_pos redraw_next).1[j]? =
          triangles[j + 3]?) ∧
      (deleteTriangle triangles uniform x_pos y_pos redraw_next).2.2 = true) ∧
    (getSelectedTriangleIndex triangles uniform x_pos y_pos = -1 →
      deleteTriangle triangles uniform x_pos y_pos redraw_next =
        (triangles, uniform, redraw_next)) ∧
    (∀ (E : Env) (s : State) (x y : Int) (up : Bool),
      s.currentMode = Mode.DELETION_MODE → s.triangles = triangles → s.uniform = uniform →
      xPos x = x_pos → yPos y = y_pos → s.redraw_next = redraw_next →
      mouse_pressed E x y up s = some { s with
        triangles := (deleteTriangle triangles uniform x_pos y_pos redraw_next).1
        uniform := (deleteTriangle triangles uniform x_pos y_pos redraw_next).2.1
        redraw_next := (deleteTriangle triangles uniform x_pos y_pos redraw_next).2.2 }) := by
  refine ⟨fun i h0 hi => ?_, fun hm => ?_, fun E s x y up hmode ht hu hx hy hr => ?_⟩
  · have hge : getSelectedTriangleIndex triangles uniform x_pos y_pos ≥ 0 := by
      rw [hi]
      exact h0
    have e : deleteTriangle triangles uniform x_pos y_pos redraw_next =
        (erase3 triangles i.toNat, resetUniform uniform, true) := by
      unfold deleteTriangle
      simp only
      rw [if_pos hge, hi]
    have hb : i.toNat + 3 ≤ triangles.length := by
      rcases getSelectedTriangleIndex_range triangles uniform x_pos y_pos with h | ⟨k, hk, hk2⟩
      · rw [h] at hi
        omega
      · rw [hk] at hi
        omega
    rw [e]
    exact ⟨rfl, hb, length_erase3 triangles i.toNat hb,
      fun j hj => getElem?_erase3_lt triangles i.toNat j hj,
      fun j hj => getElem?_erase3_ge triangles i.toNat j hj hb, rfl⟩
  · have hneg : ¬ (getSelectedTriangleIndex triangles uniform x_pos y_pos ≥ 0) := by
      rw [hm]
      decide
    unfold deleteTriangle
    simp only
    rw [if_neg hneg]
  · subst ht hu hx hy hr
    exact mouse_pressed_deletion E s x y up hmode

/-! ## C24 -/

theorem run_append (E : Env) : ∀ (es es' : List Event) (s s1 : State),
    run E s es = some s1 → run E s (es ++ es') = run E s1 es' := by
  intro es
  induction es with
  | nil =>
    intro es' s s1 h
    simp only [run] at h
    cases h
    rfl
  | cons e es ih =>
    intro es' s s1 h
    simp only [run, List.cons_append] at h ⊢
    cases hx : step E s e with
    | none =>
      rw [hx] at h
      cases h
    | some a =>
      rw [hx] at h
      simp only at h ⊢
      exact ih es' a s1 h

/-- The product of the factors `f - 1/4`, `f - 2/4`, ..., `f - n/4`. -/
theorem prod_factors_succ (f : ℚ) (n : Nat) :
    ∏ k in Finset.range (n + 1), (f - ((k : ℚ) + 1) / 4) =
      (∏ k in Finset.range n, (f - 1 / 4 - ((k : ℚ) + 1) / 4)) * (f - 1 / 4) := by
  rw [Finset.prod_range_succ']
  congr 1
  · apply Finset.prod_congr rfl
    intro k _
    push_cast
    ring
  · norm_num

theorem prod_factors_zero (n : Nat) (h : 4 ≤ n) :
    ∏ k in Finset.range n, ((1 : ℚ) - ((k : ℚ) + 1) / 4) = 0 := by
  apply Finset.prod_eq_zero (Finset.mem_range.mpr (show 3 < n by omega))
  norm_num

/-- One press of a scale key in Translation mode with the selection in range:
the handler returns, mode and selection are kept, the length of the triangle
list is kept, and the scale factor and the scale matrix are those of
`performTranslationAction`. -/
theorem key_pressed_scale_key (E : Env) (s : State) (key : Char)
    (hk : key = SCALE_UP ∨ key = SCALE_DOWN) (hm : s.currentMode = Mode.TRANSLATION_MODE)
    (h0 : 0 ≤ s.selectedTriangle) (h : s.selectedTriangle + 2 < s.triangles.length) :
    ∃ s', key_pressed E key s = some s' ∧ s'.currentMode = Mode.TRANSLATION_MODE ∧
      s'.selectedTriangle = s.selectedTriangle ∧ s'.triangles.length = s.triangles.length ∧
      s'.uniform.scale_factor =
        (if key = SCALE_UP then max s.uniform.scale_factor 1 + 1 / 4
          else min s.uniform.scale_factor 1 - 1 / 4) ∧
      s'.uniform.scale = scaling s'.uniform.scale_factor * s.uniform.scale := by
  obtain ⟨s', r, hs', hr, e1, e2, e3, e4⟩ :=
    key_pressed_transform_key E s key
      (by rcases hk with hk | hk
          · exact Or.inl hk
          · exact Or.inr (Or.inl hk)) hm h0 h
  rcases hk with hk | hk
  · subst hk
    obtain ⟨r', hr', l1, l2, l3⟩ := scale_up_press E s.triangles s.uniform s.selectedTriangle h0 h
    rw [hr] at hr'
    cases hr'
    refine ⟨s', hs', e3, e4, by rw [e1, l1], ?_, ?_⟩
    · rw [e2, l2, if_pos rfl]
    · rw [e2, l3, l2]
  · subst hk
    obtain ⟨r', hr', l1, l2, l3⟩ :=
      scale_down_press E s.triangles s.uniform s.selectedTriangle h0 h
    rw [hr] at hr'
    cases hr'
    have hne : ¬ (SCALE_DOWN = SCALE_UP) := by decide
    refine ⟨s', hs', e3, e4, by rw [e1, l1], ?_, ?_⟩
    · rw [e2, l2, if_neg hne]
    · rw [e2, l3, l2]

/-- A run of `n` scale-down presses from a scale factor `f ≤ 1`: the factor is
`f - n/4` and the scale matrix is premultiplied by the product of the factors. -/
theorem run_scale_down (E : Env) : ∀ (n : Nat) (s : State) (f : ℚ),
    s.currentMode = Mode.TRANSLATION_MODE → 0 ≤ s.selectedTriangle →
    s.selectedTriangle + 2 < s.triangles.length → s.uniform.scale_factor = f → f ≤ 1 →
    ∃ s', run E s (List.replicate n (Event.key_pressed SCALE_DOWN)) = some s' ∧
      s'.currentMode = Mode.TRANSLATION_MODE ∧ s'.selectedTriangle = s.selectedTriangle ∧
      s'.triangles.length = s.triangles.length ∧
      s'.uniform.scale_factor = f - (n : ℚ) / 4 ∧
      s'.uniform.scale =
        scaling (∏ k in Finset.range n, (f - ((k : ℚ) + 1) / 4)) * s.uniform.scale := by
  intro n
  induction n with
  | zero =>
    intro s f hm h0 h hf _
    refine ⟨s, rfl, hm, rfl, rfl, ?_, ?_⟩
    · rw [hf]
      norm_num
    · rw [Finset.prod_range_zero, scaling_one, Mat4.identity_mul]
  | succ n ih =>
    intro s f hm h0 h hf hle
    obtain ⟨s1, h1, m1, sel1, len1, f1, sc1⟩ :=
      key_pressed_scale_key E s SCALE_DOWN (Or.inr rfl) hm h0 h
    have hne : ¬ (SCALE_DOWN = SCALE_UP) := by decide
    rw [if_neg hne, hf, min_eq_left hle] at f1
    rw [f1] at sc1
    obtain ⟨s', hrun, m', sel', len', f', sc'⟩ :=
      ih s1 (f - 1 / 4) m1 (by rw [sel1]; exact h0) (by rw [sel1, len1]; exact h) f1
        (by linarith)
    refine ⟨s', ?_, m', by rw [sel', sel1], by rw [len', len1], ?_, ?_⟩
    · simp only [List.replicate_succ, run, step, h1]
      exact hrun
    · rw [f']
      push_cast
      ring
    · rw [sc', sc1, ← Mat4.mul_assoc, scaling_mul, prod_factors_succ]

/-- Scale keys on a scale matrix `diag(0, 0, 1, 1)` leave it as it is. -/
theorem run_scale_keys_zero (E : Env) : ∀ (keys : List Char) (s : State),
    (∀ key ∈ keys, key = SCALE_UP ∨ key = SCALE_DOWN) →
    s.currentMode = Mode.TRANSLATION_MODE → 0 ≤ s.selectedTriangle →
    s.selectedTriangle + 2 < s.triangles.length → s.uniform.scale = scaling 0 →
    ∃ s', run E s (keys.map Event.key_pressed) = some s' ∧ s'.uniform.scale = scaling 0 := by
  intro keys
  induction keys with
  | nil =>
    intro s _ _ _ _ hz
    exact ⟨s, rfl, hz⟩
  | cons key keys ih =>
    intro s hk hm h0 h hz
    obtain ⟨s1, h1, m1, sel1, len1, _, sc1⟩ :=
      key_pressed_scale_key E s key (hk key (List.mem_cons_self _ _)) hm h0 h
    rw [hz, scaling_mul, mul_zero] at sc1
    obtain ⟨s', hrun, hz'⟩ :=
      ih s1 (fun k hk' => hk k (List.mem_cons_of_mem _ hk')) m1 (by rw [sel1]; exact h0)
        (by rw [sel1, len1]; exact h) sc1
    refine ⟨s', ?_, hz'⟩
    simp only [List.map_cons, run, step, h1]
    exact hrun

/-- C24 (scale degeneracy): in Translation mode with a selected triangle in
range, from `scale = identity` and `scale_factor = 1`, `n` scale-down presses
in a row return with `scale_factor = 1 - n/4` and `scale = diag(c, c, 1, 1)` for
`c` the product of `1 - i/4`, `i = 1..n`. After four presses the factor is 0 and
`scale = diag(0, 0, 1, 1)`; after four or more presses the x/y diagonal of
`scale` is 0, and it stays 0 under every further sequence of scale-up and
scale-down presses. The reset of `deleteTriangle` gives `scale = identity` and
`scale_factor = 1` again. -/
theorem scale_degeneracy (E : Env) (s : State)
    (hm : s.currentMode = Mode.TRANSLATION_MODE) (h0 : 0 ≤ s.selectedTriangle)
    (h : s.selectedTriangle + 2 < s.triangles.length)
    (hsc : s.uniform.scale = identity) (hf : s.uniform.scale_factor = 1) :
    (∀ n : Nat, ∃ s', run E s (List.replicate n (Event.key_pressed SCALE_DOWN)) = some s' ∧
      s'.uniform.scale_factor = 1 - (n : ℚ) / 4 ∧
      s'.uniform.scale = scaling (∏ k in Finset.range n, (1 - ((k : ℚ) + 1) / 4))) ∧
    (∃ s', run E s (List.replicate 4 (Event.key_pressed SCALE_DOWN)) = some s' ∧
      s'.uniform.scale_factor = 0 ∧ s'.uniform.scale = ⟨0, 0, 0, 0, 0, 0, 0, 0, 0, 0, 1, 0, 0, 0, 0, 1⟩) ∧
    (∀ (n : Nat) (keys : List Char), 4 ≤ n →
      (∀ key ∈ keys, key = SCALE_UP ∨ key = SCALE_DOWN) →
      ∃ s', run E s (List.replicate n (Event.key_pressed SCALE_DOWN) ++
          keys.map Event.key_pressed) = some s' ∧
        s'.uniform.scale.m00 = 0 ∧ s'.uniform.scale.m11 = 0 ∧
        s'.uniform.scale = scaling 0) ∧
    ((resetUniform s.uniform).scale = identity ∧ (resetUniform s.uniform).scale_factor = 1) := by
  have main : ∀ n : Nat, ∃ s', run E s (List.replicate n (Event.key_pressed SCALE_DOWN)) = some s' ∧
      s'.currentMode = Mode.TRANSLATION_MODE ∧ s'.selectedTriangle = s.selectedTriangle ∧
      s'.triangles.length = s.triangles.length ∧
      s'.uniform.scale_factor = 1 - (n : ℚ) / 4 ∧
      s'.uniform.scale = scaling (∏ k in Finset.range n, (1 - ((k : ℚ) + 1) / 4)) := by
    intro n
    obtain ⟨s', hrun, m', sel', len', f', sc'⟩ := run_scale_down E n s 1 hm h0 h hf le_rfl
    rw [hsc, Mat4.mul_identity] at sc'
    exact ⟨s', hrun, m', sel', len', f', sc'⟩
  refine ⟨fun n => ?_, ?_, fun n keys hn hk => ?_, rfl, rfl⟩
  · obtain ⟨s', hrun, _, _, _, f', sc'⟩ := main n
    exact ⟨s', hrun, f', sc'⟩
  · obtain ⟨s', hrun, _, _, _, f', sc'⟩ := main 4
    refine ⟨s', hrun, ?_, ?_⟩
    · rw [f']
      norm_num
    · rw [sc', prod_factors_zero 4 le_rfl]
      rfl
  · obtain ⟨s1, hrun, m1, sel1, len1, _, sc1⟩ := main n
    rw [prod_factors_zero n hn] at sc1
    obtain ⟨s', hrun', hz⟩ :=
      run_scale_keys_zero E keys s1 hk m1 (by rw [sel1]; exact h0)
        (by rw [sel1, len1]; exact h) sc1
    refine ⟨s', ?_, ?_, ?_, hz⟩
    · rw [run_append E _ _ s s1 hrun]
      exact hrun'
    · rw [hz]
      rfl
    · rw [hz]
      rfl

/-- C24, witness: the inserted triangle, selected in Translation mode. -/
theorem scale_degeneracy_witness :
    selectedState.currentMode = Mode.TRANSLATION_MODE ∧
    selectedState.uniform.scale = identity ∧
    selectedState.uniform.scale_factor = 1 ∧
    ∃ s', run sampleEnv selectedState
        (List.replicate 4 (Event.key_pressed SCALE_DOWN)) = some s' ∧
      s'.uniform.scale_factor = 0 ∧
      s'.uniform.scale = ⟨0, 0, 0, 0, 0, 0, 0, 0, 0, 0, 1, 0, 0, 0, 0, 1⟩ :=
  have hc : selectedState.currentMode = Mode.TRANSLATION_MODE ∧
      selectedState.uniform.scale = identity ∧ selectedState.uniform.scale_factor = 1 ∧
      0 ≤ selectedState.selectedTriangle ∧
      selectedState.selectedTriangle + 2 < selectedState.triangles.length := by
    decide!
  ⟨hc.1, hc.2.1, hc.2.2.1,
    (scale_degeneracy sampleEnv selectedState hc.1 hc.2.2.2.1 hc.2.2.2.2 hc.2.1
      hc.2.2.1).2.1⟩

/-! ## C21 -/

/-- The key handler on `'n'` or `'b'` with the animation flag clear: the scene
and the uniform state are kept. -/
theorem key_pressed_animation_key_off (E : Env) (s : State) (key : Char)
    (hk : key = 'n' ∨ key = 'b') (hf : s.animationMode = false) :
    ∃ s', key_pressed E key s = some s' ∧ s'.triangles = s.triangles ∧
      s'.uniform = s.uniform ∧ s'.currentMode = s.currentMode := by
  have k : key ≠ INSERTION_MODE_KEY ∧ key ≠ TRANSLATION_MODE_KEY ∧ key ≠ DELETE_MODE_KEY ∧
      key ≠ COLOR_MODE_KEY ∧ key ≠ ANIMATION_MODE_KEY ∧ key ≠ SCALE_UP ∧ key ≠ SCALE_DOWN ∧
      key ≠ ROTATE_CLOCKWISE ∧ key ≠ ROTATE_COUNTERCLOCKWISE ∧ ¬ (key ≥ '1' ∧ key ≤ '9') ∧
      key ≠ ZOOM_IN_KEY ∧ key ≠ ZOOM_OUT_KEY ∧ key ≠ PAN_DOWN_KEY ∧ key ≠ PAN_UP_KEY ∧
      key ≠ PAN_RIGHT_KEY ∧ key ≠ PAN_LEFT_KEY := by
    rcases hk with rfl | rfl <;> decide
  obtain ⟨k1, k2, k3, k4, k5, k6, k7, k8, k9, hd, v1, v2, v3, v4, v5, v6⟩ := k
  rw [key_pressed_non_mode E key s k1 k2 k3 k4 k5, animationBlock_off key s hf]
  simp only [Option.bind, keyAction_passive E key s k6 k7 k8 k9 hd,
    changeViewport_other v1 v2 v3 v4 v5 v6]
  refine ⟨_, rfl, ?_, ?_, ?_⟩ <;> split <;> rfl

/-- C21: the keys `'n'` and `'b'` leave the triangle list and the uniform state
as they are when the animation flag is clear, in every mode. With the flag set
and the selection in range they run the animation in every state of a run,
whatever the current mode is: the flag is set by `'m'` and is cleared only by an
animation, and the animation block does not test the mode. In the state reached
by selecting and scaling a triangle and pressing `'m'` and then `'c'`, the mode
is Color and `'n'` moves the vertices of the triangle. -/
theorem animation_runs_on_flag (E : Env) (s : State) (key : Char)
    (hk : key = 'n' ∨ key = 'b') :
    (s.animationMode = false →
      ∃ s', key_pressed E key s = some s' ∧ s'.triangles = s.triangles ∧
        s'.uniform = s.uniform ∧ s'.currentMode = s.currentMode) ∧
    (∀ a b c, Reachable E s → s.animationMode = true →
      get3 s.triangles s.selectedTriangle = some (a, b, c) →
      (∃ s', key_pressed E 'n' s = some s' ∧
        get3 s'.triangles s.selectedTriangle =
          some (place a b c (linearFrame s.uniform a b c (1887437 / 2097152)))) ∧
      (∃ s', key_pressed E 'b' s = some s' ∧
        get3 s'.triangles s.selectedTriangle =
          some (place a b c (bezierFrame s.uniform a b c (1887437 / 2097152))))) ∧
    (Reachable sampleEnv colorAnimationState ∧
      colorAnimationState.currentMode = Mode.COLOR_MODE ∧
      colorAnimationState.animationMode = true ∧
      ∃ s', key_pressed sampleEnv 'n' colorAnimationState = some s' ∧
        s'.triangles ≠ colorAnimationState.triangles) := by
  refine ⟨key_pressed_animation_key_off E s key hk, fun a b c hr hf hg => ?_, ?_⟩
  · obtain ⟨s1, _, h1, _, _, _, g1, _⟩ :=
      key_pressed_linear E s a b c (reachable_inv hr) (reachable_steady hr) hf hg
    obtain ⟨s2, _, h2, _, _, _, g2, _⟩ :=
      key_pressed_bezier E s a b c (reachable_inv hr) (reachable_steady hr) hf hg
    exact ⟨⟨s1, h1, g1⟩, ⟨s2, h2, g2⟩⟩
  · have hc : run sampleEnv (initial sampleEnv) colorAnimationEvents =
          some colorAnimationState ∧
        get3 colorAnimationState.triangles colorAnimationState.selectedTriangle =
          some (colorAnimationVertices.1, colorAnimationVertices.2.1,
            colorAnimationVertices.2.2) ∧
        colorAnimationState.currentMode = Mode.COLOR_MODE ∧
        colorAnimationState.animationMode = true ∧
        (colorAnimationVertices.1, colorAnimationVertices.2.1, colorAnimationVertices.2.2) ≠
          place colorAnimationVertices.1 colorAnimationVertices.2.1 colorAnimationVertices.2.2
            (linearFrame colorAnimationState.uniform colorAnimationVertices.1
              colorAnimationVertices.2.1 colorAnimationVertices.2.2 (1887437 / 2097152)) := by
      decide!
    have hr : Reachable sampleEnv colorAnimationState := ⟨colorAnimationEvents, hc.1⟩
    have hg := hc.2.1
    obtain ⟨s', _, h, _, _, _, g, _⟩ :=
      key_pressed_linear sampleEnv colorAnimationState colorAnimationVertices.1
        colorAnimationVertices.2.1 colorAnimationVertices.2.2 (reachable_inv hr)
        (reachable_steady hr) hc.2.2.2.1 hg
    refine ⟨hr, hc.2.2.1, hc.2.2.2.1, s', h, fun e => ?_⟩
    rw [e, hg] at g
    exact hc.2.2.2.2 (Option.some.inj g)

/-- C21, witness: the key `'n'` in Color mode with the animation flag set. -/
theorem animation_runs_on_flag_witness :
    colorAnimationState.currentMode = Mode.COLOR_MODE ∧
    colorAnimationState.animationMode = true ∧
    ∃ s', key_pressed sampleEnv 'n' colorAnimationState = some s' ∧
      s'.triangles ≠ colorAnimationState.triangles :=
  (animation_runs_on_flag sampleEnv colorAnimationState 'n' (Or.inl rfl)).2.2.2

/-! ## C22 -/

/-- C22: a mouse press in Deletion mode leaves `selectedTriangle`,
`prevClickedTriangle` and `vertex_index` as they are, while on a hit the
triangle list gets three vertices shorter. So the indices held from earlier
clicks go out of bounds: after a triangle was selected, targeted in Color mode
and deleted, the triangle list is empty and the three indices are 0, 0 and 2,
and each access that is guarded by `index >= 0` alone is out of range (the
colour key after `'c'`, the scale key after `'o'`, the click on the empty
canvas after `'o'`). -/
theorem held_indices_after_delete :
    (∀ (E : Env) (s : State) (x y : Int) (up : Bool), s.currentMode = Mode.DELETION_MODE →
      ∃ s', mouse_pressed E x y up s = some s' ∧
        s'.selectedTriangle = s.selectedTriangle ∧
        s'.prevClickedTriangle = s.prevClickedTriangle ∧
        s'.vertex_index = s.vertex_index ∧
        (0 ≤ getSelectedTriangleIndex s.triangles s.uniform (xPos x) (yPos y) →
          s'.triangles.length + 3 = s.triangles.length)) ∧
    (Reachable sampleEnv staleIndexState ∧ staleIndexState.triangles = [] ∧
      staleIndexState.selectedTriangle = 0 ∧ staleIndexState.prevClickedTriangle = 0 ∧
      staleIndexState.vertex_index = 2) ∧
    run sampleEnv staleIndexState [Event.key_pressed 'c', Event.key_pressed '3'] = none ∧
    run sampleEnv staleIndexState [Event.key_pressed 'o', Event.key_pressed 'k'] = none ∧
    run sampleEnv staleIndexState [Event.key_pressed 'o', Event.mouse_pressed 0 0 false] =
      none ∧
    (run sampleEnv staleIndexState [Event.key_pressed 'c']).isSome = true ∧
    (run sampleEnv staleIndexState [Event.key_pressed 'o']).isSome = true := by
  have hc : run sampleEnv (initial sampleEnv) staleIndexEvents = some staleIndexState ∧
      (staleIndexState.triangles = [] ∧
        staleIndexState.selectedTriangle = 0 ∧ staleIndexState.prevClickedTriangle = 0 ∧
        staleIndexState.vertex_index = 2) ∧
      run sampleEnv staleIndexState [Event.key_pressed 'c', Event.key_pressed '3'] = none ∧
      run sampleEnv staleIndexState [Event.key_pressed 'o', Event.key_pressed 'k'] = none ∧
      run sampleEnv staleIndexState [Event.key_pressed 'o', Event.mouse_pressed 0 0 false] =
        none ∧
      (run sampleEnv staleIndexState [Event.key_pressed 'c']).isSome = true ∧
      (run sampleEnv staleIndexState [Event.key_pressed 'o']).isSome = true := by
    decide!
  refine ⟨fun E s x y up hm => ?_, ⟨⟨staleIndexEvents, hc.1⟩, hc.2.1⟩, hc.2.2⟩
  refine ⟨_, mouse_pressed_deletion E s x y up hm, rfl, rfl, rfl, fun hit => ?_⟩
  have e : deleteTriangle s.triangles s.uniform (xPos x) (yPos y) s.redraw_next =
      (erase3 s.triangles (getSelectedTriangleIndex s.triangles s.uniform (xPos x)
        (yPos y)).toNat, resetUniform s.uniform, true) := by
    unfold deleteTriangle
    simp only
    rw [if_pos hit]
  have hb : (getSelectedTriangleIndex s.triangles s.uniform (xPos x) (yPos y)).toNat + 3 ≤
      s.triangles.length := by
    rcases getSelectedTriangleIndex_range s.triangles s.uniform (xPos x) (yPos y) with
      h | ⟨k, hk, hk2⟩
    · rw [h] at hit
      omega
    · rw [hk]
      omega
  show (deleteTriangle s.triangles s.uniform (xPos x) (yPos y) s.redraw_next).1.length + 3 =
    s.triangles.length
  rw [e]
  exact length_erase3 _ _ hb

/-! ## C23 -/

/-- C23: the hit test and the search of the nearest vertex use
`view * translate * rotate * scale * position` for every vertex. The vertex
shader outputs this position for a vertex that is not selected and in every mode
but `h`, `j`, `k`, `l`; for a selected vertex in the modes `h`, `j`, `k`, `l` it
outputs `T(b) * view * translate * rotate * scale * T(-b) * position` with `b`
the barycentre. The two differ in the state reached by selecting a triangle and
pressing `'k'`: the click at the pixel (250, 184) is inside the bounding box of
the triangle as the shader draws it, and the hit test misses it. -/
theorem shader_and_hit_test_positions (va : VertexAttributes) (uniform : UniformAttributes) :
    (∀ (a b c : VertexAttributes) (x y : ℚ), boxHit uniform x y a b c = true ↔
      InBoundingBox (uniform.view * uniform.translate * uniform.rotate * uniform.scale * a.position)
        (uniform.view * uniform.translate * uniform.rotate * uniform.scale * b.position)
        (uniform.view * uniform.translate * uniform.rotate * uniform.scale * c.position) x y) ∧
    (∀ (p : Vec4) (a b c : VertexAttributes), nearestDist2 uniform p a b c =
      [(uniform.view * uniform.translate * uniform.rotate * uniform.scale * a.position
          - p).squaredNorm,
       (uniform.view * uniform.translate * uniform.rotate * uniform.scale * b.position
          - p).squaredNorm,
       (uniform.view * uniform.translate * uniform.rotate * uniform.scale * c.position
          - p).squaredNorm]) ∧
    ((va.selected = false ∨
        ¬ (uniform.mode = ROTATE_CLOCKWISE ∨ uniform.mode = ROTATE_COUNTERCLOCKWISE
          ∨ uniform.mode = SCALE_DOWN ∨ uniform.mode = SCALE_UP)) →
      (VertexShader va uniform).position =
        uniform.view * uniform.translate * uniform.rotate * uniform.scale * va.position) ∧
    (va.selected = true →
      (uniform.mode = ROTATE_CLOCKWISE ∨ uniform.mode = ROTATE_COUNTERCLOCKWISE
        ∨ uniform.mode = SCALE_DOWN ∨ uniform.mode = SCALE_UP) →
      (VertexShader va uniform).position =
        translation va.bary_center.x va.bary_center.y *
          (uniform.view * uniform.translate * uniform.rotate * uniform.scale *
            (translation (-va.bary_center.x) (-va.bary_center.y) * va.position))) ∧
    (Reachable sampleEnv scaledState ∧
      get3 scaledState.triangles 0 = some scaledVertices ∧
      scaledVertices.1.selected = true ∧ scaledState.uniform.mode = SCALE_UP ∧
      (VertexShader scaledVertices.1 scaledState.uniform).position ≠
        scaledState.uniform.view * scaledState.uniform.translate * scaledState.uniform.rotate *
          scaledState.uniform.scale * scaledVertices.1.position ∧
      InBoundingBox (VertexShader scaledVertices.1 scaledState.uniform).position
        (VertexShader scaledVertices.2.1 scaledState.uniform).position
        (VertexShader scaledVertices.2.2 scaledState.uniform).position (xPos 250) (yPos 184) ∧
      getSelectedTriangleIndex scaledState.triangles scaledState.uniform (xPos 250) (yPos 184)
        = -1) := by
  refine ⟨fun a b c x y => boxHit_iff uniform x y a b c, fun p a b c => rfl, fun h => ?_,
    fun hsel hmode => VertexShader_pivot va uniform hsel hmode, ?_⟩
  · unfold VertexShader
    simp only
    rcases h with h | h
    · rw [h]
      rfl
    · rw [if_neg h]
      split <;> rfl
  · have hc : run sampleEnv (initial sampleEnv) deselectEvents = some scaledState ∧
        get3 scaledState.triangles 0 = some scaledVertices ∧
        scaledVertices.1.selected = true ∧ scaledState.uniform.mode = SCALE_UP ∧
        (VertexShader scaledVertices.1 scaledState.uniform).position ≠
          scaledState.uniform.view * scaledState.uniform.translate *
            scaledState.uniform.rotate * scaledState.uniform.scale *
            scaledVertices.1.position ∧
        InBoundingBox (VertexShader scaledVertices.1 scaledState.uniform).position
          (VertexShader scaledVertices.2.1 scaledState.uniform).position
          (VertexShader scaledVertices.2.2 scaledState.uniform).position (xPos 250)
          (yPos 184) ∧
        getSelectedTriangleIndex scaledState.triangles scaledState.uniform (xPos 250)
          (yPos 184) = -1 := by
      unfold InBoundingBox
      decide!
    exact ⟨⟨deselectEvents, hc.1⟩, hc.2⟩

/-! # Single precision -/

/-! ## The rounding of the single-precision definitions -/

theorem f32_pow2_eq (e : Int) : F32.pow2 e = (2 : ℚ) ^ e := by
  unfold F32.pow2
  split
  · rename_i h
    have : ((2 ^ e.toNat : Nat) : ℚ) = (2 : ℚ) ^ (e.toNat : Int) := by
      rw [zpow_natCast]
      push_cast
      rfl
    rw [this, Int.toNat_of_nonneg h]
  · rename_i h
    have h' : 0 ≤ -e := by omega
    have : ((2 ^ (-e).toNat : Nat) : ℚ) = (2 : ℚ) ^ ((-e).toNat : Int) := by
      rw [zpow_natCast]
      push_cast
      rfl
    rw [this, Int.toNat_of_nonneg h', zpow_neg, one_div, inv_inv]

theorem f32_bitsFrom_spec : ∀ (fuel n : Nat), n ≤ fuel → n ≠ 0 →
    2 ^ (F32.bitsFrom fuel n - 1) ≤ n ∧ n < 2 ^ F32.bitsFrom fuel n := by
  intro fuel
  induction fuel with
  | zero =>
    intro n h hn
    omega
  | succ k ih =>
    intro n h hn
    simp only [F32.bitsFrom, if_neg hn]
    by_cases h2 : n / 2 = 0
    · have h1 : n = 1 := by omega
      subst h1
      cases k <;> simp [F32.bitsFrom]
    · obtain ⟨l, u⟩ := ih (n / 2) (by omega) h2
      have hpos : 1 ≤ F32.bitsFrom k (n / 2) := by
        cases k with
        | zero => omega
        | succ j => simp only [F32.bitsFrom, if_neg h2]; omega
      constructor
      · have e : F32.bitsFrom k (n / 2) + 1 - 1 = (F32.bitsFrom k (n / 2) - 1) + 1 := by omega
        rw [e, pow_succ]
        omega
      · rw [pow_succ]
        omega

theorem f32_bits_spec (n : Nat) (hn : n ≠ 0) :
    2 ^ (F32.bits n - 1) ≤ n ∧ n < 2 ^ F32.bits n ∧ 1 ≤ F32.bits n := by
  obtain ⟨l, u⟩ := f32_bitsFrom_spec n n (le_refl _) hn
  refine ⟨l, u, ?_⟩
  by_contra hc
  have : F32.bits n = 0 := by omega
  unfold F32.bits at *
  rw [this] at u
  simp at u
  exact hn u

/-- The binary exponent: `2^e ≤ |q| < 2^(e+1)` for `e = F32.exponent q`. -/
theorem f32_exponent_spec (q : ℚ) (hq : q ≠ 0) :
    (2 : ℚ) ^ F32.exponent q ≤ |q| ∧ |q| < (2 : ℚ) ^ (F32.exponent q + 1) := by
  have hnum : q.num.natAbs ≠ 0 := by
    intro h
    exact hq (Rat.zero_of_num_zero (Int.natAbs_eq_zero.mp h))
  obtain ⟨la, ua, pa⟩ := f32_bits_spec q.num.natAbs hnum
  obtain ⟨lb, ub, pb⟩ := f32_bits_spec q.den q.den_nz
  have habs : |q| = (q.num.natAbs : ℚ) / (q.den : ℚ) := by
    have h1 : |q| = |(q.num : ℚ)| / |(q.den : ℚ)| := by
      conv_lhs => rw [← Rat.num_div_den q]
      rw [abs_div]
    rw [h1, Nat.abs_cast, ← Int.cast_abs, Int.abs_eq_natAbs, Int.cast_natCast]
  have hden : (0 : ℚ) < (q.den : ℚ) := by exact_mod_cast q.den_pos
  set a := F32.bits q.num.natAbs with ha
  set b := F32.bits q.den with hb
  have la' : (2 : ℚ) ^ (a - 1) ≤ (q.num.natAbs : ℚ) := by exact_mod_cast la
  have ua' : (q.num.natAbs : ℚ) < (2 : ℚ) ^ a := by exact_mod_cast ua
  have lb' : (2 : ℚ) ^ (b - 1) ≤ (q.den : ℚ) := by exact_mod_cast lb
  have ub' : (q.den : ℚ) < (2 : ℚ) ^ b := by exact_mod_cast ub
  have two : (0 : ℚ) < 2 := by norm_num
  -- lower bound: 2^(a-b-1) < |q|, upper bound: |q| < 2^(a-b+1)
  have low : (2 : ℚ) ^ ((a : Int) - (b : Int) - 1) < |q| := by
    rw [habs, lt_div_iff₀ hden]
    have e : (2 : ℚ) ^ ((a : Int) - (b : Int) - 1) = (2 : ℚ) ^ (a - 1) / (2 : ℚ) ^ b := by
      rw [show ((a : Int) - (b : Int) - 1) = ((a - 1 : Nat) : Int) - (b : Int) by omega,
        zpow_sub₀ (ne_of_gt two), zpow_natCast, zpow_natCast]
    rw [e, div_mul_eq_mul_div, div_lt_iff₀ (by positivity)]
    calc (2 : ℚ) ^ (a - 1) * (q.den : ℚ) < (2 : ℚ) ^ (a - 1) * (2 : ℚ) ^ b := by
          apply mul_lt_mul_of_pos_left ub' (by positivity)
      _ ≤ (q.num.natAbs : ℚ) * (2 : ℚ) ^ b := by
          apply mul_le_mul_of_nonneg_right la' (by positivity)
  have high : |q| < (2 : ℚ) ^ ((a : Int) - (b : Int) + 1) := by
    rw [habs, div_lt_iff₀ hden]
    have e : (2 : ℚ) ^ ((a : Int) - (b : Int) + 1) = (2 : ℚ) ^ a / (2 : ℚ) ^ (b - 1) := by
      rw [show ((a : Int) - (b : Int) + 1) = (a : Int) - ((b - 1 : Nat) : Int) by omega,
        zpow_sub₀ (ne_of_gt two), zpow_natCast, zpow_natCast]
    rw [e, div_mul_eq_mul_div, lt_div_iff₀ (by positivity)]
    calc (q.num.natAbs : ℚ) * (2 : ℚ) ^ (b - 1) < (2 : ℚ) ^ a * (2 : ℚ) ^ (b - 1) := by
          apply mul_lt_mul_of_pos_right ua' (by positivity)
      _ ≤ (2 : ℚ) ^ a * (q.den : ℚ) := by
          apply mul_le_mul_of_nonneg_left lb' (by positivity)
  unfold F32.exponent
  simp only [← ha, ← hb, f32_pow2_eq]
  split
  · rename_i h
    refine ⟨le_of_lt low, ?_⟩
    rw [sub_add_cancel]
    exact h
  · rename_i h
    exact ⟨not_lt.mp h, high⟩

theorem roundHalfEven_near (m : ℚ) : |(roundHalfEven m : ℚ) - m| ≤ 1 / 2 := by
  have h1 := Int.floor_le m
  have h2 := Int.lt_floor_add_one m
  unfold roundHalfEven
  split
  · rw [abs_le]
    constructor <;> linarith
  · split
    · push_cast
      rw [abs_le]
      constructor <;> linarith
    · rename_i h3 h4
      have h5 : m - (⌊m⌋ : ℚ) = 1 / 2 := le_antisymm (not_lt.mp h4) (not_lt.mp h3)
      split
      · rw [abs_le]
        constructor <;> linarith
      · push_cast
        rw [abs_le]
        constructor <;> linarith

/-- The rounding `F32.round p` is rounding to nearest on `p` significant bits: for
`q ≠ 0` in the binade `2^e ≤ |q| < 2^(e+1)` the result is an integer multiple `m`
of `ulp = 2^(e - (p - 1))`, with the sign of `q`, at most half an `ulp` from `q`,
and `m` is the integer nearest to `|q| / ulp` with ties to the even one. -/
theorem f32_round_spec (p : Nat) (q : ℚ) (hq : q ≠ 0) :
    ∃ (e : Int) (m : Int), (2 : ℚ) ^ e ≤ |q| ∧ |q| < (2 : ℚ) ^ (e + 1) ∧
      m = roundHalfEven (|q| / (2 : ℚ) ^ (e - ((p : Int) - 1))) ∧
      F32.round p q = (if q < 0 then -1 else 1) * ((m : ℚ) * (2 : ℚ) ^ (e - ((p : Int) - 1))) ∧
      |F32.round p q - q| ≤ (2 : ℚ) ^ (e - ((p : Int) - 1)) / 2 := by
  obtain ⟨l, u⟩ := f32_exponent_spec q hq
  refine ⟨F32.exponent q, roundHalfEven (|q| / (2 : ℚ) ^ (F32.exponent q - ((p : Int) - 1))),
    l, u, rfl, ?_, ?_⟩
  · unfold F32.round
    simp only [if_neg hq, f32_pow2_eq]
    split <;> ring
  · set ulp : ℚ := (2 : ℚ) ^ (F32.exponent q - ((p : Int) - 1)) with hulp
    have hpos : 0 < ulp := by positivity
    have near := roundHalfEven_near (|q| / ulp)
    have key : abs ((roundHalfEven (|q| / ulp) : ℚ) * ulp - abs q) ≤ ulp / 2 := by
      have : (roundHalfEven (|q| / ulp) : ℚ) * ulp - |q|
          = ((roundHalfEven (|q| / ulp) : ℚ) - |q| / ulp) * ulp := by
        field_simp
      rw [this, abs_mul, abs_of_pos hpos]
      calc |(roundHalfEven (|q| / ulp) : ℚ) - |q| / ulp| * ulp ≤ 1 / 2 * ulp := by
            apply mul_le_mul_of_nonneg_right near (le_of_lt hpos)
        _ = ulp / 2 := by ring
    unfold F32.round
    simp only [if_neg hq, f32_pow2_eq, ← hulp]
    split
    · rename_i hneg
      rw [abs_of_neg hneg] at key ⊢
      rw [show -((roundHalfEven (-q / ulp) : ℚ) * ulp) - q
        = -((roundHalfEven (-q / ulp) : ℚ) * ulp - -q) by ring, abs_neg]
      exact key
    · rename_i hneg
      have hpos' : 0 < q := lt_of_le_of_ne (not_lt.mp hneg) (Ne.symm hq)
      rw [abs_of_pos hpos'] at key ⊢
      exact key

/-- The two roundings of the file agree on sample values: the constants of the
source, a coordinate of a click, and values above 1 and below 2^-24. -/
theorem f32_round_samples :
    [1 / 10, 1 / 5, 4 / 5, 17453292519 / 100000000000, -51 / 250, 1000 / 3, -1 / 100000000].map
        F32.fl
      = [1 / 10, 1 / 5, 4 / 5, 17453292519 / 100000000000, -51 / 250, 1000 / 3,
          -1 / 100000000].map toFloat ∧
    [1 / 10, 1 / 5, 4 / 5, 17453292519 / 100000000000, -51 / 250, 1000 / 3, -1 / 100000000].map
        F32.dbl
      = [1 / 10, 1 / 5, 4 / 5, 17453292519 / 100000000000, -51 / 250, 1000 / 3,
          -1 / 100000000].map toDouble := by
  decide!

/-! ## Invariants of the runs in single precision -/

theorem f32_getSelectedTriangleIndexFrom_range (uniform : UniformAttributes) (x_pos y_pos : ℚ) :
    ∀ (n : Nat) (l : List VertexAttributes) (i : Nat), l.length ≤ n →
      F32.getSelectedTriangleIndexFrom uniform x_pos y_pos i l = -1 ∨
      ∃ k : Nat, F32.getSelectedTriangleIndexFrom uniform x_pos y_pos i l = ((i + 3 * k : Nat) : Int)
        ∧ 3 * k + 3 ≤ l.length := by
  intro n
  induction n with
  | zero =>
    intro l i hl
    have : l = [] := List.length_eq_zero.mp (by omega)
    subst this
    left
    rfl
  | succ n ih =>
    intro l i hl
    match l with
    | [] => left; rfl
    | [_] => left; rfl
    | [_, _] => left; rfl
    | a :: b :: c :: rest =>
      rw [F32.getSelectedTriangleIndexFrom]
      split
      · right
        exact ⟨0, by simp, by simp⟩
      · rcases ih rest (i + 3) (by simp at hl; omega) with h | ⟨k, hk, hk2⟩
        · left; exact h
        · right
          refine ⟨k + 1, ?_, by simp; omega⟩
          rw [hk]
          congr 1
          omega

theorem f32_getSelectedTriangleIndex_range (triangles : List VertexAttributes)
    (uniform : UniformAttributes) (x_pos y_pos : ℚ) :
    F32.getSelectedTriangleIndex triangles uniform x_pos y_pos = -1 ∨
    ∃ k : Nat, F32.getSelectedTriangleIndex triangles uniform x_pos y_pos = ((3 * k : Nat) : Int)
      ∧ 3 * k + 3 ≤ triangles.length := by
  rcases f32_getSelectedTriangleIndexFrom_range uniform x_pos y_pos triangles.length triangles 0
    (le_refl _) with h | ⟨k, hk, hk2⟩
  · left; exact h
  · right
    refine ⟨k, ?_, hk2⟩
    rw [F32.getSelectedTriangleIndex, hk]
    congr 1
    omega

theorem f32_length_deleteTriangle (triangles : List VertexAttributes) (uniform : UniformAttributes)
    (x_pos y_pos : ℚ) (redraw_next : Bool) (h : triangles.length % 3 = 0) :
    (F32.deleteTriangle triangles uniform x_pos y_pos redraw_next).1.length % 3 = 0 := by
  unfold F32.deleteTriangle
  simp only
  split
  · rename_i hge
    rcases f32_getSelectedTriangleIndex_range triangles uniform x_pos y_pos with h1 | ⟨k, hk, hk2⟩
    · rw [h1] at hge
      omega
    · have := length_erase3 triangles (3 * k) hk2
      rw [hk]
      simp only [Int.toNat_ofNat]
      omega
  · exact h

theorem f32_commit_length {s s' : State} (h : F32.commit s = some s') :
    s'.triangles.length = s.triangles.length + s.triangleVertices.length ∧
    s'.triangleVertices = [] ∧ s'.numOfClicks = 0 := by
  unfold F32.commit at h
  split at h
  · cases h
    simp
  · cases h

theorem f32_redraw_inv {s s' : State} (h : F32.redraw s = some s') (hi : Inv s) : Inv s' := by
  unfold F32.redraw at h
  simp only at h
  split at h
  · rename_i d hd
    cases h
    simp only [Inv]
    split at hd
    · split at hd
      · cases hd; exact hi
      · split at hd
        · split at hd
          · cases hd; exact hi
          · cases hd
        · split at hd
          · rename_i h3
            obtain ⟨h1, h2, h4⟩ := f32_commit_length hd
            rw [h1, h2, h4]
            have := hi.2
            have := hi.1
            simp
            omega
          · cases hd; exact hi
    · cases hd; exact hi
  · cases h

theorem f32_animationFrame_inv {p : Vec4 × Vec4 × Vec4} {s s' : State}
    (h : F32.animationFrame p s = some s') (hi : Inv s) : Inv s' := by
  unfold F32.animationFrame at h
  split at h
  · refine f32_redraw_inv h ?_
    simp only [Inv, length_set3]
    exact hi
  · cases h

theorem f32_animate_inv (f : ℚ → Vec4 × Vec4 × Vec4) :
    ∀ (ts : List ℚ) {s s' : State}, F32.animate f ts s = some s' → Inv s → Inv s' := by
  intro ts
  induction ts with
  | nil =>
    intro s s' h hi
    simp only [F32.animate] at h
    cases h
    exact hi
  | cons t ts ih =>
    intro s s' h hi
    simp only [F32.animate] at h
    split at h
    · rename_i s1 h1
      exact ih h (f32_animationFrame_inv h1 hi)
    · cases h

theorem f32_animationBlock_inv {key key' : Char} {s s' : State}
    (h : F32.animationBlock key s = some (key', s')) (hi : Inv s) : Inv s' := by
  unfold F32.animationBlock at h
  split at h
  · split at h
    · simp only at h
      split at h
      · split at h
        · rename_i s1 h1
          cases h
          have h2 : Inv s1 := f32_animate_inv _ _ h1 hi
          exact h2
        · cases h
      · split at h
        · split at h
          · rename_i s1 h1
            cases h
            have h2 : Inv s1 := f32_animate_inv _ _ h1 hi
            exact h2
          · cases h
        · cases h
          exact hi
    · cases h
  · cases h
    exact hi

theorem f32_length_performTranslationAction {E : F32.Env} {key : Char}
    {triangles : List VertexAttributes} {uniform : UniformAttributes} {i : Int}
    {r : List VertexAttributes × UniformAttributes}
    (h : F32.performTranslationAction E key triangles uniform i = some r) :
    r.1.length = triangles.length := by
  unfold F32.performTranslationAction at h
  split at h
  · exact length_onTriangle h
  · split at h
    · exact length_onTriangle h
    · split at h
      · exact length_onTriangle h
      · split at h
        · exact length_onTriangle h
        · cases h
          rfl

theorem f32_keyAction_inv {E : F32.Env} {key : Char} {s s' : State}
    (h : F32.keyAction E key s = some s') (hi : Inv s) : Inv s' := by
  unfold F32.keyAction at h
  split at h
  · split at h
    · split at h
      · rename_i tr u hp
        cases h
        have := f32_length_performTranslationAction hp
        simp only [Inv] at hi ⊢
        simp only at this
        rw [this]
        exact hi
      · cases h
    · cases h; exact hi
  · split at h
    · split at h
      · split at h
        · split at h
          · cases h
            simp only [Inv, List.length_set]
            exact hi
          · cases h
        · cases h; exact hi
      · cases h; exact hi
    · cases h; exact hi

theorem f32_changeViewport_inv {key : Char} {zoom delta : ℚ} {s s' : State}
    (h : F32.changeViewport key zoom delta s = some s') (hi : Inv s) : Inv s' := by
  unfold F32.changeViewport at h
  simp only at h
  split at h
  · exact f32_redraw_inv h hi
  · split at h
    · exact f32_redraw_inv h hi
    · split at h
      · exact f32_redraw_inv h hi
      · split at h
        · exact f32_redraw_inv h hi
        · split at h
          · exact f32_redraw_inv h hi
          · split at h
            · exact f32_redraw_inv h hi
            · cases h; exact hi

theorem f32_key_pressed_inv {E : F32.Env} {key : Char} {s s' : State}
    (h : F32.key_pressed E key s = some s') (hi : Inv s) : Inv s' := by
  unfold F32.key_pressed at h
  simp only at h
  split at h
  · rename_i k1 s1 h1
    split at h
    · rename_i s2 h2
      refine f32_changeViewport_inv h (f32_keyAction_inv h2 (f32_animationBlock_inv h1 ?_))
      split <;> exact hi
    · cases h
  · cases h

theorem f32_mouse_move_inv {E : F32.Env} {x y : Int} {s s' : State}
    (h : F32.mouse_move E x y s = some s') (hi : Inv s) : Inv s' := by
  unfold F32.mouse_move at h
  simp only at h
  split at h
  · split at h
    · cases h; exact hi
    · cases h; exact hi
  · split at h
    · split at h
      · split at h
        · rename_i s1 h1
          split at h
          · rename_i tr u ho
            cases h
            have hl := length_onTriangle ho
            simp only at hl
            have : s1.triangles = s.triangles ∧ s1.triangleVertices = s.triangleVertices ∧
                s1.numOfClicks = s.numOfClicks := by
              split at h1
              · split at h1
                · cases h1; simp
                · cases h1
              · cases h1; simp
            simp only [Inv] at hi ⊢
            rw [hl, this.1, this.2.1, this.2.2]
            exact hi
          · cases h
        · cases h
      · cases h; exact hi
    · cases h; exact hi

theorem f32_mouse_pressed_inv {E : F32.Env} {x y : Int} {up : Bool} {s s' : State}
    (h : F32.mouse_pressed E x y up s = some s') (hi : Inv s) : Inv s' := by
  unfold F32.mouse_pressed at h
  simp only at h
  split at h
  · split at h
    · cases h
      simp only [Inv, List.length_append, List.length_singleton]
      exact ⟨hi.1, by rw [hi.2]⟩
    · cases h; exact hi
  · split at h
    · cases h
      exact ⟨f32_length_deleteTriangle _ _ _ _ _ hi.1, hi.2⟩
    · split at h
      · split at h
        · split at h
          · split at h
            · rename_i tr hc
              cases h
              have := length_setColorAt hc
              simp only [Inv] at hi ⊢
              simp only at this
              rw [this]
              exact hi
            · cases h
          · cases h; exact hi
        · split at h
          · split at h
            · split at h <;> (cases h; exact hi)
            · cases h; exact hi
          · split at h
            · split at h
              · rename_i tr hc
                cases h
                have := length_setColorAt hc
                simp only [Inv] at hi ⊢
                simp only at this
                rw [this]
                exact hi
              · cases h
            · cases h; exact hi
      · split at h
        · split at h
          · cases h; exact hi
          · cases h
        · cases h; exact hi

theorem f32_step_inv {E : F32.Env} {e : Event} {s s' : State}
    (h : F32.step E s e = some s') (hi : Inv s) : Inv s' := by
  cases e with
  | mouse_move x y => exact f32_mouse_move_inv h hi
  | mouse_pressed x y up => exact f32_mouse_pressed_inv h hi
  | key_pressed key => exact f32_key_pressed_inv h hi
  | redraw => exact f32_redraw_inv h hi

theorem f32_run_inv {E : F32.Env} : ∀ (es : List Event) {s s' : State},
    F32.run E s es = some s' → Inv s → Inv s' := by
  intro es
  induction es with
  | nil =>
    intro s s' h hi
    simp only [F32.run] at h
    cases h
    exact hi
  | cons e es ih =>
    intro s s' h hi
    simp only [F32.run] at h
    split at h
    · rename_i s1 h1
      exact ih h (f32_step_inv h1 hi)
    · cases h

theorem f32_commit_steady {s s' : State} (h : F32.commit s = some s') (hi : Steady s) : Steady s' := by
  unfold F32.commit at h
  split at h
  · cases h
    exact ⟨fun h => absurd rfl h, hi.2⟩
  · cases h

theorem f32_redraw_steady {s s' : State} (h : F32.redraw s = some s') (hi : Steady s) : Steady s' := by
  unfold F32.redraw at h
  simp only at h
  split at h
  · rename_i d hd
    cases h
    have hd' : Steady d := by
      split at hd
      · split at hd
        · cases hd; exact hi
        · split at hd
          · split at hd
            · cases hd; exact hi
            · cases hd
          · split at hd
            · exact f32_commit_steady hd hi
            · cases hd; exact hi
      · cases hd; exact hi
    exact hd'
  · cases h

theorem f32_animationFrame_steady {p : Vec4 × Vec4 × Vec4} {s s' : State}
    (h : F32.animationFrame p s = some s') (hi : Steady s) : Steady s' := by
  unfold F32.animationFrame at h
  split at h
  · exact f32_redraw_steady h hi
  · cases h

theorem f32_animate_steady (f : ℚ → Vec4 × Vec4 × Vec4) :
    ∀ (ts : List ℚ) {s s' : State}, F32.animate f ts s = some s' → Steady s → Steady s' := by
  intro ts
  induction ts with
  | nil =>
    intro s s' h hi
    simp only [F32.animate] at h
    cases h
    exact hi
  | cons t ts ih =>
    intro s s' h hi
    simp only [F32.animate] at h
    split at h
    · rename_i s1 h1
      exact ih h (f32_animationFrame_steady h1 hi)
    · cases h

theorem f32_animationBlock_steady {key key' : Char} {s s' : State}
    (h : F32.animationBlock key s = some (key', s')) (hi : Steady s) : Steady s' := by
  unfold F32.animationBlock at h
  split at h
  · split at h
    · simp only at h
      split at h
      · split at h
        · rename_i s1 h1
          cases h
          have h2 : Steady s1 := f32_animate_steady _ _ h1 hi
          exact h2
        · cases h
      · split at h
        · split at h
          · rename_i s1 h1
            cases h
            have h2 : Steady s1 := f32_animate_steady _ _ h1 hi
            exact h2
          · cases h
        · cases h
          exact hi
    · cases h
  · cases h
    exact hi

theorem f32_keyAction_steady {E : F32.Env} {key : Char} {s s' : State}
    (h : F32.keyAction E key s = some s') (hi : Steady s) : Steady s' := by
  unfold F32.keyAction at h
  split at h
  · split at h
    · split at h
      · cases h; exact hi
      · cases h
    · cases h; exact hi
  · split at h
    · split at h
      · split at h
        · split at h
          · cases h; exact hi
          · cases h
        · cases h; exact hi
      · cases h; exact hi
    · cases h; exact hi

theorem f32_changeViewport_steady {key : Char} {zoom delta : ℚ} {s s' : State}
    (h : F32.changeViewport key zoom delta s = some s') (hi : Steady s) : Steady s' := by
  unfold F32.changeViewport at h
  simp only at h
  split at h
  · exact f32_redraw_steady h hi
  · split at h
    · exact f32_redraw_steady h hi
    · split at h
      · exact f32_redraw_steady h hi
      · split at h
        · exact f32_redraw_steady h hi
        · split at h
          · exact f32_redraw_steady h hi
          · split at h
            · exact f32_redraw_steady h hi
            · cases h; exact hi

theorem f32_key_pressed_steady {E : F32.Env} {key : Char} {s s' : State}
    (h : F32.key_pressed E key s = some s') (hi : Steady s) : Steady s' := by
  unfold F32.key_pressed at h
  simp only at h
  split at h
  · rename_i k1 s1 h1
    split at h
    · rename_i s2 h2
      refine f32_changeViewport_steady h (f32_keyAction_steady h2 (f32_animationBlock_steady h1 ?_))
      split <;> exact hi
    · cases h
  · cases h

theorem f32_mouse_move_steady {E : F32.Env} {x y : Int} {s s' : State}
    (h : F32.mouse_move E x y s = some s') (hi : Steady s) : Steady s' := by
  unfold F32.mouse_move at h
  simp only at h
  split at h
  · split at h
    · cases h
      exact ⟨fun _ => by simp, hi.2⟩
    · cases h; exact hi
  · split at h
    · split at h
      · split at h
        · rename_i s1 h1
          split at h
          · rename_i tr u ho
            cases h
            have : s1.triangleVertices = s.triangleVertices ∧ s1.lines = s.lines ∧
                s1.zoom = s.zoom ∧ s1.delta = s.delta := by
              split at h1
              · split at h1
                · cases h1; simp
                · cases h1
              · cases h1; simp
            simp only [Steady] at hi ⊢
            rw [this.1, this.2.1, this.2.2.1, this.2.2.2]
            exact hi
          · cases h
        · cases h
      · cases h; exact hi
    · cases h; exact hi

theorem f32_mouse_pressed_steady {E : F32.Env} {x y : Int} {up : Bool} {s s' : State}
    (h : F32.mouse_pressed E x y up s = some s') (hi : Steady s) : Steady s' := by
  unfold F32.mouse_pressed at h
  simp only at h
  split at h
  · split at h
    · cases h
      exact ⟨fun _ => by simp, hi.2⟩
    · cases h; exact hi
  · split at h
    · cases h
      exact hi
    · split at h
      · split at h
        · split at h
          · split at h
            · cases h; exact hi
            · cases h
          · cases h; exact hi
        · split at h
          · split at h
            · split at h <;> (cases h; exact hi)
            · cases h; exact hi
          · split at h
            · split at h
              · cases h; exact hi
              · cases h
            · cases h; exact hi
      · split at h
        · split at h
          · cases h; exact hi
          · cases h
        · cases h; exact hi

theorem f32_step_steady {E : F32.Env} {e : Event} {s s' : State}
    (h : F32.step E s e = some s') (hi : Steady s) : Steady s' := by
  cases e with
  | mouse_move x y => exact f32_mouse_move_steady h hi
  | mouse_pressed x y up => exact f32_mouse_pressed_steady h hi
  | key_pressed key => exact f32_key_pressed_steady h hi
  | redraw => exact f32_redraw_steady h hi

theorem f32_run_steady {E : F32.Env} : ∀ (es : List Event) {s s' : State},
    F32.run E s es = some s' → Steady s → Steady s' := by
  intro es
  induction es with
  | nil =>
    intro s s' h hi
    simp only [F32.run] at h
    cases h
    exact hi
  | cons e es ih =>
    intro s s' h hi
    simp only [F32.run] at h
    split at h
    · rename_i s1 h1
      exact ih h (f32_step_steady h1 hi)
    · cases h

theorem f32_reachable_inv {E : F32.Env} {s : State} (h : F32.Reachable E s) : Inv s := by
  obtain ⟨es, h⟩ := h
  exact f32_run_inv es h (initial_inv E.toEnv)

theorem f32_reachable_steady {E : F32.Env} {s : State} (h : F32.Reachable E s) : Steady s := by
  obtain ⟨es, h⟩ := h
  exact f32_run_steady es h (initial_steady E.toEnv)

/-- The commit of three pending vertices. -/
theorem f32_commit_three (s : State) (v0 v1 v2 : VertexAttributes)
    (hv : s.triangleVertices = [v0, v1, v2]) :
    F32.commit s = some { s with
      numOfClicks := 0
      triangles := s.triangles ++
        [{ v0 with color := BLUE,
                   bary_center :=
             F32.sdiv (F32.vadd (F32.vadd v0.position v1.position) v2.position) 3 },
         { v1 with color := BLUE,
                   bary_center :=
             F32.sdiv (F32.vadd (F32.vadd v0.position v1.position) v2.position) 3 },
         { v2 with color := BLUE,
                   bary_center :=
             F32.sdiv (F32.vadd (F32.vadd v0.position v1.position) v2.position) 3 }]
      triangleVertices := []
      lines := [] } := by
  unfold F32.commit
  rw [hv]
  rfl

/-- Callback `viewer.redraw` when no commit is due: the scene is drawn as it is. -/
theorem f32_redraw_plain (s : State) (hi : Inv s) (hs : Steady s)
    (hc : ¬ (s.currentMode = Mode.INSERTION_MODE ∧ s.numOfClicks = 3)) :
    F32.redraw s = some { s with frames := s.frames ++ [s.triangles] } := by
  unfold F32.redraw
  simp only
  by_cases hm : s.currentMode = Mode.INSERTION_MODE
  · rw [if_pos hm]
    by_cases h1 : s.numOfClicks = 1
    · rw [if_pos h1]
    · rw [if_neg h1]
      by_cases h2 : s.numOfClicks = 2
      · rw [if_pos h2]
        have hl : s.triangleVertices.length = 2 := by rw [← hi.2, h2]
        have hne : s.lines ≠ [] := hs.1 (by
          intro h
          rw [h] at hl
          cases hl)
        obtain ⟨a, ha⟩ : ∃ a, s.triangleVertices[0]? = some a :=
          ⟨_, List.getElem?_eq_getElem (by omega)⟩
        obtain ⟨b, hb⟩ : ∃ b, s.triangleVertices[1]? = some b :=
          ⟨_, List.getElem?_eq_getElem (by omega)⟩
        have hpos : 0 < s.lines.length := List.length_pos.mpr hne
        obtain ⟨c, hc'⟩ : ∃ c, s.lines[s.lines.length - 1]? = some c :=
          ⟨_, List.getElem?_eq_getElem (by omega)⟩
        rw [ha, hb, hc']
      · rw [if_neg h2, if_neg (fun h3 => hc ⟨hm, h3⟩)]
  · rw [if_neg hm]

/-- Callback `viewer.redraw` when a commit is due. -/
theorem f32_redraw_commit (s : State) (v0 v1 v2 : VertexAttributes)
    (hm : s.currentMode = Mode.INSERTION_MODE) (hc : s.numOfClicks = 3)
    (hv : s.triangleVertices = [v0, v1, v2]) :
    F32.redraw s = some { s with
      numOfClicks := 0
      triangles := s.triangles ++
        [{ v0 with color := BLUE,
                   bary_center :=
             F32.sdiv (F32.vadd (F32.vadd v0.position v1.position) v2.position) 3 },
         { v1 with color := BLUE,
                   bary_center :=
             F32.sdiv (F32.vadd (F32.vadd v0.position v1.position) v2.position) 3 },
         { v2 with color := BLUE,
                   bary_center :=
             F32.sdiv (F32.vadd (F32.vadd v0.position v1.position) v2.position) 3 }]
      triangleVertices := []
      lines := []
      frames := s.frames ++ [s.triangles ++
        [{ v0 with color := BLUE,
                   bary_center :=
             F32.sdiv (F32.vadd (F32.vadd v0.position v1.position) v2.position) 3 },
         { v1 with color := BLUE,
                   bary_center :=
             F32.sdiv (F32.vadd (F32.vadd v0.position v1.position) v2.position) 3 },
         { v2 with color := BLUE,
                   bary_center :=
             F32.sdiv (F32.vadd (F32.vadd v0.position v1.position) v2.position) 3 }]] } := by
  have h1 : ¬ s.numOfClicks = 1 := by rw [hc]; decide
  have h2 : ¬ s.numOfClicks = 2 := by rw [hc]; decide
  unfold F32.redraw
  simp only
  rw [if_pos hm, if_neg h1, if_neg h2, if_pos hc, f32_commit_three s v0 v1 v2 hv]

/-- What `viewer.redraw` does in a state of a run: it returns, and it leaves the
state as it is but for the commit of a pending triangle, which extends the
triangle list, and for the frame it draws. -/
theorem f32_redraw_result (s : State) (hi : Inv s) (hs : Steady s) :
    ∃ s' ext, F32.redraw s = some s' ∧ s'.triangles = s.triangles ++ ext ∧
      (¬ (s.currentMode = Mode.INSERTION_MODE ∧ s.numOfClicks = 3) → ext = []) ∧
      (s.currentMode = Mode.INSERTION_MODE ∧ s.numOfClicks = 3 → ext.length = 3) ∧
      s'.frames = s.frames ++ [s'.triangles] ∧ s'.uniform = s.uniform ∧
      s'.selectedTriangle = s.selectedTriangle ∧ s'.animationMode = s.animationMode ∧
      s'.currentMode = s.currentMode ∧ s'.console = s.console ∧
      s'.vertex_index = s.vertex_index ∧ Inv s' ∧ Steady s' := by
  by_cases hc : s.currentMode = Mode.INSERTION_MODE ∧ s.numOfClicks = 3
  · have hl : s.triangleVertices.length = 3 := by rw [← hi.2, hc.2]
    obtain ⟨v0, v1, v2, hv⟩ := length_three _ hl
    have e := f32_redraw_commit s v0 v1 v2 hc.1 hc.2 hv
    exact ⟨_, _, e, rfl, fun h => absurd hc h, fun _ => rfl, rfl, rfl, rfl, rfl, rfl, rfl, rfl,
      f32_redraw_inv e hi, f32_redraw_steady e hs⟩
  · have e := f32_redraw_plain s hi hs hc
    exact ⟨_, [], e, (List.append_nil _).symm, fun _ => rfl, fun h => absurd h hc, rfl, rfl, rfl,
      rfl, rfl, rfl, rfl, f32_redraw_inv e hi, f32_redraw_steady e hs⟩

/-- On a key that is no mode key the handler is the animation block, then the
action of the mode, then `changeViewport`. -/
theorem f32_key_pressed_non_mode (E : F32.Env) (key : Char) (s : State)
    (h1 : key ≠ INSERTION_MODE_KEY) (h2 : key ≠ TRANSLATION_MODE_KEY)
    (h3 : key ≠ DELETE_MODE_KEY) (h4 : key ≠ COLOR_MODE_KEY) (h5 : key ≠ ANIMATION_MODE_KEY) :
    F32.key_pressed E key s =
      (F32.animationBlock key s).bind fun r =>
        (F32.keyAction E r.1 r.2).bind fun s2 => F32.changeViewport r.1 s2.zoom s2.delta s2 := by
  simp only [F32.key_pressed, setCurrentMode_other key s.currentMode h1 h2 h3 h4 h5, if_neg h5,
    state_console_nil]
  cases F32.animationBlock key s with
  | none => rfl
  | some r =>
    obtain ⟨k, s1⟩ := r
    simp only [Option.bind]
    cases F32.keyAction E k s1 with
    | none => rfl
    | some s2 => rfl

/-- The animation block with the flag clear. -/
theorem f32_animationBlock_off (key : Char) (s : State) (h : s.animationMode = false) :
    F32.animationBlock key s = some (key, s) := by
  simp [F32.animationBlock, h]

/-- The state after the reads of the animation block. -/
theorem f32_animationBlock_capture (key : Char) (s : State) (a b c : VertexAttributes)
    (h : s.animationMode = true) (hg : get3 s.triangles s.selectedTriangle = some (a, b, c))
    (hn : key ≠ 'n') (hb : key ≠ 'b') :
    F32.animationBlock key s = some (key,
      { s with
        oldAnimePosition1 := a.position
        oldAnimePosition2 := b.position
        oldAnimePosition3 := c.position }) := by
  simp [F32.animationBlock, h, hg, hn, hb]

/-- The key handler reads the selected triangle whenever the animation flag is
set, or is being set by the key `'m'`; an out-of-range selection is then read. -/
theorem f32_key_pressed_fault (E : F32.Env) (key : Char) (s : State)
    (h : key = ANIMATION_MODE_KEY ∨ s.animationMode = true)
    (hg : get3 s.triangles s.selectedTriangle = none) : F32.key_pressed E key s = none := by
  unfold F32.key_pressed
  simp only
  by_cases hk : key = ANIMATION_MODE_KEY
  · rw [if_pos hk]
    split
    · rename_i k s1 heq
      simp [F32.animationBlock, hg] at heq
    · rfl
  · rw [if_neg hk]
    rcases h with h | h
    · exact absurd h hk
    · split
      · rename_i k s1 heq
        simp [F32.animationBlock, h, hg] at heq
      · rfl

theorem f32_performTranslationAction_other (E : F32.Env) (key : Char)
    (triangles : List VertexAttributes) (uniform : UniformAttributes) (i : Int)
    (h1 : key ≠ SCALE_UP) (h2 : key ≠ SCALE_DOWN) (h3 : key ≠ ROTATE_CLOCKWISE)
    (h4 : key ≠ ROTATE_COUNTERCLOCKWISE) :
    F32.performTranslationAction E key triangles uniform i = some (triangles, uniform) := by
  simp only [F32.performTranslationAction, if_neg h1, if_neg h2, if_neg h3, if_neg h4]

/-- The action of the mode on a key that is neither a transform key nor a digit:
nothing but the request of a redraw in Translation mode with a selection. -/
theorem f32_keyAction_passive (E : F32.Env) (key : Char) (s : State)
    (h1 : key ≠ SCALE_UP) (h2 : key ≠ SCALE_DOWN) (h3 : key ≠ ROTATE_CLOCKWISE)
    (h4 : key ≠ ROTATE_COUNTERCLOCKWISE) (hd : ¬ (key ≥ '1' ∧ key ≤ '9')) :
    F32.keyAction E key s = some
      (if s.currentMode = Mode.TRANSLATION_MODE ∧ s.selectedTriangle ≥ 0 then
        { s with redraw_next := true } else s) := by
  unfold F32.keyAction
  by_cases hm : s.currentMode = Mode.TRANSLATION_MODE
  · by_cases hs : s.selectedTriangle ≥ 0
    · rw [if_pos hm, if_pos hs, f32_performTranslationAction_other E key _ _ _ h1 h2 h3 h4,
        if_pos ⟨hm, hs⟩]
    · rw [if_pos hm, if_neg hs, if_neg (fun h => hs h.2)]
  · rw [if_neg hm, if_neg (show ¬ (s.currentMode = Mode.TRANSLATION_MODE ∧ s.selectedTriangle ≥ 0)
      from fun h => hm h.1)]
    by_cases hc : s.currentMode = Mode.COLOR_MODE
    · rw [if_pos hc, if_neg hd]
    · rw [if_neg hc]

/-! ## Single precision: zero and one -/

theorem fl_zero : F32.fl 0 = 0 := by
  simp [F32.fl, F32.round]

theorem fl_one : F32.fl 1 = 1 := by decide!

theorem fmul_zero_left (x : ℚ) : F32.fmul 0 x = 0 := by
  simp [F32.fmul, fl_zero]

theorem fmul_zero_right (x : ℚ) : F32.fmul x 0 = 0 := by
  simp [F32.fmul, fl_zero]

theorem fadd_zero_zero : F32.fadd 0 0 = 0 := by
  simp [F32.fadd, fl_zero]

theorem fmul_one_one : F32.fmul 1 1 = 1 := by
  simp [F32.fmul, fl_one]

theorem fadd_zero_one : F32.fadd 0 1 = 1 := by
  simp [F32.fadd, fl_one]

theorem fadd_one_zero : F32.fadd 1 0 = 1 := by
  simp [F32.fadd, fl_one]

/-- The single-precision product of two matrices that leave `z` alone leaves `z`
alone. -/
theorem f32_rowZ_mul {a b : Mat4} (ha : RowZ a) (hb : RowZ b) : RowZ (F32.mul a b) := by
  obtain ⟨a1, a2, a3, a4⟩ := ha
  obtain ⟨b1, b2, b3, b4⟩ := hb
  simp [RowZ, F32.mul, F32.dot4, a1, a2, a3, a4, b1, b2, b3, b4, fmul_zero_left,
    fmul_zero_right, fadd_zero_zero, fmul_one_one, fadd_zero_one, fadd_one_zero]

/-- A matrix that leaves `z` alone maps a vector with `z = 0` to one with `z = 0`,
in single precision too. -/
theorem f32_rowZ_mulVec {m : Mat4} (h : RowZ m) (v : Vec4) (hv : v.z = 0) :
    (F32.mulVec m v).z = 0 := by
  obtain ⟨a1, a2, a3, a4⟩ := h
  simp [F32.mulVec, F32.dot4, a1, a2, a3, a4, hv, fmul_zero_left, fmul_zero_right,
    fadd_zero_zero]

theorem f32_transform_z {u : UniformAttributes} (h : FlatU u) (v : Vec4) (hv : v.z = 0) :
    (F32.transform u v).z = 0 :=
  f32_rowZ_mulVec (f32_rowZ_mul (f32_rowZ_mul (f32_rowZ_mul h.1 h.2.1) h.2.2.1) h.2.2.2) v hv

/-! ## C2 -/

theorem f32_boxHit_iff (uniform : UniformAttributes) (x y : ℚ) (a b c : VertexAttributes) :
    F32.boxHit uniform x y a b c = true ↔
      InBoundingBox (F32.transform uniform a.position) (F32.transform uniform b.position)
        (F32.transform uniform c.position) x y := by
  unfold F32.boxHit
  generalize F32.transform uniform a.position = p
  generalize F32.transform uniform b.position = q
  generalize F32.transform uniform c.position = r
  simp only [AlignedBox3d.extend, AlignedBox3d.contains, get3DPositionVector,
    InBoundingBox, Bool.and_eq_true, decide_eq_true_eq]
  tauto

theorem f32_hitAt_zero_cons (uniform : UniformAttributes) (x y : ℚ) (a b c : VertexAttributes)
    (rest : List VertexAttributes) :
    F32.HitAt (a :: b :: c :: rest) uniform x y 0 ↔ F32.boxHit uniform x y a b c = true := by
  rw [f32_boxHit_iff]
  constructor
  · rintro ⟨a', b', c', ha, hb, hc, h⟩
    simp at ha hb hc
    subst ha hb hc
    exact h
  · intro h
    exact ⟨a, b, c, by simp, by simp, by simp, h⟩

theorem f32_hitAt_succ_cons (uniform : UniformAttributes) (x y : ℚ) (a b c : VertexAttributes)
    (rest : List VertexAttributes) (i : Nat) :
    F32.HitAt (a :: b :: c :: rest) uniform x y (i + 3) ↔ F32.HitAt rest uniform x y i := by
  have e1 : i + 3 + 1 = (i + 1) + 3 := by omega
  have e2 : i + 3 + 2 = (i + 2) + 3 := by omega
  simp only [F32.HitAt, e1, e2, List.getElem?_cons_succ]

theorem f32_hitAt_lt_length {triangles : List VertexAttributes} {uniform : UniformAttributes}
    {x y : ℚ} {i : Nat} (h : F32.HitAt triangles uniform x y i) : i + 2 < triangles.length := by
  obtain ⟨a, b, c, _, _, hc, _⟩ := h
  by_contra hn
  rw [List.getElem?_eq_none (by omega)] at hc
  cases hc

/-- The loop of the hit test returns the first triangle that is hit, counted
from the start index, and `-1` when none is. -/
theorem f32_getSelectedTriangleIndexFrom_spec (uniform : UniformAttributes) (x y : ℚ) :
    ∀ (n : Nat) (l : List VertexAttributes) (i : Nat), l.length ≤ n →
      (F32.getSelectedTriangleIndexFrom uniform x y i l = -1 ↔ ∀ k, ¬ F32.HitAt l uniform x y (3 * k)) ∧
      (∀ k : Nat, F32.getSelectedTriangleIndexFrom uniform x y i l = ((i + 3 * k : Nat) : Int) ↔
        F32.HitAt l uniform x y (3 * k) ∧ ∀ j, j < k → ¬ F32.HitAt l uniform x y (3 * j)) := by
  intro n
  induction n with
  | zero =>
    intro l i hl
    have : l = [] := List.length_eq_zero.mp (by omega)
    subst this
    refine ⟨⟨fun _ k hk => ?_, fun _ => rfl⟩, fun k => ⟨fun h => ?_, fun h => ?_⟩⟩
    · have := f32_hitAt_lt_length hk
      simp at this
    · simp only [F32.getSelectedTriangleIndexFrom] at h
      omega
    · have := f32_hitAt_lt_length h.1
      simp at this
  | succ n ih =>
    intro l i hl
    have small : ∀ l : List VertexAttributes, l.length < 3 →
        (F32.getSelectedTriangleIndexFrom uniform x y i l = -1 ↔
          ∀ k, ¬ F32.HitAt l uniform x y (3 * k)) ∧
        (∀ k : Nat, F32.getSelectedTriangleIndexFrom uniform x y i l = ((i + 3 * k : Nat) : Int) ↔
          F32.HitAt l uniform x y (3 * k) ∧ ∀ j, j < k → ¬ F32.HitAt l uniform x y (3 * j)) := by
      intro l hl3
      have hno : ∀ k, ¬ F32.HitAt l uniform x y k := fun k hk => by
        have := f32_hitAt_lt_length hk
        omega
      have hr : F32.getSelectedTriangleIndexFrom uniform x y i l = -1 := by
        match l, hl3 with
        | [], _ => rfl
        | [_], _ => rfl
        | [_, _], _ => rfl
        | _ :: _ :: _ :: _, h => simp at h; omega
      refine ⟨⟨fun _ k => hno _, fun _ => hr⟩, fun k => ⟨fun h => ?_, fun h => ?_⟩⟩
      · rw [hr] at h
        omega
      · exact absurd h.1 (hno _)
    match l with
    | [] => exact small [] (by simp)
    | [p] => exact small [p] (by simp)
    | [p, q] => exact small [p, q] (by simp)
    | a :: b :: c :: rest =>
      have hrest := ih rest (i + 3) (by simp at hl; omega)
      have h0 := f32_hitAt_zero_cons uniform x y a b c rest
      have hs : ∀ k, F32.HitAt (a :: b :: c :: rest) uniform x y (3 * (k + 1)) ↔
          F32.HitAt rest uniform x y (3 * k) := by
        intro k
        have : 3 * (k + 1) = 3 * k + 3 := by omega
        rw [this]
        exact f32_hitAt_succ_cons uniform x y a b c rest (3 * k)
      rw [F32.getSelectedTriangleIndexFrom]
      by_cases hb : F32.boxHit uniform x y a b c = true
      · rw [if_pos hb]
        have hit0 : F32.HitAt (a :: b :: c :: rest) uniform x y (3 * 0) := h0.mpr hb
        refine ⟨⟨fun h => by omega, fun h => absurd hit0 (h 0)⟩, fun k => ⟨fun h => ?_, fun h => ?_⟩⟩
        · have hk : k = 0 := by omega
          subst hk
          exact ⟨hit0, fun j hj => by omega⟩
        · have hk : k = 0 := by
            by_contra hk
            exact h.2 0 (by omega) hit0
          subst hk
          simp
      · rw [if_neg hb]
        have nhit0 : ¬ F32.HitAt (a :: b :: c :: rest) uniform x y (3 * 0) := fun h => hb (h0.mp h)
        refine ⟨?_, fun k => ?_⟩
        · rw [hrest.1]
          constructor
          · intro h k
            cases k with
            | zero => exact nhit0
            | succ k => rw [hs]; exact h k
          · intro h k
            rw [← hs]
            exact h (k + 1)
        · cases k with
          | zero =>
            constructor
            · intro h
              rcases f32_getSelectedTriangleIndexFrom_range uniform x y rest.length rest (i + 3)
                (le_refl _) with h1 | ⟨m, hm, _⟩
              · rw [h1] at h; omega
              · rw [hm] at h; omega
            · intro h
              exact absurd h.1 nhit0
          | succ k =>
            have e : ((i + 3 * (k + 1) : Nat) : Int) = ((i + 3 + 3 * k : Nat) : Int) := by
              congr 1
              omega
            rw [e, hrest.2 k, hs]
            constructor
            · rintro ⟨h1, h2⟩
              refine ⟨h1, fun j hj => ?_⟩
              cases j with
              | zero => exact nhit0
              | succ j => rw [hs]; exact h2 j (by omega)
            · rintro ⟨h1, h2⟩
              refine ⟨h1, fun j hj => ?_⟩
              rw [← hs]
              exact h2 (j + 1) (by omega)

/-- C2, counterexample: a triangle with corners at the pixels (75, 300), (300, 300),
(250, 200) is inserted and the view is zoomed in once, so that `view` is
`diag(1.2f, 1.2f, 1, 1)`. The code computes the `x` coordinate of the first
transformed vertex as the `float` -7046431/8388608, which is the `x` coordinate of
a click at the pixel (40, 250): `getSelectedTriangleIndex` returns 0 for that
click. The exact product of `view` and the stored position is greater than the
`x` of the click, so the click lies outside the bounding box of the three exact
products `view * translate * rotate * scale * position`, and the first index with
the click in that box does not exist. -/
theorem hit_test_rounds_counterexample :
    F32.run F32.sampleEnv (initial sampleEnv) F32.zoomedEvents = some F32.zoomedState ∧
    F32.zoomedState.triangles.map (fun v => (F32.transform F32.zoomedState.uniform v.position).x)
      = [-7046431 / 8388608, 4026533 / 16777216, 0] ∧
    F32.xPos 40 = -7046431 / 8388608 ∧
    F32.getSelectedTriangleIndex F32.zoomedState.triangles F32.zoomedState.uniform
      (F32.xPos 40) (F32.yPos 250) = 0 ∧
    F32.zoomedState.triangles.map
        (fun (v : VertexAttributes) => decide (F32.xPos 40 < (F32.zoomedState.uniform.view
          * F32.zoomedState.uniform.translate * F32.zoomedState.uniform.rotate
          * F32.zoomedState.uniform.scale * v.position).x))
      = [true, true, true] ∧
    getSelectedTriangleIndex F32.zoomedState.triangles F32.zoomedState.uniform
      (F32.xPos 40) (F32.yPos 250) = -1 := by
  decide!

/-- C2 (amended): for every triangle list, uniform state and click `(x, y)`,
`getSelectedTriangleIndex` returns the least index `i` in 0, 3, 6, ... with
`i + 2 < size` whose triangle is hit, and `-1` exactly when there is no such
index; so a result is `-1` or a multiple of 3 that is in bounds. A triangle is
hit when the click lies, bounds included, in the bounding box of the three
vectors `view * translate * rotate * scale * position` as the code computes
them: in single precision, every product and every sum rounded to `float`. For
the single triangle (-0.5,-0.5), (0.5,-0.5), (0,0.5) under identity matrices the
click (0, 0) gives 0 and the click (0.9, 0.9) gives `-1`. The box is the box of
the code, in three dimensions, and the click is the point `(x, y, 0)`; for
transformed vertices with `z = 0` the test is the test of `x` and `y` against the
box in the plane, and a vertex with `z = 0` is transformed to one with `z = 0`
when the four matrices leave `z` alone. -/
theorem getSelectedTriangleIndex_least_hit (triangles : List VertexAttributes)
    (uniform : UniformAttributes) (x y : ℚ) :
    (F32.getSelectedTriangleIndex triangles uniform x y = -1 ↔
      ∀ i, i % 3 = 0 → i + 2 < triangles.length → ¬ F32.HitAt triangles uniform x y i) ∧
    (∀ i : Nat, F32.getSelectedTriangleIndex triangles uniform x y = (i : Int) ↔
      i % 3 = 0 ∧ i + 2 < triangles.length ∧ F32.HitAt triangles uniform x y i ∧
        ∀ j, j % 3 = 0 → j < i → ¬ F32.HitAt triangles uniform x y j) ∧
    (F32.getSelectedTriangleIndex triangles uniform x y = -1 ∨
      ∃ i : Nat, F32.getSelectedTriangleIndex triangles uniform x y = (i : Int) ∧
        i % 3 = 0 ∧ i + 2 < triangles.length) ∧
    (∀ (a b c : VertexAttributes) (u : UniformAttributes),
      a.position = ⟨-1 / 2, -1 / 2, 0, 1⟩ → b.position = ⟨1 / 2, -1 / 2, 0, 1⟩ →
      c.position = ⟨0, 1 / 2, 0, 1⟩ →
      u.view = identity → u.translate = identity → u.rotate = identity → u.scale = identity →
      F32.getSelectedTriangleIndex [a, b, c] u 0 0 = 0 ∧
      F32.getSelectedTriangleIndex [a, b, c] u (9 / 10) (9 / 10) = -1) ∧
    (∀ p q r : Vec4, p.z = 0 → q.z = 0 → r.z = 0 →
      (InBoundingBox p q r x y ↔ InBoundingBox2 p q r x y)) ∧
    (FlatU uniform → ∀ v : Vec4, v.z = 0 → (F32.transform uniform v).z = 0) := by
  have hspec := f32_getSelectedTriangleIndexFrom_spec uniform x y triangles.length triangles 0
    (le_refl _)
  refine ⟨?_, ?_, ?_, ?_, ?_, ?_⟩
  · rw [F32.getSelectedTriangleIndex, hspec.1]
    constructor
    · intro h i hi _
      have : i = 3 * (i / 3) := by omega
      rw [this]
      exact h _
    · intro h k hk
      exact h (3 * k) (by omega) (f32_hitAt_lt_length hk) hk
  · intro i
    constructor
    · intro h
      rcases f32_getSelectedTriangleIndex_range triangles uniform x y with h1 | ⟨k, hk, hk2⟩
      · rw [h1] at h; omega
      · have hik : i = 3 * k := by rw [hk] at h; omega
        subst hik
        have h' : F32.getSelectedTriangleIndexFrom uniform x y 0 triangles
            = ((0 + 3 * k : Nat) : Int) := by
          rw [Nat.zero_add]
          exact hk
        obtain ⟨h1, h2⟩ := (hspec.2 k).mp h'
        refine ⟨by omega, by omega, h1, fun j hj hlt => ?_⟩
        have : j = 3 * (j / 3) := by omega
        rw [this]
        exact h2 _ (by omega)
    · rintro ⟨h3, _, hit, hleast⟩
      have hik : i = 3 * (i / 3) := by omega
      have h' : F32.getSelectedTriangleIndexFrom uniform x y 0 triangles
          = ((0 + 3 * (i / 3) : Nat) : Int) := by
        rw [hspec.2 (i / 3)]
        refine ⟨by rw [← hik]; exact hit, fun j hj => hleast _ (by omega) (by omega)⟩
      rw [F32.getSelectedTriangleIndex, h']
      congr 1
      omega
  · rcases f32_getSelectedTriangleIndex_range triangles uniform x y with h1 | ⟨k, hk, hk2⟩
    · left; exact h1
    · right
      exact ⟨3 * k, hk, by omega, by omega⟩
  · intro a b c u ha hb hc hv ht hr hs
    have e0 : F32.mul (F32.mul (F32.mul identity identity) identity) identity = identity := by
      decide!
    have e1 : F32.mulVec identity (⟨-1 / 2, -1 / 2, 0, 1⟩ : Vec4) = ⟨-1 / 2, -1 / 2, 0, 1⟩ := by
      decide!
    have e2 : F32.mulVec identity (⟨1 / 2, -1 / 2, 0, 1⟩ : Vec4) = ⟨1 / 2, -1 / 2, 0, 1⟩ := by
      decide!
    have e3 : F32.mulVec identity (⟨0, 1 / 2, 0, 1⟩ : Vec4) = ⟨0, 1 / 2, 0, 1⟩ := by
      decide!
    constructor
    · have : F32.boxHit u 0 0 a b c = true := by
        rw [f32_boxHit_iff, ha, hb, hc]
        simp only [F32.transform, F32.composed, hv, ht, hr, hs, e0, e1, e2, e3, InBoundingBox]
        norm_num
      rw [F32.getSelectedTriangleIndex, F32.getSelectedTriangleIndexFrom, if_pos this]
      rfl
    · have : ¬ F32.boxHit u (9 / 10) (9 / 10) a b c = true := by
        rw [f32_boxHit_iff, ha, hb, hc]
        simp only [F32.transform, F32.composed, hv, ht, hr, hs, e0, e1, e2, e3, InBoundingBox]
        norm_num
      rw [F32.getSelectedTriangleIndex, F32.getSelectedTriangleIndexFrom, if_neg this]
      rfl
  · intro p q r hp hq hr
    exact inBoundingBox_iff_plane x y hp hq hr
  · intro hf v hv
    exact f32_transform_z hf v hv

/-! ## C10 -/

/-- C10, counterexample: a triangle with corners at the pixels (300, 400),
(200, 400), (250, 100) is inserted, and in Color mode the pixel (250, 256) is
clicked. The three matrices are the identity, the stored positions are
(0.20000005, -0.604), (-0.19999999, -0.604), (0, 0.596) and the click is
(0, -0.028): the second vertex is nearer to the click than the first one. Both
distances are the `float` 10229645/16777216 when the code computes them, and the
code targets the first vertex (`vertex_index = 0`). -/
theorem nearest_vertex_rounds_counterexample :
    F32.run F32.sampleEnv (initial sampleEnv) F32.colorEvents = some F32.colorState ∧
    F32.colorState.uniform.view = identity ∧ F32.colorState.uniform.translate = identity ∧
    F32.colorState.uniform.rotate = identity ∧ F32.colorState.uniform.scale = identity ∧
    F32.colorState.triangles.map (fun v => v.position)
      = [⟨838861 / 4194304, -5066719 / 8388608, 0, 1⟩,
         ⟨-3355443 / 16777216, -5066719 / 8388608, 0, 1⟩,
         ⟨0, 2499805 / 4194304, 0, 1⟩] ∧
    (F32.xPos 250, F32.yPos 256) = (0, -234881 / 8388608) ∧
    (F32.mouse_pressed F32.sampleEnv 250 256 false F32.colorState).map
      (fun s => (s.selectedTriangle, s.vertex_index)) = some (0, 0) ∧
    F32.getNearestVertex F32.colorState.triangles F32.colorState.uniform 0
      ⟨F32.xPos 250, F32.yPos 256, 0, 1⟩ = some 0 ∧
    F32.colorState.triangles.map
        (F32.dist F32.colorState.uniform ⟨F32.xPos 250, F32.yPos 256, 0, 1⟩)
      = [10229645 / 16777216, 10229645 / 16777216, 5234491 / 8388608] ∧
    DistLT (⟨-3355443 / 16777216, -5066719 / 8388608, 0, 1⟩ : Vec4)
      ⟨838861 / 4194304, -5066719 / 8388608, 0, 1⟩ ⟨0, -234881 / 8388608, 0, 1⟩ ∧
    DistLT (identity * identity * identity * identity
        * (⟨-3355443 / 16777216, -5066719 / 8388608, 0, 1⟩ : Vec4))
      (identity * identity * identity * identity
        * (⟨838861 / 4194304, -5066719 / 8388608, 0, 1⟩ : Vec4))
      ⟨0, -234881 / 8388608, 0, 1⟩ := by
  have h : F32.run F32.sampleEnv (initial sampleEnv) F32.colorEvents = some F32.colorState ∧
      F32.colorState.uniform.view = identity ∧ F32.colorState.uniform.translate = identity ∧
      F32.colorState.uniform.rotate = identity ∧ F32.colorState.uniform.scale = identity ∧
      F32.colorState.triangles.map (fun v => v.position)
        = [⟨838861 / 4194304, -5066719 / 8388608, 0, 1⟩,
           ⟨-3355443 / 16777216, -5066719 / 8388608, 0, 1⟩,
           ⟨0, 2499805 / 4194304, 0, 1⟩] ∧
      (F32.xPos 250, F32.yPos 256) = (0, -234881 / 8388608) ∧
      (F32.mouse_pressed F32.sampleEnv 250 256 false F32.colorState).map
        (fun s => (s.selectedTriangle, s.vertex_index)) = some (0, 0) ∧
      F32.getNearestVertex F32.colorState.triangles F32.colorState.uniform 0
        ⟨F32.xPos 250, F32.yPos 256, 0, 1⟩ = some 0 ∧
      F32.colorState.triangles.map
          (F32.dist F32.colorState.uniform ⟨F32.xPos 250, F32.yPos 256, 0, 1⟩)
        = [10229645 / 16777216, 10229645 / 16777216, 5234491 / 8388608] := by
    decide!
  obtain ⟨h1, h2, h3, h4, h5, h6, h7, h8, h9, h10⟩ := h
  refine ⟨h1, h2, h3, h4, h5, h6, h7, h8, h9, h10, ?_, ?_⟩
  · rw [distLT_iff]
    decide!
  · rw [distLT_iff]
    decide!

/-- C10 (amended): for a triangle index `s` in bounds, a uniform state and a point
`p`, `getNearestVertex` returns `s + k` where `k` is the least of 0, 1, 2 such that
the distance of vertex `s + k` to `p` is minimal among the three vertices, the
distance being the value the code computes in single precision: the `float`
`norm()` of the `float` difference of the `float` vector
`view * translate * rotate * scale * position` and `p`. The result lies in
`s, s + 1, s + 2`. -/
theorem getNearestVertex_nearest_lowest (triangles : List VertexAttributes)
    (uniform : UniformAttributes) (s : Int) (p : Vec4)
    (h0 : 0 ≤ s) (h : s + 2 < triangles.length) :
    ∃ (k : Nat) (v : Nat → VertexAttributes),
      at? triangles s = some (v 0) ∧ at? triangles (s + 1) = some (v 1) ∧
      at? triangles (s + 2) = some (v 2) ∧
      k < 3 ∧ F32.getNearestVertex triangles uniform s p = some (s + (k : Int)) ∧
      (∀ j, j < 3 → F32.dist uniform p (v k) ≤ F32.dist uniform p (v j)) ∧
      (∀ j, j < k → F32.dist uniform p (v k) < F32.dist uniform p (v j)) := by
  obtain ⟨⟨a, b, c⟩, hg⟩ := get3_of_lt h0 h
  obtain ⟨ha, hb, hc⟩ := get3_eq_some hg
  simp only at ha hb hc
  have three : ∀ j, j < 3 → j = 0 ∨ j = 1 ∨ j = 2 := fun j hj => by omega
  have hres : F32.getNearestVertex triangles uniform s p
      = some ((min_element [F32.dist uniform p a, F32.dist uniform p b,
          F32.dist uniform p c] : Int) + s) := by
    simp only [F32.getNearestVertex, hg]
    rfl
  let v : Nat → VertexAttributes := fun j => if j = 0 then a else if j = 1 then b else c
  rcases min_element_three (F32.dist uniform p a) (F32.dist uniform p b)
      (F32.dist uniform p c) with
    ⟨hk, h1, h2⟩ | ⟨hk, h1, h2⟩ | ⟨hk, h1, h2⟩
  · refine ⟨0, v, ha, hb, hc, by omega, ?_, ?_, ?_⟩
    · rw [hres, hk]
      simp
    · intro j hj
      rcases three j hj with rfl | rfl | rfl
      · exact le_refl _
      · exact h1
      · exact h2
    · intro j hj
      omega
  · refine ⟨1, v, ha, hb, hc, by omega, ?_, ?_, ?_⟩
    · rw [hres, hk]
      simp [add_comm]
    · intro j hj
      rcases three j hj with rfl | rfl | rfl
      · exact le_of_lt h1
      · exact le_refl _
      · exact h2
    · intro j hj
      have : j = 0 := by omega
      subst this
      exact h1
  · refine ⟨2, v, ha, hb, hc, by omega, ?_, ?_, ?_⟩
    · rw [hres, hk]
      simp [add_comm]
    · intro j hj
      rcases three j hj with rfl | rfl | rfl
      · exact le_of_lt h1
      · exact le_of_lt h2
      · exact le_refl _
    · intro j hj
      have : j = 0 ∨ j = 1 := by omega
      rcases this with rfl | rfl
      · exact h1
      · exact h2

/-- C10 (amended), witness: the first triangle of the state of the counterexample
and the click at the pixel (250, 256), which is at the same computed distance
from the first two vertices. -/
theorem getNearestVertex_nearest_lowest_witness :
    (0 : Int) ≤ 0 ∧ (0 : Int) + 2 < F32.colorState.triangles.length ∧
    ∃ (k : Nat) (v : Nat → VertexAttributes),
      at? F32.colorState.triangles 0 = some (v 0) ∧
      at? F32.colorState.triangles (0 + 1) = some (v 1) ∧
      at? F32.colorState.triangles (0 + 2) = some (v 2) ∧
      k < 3 ∧
      F32.getNearestVertex F32.colorState.triangles F32.colorState.uniform 0
        ⟨F32.xPos 250, F32.yPos 256, 0, 1⟩ = some (0 + (k : Int)) ∧
      (∀ j, j < 3 →
        F32.dist F32.colorState.uniform ⟨F32.xPos 250, F32.yPos 256, 0, 1⟩ (v k) ≤
          F32.dist F32.colorState.uniform ⟨F32.xPos 250, F32.yPos 256, 0, 1⟩ (v j)) ∧
      (∀ j, j < k →
        F32.dist F32.colorState.uniform ⟨F32.xPos 250, F32.yPos 256, 0, 1⟩ (v k) <
          F32.dist F32.colorState.uniform ⟨F32.xPos 250, F32.yPos 256, 0, 1⟩ (v j)) :=
  have h : (0 : Int) + 2 < F32.colorState.triangles.length := by decide!
  ⟨le_refl _, h,
    getNearestVertex_nearest_lowest F32.colorState.triangles F32.colorState.uniform 0
      ⟨F32.xPos 250, F32.yPos 256, 0, 1⟩ (le_refl _) h⟩

/-! ## C9 -/

/-- One cursor move of a drag. -/
theorem f32_mouse_move_drag (E : F32.Env) (t : State) (x y : Int) (ht : Dragging t) :
    ∃ t', F32.mouse_move E x y t = some t' ∧ Dragging t' ∧
      t'.uniform.translate =
        F32.mul
          (translation (F32.fsub (F32.xPos x) t.oldPosition.x)
            (F32.fsub (F32.yPos y) t.oldPosition.y)) t.uniform.translate ∧
      t'.oldPosition = ⟨F32.xPos x, F32.yPos y, 0, 1⟩ := by
  obtain ⟨hm, hc, h0, hlt⟩ := ht
  obtain ⟨⟨a, b, c⟩, hg⟩ := get3_of_lt h0 hlt
  have hi : t.currentMode ≠ Mode.INSERTION_MODE := by rw [hm]; decide
  have hcond : t.isClicked = true ∧ t.selectedTriangle ≥ 0 := ⟨hc, h0⟩
  by_cases ha : t.animationMode = true ∧ ¬ t.isPositionSet = true
  · simp only [F32.mouse_move, if_neg hi, if_pos hm, if_pos hcond, if_pos ha, hg, onTriangle,
      F32.translateTriangle]
    refine ⟨_, rfl, ⟨hm, hc, h0, ?_⟩, ?_, rfl⟩
    · simp only [length_set3]
      exact hlt
    · rfl
  · simp only [F32.mouse_move, if_neg hi, if_pos hm, if_pos hcond, if_neg ha, hg, onTriangle,
      F32.translateTriangle]
    refine ⟨_, rfl, ⟨hm, hc, h0, ?_⟩, ?_, rfl⟩
    · simp only [length_set3]
      exact hlt
    · rfl

/-- The moves of a drag, from a state in which the button is held at `p0`. -/
theorem f32_run_moves_drag (E : F32.Env) :
    ∀ (pts : List (Int × Int)) (p0 : Int × Int) (t : State), Dragging t →
      t.oldPosition = ⟨F32.xPos p0.1, F32.yPos p0.2, 0, 1⟩ →
      ∃ t', F32.run E t (moveEvents pts) = some t' ∧ Dragging t' ∧
        t'.oldPosition = ⟨F32.xPos (lastPixel p0 pts).1, F32.yPos (lastPixel p0 pts).2, 0, 1⟩ ∧
        t'.uniform.translate = F32.dragTranslate p0 pts t.uniform.translate := by
  intro pts
  induction pts with
  | nil =>
    intro p0 t ht hold
    exact ⟨t, rfl, ht, hold, rfl⟩
  | cons p ps ih =>
    intro p0 t ht hold
    obtain ⟨t1, h1, hd1, htr1, hold1⟩ := f32_mouse_move_drag E t p.1 p.2 ht
    obtain ⟨t', h', hd', hold', htr'⟩ := ih p t1 hd1 hold1
    refine ⟨t', ?_, hd', hold', ?_⟩
    · simp only [moveEvents, List.map_cons, F32.run, F32.step, h1]
      exact h'
    · rw [htr', htr1, hold]
      rfl

/-- A press on a triangle in Translation mode starts a drag. -/
theorem f32_mouse_pressed_starts_drag (E : F32.Env) (s : State) (x0 y0 : Int)
    (hm : s.currentMode = Mode.TRANSLATION_MODE)
    (hit : 0 ≤ F32.getSelectedTriangleIndex s.triangles s.uniform (F32.xPos x0) (F32.yPos y0)) :
    ∃ s1, F32.mouse_pressed E x0 y0 false s = some s1 ∧ Dragging s1 ∧
      s1.oldPosition = ⟨F32.xPos x0, F32.yPos y0, 0, 1⟩ ∧ s1.uniform = s.uniform ∧
      s1.selectedTriangle =
        F32.getSelectedTriangleIndex s.triangles s.uniform (F32.xPos x0) (F32.yPos y0) := by
  have hi : s.currentMode ≠ Mode.INSERTION_MODE := by rw [hm]; decide
  have hd : s.currentMode ≠ Mode.DELETION_MODE := by rw [hm]; decide
  have hlt : F32.getSelectedTriangleIndex s.triangles s.uniform (F32.xPos x0) (F32.yPos y0) + 2
      < s.triangles.length := by
    rcases f32_getSelectedTriangleIndex_range s.triangles s.uniform (F32.xPos x0)
        (F32.yPos y0) with h1 | ⟨k, hk, hk2⟩
    · rw [h1] at hit; omega
    · rw [hk]; omega
  obtain ⟨⟨a, b, c⟩, hg⟩ := get3_of_lt hit hlt
  have hnlt : ¬ F32.getSelectedTriangleIndex s.triangles s.uniform (F32.xPos x0)
      (F32.yPos y0) < 0 := by
    omega
  have hge : F32.getSelectedTriangleIndex s.triangles s.uniform (F32.xPos x0)
      (F32.yPos y0) ≥ 0 := hit
  simp only [F32.mouse_pressed, if_neg hi, if_neg hd, if_pos hm, if_neg hnlt, if_pos hge,
    setColorAt, hg, Bool.false_eq_true, if_false]
  refine ⟨_, rfl, ⟨hm, rfl, hit, ?_⟩, rfl, rfl, rfl⟩
  simp only [length_set3]
  exact hlt

/-- C9, counterexample: a triangle that covers the canvas is inserted and, in
Translation mode, dragged from the pixel (358, 395) through (29, 237) and
(235, 293) to (318, 428). The three moves leave `translate` with the entry
-2684355/16777216 (-0.16000003) in the first row; the translation by
`p_n - p0`, multiplied with the matrix before the drag (the identity), has
-671089/4194304 (-0.16000009) there. -/
theorem drag_closed_form_counterexample :
    F32.run F32.sampleEnv (initial sampleEnv) F32.canvasEvents = some F32.canvasState ∧
    F32.canvasState.uniform.translate = identity ∧
    (F32.run F32.sampleEnv F32.canvasState
        (Event.mouse_pressed 358 395 false :: moveEvents [(29, 237), (235, 293), (318, 428)])).map
      (fun s => s.uniform.translate)
      = some (translation (-2684355 / 16777216) (-34603 / 262144)) ∧
    F32.mul (translation (F32.fsub (F32.xPos 318) (F32.xPos 358))
        (F32.fsub (F32.yPos 428) (F32.yPos 395))) F32.canvasState.uniform.translate
      = translation (-671089 / 4194304) (-34603 / 262144) ∧
    translation (-2684355 / 16777216) (-34603 / 262144)
      ≠ translation (-671089 / 4194304) (-34603 / 262144) := by
  decide!

/-- C9 (amended): in Translation mode, after a press on a triangle at the pixel
`(x0, y0)` (NDC point `p0`) and cursor moves through the pixels `pts` (NDC points
`p1, ..., pn`) while the button is held, every move sets
`translate := T(p_i - p_(i-1)) * translate`, the difference and the matrix product
in single precision, `T(d)` being the translation by `(d.x, d.y, 0)`; at the end
`translate` is the product `T(p_n - p_(n-1)) * (... * (T(p_1 - p0) * translate_0))`
of these steps, `translate_0` being the matrix before the drag. -/
theorem drag_translation_accumulates (E : F32.Env) (s : State) (x0 y0 : Int)
    (pts : List (Int × Int))
    (hm : s.currentMode = Mode.TRANSLATION_MODE)
    (hit : 0 ≤ F32.getSelectedTriangleIndex s.triangles s.uniform (F32.xPos x0) (F32.yPos y0)) :
    ∃ s1 s2, F32.mouse_pressed E x0 y0 false s = some s1 ∧
      F32.run E s1 (moveEvents pts) = some s2 ∧
      s2.uniform.translate = F32.dragTranslate (x0, y0) pts s.uniform.translate ∧
      ∀ (pre : List (Int × Int)) (p : Int × Int),
        ∃ t t', F32.run E s1 (moveEvents pre) = some t ∧ F32.mouse_move E p.1 p.2 t = some t' ∧
          t'.uniform.translate =
            F32.mul
              (translation (F32.fsub (F32.xPos p.1) (F32.xPos (lastPixel (x0, y0) pre).1))
                (F32.fsub (F32.yPos p.2) (F32.yPos (lastPixel (x0, y0) pre).2)))
              t.uniform.translate := by
  obtain ⟨s1, h1, hd1, hold1, hu1, _⟩ := f32_mouse_pressed_starts_drag E s x0 y0 hm hit
  obtain ⟨s2, h2, _, _, htr2⟩ := f32_run_moves_drag E pts (x0, y0) s1 hd1 hold1
  refine ⟨s1, s2, h1, h2, ?_, ?_⟩
  · rw [htr2, hu1]
  · intro pre p
    obtain ⟨t, ht, hdt, holdt, _⟩ := f32_run_moves_drag E pre (x0, y0) s1 hd1 hold1
    obtain ⟨t', ht', _, htr', _⟩ := f32_mouse_move_drag E t p.1 p.2 hdt
    refine ⟨t, t', ht, ht', ?_⟩
    rw [htr', holdt]

/-- C9 (amended), witness: the drag of the counterexample, from the pixel
(358, 395) through (29, 237) and (235, 293) to (318, 428). -/
theorem drag_translation_accumulates_witness :
    F32.canvasState.currentMode = Mode.TRANSLATION_MODE ∧
    0 ≤ F32.getSelectedTriangleIndex F32.canvasState.triangles F32.canvasState.uniform
      (F32.xPos 358) (F32.yPos 395) ∧
    ∃ s1 s2, F32.mouse_pressed F32.sampleEnv 358 395 false F32.canvasState = some s1 ∧
      F32.run F32.sampleEnv s1 (moveEvents [(29, 237), (235, 293), (318, 428)]) = some s2 ∧
      s2.uniform.translate =
        F32.dragTranslate (358, 395) [(29, 237), (235, 293), (318, 428)]
          F32.canvasState.uniform.translate := by
  have h : F32.canvasState.currentMode = Mode.TRANSLATION_MODE ∧
      0 ≤ F32.getSelectedTriangleIndex F32.canvasState.triangles F32.canvasState.uniform
        (F32.xPos 358) (F32.yPos 395) := by
    decide!
  obtain ⟨s1, s2, h1, h2, h3, _⟩ :=
    drag_translation_accumulates F32.sampleEnv F32.canvasState 358 395
      [(29, 237), (235, 293), (318, 428)] h.1 h.2
  exact ⟨h.1, h.2, s1, s2, h1, h2, h3⟩

/-! ## The view keys in single precision -/

/-- Function `changeViewport` on a view key: the mode of the uniform state is the
key, the message is printed, `view` is premultiplied by `currentView`, and the
scene is drawn. -/
theorem f32_changeViewport_view_key (key : Char) (zoom delta : ℚ) (s : State)
    (hk : key ∈ [ZOOM_IN_KEY, ZOOM_OUT_KEY, PAN_DOWN_KEY, PAN_UP_KEY, PAN_RIGHT_KEY,
      PAN_LEFT_KEY]) :
    ∃ msg, F32.changeViewport key zoom delta s =
      F32.redraw { s with
        uniform := { s.uniform with
          mode := key, view := F32.mul (F32.currentView key zoom delta) s.uniform.view }
        console := s.console ++ [msg] } := by
  simp only [List.mem_cons, List.mem_singleton, List.not_mem_nil, or_false] at hk
  unfold F32.changeViewport F32.currentView
  simp only
  by_cases h1 : key = ZOOM_IN_KEY
  · rw [if_pos h1, if_pos h1]
    exact ⟨_, rfl⟩
  · rw [if_neg h1, if_neg h1]
    by_cases h2 : key = ZOOM_OUT_KEY
    · rw [if_pos h2, if_pos h2]
      exact ⟨_, rfl⟩
    · rw [if_neg h2, if_neg h2]
      by_cases h3 : key = PAN_DOWN_KEY
      · rw [if_pos h3, if_pos h3]
        refine ⟨PAN_DOWN_MSG, ?_⟩
        rw [h3]
        rfl
      · rw [if_neg h3, if_neg h3]
        by_cases h4 : key = PAN_UP_KEY
        · rw [if_pos h4, if_pos h4]
          exact ⟨_, rfl⟩
        · rw [if_neg h4, if_neg h4]
          by_cases h5 : key = PAN_RIGHT_KEY
          · rw [if_pos h5, if_pos h5]
            exact ⟨_, rfl⟩
          · rw [if_neg h5, if_neg h5]
            by_cases h6 : key = PAN_LEFT_KEY
            · rw [if_pos h6, if_pos h6]
              exact ⟨_, rfl⟩
            · rcases hk with h | h | h | h | h | h
              · exact absurd h h1
              · exact absurd h h2
              · exact absurd h h3
              · exact absurd h h4
              · exact absurd h h5
              · exact absurd h h6

/-- Function `changeViewport` on a view key, in a state of a run. -/
theorem f32_changeViewport_view_step (key : Char) (zoom delta : ℚ) (s : State)
    (hk : key ∈ [ZOOM_IN_KEY, ZOOM_OUT_KEY, PAN_DOWN_KEY, PAN_UP_KEY, PAN_RIGHT_KEY,
      PAN_LEFT_KEY]) (hi : Inv s) (hs : Steady s) :
    ∃ s' ext, F32.changeViewport key zoom delta s = some s' ∧
      s'.uniform.view = F32.mul (F32.currentView key zoom delta) s.uniform.view ∧
      s'.uniform.translate = s.uniform.translate ∧ s'.uniform.rotate = s.uniform.rotate ∧
      s'.uniform.scale = s.uniform.scale ∧ s'.uniform.scale_factor = s.uniform.scale_factor ∧
      s'.uniform.rotate_radians = s.uniform.rotate_radians ∧
      s'.uniform.translate_delta = s.uniform.translate_delta ∧
      s'.triangles = s.triangles ++ ext ∧
      (¬ (s.currentMode = Mode.INSERTION_MODE ∧ s.numOfClicks = 3) → ext = []) ∧
      (s.currentMode = Mode.INSERTION_MODE ∧ s.numOfClicks = 3 → ext.length = 3) ∧
      s'.selectedTriangle = s.selectedTriangle ∧ s'.animationMode = s.animationMode ∧
      s'.currentMode = s.currentMode ∧ Inv s' ∧ Steady s' := by
  obtain ⟨msg, e⟩ := f32_changeViewport_view_key key zoom delta s hk
  obtain ⟨s', ext, h, ht, he, he3, _, hu, hsel, han, hmode, _, _, hi', hs'⟩ :=
    f32_redraw_result { s with
        uniform := { s.uniform with
          mode := key, view := F32.mul (F32.currentView key zoom delta) s.uniform.view }
        console := s.console ++ [msg] } hi hs
  rw [← e] at h
  refine ⟨s', ext, h, ?_, ?_, ?_, ?_, ?_, ?_, ?_, ht, he, he3, hsel, han, hmode, hi', hs'⟩ <;>
    rw [hu]

/-- The key handler on a view key, in a state of a run in which the animation
block reads in range: it returns, `view` is premultiplied by the matrix
`currentView` for `zoom = 1` and `delta = 0`, the rest of the uniform state but
its mode is kept, and the triangle list is kept but for the commit of a pending
triangle by the redraw. -/
theorem f32_key_pressed_view_key (E : F32.Env) (key : Char) (s : State)
    (hk : key ∈ [ZOOM_IN_KEY, ZOOM_OUT_KEY, PAN_DOWN_KEY, PAN_UP_KEY, PAN_RIGHT_KEY,
      PAN_LEFT_KEY]) (hi : Inv s) (hs : Steady s) (ha : BlockReads s) :
    ∃ s' ext, F32.key_pressed E key s = some s' ∧
      s'.uniform.view = F32.mul (F32.currentView key 1 0) s.uniform.view ∧
      s'.uniform.translate = s.uniform.translate ∧ s'.uniform.rotate = s.uniform.rotate ∧
      s'.uniform.scale = s.uniform.scale ∧ s'.uniform.scale_factor = s.uniform.scale_factor ∧
      s'.uniform.rotate_radians = s.uniform.rotate_radians ∧
      s'.uniform.translate_delta = s.uniform.translate_delta ∧
      s'.triangles = s.triangles ++ ext ∧
      (¬ (s.currentMode = Mode.INSERTION_MODE ∧ s.numOfClicks = 3) → ext = []) ∧
      (s.currentMode = Mode.INSERTION_MODE ∧ s.numOfClicks = 3 → ext.length = 3) ∧
      Inv s' ∧ Steady s' ∧ BlockReads s' := by
  obtain ⟨k1, k2, k3, k4, k5, k10, k11, k6, k7, k8, k9, hd⟩ := view_key_unlike key hk
  have hblock : ∃ s1, F32.animationBlock key s = some (key, s1) ∧ s1.currentMode = s.currentMode ∧
      s1.triangles = s.triangles ∧ s1.uniform = s.uniform ∧
      s1.selectedTriangle = s.selectedTriangle ∧ s1.animationMode = s.animationMode ∧
      s1.numOfClicks = s.numOfClicks ∧ Inv s1 ∧ Steady s1 := by
    by_cases hf : s.animationMode = true
    · rcases ha with ha | ⟨⟨a, b, c⟩, hg⟩
      · rw [ha] at hf
        cases hf
      · exact ⟨_, f32_animationBlock_capture key s a b c hf hg k10 k11, rfl, rfl, rfl, rfl, rfl,
          rfl, hi, hs⟩
    · have hf' : s.animationMode = false := by simpa using hf
      exact ⟨s, f32_animationBlock_off key s hf', rfl, rfl, rfl, rfl, rfl, rfl, hi, hs⟩
  obtain ⟨s1, hb, e1, e2, e3, e5, e6, e7, hi1, hs1⟩ := hblock
  have haction : ∃ s2, F32.keyAction E key s1 = some s2 ∧ s2.currentMode = s.currentMode ∧
      s2.triangles = s.triangles ∧ s2.uniform = s.uniform ∧
      s2.selectedTriangle = s.selectedTriangle ∧ s2.animationMode = s.animationMode ∧
      s2.numOfClicks = s.numOfClicks ∧ Inv s2 ∧ Steady s2 := by
    refine ⟨_, f32_keyAction_passive E key s1 k6 k7 k8 k9 hd, ?_, ?_, ?_, ?_, ?_, ?_, ?_, ?_⟩
    · split <;> exact e1
    · split <;> exact e2
    · split <;> exact e3
    · split <;> exact e5
    · split <;> exact e6
    · split <;> exact e7
    · split
      · exact hi1
      · exact hi1
    · split
      · exact hs1
      · exact hs1
  obtain ⟨s2, hact, f1, f2, f3, f5, f6, f7, hi2, hs2⟩ := haction
  obtain ⟨s', ext, h, g1, g2, g3, g4, g5, g6, g7, g8, g9, g9', g10, g11, g12, hi', hs'⟩ :=
    f32_changeViewport_view_step key s2.zoom s2.delta s2 hk hi2 hs2
  rw [hs2.2.1, hs2.2.2] at g1
  refine ⟨s', ext, ?_, ?_, ?_, ?_, ?_, ?_, ?_, ?_, ?_, ?_, ?_, hi', hs', ?_⟩
  · rw [f32_key_pressed_non_mode E key s k1 k2 k3 k4 k5, hb]
    simp only [Option.bind, hact]
    exact h
  · rw [g1, f3]
  · rw [g2, f3]
  · rw [g3, f3]
  · rw [g4, f3]
  · rw [g5, f3]
  · rw [g6, f3]
  · rw [g7, f3]
  · rw [g8, f2]
  · intro hc
    exact g9 (by rw [f1, f7]; exact hc)
  · intro hc
    exact g9' (by rw [f1, f7]; exact hc)
  · rcases ha with ha | ⟨t, hg⟩
    · exact Or.inl (by rw [g11, f6]; exact ha)
    · refine Or.inr ⟨t, ?_⟩
      rw [g8, g10, f5, f2]
      exact get3_append ext hg

/-- The key handler in a state in which the animation block reads out of range:
the read `triangles[selectedTriangle]` is undefined. -/
theorem f32_key_pressed_no_reads (E : F32.Env) (key : Char) (s : State)
    (ha : ¬ BlockReads s) : F32.key_pressed E key s = none := by
  have h1 : s.animationMode = true := by
    by_contra h
    exact ha (Or.inl (by simpa using h))
  have h2 : get3 s.triangles s.selectedTriangle = none := by
    cases hg : get3 s.triangles s.selectedTriangle with
    | none => rfl
    | some t => exact absurd (Or.inr ⟨t, hg⟩) ha
  exact f32_key_pressed_fault E key s (Or.inr h1) h2

/-! ## C18 -/

/-- C18, counterexample: with three clicks pending in Insertion mode the triangle
list is empty, and the key `'w'` leaves it with three vertices: the redraw of the
pan commits the pending triangle. And a pan followed by the opposite pan need not
restore `view`: after a pan to the right and a zoom in, the first row of `view`
ends in 1006633/4194304 (0.24000001); the keys `'a'` and `'d'` then leave
16106127/67108864 (0.23999999) there. -/
theorem pan_commits_and_rounds_counterexample :
    F32.run F32.sampleEnv (initial sampleEnv) (insertEvents.take 5) = some F32.pendingState ∧
    F32.pendingState.triangles = [] ∧
    (F32.key_pressed F32.sampleEnv 'w' F32.pendingState).map (fun s => s.triangles.length)
      = some 3 ∧
    F32.run F32.sampleEnv (initial sampleEnv) [Event.key_pressed 'a', Event.key_pressed 'W']
      = some F32.pannedState ∧
    F32.pannedState.uniform.view.m03 = 1006633 / 4194304 ∧
    (F32.run F32.sampleEnv F32.pannedState [Event.key_pressed 'a', Event.key_pressed 'd']).map
      (fun s => s.uniform.view.m03) = some (16106127 / 67108864) := by
  decide!

/-- C18 (amended, pan step): in every state of a run the variable `delta` is 0, the
value `changeViewport` is called with, so that the pan keys `'w'`, `'s'`, `'a'`,
`'d'` premultiply `view` by the translation by (0, -d), (0, +d), (+d, 0), (-d, 0)
whatever came before, `d` being the `float` 13421773/67108864 next to 0.2 and
the matrix product being taken in single precision. The function `changeViewport`
returns; the key handler returns when its animation block reads in range, and
fails when it does not. `translate`, `rotate`, `scale` and the three scalars are
kept. The stored vertices are kept; the redraw of the pan commits a pending third
click, which appends three vertices. A pan and the opposite pan multiply `view`
by the two translations in turn; this restores the identity, and need not restore
another `view`. -/
theorem pan_step (E : F32.Env) (s : State) (key : Char) (hr : F32.Reachable E s)
    (hk : key ∈ [PAN_DOWN_KEY, PAN_UP_KEY, PAN_RIGHT_KEY, PAN_LEFT_KEY]) :
    (F32.currentView 'w' 1 0 = translation 0 (-(13421773 / 67108864)) ∧
      F32.currentView 's' 1 0 = translation 0 (13421773 / 67108864) ∧
      F32.currentView 'a' 1 0 = translation (13421773 / 67108864) 0 ∧
      F32.currentView 'd' 1 0 = translation (-(13421773 / 67108864)) 0) ∧
    s.delta = 0 ∧
    (∃ s' ext, F32.changeViewport key s.zoom s.delta s = some s' ∧
      s'.uniform.view = F32.mul (F32.currentView key 1 0) s.uniform.view ∧
      s'.uniform.translate = s.uniform.translate ∧ s'.uniform.rotate = s.uniform.rotate ∧
      s'.uniform.scale = s.uniform.scale ∧ s'.triangles = s.triangles ++ ext ∧
      (¬ (s.currentMode = Mode.INSERTION_MODE ∧ s.numOfClicks = 3) → ext = []) ∧
      (s.currentMode = Mode.INSERTION_MODE ∧ s.numOfClicks = 3 → ext.length = 3)) ∧
    (BlockReads s →
      ∃ s' ext, F32.key_pressed E key s = some s' ∧
        s'.uniform.view = F32.mul (F32.currentView key 1 0) s.uniform.view ∧
        s'.uniform.translate = s.uniform.translate ∧ s'.uniform.rotate = s.uniform.rotate ∧
        s'.uniform.scale = s.uniform.scale ∧
        s'.uniform.scale_factor = s.uniform.scale_factor ∧
        s'.uniform.rotate_radians = s.uniform.rotate_radians ∧
        s'.uniform.translate_delta = s.uniform.translate_delta ∧
        s'.triangles = s.triangles ++ ext ∧
        (¬ (s.currentMode = Mode.INSERTION_MODE ∧ s.numOfClicks = 3) → ext = []) ∧
        (s.currentMode = Mode.INSERTION_MODE ∧ s.numOfClicks = 3 → ext.length = 3) ∧
        s'.delta = 0) ∧
    (¬ BlockReads s → F32.key_pressed E key s = none) ∧
    (∀ key' ∈ [PAN_DOWN_KEY, PAN_UP_KEY, PAN_RIGHT_KEY, PAN_LEFT_KEY], BlockReads s →
      ∃ s'', F32.run E s [Event.key_pressed key, Event.key_pressed key'] = some s'' ∧
        s''.uniform.view =
          F32.mul (F32.currentView key' 1 0) (F32.mul (F32.currentView key 1 0) s.uniform.view)) ∧
    (F32.mul (F32.currentView 's' 1 0) (F32.mul (F32.currentView 'w' 1 0) identity) = identity ∧
      F32.mul (F32.currentView 'w' 1 0) (F32.mul (F32.currentView 's' 1 0) identity) = identity ∧
      F32.mul (F32.currentView 'd' 1 0) (F32.mul (F32.currentView 'a' 1 0) identity) = identity ∧
      F32.mul (F32.currentView 'a' 1 0) (F32.mul (F32.currentView 'd' 1 0) identity)
        = identity) := by
  have hi := f32_reachable_inv hr
  have hs := f32_reachable_steady hr
  have six : ∀ k ∈ [PAN_DOWN_KEY, PAN_UP_KEY, PAN_RIGHT_KEY, PAN_LEFT_KEY],
      k ∈ [ZOOM_IN_KEY, ZOOM_OUT_KEY, PAN_DOWN_KEY, PAN_UP_KEY, PAN_RIGHT_KEY,
        PAN_LEFT_KEY] := by
    intro k hk'
    simp only [List.mem_cons, List.mem_singleton, List.not_mem_nil, or_false] at hk' ⊢
    tauto
  refine ⟨by decide!, hs.2.2, ?_, fun ha => ?_, fun ha => f32_key_pressed_no_reads E key s ha,
    fun key' hk' ha => ?_, by decide!⟩
  · obtain ⟨s', ext, h, g1, g2, g3, g4, _, _, _, g8, g9, g9', _⟩ :=
      f32_changeViewport_view_step key s.zoom s.delta s (six key hk) hi hs
    rw [hs.2.1, hs.2.2] at g1
    exact ⟨s', ext, h, g1, g2, g3, g4, g8, g9, g9'⟩
  · obtain ⟨s', ext, h, g1, g2, g3, g4, g5, g6, g7, g8, g9, g9', _, hs', _⟩ :=
      f32_key_pressed_view_key E key s (six key hk) hi hs ha
    exact ⟨s', ext, h, g1, g2, g3, g4, g5, g6, g7, g8, g9, g9', hs'.2.2⟩
  · obtain ⟨s1, ext, h, g1, _, _, _, _, _, _, _, _, _, hi1, hs1, ha1⟩ :=
      f32_key_pressed_view_key E key s (six key hk) hi hs ha
    obtain ⟨s2, ext2, h2, f1, _⟩ := f32_key_pressed_view_key E key' s1 (six key' hk') hi1 hs1 ha1
    refine ⟨s2, ?_, ?_⟩
    · simp only [F32.run, F32.step, h, h2]
    · rw [f1, g1]

/-- C18 (amended), witness: the key `'w'` in the initial state. -/
theorem pan_step_witness :
    F32.Reachable F32.sampleEnv (initial sampleEnv) ∧
    ∃ s' ext, F32.changeViewport 'w' (initial sampleEnv).zoom (initial sampleEnv).delta
        (initial sampleEnv) = some s' ∧
      s'.uniform.view = F32.mul (F32.currentView 'w' 1 0) (initial sampleEnv).uniform.view ∧
      s'.uniform.translate = (initial sampleEnv).uniform.translate ∧
      s'.uniform.rotate = (initial sampleEnv).uniform.rotate ∧
      s'.uniform.scale = (initial sampleEnv).uniform.scale ∧
      s'.triangles = (initial sampleEnv).triangles ++ ext ∧
      (¬ ((initial sampleEnv).currentMode = Mode.INSERTION_MODE ∧
          (initial sampleEnv).numOfClicks = 3) → ext = []) ∧
      ((initial sampleEnv).currentMode = Mode.INSERTION_MODE ∧
          (initial sampleEnv).numOfClicks = 3 → ext.length = 3) :=
  ⟨⟨[], rfl⟩,
    (pan_step F32.sampleEnv (initial sampleEnv) 'w' ⟨[], rfl⟩ (by decide)).2.2.1⟩

/-! ## C19 -/

/-- C19: the zoom factor of the code is no persistent parameter. In every state of
a run the variable `zoom` is 1, the value `changeViewport` is called with; the
function receives it by value, so the assignments of its two branches are lost.
For a value of at most 1 the function builds `diag(1.2f, 1.2f, 1, 1)` on `'W'`, and
for a value of at least 1 it builds `diag(0.8f, 0.8f, 1, 1)` on `'V'`. A press of
`'W'` premultiplies `view` by the first matrix and a press of `'V'` by the second
one, in single precision (the handler returns when its animation block reads in
range), and `n` presses of `'W'` in a row premultiply `view` `n` times by
`diag(1.2f, 1.2f, 1, 1)`: two presses in the initial state leave `zoom = 1` and
`view = diag(1.44000006, 1.44000006, 1, 1)`. -/
theorem zoom_step (E : F32.Env) (s : State) (key : Char) (hr : F32.Reachable E s)
    (hk : key ∈ [ZOOM_IN_KEY, ZOOM_OUT_KEY]) :
    s.zoom = 1 ∧
    (∀ z d : ℚ, z ≤ 1 → F32.currentView 'W' z d = scaling (5033165 / 4194304)) ∧
    (∀ z d : ℚ, 1 ≤ z → F32.currentView 'V' z d = scaling (13421773 / 16777216)) ∧
    (∃ s', F32.changeViewport key s.zoom s.delta s = some s' ∧
      s'.uniform.view = F32.mul (F32.currentView key 1 0) s.uniform.view ∧ s'.zoom = 1) ∧
    (BlockReads s →
      ∃ s', F32.key_pressed E key s = some s' ∧
        s'.uniform.view = F32.mul (F32.currentView key 1 0) s.uniform.view ∧ s'.zoom = 1) ∧
    (BlockReads s → ∀ n : Nat,
      ∃ s', F32.run E s (List.replicate n (Event.key_pressed 'W')) = some s' ∧
        s'.uniform.view = Nat.iterate (F32.mul (scaling (5033165 / 4194304))) n s.uniform.view ∧
        s'.zoom = 1) ∧
    (F32.run F32.sampleEnv (initial sampleEnv) [Event.key_pressed 'W', Event.key_pressed 'W']).map
      (fun s => (s.zoom, s.uniform.view)) = some (1, scaling (3019899 / 2097152)) := by
  have hi := f32_reachable_inv hr
  have hs := f32_reachable_steady hr
  have six : key ∈ [ZOOM_IN_KEY, ZOOM_OUT_KEY, PAN_DOWN_KEY, PAN_UP_KEY, PAN_RIGHT_KEY,
      PAN_LEFT_KEY] := by
    simp only [List.mem_cons, List.mem_singleton, List.not_mem_nil, or_false] at hk ⊢
    tauto
  have eW : ∀ z d : ℚ, z ≤ 1 → F32.currentView 'W' z d = scaling (5033165 / 4194304) := by
    intro z d hz
    have e1 : F32.plusStep 1 = 5033165 / 4194304 := by decide!
    rcases lt_or_eq_of_le hz with h | h
    · simp only [F32.currentView, ZOOM_IN_KEY, if_true, if_pos h, e1]
    · subst h
      simp only [F32.currentView, ZOOM_IN_KEY, if_true, lt_self_iff_false, if_false, e1]
  have eV : ∀ z d : ℚ, 1 ≤ z → F32.currentView 'V' z d = scaling (13421773 / 16777216) := by
    intro z d hz
    have e1 : F32.minusStep 1 = 13421773 / 16777216 := by decide!
    have hne : ('V' : Char) ≠ 'W' := by decide
    rcases lt_or_eq_of_le hz with h | h
    · simp only [F32.currentView, ZOOM_IN_KEY, ZOOM_OUT_KEY, if_neg hne, if_true,
        if_pos (show z > 1 from h), e1]
    · subst h
      simp only [F32.currentView, ZOOM_IN_KEY, ZOOM_OUT_KEY, if_neg hne, if_true, gt_iff_lt,
        lt_self_iff_false, if_false, e1]
  refine ⟨hs.2.1, eW, eV, ?_, fun ha => ?_, fun ha n => ?_, by decide!⟩
  · obtain ⟨s', ext, h, g1, _, _, _, _, _, _, _, _, _, _, _, _, _, hs'⟩ :=
      f32_changeViewport_view_step key s.zoom s.delta s six hi hs
    rw [hs.2.1, hs.2.2] at g1
    exact ⟨s', h, g1, hs'.2.1⟩
  · obtain ⟨s', ext, h, g1, _, _, _, _, _, _, _, _, _, _, hs', _⟩ :=
      f32_key_pressed_view_key E key s six hi hs ha
    exact ⟨s', h, g1, hs'.2.1⟩
  · have main : ∀ (n : Nat) (a : State), Inv a → Steady a → BlockReads a →
        ∃ s', F32.run E a (List.replicate n (Event.key_pressed 'W')) = some s' ∧
          s'.uniform.view
            = Nat.iterate (F32.mul (scaling (5033165 / 4194304))) n a.uniform.view ∧
          s'.zoom = 1 := by
      intro n
      induction n with
      | zero =>
        intro a _ hsa _
        exact ⟨a, rfl, rfl, hsa.2.1⟩
      | succ n ih =>
        intro a hia hsa haa
        obtain ⟨a1, ext, h, g1, _, _, _, _, _, _, _, _, _, hi1, hs1, ha1⟩ :=
          f32_key_pressed_view_key E 'W' a (by decide) hia hsa haa
        obtain ⟨s', hrun, hv, hz⟩ := ih a1 hi1 hs1 ha1
        refine ⟨s', ?_, ?_, hz⟩
        · simp only [List.replicate_succ, F32.run, F32.step, h]
          exact hrun
        · rw [hv, g1, eW 1 0 (le_refl _), Function.iterate_succ_apply]
    exact main n s hi hs ha

/-- C19, witness: the key `'W'` in the initial state. -/
theorem zoom_step_witness :
    F32.Reachable F32.sampleEnv (initial sampleEnv) ∧
    ∃ s', F32.key_pressed F32.sampleEnv 'W' (initial sampleEnv) = some s' ∧
      s'.uniform.view = F32.mul (F32.currentView 'W' 1 0) (initial sampleEnv).uniform.view ∧
      s'.zoom = 1 :=
  ⟨⟨[], rfl⟩,
    (zoom_step F32.sampleEnv (initial sampleEnv) 'W' ⟨[], rfl⟩ (by decide)).2.2.2.2.1
      (Or.inl rfl)⟩

end RasterViewer
